import Mathlib

/-!
# libesedb: the database page walk

A shallow embedding of `libesedb_database_read_values_from_page` and
`libesedb_database_read_file_io_handle` (src/libesedb/libesedb_database.c)
together with the data they read (src/libesedb/libesedb_page_tree.h), of
`libesedb_database_initialize` and `libesedb_database_free` of the same file,
and of the sequence objects of src/pyesedb/pyesedb_columns.c and
src/pyesedb/pyesedb_tables.c.

Conventions of the embedding

* In the two functions of the walk, C objects reached through non-NULL pointers
  are values, so the NULL guards at the head of each function (lines 204-247
  and 599-620) have no counterpart. In the other functions a pointer that may
  be `NULL` is an `Option`.
* Allocation and release (`libfcache_cache_initialize`, `libfcache_cache_free`,
  `libesedb_page_tree_value_initialize`, `libesedb_page_tree_value_free`)
  succeed; each call is recorded in the trace. The exits the walk takes when
  a creation or an accessor of the page fails, or when a pointer argument is
  `NULL`, are those of the functions named `..._with_failures`, which are the
  functions of the walk when nothing fails.
* Everything the walk does to the outside world is recorded, in order, in
  `State.trace`.
* `int` values are integers, reduced to the range of `int` (`int_cast`) where
  the source does arithmetic on them; `uint32_t`/`uint16_t`/`uint8_t` values
  are naturals, reduced explicitly where the source converts or wraps.
-/

namespace Libesedb

/-- One byte of page data (`uint8_t`). -/
abbrev Byte := Fin 256

/-- The constants the two functions take from headers that are not part of the
sources at hand (libesedb_definitions.h, the platform's limits.h and config.h).
They are parameters of the embedding. -/
structure Definitions where
  LIBESEDB_MAXIMUM_INDEX_NODE_RECURSION_DEPTH : Nat
  LIBESEDB_PAGE_NUMBER_DATABASE : Nat
  LIBESEDB_PAGE_FLAG_IS_LEAF : Nat
  LIBESEDB_PAGE_FLAG_IS_PARENT : Nat
  LIBESEDB_PAGE_TAG_FLAG_IS_DEFUNCT : Nat
  LIBESEDB_PAGE_TAG_FLAG_HAS_COMMON_KEY_SIZE : Nat
  LIBESEDB_FDP_OBJECT_IDENTIFIER_DATABASE : Nat
  SIZEOF_INT : Nat
  deriving DecidableEq, Repr

/-- The largest `int`: `INT_MAX` for an `int` of `SIZEOF_INT` bytes. -/
def INT_MAX (d : Definitions) : Nat := 2 ^ (8 * d.SIZEOF_INT - 1) - 1

/-- The conversion `(int) x` of an unsigned value to an `int` of `SIZEOF_INT`
bytes (two's complement). -/
def to_int (d : Definitions) (x : Nat) : Int :=
  let m := x % 2 ^ (8 * d.SIZEOF_INT)
  if m ≥ 2 ^ (8 * d.SIZEOF_INT - 1) then (m : Int) - 2 ^ (8 * d.SIZEOF_INT) else (m : Int)

/-- The conversion `(int) x` of a signed value to an `int` of `SIZEOF_INT` bytes;
also what `x++` or `x += 1` leaves in an `int` when taken modulo its size. -/
def int_cast (d : Definitions) (x : Int) : Int :=
  to_int d (x % ((2 ^ (8 * d.SIZEOF_INT) : Nat) : Int)).toNat

/-- A page value: the bytes a page tag points at and the tag flags
(`libesedb_page_value_t`: `data`, `size`, `flags`; `size` is the length of `data`). -/
structure libesedb_page_value where
  data : List Byte
  flags : Nat
  deriving DecidableEq, Repr

/-- A parsed page value (`libesedb_page_tree_value_t`); `data_size` is the
length of `data`. -/
structure libesedb_page_tree_value where
  common_key_size : Nat
  local_key : List Byte
  data : List Byte
  deriving DecidableEq, Repr

/-- The field `data_size` of a page tree value. -/
def libesedb_page_tree_value.data_size (v : libesedb_page_tree_value) : Nat := v.data.length

/-- A page as the walk sees it (`libesedb_page_t`): its number, its page flags
and its array of values, the value at index 0 being the page's first tag. The
walk reads the number of values into a `uint16_t`, so a page has at most 65535
of them. -/
structure libesedb_page where
  page_number : Nat
  flags : Nat
  values : List libesedb_page_value
  number_of_values_fits : values.length ≤ 65535 := by decide
  deriving DecidableEq, Repr

/-- The IO handle (`libesedb_io_handle_t`), of which the walk reads
`last_page_number` only. -/
structure libesedb_io_handle where
  last_page_number : Nat

/-- The page tree of src/libesedb/libesedb_page_tree.h. The pages vector is the
outcome of `libfdata_vector_get_element_value_by_index` at each element index
(`none`: the call fails). The pages cache is the name of the cache the page tree
was given when it was made; caches are named by the natural numbers, in the
order of their creation. The library functions the walk calls on pages and
values, whose sources are not at hand, are fields as well. -/
structure libesedb_page_tree where
  io_handle : libesedb_io_handle
  root_page_number : Nat
  object_identifier : Nat
  pages_vector : Int → Option libesedb_page
  pages_cache : Nat
  libesedb_page_validate_page : libesedb_page → Bool
  libesedb_page_validate_root_page : libesedb_page → Bool
  libesedb_page_tree_value_read_data : List Byte → Nat → Option libesedb_page_tree_value

/-- The database (`libesedb_database_t`): a page tree. -/
structure libesedb_database where
  page_tree : libesedb_page_tree

/-- What the walk does to the outside world, one constructor per call. -/
inductive Event where
  | cache_init (cache : Nat)
  | cache_free (cache : Nat)
  | get_element_value (cache : Nat) (element_index : Int)
  | validate_root_page (page_number : Nat)
  | validate_page (page_number : Nat)
  | get_number_of_values (page_number : Nat)
  | get_flags (page_number : Nat)
  | get_value_by_index (page_number : Nat) (page_value_index : Nat)
  | value_init
  | read_data (data : List Byte) (flags : Nat)
  | value_free
  | leaf_value (leaf_value_index : Int) (page_number : Nat) (page_value_index : Nat)
      (value : libesedb_page_tree_value)
  deriving DecidableEq, Repr

/-- The state threaded through the walk: the counter `*leaf_value_index`, the
number of cache handles handed out so far (a new cache gets this number as its
name) and the trace of events, oldest first. The counter is a C `int`: the
walk writes it only through `int_cast` (line 407) or as the constant 0 (line
594), and a caller passes a value between `-INT_MAX - 1` and `INT_MAX`. -/
structure State where
  leaf_value_index : Int
  next_cache : Nat
  trace : List Event
  deriving DecidableEq, Repr

/-- Record one event. -/
def State.emit (s : State) (e : Event) : State :=
  { s with trace := s.trace ++ [e] }

/-- Modelled from the spec: `libesedb_page_get_number_of_values` (libesedb_page.c
is not at hand), the number of tags of the page (`uint16_t`). -/
def libesedb_page_get_number_of_values (page : libesedb_page) : Option Nat :=
  some page.values.length

/-- Modelled from the spec: `libesedb_page_get_flags`, the page flags
(`uint32_t`). -/
def libesedb_page_get_flags (page : libesedb_page) : Option Nat :=
  some (page.flags % 2 ^ 32)

/-- Modelled from the spec: `libesedb_page_get_value_by_index`, the value at a
tag index, absent when the index is outside the tag array. -/
def libesedb_page_get_value_by_index (page : libesedb_page) (page_value_index : Nat) :
    Option libesedb_page_value :=
  page.values[page_value_index]?

/-- The macro `byte_stream_copy_to_uint32_little_endian` applied to the first four
bytes of `data`. -/
def byte_stream_copy_to_uint32_little_endian (data : List Byte) : Nat :=
  (data.getD 0 0).val + (data.getD 1 0).val * 2 ^ 8 + (data.getD 2 0).val * 2 ^ 16
    + (data.getD 3 0).val * 2 ^ 24

/-- The guard of lines 453-459 on the decoded child page number: with an `int`
of at most four bytes `child_page_number > (uint32_t) INT_MAX`, otherwise
`(int) child_page_number > INT_MAX`. -/
def child_page_number_out_of_bounds (d : Definitions) (child_page_number : Nat) : Bool :=
  if d.SIZEOF_INT ≤ 4 then
    decide (child_page_number < 1) || decide (child_page_number > INT_MAX d % 2 ^ 32)
  else
    decide (child_page_number < 1) || decide (to_int d child_page_number > (INT_MAX d : Int))

/-- How one pass through the body of the value loop ends: it reaches the end of
the body (or `continue`), or it jumps to `on_error`, with `page_tree_value`
still allocated or not. -/
inductive Step where
  | next (s : State)
  | on_error (page_tree_value_live : Bool) (s : State)

/-- The label `on_error` of `libesedb_database_read_values_from_page` (lines
570-583): free the page tree value and the child page cache when they are set,
return -1. -/
def on_error (page_tree_value_live : Bool) (child_page_cache : Option Nat) (s : State) :
    Int × State :=
  let s := if page_tree_value_live then s.emit Event.value_free else s
  let s := match child_page_cache with
    | some cache => s.emit (Event.cache_free cache)
    | none => s
  (-1, s)

/-- The body of the value loop (lines 313-553) for one `page_value_index`.
`descend child_page s` is the nested call
`libesedb_database_read_values_from_page (..., child_page, leaf_value_index,
recursion_depth + 1, ...)`. The counter is an `int`: `*leaf_value_index += 1`
(line 407) leaves the sum reduced to the range of `int`, which is the exact
sum as long as it does not exceed `INT_MAX`. -/
def read_page_value (d : Definitions) (database : libesedb_database)
    (descend : libesedb_page → State → Int × State)
    (page : libesedb_page) (page_flags : Nat) (child_page_cache : Nat)
    (page_value_index : Nat) (s : State) : Step :=
  let s := s.emit (Event.get_value_by_index page.page_number page_value_index)
  match libesedb_page_get_value_by_index page page_value_index with
  | none => Step.on_error false s
  | some page_value =>
    if page_value.flags &&& d.LIBESEDB_PAGE_TAG_FLAG_IS_DEFUNCT ≠ 0 then
      Step.next s
    else
      let s := s.emit Event.value_init
      let s := s.emit (Event.read_data page_value.data page_value.flags)
      match database.page_tree.libesedb_page_tree_value_read_data page_value.data
          page_value.flags with
      | none => Step.on_error true s
      | some page_tree_value =>
        if page_flags &&& d.LIBESEDB_PAGE_FLAG_IS_LEAF ≠ 0 then
          let s := s.emit (Event.leaf_value s.leaf_value_index page.page_number
            page_value_index page_tree_value)
          let s := { s with leaf_value_index := int_cast d (s.leaf_value_index + 1) }
          Step.next (s.emit Event.value_free)
        else if page_tree_value.data_size < 4 then
          Step.on_error true s
        else
          let child_page_number := byte_stream_copy_to_uint32_little_endian page_tree_value.data
          if child_page_number_out_of_bounds d child_page_number then
            Step.on_error true s
          else if child_page_number > 0
              ∧ child_page_number ≤ database.page_tree.io_handle.last_page_number then
            let element_index := to_int d child_page_number - 1
            let s := s.emit (Event.get_element_value child_page_cache element_index)
            match database.page_tree.pages_vector element_index with
            | none => Step.on_error true s
            | some child_page =>
              let s := s.emit (Event.validate_page child_page.page_number)
              if database.page_tree.libesedb_page_validate_page child_page then
                match descend child_page s with
                | (result, s) =>
                  if result ≠ 1 then Step.on_error true s
                  else Step.next (s.emit Event.value_free)
              else Step.on_error true s
          else
            Step.next (s.emit Event.value_free)

/-- The value loop `for( page_value_index = 1; page_value_index <
number_of_page_values; page_value_index++ )`: `remaining` is
`number_of_page_values - page_value_index`, the number of passes left, and the
16-bit index is incremented modulo 2^16. -/
def read_page_values (d : Definitions) (database : libesedb_database)
    (descend : libesedb_page → State → Int × State)
    (page : libesedb_page) (page_flags : Nat) (child_page_cache : Nat) :
    Nat → Nat → State → Step
  | 0, _, s => Step.next s
  | remaining + 1, page_value_index, s =>
    match read_page_value d database descend page page_flags child_page_cache
        page_value_index s with
    | Step.next s => read_page_values d database descend page page_flags child_page_cache
        remaining ((page_value_index + 1) % 2 ^ 16) s
    | Step.on_error live s => Step.on_error live s

/-- The function `libesedb_database_read_values_from_page` after the guard on
`recursion_depth`: lines 260-568, the nested call being `descend`. -/
def read_values_from_page_frame (d : Definitions) (database : libesedb_database)
    (descend : libesedb_page → State → Int × State)
    (page : libesedb_page) (s : State) : Int × State :=
  let s := s.emit (Event.get_number_of_values page.page_number)
  match libesedb_page_get_number_of_values page with
  | none => on_error false none s
  | some number_of_page_values =>
    if number_of_page_values = 0 then (1, s)
    else
      let s := s.emit (Event.get_flags page.page_number)
      match libesedb_page_get_flags page with
      | none => on_error false none s
      | some page_flags =>
        let child_page_cache := s.next_cache
        let s := { s with next_cache := s.next_cache + 1 }
        let s := s.emit (Event.cache_init child_page_cache)
        match read_page_values d database descend page page_flags child_page_cache
            (number_of_page_values - 1) 1 s with
        | Step.on_error live s => on_error live (some child_page_cache) s
        | Step.next s => (1, s.emit (Event.cache_free child_page_cache))

/-- The body of `libesedb_database_read_values_from_page` from the guard on
`recursion_depth` (line 248) on, the nested call being `descend`. -/
def read_values_from_page_body (d : Definitions) (database : libesedb_database)
    (descend : libesedb_page → State → Int × State)
    (page : libesedb_page) (recursion_depth : Int) (s : State) : Int × State :=
  if recursion_depth < 0 ∨ recursion_depth > d.LIBESEDB_MAXIMUM_INDEX_NODE_RECURSION_DEPTH then
    (-1, s)
  else
    read_values_from_page_frame d database descend page s

/-- The recursion of `libesedb_database_read_values_from_page`, on the number of
levels left: `LIBESEDB_MAXIMUM_INDEX_NODE_RECURSION_DEPTH + 1 - recursion_depth`.
With no level left `recursion_depth` exceeds the maximum and the guard of line
248 returns -1. -/
def read_values_from_page_levels (d : Definitions) (database : libesedb_database) :
    Nat → libesedb_page → Int → State → Int × State
  | 0, _, _, s => (-1, s)
  | levels + 1, page, recursion_depth, s =>
    read_values_from_page_body d database
      (fun child_page s => read_values_from_page_levels d database levels child_page
        (recursion_depth + 1) s)
      page recursion_depth s

/-- The function `libesedb_database_read_values_from_page`: the result (1 or -1)
and the state after the call. -/
def libesedb_database_read_values_from_page (d : Definitions) (database : libesedb_database)
    (page : libesedb_page) (recursion_depth : Int) (s : State) : Int × State :=
  read_values_from_page_levels d database
    ((d.LIBESEDB_MAXIMUM_INDEX_NODE_RECURSION_DEPTH : Int) + 1 - recursion_depth).toNat
    page recursion_depth s

/-- The function `libesedb_database_read_file_io_handle`: the local
`leaf_value_index` starts at 0, the root page is fetched through a cache of its
own at element index `(int) LIBESEDB_PAGE_NUMBER_DATABASE - 1`. -/
def libesedb_database_read_file_io_handle (d : Definitions) (database : libesedb_database)
    (s : State) : Int × State :=
  let s := { s with leaf_value_index := 0 }
  let root_page_cache := s.next_cache
  let s := { s with next_cache := s.next_cache + 1 }
  let s := s.emit (Event.cache_init root_page_cache)
  let element_index := to_int d d.LIBESEDB_PAGE_NUMBER_DATABASE - 1
  let s := s.emit (Event.get_element_value root_page_cache element_index)
  match database.page_tree.pages_vector element_index with
  | none => (-1, s.emit (Event.cache_free root_page_cache))
  | some root_page =>
    let s := s.emit (Event.validate_root_page root_page.page_number)
    if database.page_tree.libesedb_page_validate_root_page root_page then
      match libesedb_database_read_values_from_page d database root_page 0 s with
      | (result, s) =>
        if result ≠ 1 then (-1, s.emit (Event.cache_free root_page_cache))
        else (1, s.emit (Event.cache_free root_page_cache))
    else (-1, s.emit (Event.cache_free root_page_cache))

/-- Modelled from the spec: `libesedb_page_tree_value_read_data`
(libesedb_page_tree_value.c is not at hand). With the common-key flag set the
first two bytes are the little-endian common key size; the next two bytes are
the little-endian local key size; then the local key; the remainder is the
value data. The call fails when a read runs past the end of the bytes or when
the two key sizes together exceed the page size. -/
def page_tree_value_read_data (d : Definitions) (page_size : Nat) (data : List Byte)
    (flags : Nat) : Option libesedb_page_tree_value :=
  let has_common_key_size : Bool := flags &&& d.LIBESEDB_PAGE_TAG_FLAG_HAS_COMMON_KEY_SIZE ≠ 0
  if has_common_key_size ∧ data.length < 2 then none
  else
    let common_key_size :=
      if has_common_key_size then (data.getD 0 0).val + (data.getD 1 0).val * 2 ^ 8 else 0
    let data := if has_common_key_size then data.drop 2 else data
    if data.length < 2 then none
    else
      let local_key_size := (data.getD 0 0).val + (data.getD 1 0).val * 2 ^ 8
      let data := data.drop 2
      if data.length < local_key_size then none
      else if common_key_size + local_key_size > page_size then none
      else some
        { common_key_size := common_key_size
          local_key := data.take local_key_size
          data := data.drop local_key_size }

/-- Modelled from the spec: an assignment of the constants for concrete runs
(the database root is page 4; a four-byte `int`). The general theorems hold for
every assignment. -/
def definitions : Definitions :=
  { LIBESEDB_MAXIMUM_INDEX_NODE_RECURSION_DEPTH := 256
    LIBESEDB_PAGE_NUMBER_DATABASE := 4
    LIBESEDB_PAGE_FLAG_IS_LEAF := 2
    LIBESEDB_PAGE_FLAG_IS_PARENT := 4
    LIBESEDB_PAGE_TAG_FLAG_IS_DEFUNCT := 2
    LIBESEDB_PAGE_TAG_FLAG_HAS_COMMON_KEY_SIZE := 4
    LIBESEDB_FDP_OBJECT_IDENTIFIER_DATABASE := 2
    SIZEOF_INT := 4 }

/-- A database over a given pages vector for concrete runs: pages of 4096 bytes,
every page passes both validations, values are parsed by
`page_tree_value_read_data`. -/
def database_of (last_page_number : Nat) (pages_vector : Int → Option libesedb_page) :
    libesedb_database :=
  { page_tree :=
    { io_handle := { last_page_number := last_page_number }
      root_page_number := 4
      object_identifier := 2
      pages_vector := pages_vector
      pages_cache := 0
      libesedb_page_validate_page := fun _ => true
      libesedb_page_validate_root_page := fun _ => true
      libesedb_page_tree_value_read_data := page_tree_value_read_data definitions 4096 } }

/-- The state before a walk: counter 0, no cache handed out, empty trace. -/
def State.initial : State :=
  { leaf_value_index := 0, next_cache := 0, trace := [] }

/-- A branch entry: an empty local key followed by the little-endian child page
number in four bytes. -/
def branch_value (b0 b1 b2 b3 : Byte) : libesedb_page_value :=
  { data := [0, 0, b0, b1, b2, b3], flags := 0 }

/-- A leaf entry with a one-byte key and a one-byte value. -/
def leaf_value (key value : Byte) : libesedb_page_value :=
  { data := [1, 0, key, value], flags := 0 }

/-- The first tag of a page (never visited by the walk). -/
def root_tag : libesedb_page_value :=
  { data := [], flags := 0 }

/-- The pages vector of the two-level tree: page 4 is a branch page with two
entries, to the leaf pages 5 and 6, each with two leaf values. -/
def two_level_pages : Int → Option libesedb_page := fun element_index =>
  if element_index = 3 then
    some { page_number := 4, flags := 5,
           values := [root_tag, branch_value 5 0 0 0, branch_value 6 0 0 0] }
  else if element_index = 4 then
    some { page_number := 5, flags := 2, values := [root_tag, leaf_value 0 65, leaf_value 1 66] }
  else if element_index = 5 then
    some { page_number := 6, flags := 2, values := [root_tag, leaf_value 2 67, leaf_value 3 68] }
  else none

/-- The pages vector of the cyclic tree: page 4 is a branch page whose single
entry points to page 4. -/
def cycle_pages : Int → Option libesedb_page := fun element_index =>
  if element_index = 3 then
    some { page_number := 4, flags := 5, values := [root_tag, branch_value 4 0 0 0] }
  else none

/-- The state once the loop body has fetched the value at `page_value_index`,
allocated a page tree value and called `libesedb_page_tree_value_read_data` on
the value. -/
def State.value_read (s : State) (page : libesedb_page) (page_value_index : Nat)
    (page_value : libesedb_page_value) : State :=
  ((s.emit (Event.get_value_by_index page.page_number page_value_index)).emit
    Event.value_init).emit (Event.read_data page_value.data page_value.flags)

/-- The state in which the value loop starts: the number of values and the flags
of the page have been read and the child page cache created. -/
def State.enter_loop (s : State) (page : libesedb_page) : State :=
  ({ (s.emit (Event.get_number_of_values page.page_number)).emit
      (Event.get_flags page.page_number) with next_cache := s.next_cache + 1 }).emit
    (Event.cache_init s.next_cache)

/-- How the function ends once the value loop has ended: lines 555-568 after the
last pass, the label `on_error` after a jump. -/
def leave_loop (child_page_cache : Nat) : Step → Int × State
  | Step.on_error live s => on_error live (some child_page_cache) s
  | Step.next s => (1, s.emit (Event.cache_free child_page_cache))

/-- The same state with an older history in front of its trace. -/
def State.prepend (t : List Event) (s : State) : State :=
  { s with trace := t ++ s.trace }

/-- The outcome of a pass with an older history in front of its trace. -/
def Step.prepend (t : List Event) : Step → Step
  | Step.next s => Step.next (s.prepend t)
  | Step.on_error live s => Step.on_error live (s.prepend t)

/-- A nested call that does not look at the trace it extends: with an older
history in front, the result is the same and the history stays in front. -/
def TraceBlind (descend : libesedb_page → State → Int × State) : Prop :=
  ∀ (t : List Event) (child_page : libesedb_page) (s : State),
    descend child_page (s.prepend t)
      = ((descend child_page s).1, (descend child_page s).2.prepend t)

/-- The cyclic tree of the spec's scenario: the root page, fetched at element
index `(int) LIBESEDB_PAGE_NUMBER_DATABASE - 1`, passes both validations, is a
branch page and holds, after its first tag, a single value, which is not
defunct, parses, and whose child page number is the number of the root page
itself. -/
structure SelfCycle (d : Definitions) (database : libesedb_database)
    (root_page : libesedb_page) (page_value : libesedb_page_value)
    (page_tree_value : libesedb_page_tree_value) : Prop where
  fetched : database.page_tree.pages_vector (to_int d d.LIBESEDB_PAGE_NUMBER_DATABASE - 1)
    = some root_page
  root_valid : database.page_tree.libesedb_page_validate_root_page root_page = true
  child_valid : database.page_tree.libesedb_page_validate_page root_page = true
  branch : (root_page.flags % 2 ^ 32) &&& d.LIBESEDB_PAGE_FLAG_IS_LEAF = 0
  single : root_page.values.length = 2
  value : root_page.values[1]? = some page_value
  live : page_value.flags &&& d.LIBESEDB_PAGE_TAG_FLAG_IS_DEFUNCT = 0
  parsed : database.page_tree.libesedb_page_tree_value_read_data page_value.data
    page_value.flags = some page_tree_value
  size : ¬ page_tree_value.data_size < 4
  back : byte_stream_copy_to_uint32_little_endian page_tree_value.data
    = d.LIBESEDB_PAGE_NUMBER_DATABASE
  in_bounds : child_page_number_out_of_bounds d d.LIBESEDB_PAGE_NUMBER_DATABASE = false
  in_range : d.LIBESEDB_PAGE_NUMBER_DATABASE > 0
    ∧ d.LIBESEDB_PAGE_NUMBER_DATABASE ≤ database.page_tree.io_handle.last_page_number

/-- The state of `libesedb_database_read_file_io_handle` once the root page
cache has been created and the root page requested: the counter is 0. -/
def State.fetch_root (s : State) (d : Definitions) : State :=
  (({ leaf_value_index := 0, next_cache := s.next_cache + 1, trace := s.trace } : State).emit
    (Event.cache_init s.next_cache)).emit
    (Event.get_element_value s.next_cache (to_int d d.LIBESEDB_PAGE_NUMBER_DATABASE - 1))

/-! ## Observations on traces -/

/-- The element indexes requested from the pages vector, in order: one entry per
call of `libfdata_vector_get_element_value_by_index`. -/
def page_requests (trace : List Event) : List Int :=
  trace.filterMap fun e =>
    match e with
    | Event.get_element_value _ element_index => some element_index
    | _ => none

/-- The leaf values visited, in order: the `leaf_value` events of a trace. -/
def leaf_events (trace : List Event) : List Event :=
  trace.filter fun e =>
    match e with
    | Event.leaf_value _ _ _ _ => true
    | _ => false

/-- The end state of a pass. -/
def Step.state : Step → State
  | Step.next s => s
  | Step.on_error _ s => s

/-- Whether a pass reached the end of the loop body. -/
def Step.completed : Step → Bool
  | Step.next _ => true
  | Step.on_error _ _ => false

/-- A leaf value by its place: the number of its page, its index in the tag
array of that page, and the parsed value. -/
abbrev Leaf := Nat × Nat × libesedb_page_tree_value

/-- Following the spec (in-order traversal of the tag arrays): the leaf values
reached through the entry at `page_value_index` of a page, `below` giving the
leaf values of a child page. A defunct entry has none; on a leaf page the entry
is one leaf value; on a branch page they are the leaf values of the child page
the entry points to, when there is such a page. -/
def leaves_of_value (d : Definitions) (database : libesedb_database)
    (below : libesedb_page → List Leaf) (page : libesedb_page) (page_value_index : Nat) :
    List Leaf :=
  match page.values[page_value_index]? with
  | none => []
  | some page_value =>
    if page_value.flags &&& d.LIBESEDB_PAGE_TAG_FLAG_IS_DEFUNCT ≠ 0 then []
    else
      match database.page_tree.libesedb_page_tree_value_read_data page_value.data
          page_value.flags with
      | none => []
      | some page_tree_value =>
        if (page.flags % 2 ^ 32) &&& d.LIBESEDB_PAGE_FLAG_IS_LEAF ≠ 0 then
          [(page.page_number, page_value_index, page_tree_value)]
        else if page_tree_value.data_size < 4 then []
        else if child_page_number_out_of_bounds d
            (byte_stream_copy_to_uint32_little_endian page_tree_value.data) then []
        else if byte_stream_copy_to_uint32_little_endian page_tree_value.data > 0
            ∧ byte_stream_copy_to_uint32_little_endian page_tree_value.data
              ≤ database.page_tree.io_handle.last_page_number then
          match database.page_tree.pages_vector
              (to_int d (byte_stream_copy_to_uint32_little_endian page_tree_value.data) - 1) with
          | none => []
          | some child_page =>
            if database.page_tree.libesedb_page_validate_page child_page then below child_page
            else []
        else []

/-- Following the spec (in-order traversal of the tag arrays): the leaf values of
the tree below a page in depth-first, left-to-right order, down to `levels`
levels: the entries of the page by ascending index from 1, each with the whole
of its subtree before the next entry. -/
def leaves_in_order (d : Definitions) (database : libesedb_database) :
    Nat → libesedb_page → List Leaf
  | 0, _ => []
  | levels + 1, page =>
    (List.range' 1 (page.values.length - 1)).flatMap
      (leaves_of_value d database (leaves_in_order d database levels) page)

/-- The `leaf_value` events of a sequence of leaf values visited one after the
other, the counter starting at `leaf_value_index` and one more at each. -/
def leaf_events_from (leaf_value_index : Int) : List Leaf → List Event
  | [] => []
  | leaf :: rest =>
    Event.leaf_value leaf_value_index leaf.1 leaf.2.1 leaf.2.2
      :: leaf_events_from (leaf_value_index + 1) rest

/-- The counter after `count` increments of line 407, each reduced to the range
of `int`. -/
def increments (d : Definitions) : Nat → Int → Int
  | 0, leaf_value_index => leaf_value_index
  | count + 1, leaf_value_index => increments d count (int_cast d (leaf_value_index + 1))

/-- The `leaf_value` events of a sequence of leaf values visited one after the
other by the walk, the counter starting at `leaf_value_index` and incremented
as in line 407 after each of them. -/
def leaf_events_counting (d : Definitions) (leaf_value_index : Int) : List Leaf → List Event
  | [] => []
  | leaf :: rest =>
    Event.leaf_value leaf_value_index leaf.1 leaf.2.1 leaf.2.2
      :: leaf_events_counting d (int_cast d (leaf_value_index + 1)) rest

/-- Between the states `s` and `s2` exactly the leaf values `visited` were
visited, in that order, the counter being incremented once after each of
them. -/
def Visits (d : Definitions) (s s2 : State) (visited : List Leaf) : Prop :=
  leaf_events s2.trace
    = leaf_events s.trace ++ leaf_events_counting d s.leaf_value_index visited
  ∧ s2.leaf_value_index = increments d visited.length s.leaf_value_index

/-- A nested call that visits the leaf values of `below` in order: always a
prefix of them, all of them when it returns 1, in which case `deeper` (the
traversal with more levels) has no other leaf values. -/
def Traverses (d : Definitions) (descend : libesedb_page → State → Int × State)
    (below deeper : libesedb_page → List Leaf) : Prop :=
  ∀ (child_page : libesedb_page) (s : State), ∃ visited : List Leaf,
    Visits d s (descend child_page s).2 visited
    ∧ visited <+: below child_page
    ∧ ((descend child_page s).1 = 1 →
        visited = below child_page ∧ deeper child_page = below child_page)

/-- Whether a page value is in use: `LIBESEDB_PAGE_TAG_FLAG_IS_DEFUNCT` is clear. -/
def is_live (d : Definitions) (page_value : libesedb_page_value) : Bool :=
  page_value.flags &&& d.LIBESEDB_PAGE_TAG_FLAG_IS_DEFUNCT = 0

/-- The values of a page with the defunct ones removed; the first tag, which is
not one of the values the walk visits, stays where it is. -/
def live_values (d : Definitions) : List libesedb_page_value → List libesedb_page_value
  | [] => []
  | first_tag :: values => first_tag :: values.filter (is_live d)

/-- The same page with the defunct values removed. -/
def without_defunct (d : Definitions) (page : libesedb_page) : libesedb_page :=
  { page_number := page.page_number
    flags := page.flags
    values := live_values d page.values
    number_of_values_fits := by
      have hfit := page.number_of_values_fits
      cases hvals : page.values with
      | nil => simp [live_values]
      | cons first_tag values =>
        rw [hvals] at hfit
        have hle := List.length_filter_le (is_live d) values
        simp only [live_values, List.length_cons] at hfit ⊢
        omega }

/-- What is left of an event when the tag indexes are forgotten: a request for a
value by its index leaves nothing, a leaf value loses its index, every other
event stays as it is. -/
def Event.forget_index : Event → Option Event
  | Event.get_value_by_index _ _ => none
  | Event.leaf_value leaf_value_index page_number _ value =>
    some (Event.leaf_value leaf_value_index page_number 0 value)
  | e => some e

/-- A trace with the tag indexes forgotten. -/
def forget_indexes (trace : List Event) : List Event :=
  trace.filterMap Event.forget_index

/-- Two states that agree on the counter, on the caches handed out and on the
trace up to tag indexes. -/
def Sim (s s2 : State) : Prop :=
  s2.leaf_value_index = s.leaf_value_index ∧ s2.next_cache = s.next_cache
  ∧ forget_indexes s2.trace = forget_indexes s.trace

/-- Two passes that end the same way in states that agree up to tag indexes. -/
def StepSim : Step → Step → Prop
  | Step.next s, Step.next s2 => Sim s s2
  | Step.on_error live s, Step.on_error live2 s2 => live2 = live ∧ Sim s s2
  | _, _ => False

/-- Whether the entry at `page_value_index` can be walked: it is defunct, or it
parses and is a leaf value, or it parses to a branch entry of at least four
bytes whose child page number passes the bounds guard and either lies beyond
`last_page_number` or names a page that loads, validates and is walkable in
turn (`below`). -/
def walkable_value (d : Definitions) (database : libesedb_database)
    (below : libesedb_page → Bool) (page : libesedb_page) (page_value_index : Nat) : Bool :=
  match page.values[page_value_index]? with
  | none => false
  | some page_value =>
    if page_value.flags &&& d.LIBESEDB_PAGE_TAG_FLAG_IS_DEFUNCT ≠ 0 then true
    else
      match database.page_tree.libesedb_page_tree_value_read_data page_value.data
          page_value.flags with
      | none => false
      | some page_tree_value =>
        if (page.flags % 2 ^ 32) &&& d.LIBESEDB_PAGE_FLAG_IS_LEAF ≠ 0 then true
        else if page_tree_value.data_size < 4 then false
        else if child_page_number_out_of_bounds d
            (byte_stream_copy_to_uint32_little_endian page_tree_value.data) then false
        else if byte_stream_copy_to_uint32_little_endian page_tree_value.data > 0
            ∧ byte_stream_copy_to_uint32_little_endian page_tree_value.data
              ≤ database.page_tree.io_handle.last_page_number then
          match database.page_tree.pages_vector
              (to_int d (byte_stream_copy_to_uint32_little_endian page_tree_value.data) - 1) with
          | none => false
          | some child_page =>
            database.page_tree.libesedb_page_validate_page child_page && below child_page
        else true

/-- Whether the tree below a page can be walked within `levels` levels: every
page reached loads and validates, every value reached that is not defunct
parses, every branch entry reached is accepted, and the depth limit is not
hit. -/
def walkable (d : Definitions) (database : libesedb_database) : Nat → libesedb_page → Bool
  | 0, _ => false
  | levels + 1, page =>
    (List.range' 1 (page.values.length - 1)).all
      (walkable_value d database (walkable d database levels) page)

/-- The cache an event acts on, if any. -/
def Event.cache : Event → Option Nat
  | Event.cache_init cache => some cache
  | Event.cache_free cache => some cache
  | Event.get_element_value cache _ => some cache
  | _ => none

/-- The names of the caches created in a trace, in order
(`libfcache_cache_initialize`). -/
def caches_created (trace : List Event) : List Nat :=
  trace.filterMap fun e =>
    match e with
    | Event.cache_init cache => some cache
    | _ => none

/-- The names of the caches released in a trace, in order (`libfcache_cache_free`). -/
def caches_released (trace : List Event) : List Nat :=
  trace.filterMap fun e =>
    match e with
    | Event.cache_free cache => some cache
    | _ => none

/-- The number of page tree values created in a trace
(`libesedb_page_tree_value_initialize`). -/
def values_created (trace : List Event) : Nat :=
  (trace.filter fun e =>
    match e with
    | Event.value_init => true
    | _ => false).length

/-- The number of page tree values released in a trace
(`libesedb_page_tree_value_free`). -/
def values_released (trace : List Event) : Nat :=
  (trace.filter fun e =>
    match e with
    | Event.value_free => true
    | _ => false).length

/-- The replay of a trace against the stack of live caches, innermost first: a
cache is created under a new name and pushed; a page is requested through the
innermost live cache only; a cache is released only when it is the innermost
one. The result is the stack after the trace, `none` when an event breaks the
discipline. -/
def cache_discipline : List Nat → List Event → Option (List Nat)
  | stack, [] => some stack
  | stack, e :: rest =>
    match e with
    | Event.cache_init cache =>
      if cache ∈ stack then none else cache_discipline (cache :: stack) rest
    | Event.cache_free cache =>
      if stack.head? = some cache then cache_discipline stack.tail rest else none
    | Event.get_element_value cache _ =>
      if stack.head? = some cache then cache_discipline stack rest else none
    | _ => cache_discipline stack rest

/-- Modelled from the spec: a cache of capacity 1 (`libfcache` is not at hand).
The element index held in the single slot of `cache` after a trace: a request
through the cache puts the requested page in the slot, replacing what was
there; creating or releasing the cache empties it. -/
def cache_slot (cache : Nat) : Option Int → List Event → Option Int
  | slot, [] => slot
  | slot, e :: rest =>
    match e with
    | Event.cache_init c => cache_slot cache (if c = cache then none else slot) rest
    | Event.cache_free c => cache_slot cache (if c = cache then none else slot) rest
    | Event.get_element_value c element_index =>
      cache_slot cache (if c = cache then some element_index else slot) rest
    | _ => cache_slot cache slot rest

/-- The page tree values an event creates (+1) or releases (-1). -/
def Event.value_delta : Event → Int
  | Event.value_init => 1
  | Event.value_free => -1
  | _ => 0

/-- The events `δ` lead from `s` to `s2` and keep the resources in order. The
caches created are the next names in order; requests and releases follow the
stack discipline for every stack of older caches whose innermost one is `top`
(when `top` is given); every cache acted on is `top` or a new one; `extra` page
tree values more have been created than released; no value is fetched at
index 0. -/
structure Bracketed (top : Option Nat) (s s2 : State) (extra : Int) (δ : List Event) :
    Prop where
  trace : s2.trace = s.trace ++ δ
  mono : s.next_cache ≤ s2.next_cache
  created : caches_created δ = List.range' s.next_cache (s2.next_cache - s.next_cache)
  discipline : ∀ stack : List Nat, (∀ x ∈ stack, x < s.next_cache) →
    (∀ c, top = some c → stack.head? = some c) → cache_discipline stack δ = some stack
  values : (values_created δ : Int) = values_released δ + extra
  caches : ∀ e ∈ δ, ∀ x, e.cache = some x → some x = top ∨ s.next_cache ≤ x
  indexes : ∀ pn i, Event.get_value_by_index pn i ∈ δ → 1 ≤ i

/-- The page tree values still allocated when a pass ends: one after a jump to
`on_error` with `page_tree_value` set, none otherwise. -/
def Step.live_values : Step → Int
  | Step.next _ => 0
  | Step.on_error live _ => if live then 1 else 0

/-- The number of caches created and not yet released in a trace. -/
def live_caches (trace : List Event) : Int :=
  ((caches_created trace).length : Int) - (caches_released trace).length

/-- The number of page tree values created and not yet released in a trace. -/
def live_page_tree_values (trace : List Event) : Int :=
  (values_created trace : Int) - values_released trace

/-- The resources of a call that led from `s` to `s2` are in balance: the call
only added events to the trace; the caches it created have different names, and
the caches it released are those it created, each once; it released as many
page tree values as it created; the numbers of live caches and of live page
tree values are what they were before the call. -/
def Balanced (s s2 : State) : Prop :=
  ∃ δ, s2.trace = s.trace ++ δ
    ∧ (caches_created δ).Nodup
    ∧ (caches_released δ).Perm (caches_created δ)
    ∧ values_created δ = values_released δ
    ∧ live_caches s2.trace = live_caches s.trace
    ∧ live_page_tree_values s2.trace = live_page_tree_values s.trace

/-- Following the spec (page loads: one per branch entry in range): the branch
entries counted below the entry at `page_value_index` of a page, the entry
itself included, `below` giving the count of a child page. The entry counts
when it is not defunct, parses, sits on a page that is not a leaf page and
holds a child page number in [1, `last_page_number`]. -/
def branch_entries_of_value (d : Definitions) (database : libesedb_database)
    (below : libesedb_page → Nat) (page : libesedb_page) (page_value_index : Nat) : Nat :=
  match page.values[page_value_index]? with
  | none => 0
  | some page_value =>
    if page_value.flags &&& d.LIBESEDB_PAGE_TAG_FLAG_IS_DEFUNCT ≠ 0 then 0
    else
      match database.page_tree.libesedb_page_tree_value_read_data page_value.data
          page_value.flags with
      | none => 0
      | some page_tree_value =>
        if (page.flags % 2 ^ 32) &&& d.LIBESEDB_PAGE_FLAG_IS_LEAF ≠ 0 then 0
        else if byte_stream_copy_to_uint32_little_endian page_tree_value.data > 0
            ∧ byte_stream_copy_to_uint32_little_endian page_tree_value.data
              ≤ database.page_tree.io_handle.last_page_number then
          match database.page_tree.pages_vector
              (to_int d (byte_stream_copy_to_uint32_little_endian page_tree_value.data) - 1) with
          | none => 1
          | some child_page => 1 + below child_page
        else 0

/-- Following the spec (the number B): the non-defunct branch entries with a
child page number in [1, `last_page_number`] in the tree below a page, down to
`levels` levels; an entry counts each time it is met, whether or not its child
page was met before. -/
def branch_entries_in_range (d : Definitions) (database : libesedb_database) :
    Nat → libesedb_page → Nat
  | 0, _ => 0
  | levels + 1, page =>
    ((List.range' 1 (page.values.length - 1)).map
      (branch_entries_of_value d database (branch_entries_in_range d database levels)
        page)).sum

/-- The call `descend` makes, when it returns 1, as many page requests as `below`
counts. -/
def Loads (descend : libesedb_page → State → Int × State) (below : libesedb_page → Nat) :
    Prop :=
  ∀ child_page s, (descend child_page s).1 = 1 →
    ∃ requests : List Int,
      page_requests (descend child_page s).2.trace = page_requests s.trace ++ requests
      ∧ requests.length = below child_page

/-- The two-level tree of the spec's scenario: the root page, fetched at element
index `(int) LIBESEDB_PAGE_NUMBER_DATABASE - 1`, passes the root validation, is a
branch page and holds, after its first tag, two entries; neither is defunct,
both parse, and their child page numbers are accepted and lead to the pages
`page1` and `page2`; these pass the validation and are leaf pages that hold,
after their first tag, two values each, not defunct and parseable. The depth
limit allows one level below the root. -/
structure TwoLevelTree (d : Definitions) (database : libesedb_database)
    (root_page page1 page2 : libesedb_page) (entry1 entry2 : libesedb_page_value)
    (value1 value2 : libesedb_page_tree_value) : Prop where
  depth : 1 ≤ d.LIBESEDB_MAXIMUM_INDEX_NODE_RECURSION_DEPTH
  fetched : database.page_tree.pages_vector (to_int d d.LIBESEDB_PAGE_NUMBER_DATABASE - 1)
    = some root_page
  root_valid : database.page_tree.libesedb_page_validate_root_page root_page = true
  branch : (root_page.flags % 2 ^ 32) &&& d.LIBESEDB_PAGE_FLAG_IS_LEAF = 0
  two_entries : ∃ first_tag, root_page.values = [first_tag, entry1, entry2]
  live1 : entry1.flags &&& d.LIBESEDB_PAGE_TAG_FLAG_IS_DEFUNCT = 0
  live2 : entry2.flags &&& d.LIBESEDB_PAGE_TAG_FLAG_IS_DEFUNCT = 0
  parsed1 : database.page_tree.libesedb_page_tree_value_read_data entry1.data entry1.flags
    = some value1
  parsed2 : database.page_tree.libesedb_page_tree_value_read_data entry2.data entry2.flags
    = some value2
  size1 : ¬ value1.data_size < 4
  size2 : ¬ value2.data_size < 4
  in_bounds1 : child_page_number_out_of_bounds d
    (byte_stream_copy_to_uint32_little_endian value1.data) = false
  in_bounds2 : child_page_number_out_of_bounds d
    (byte_stream_copy_to_uint32_little_endian value2.data) = false
  in_range1 : byte_stream_copy_to_uint32_little_endian value1.data > 0
    ∧ byte_stream_copy_to_uint32_little_endian value1.data
      ≤ database.page_tree.io_handle.last_page_number
  in_range2 : byte_stream_copy_to_uint32_little_endian value2.data > 0
    ∧ byte_stream_copy_to_uint32_little_endian value2.data
      ≤ database.page_tree.io_handle.last_page_number
  child1 : database.page_tree.pages_vector
    (to_int d (byte_stream_copy_to_uint32_little_endian value1.data) - 1) = some page1
  child2 : database.page_tree.pages_vector
    (to_int d (byte_stream_copy_to_uint32_little_endian value2.data) - 1) = some page2
  valid1 : database.page_tree.libesedb_page_validate_page page1 = true
  valid2 : database.page_tree.libesedb_page_validate_page page2 = true
  leaf1 : (page1.flags % 2 ^ 32) &&& d.LIBESEDB_PAGE_FLAG_IS_LEAF ≠ 0
  leaf2 : (page2.flags % 2 ^ 32) &&& d.LIBESEDB_PAGE_FLAG_IS_LEAF ≠ 0
  two_values1 : page1.values.length = 3
  two_values2 : page2.values.length = 3
  leaves1 : ∀ pv ∈ page1.values.tail, is_live d pv = true
    ∧ (database.page_tree.libesedb_page_tree_value_read_data pv.data pv.flags).isSome = true
  leaves2 : ∀ pv ∈ page2.values.tail, is_live d pv = true
    ∧ (database.page_tree.libesedb_page_tree_value_read_data pv.data pv.flags).isSome = true

/-- What of an event does not depend on the names of the caches nor on the bytes
handed to `libesedb_page_tree_value_read_data`: the creation and the release of
a cache and the bytes read are left out, a page request keeps its element
index. -/
def Event.observable : Event → Option Event
  | Event.cache_init _ => none
  | Event.cache_free _ => none
  | Event.get_element_value _ element_index => some (Event.get_element_value 0 element_index)
  | Event.read_data _ _ => none
  | e => some e

/-- A trace without the names of the caches and the bytes read. -/
def observables (trace : List Event) : List Event :=
  trace.filterMap Event.observable

/-- Two states that agree on the counter and on the trace up to the names of the
caches and the bytes read. -/
def Observed (s s2 : State) : Prop :=
  s2.leaf_value_index = s.leaf_value_index ∧ observables s2.trace = observables s.trace

/-- Two passes that end the same way in states that agree up to the names of the
caches and the bytes read. -/
def StepObserved : Step → Step → Prop
  | Step.next s, Step.next s2 => Observed s s2
  | Step.on_error live s, Step.on_error live2 s2 => live2 = live ∧ Observed s s2
  | _, _ => False

/-- A nested call that gives the same result and states that agree again when it
is started in states that agree. -/
def Observing (descend : libesedb_page → State → Int × State) : Prop :=
  ∀ (child_page : libesedb_page) (s s2 : State), Observed s s2 →
    (descend child_page s2).1 = (descend child_page s).1
    ∧ Observed (descend child_page s).2 (descend child_page s2).2

/-- Two tags that the walk of a page with flags `page_flags` cannot tell apart:
the same value, or, on a page that is not a leaf page, two values, not defunct,
which parse to at least four bytes of data with the same child page number. -/
def EntryAlike (d : Definitions) (database : libesedb_database) (page_flags : Nat)
    (v v2 : Option libesedb_page_value) : Prop :=
  v2 = v
  ∨ (page_flags &&& d.LIBESEDB_PAGE_FLAG_IS_LEAF = 0
    ∧ ∃ (pv pv2 : libesedb_page_value) (ptv ptv2 : libesedb_page_tree_value),
      v = some pv ∧ v2 = some pv2
      ∧ pv.flags &&& d.LIBESEDB_PAGE_TAG_FLAG_IS_DEFUNCT = 0
      ∧ pv2.flags &&& d.LIBESEDB_PAGE_TAG_FLAG_IS_DEFUNCT = 0
      ∧ database.page_tree.libesedb_page_tree_value_read_data pv.data pv.flags = some ptv
      ∧ database.page_tree.libesedb_page_tree_value_read_data pv2.data pv2.flags = some ptv2
      ∧ ¬ ptv.data_size < 4
      ∧ ¬ ptv2.data_size < 4
      ∧ byte_stream_copy_to_uint32_little_endian ptv2.data
        = byte_stream_copy_to_uint32_little_endian ptv.data)

/-! ## Creating and freeing a database -/

/-- The arguments of a call of `libesedb_page_tree_initialize` after the pointer
to the page tree (libesedb_page_tree.h): pointers are named by naturals, a
`NULL` table definition is `none`. -/
structure page_tree_arguments where
  io_handle : Nat
  pages_vector : Nat
  pages_cache : Nat
  object_identifier : Nat
  table_definition : Option Nat
  template_table_definition : Option Nat
  deriving DecidableEq, Repr

/-- The memory a `libesedb_database_t *` points at: where it is and the value of
its field `page_tree` (`none`: `NULL`). -/
structure database_block where
  address : Nat
  page_tree : Option Nat
  deriving DecidableEq, Repr

/-- A call made by `libesedb_database_initialize` or `libesedb_database_free`. -/
inductive MemoryEvent where
  | memory_allocate_structure
  | memory_set (address : Nat)
  | page_tree_init (arguments : page_tree_arguments)
  | page_tree_free (page_tree : Option Nat)
  | memory_free (address : Nat)
  deriving DecidableEq, Repr

/-- Modelled from the spec: the outcomes of the calls the two functions make into
code that is not at hand. `memory_allocate_structure` gives the address of the
new memory or `NULL` (`none`); `memory_set` succeeds or not;
`libesedb_page_tree_initialize` gives the new page tree or fails and leaves the
pointer it was given at `NULL`; `libesedb_page_tree_free` succeeds or not on the
page tree it is given. -/
structure Library where
  memory_allocate_structure : Option Nat
  memory_set : Bool
  libesedb_page_tree_initialize : page_tree_arguments → Option Nat
  libesedb_page_tree_free : Option Nat → Bool

/-- The function `libesedb_database_initialize` (lines 43-137). The argument
`database` is `none` for a `NULL` pointer, `some none` for a pointer to `NULL`
and `some (some block)` for a pointer to a database. The outcome is the result,
the value of `*database` on return and the calls made, in order. -/
def libesedb_database_initialize (d : Definitions) (library : Library)
    (database : Option (Option database_block)) (io_handle pages_vector pages_cache : Nat) :
    Int × Option (Option database_block) × List MemoryEvent :=
  match database with
  | none => (-1, none, [])
  | some (some block) => (-1, some (some block), [])
  | some none =>
    match library.memory_allocate_structure with
    | none => (-1, some none, [MemoryEvent.memory_allocate_structure])
    | some address =>
      if library.memory_set = false then
        (-1, some none,
          [MemoryEvent.memory_allocate_structure, MemoryEvent.memory_set address,
           MemoryEvent.memory_free address])
      else
        let arguments : page_tree_arguments :=
          { io_handle := io_handle
            pages_vector := pages_vector
            pages_cache := pages_cache
            object_identifier := d.LIBESEDB_FDP_OBJECT_IDENTIFIER_DATABASE
            table_definition := none
            template_table_definition := none }
        match library.libesedb_page_tree_initialize arguments with
        | none =>
          (-1, some none,
            [MemoryEvent.memory_allocate_structure, MemoryEvent.memory_set address,
             MemoryEvent.page_tree_init arguments, MemoryEvent.memory_free address])
        | some page_tree =>
          (1, some (some { address := address, page_tree := some page_tree }),
            [MemoryEvent.memory_allocate_structure, MemoryEvent.memory_set address,
             MemoryEvent.page_tree_init arguments])

/-- The function `libesedb_database_free` (lines 142-181), with the same reading
of `database` and of the outcome. -/
def libesedb_database_free (library : Library) (database : Option (Option database_block)) :
    Int × Option (Option database_block) × List MemoryEvent :=
  match database with
  | none => (-1, none, [])
  | some none => (1, some none, [])
  | some (some block) =>
    let result : Int := if library.libesedb_page_tree_free block.page_tree = true then 1 else -1
    (result, some none,
      [MemoryEvent.page_tree_free block.page_tree, MemoryEvent.memory_free block.address])

/-- A bound on the number of calls a walk of `levels` levels makes: a frame makes
at most five calls of its own around the loop, and each of its at most 65534
passes at most six calls around the nested call. -/
def walk_events_bound : Nat → Nat
  | 0 => 0
  | levels + 1 => 5 + 65534 * (6 + walk_events_bound levels)

/-- An element index that is a page number minus one, the page number lying in
[1, `last_page_number`] and in the range of `int`, where the conversion to `int`
changes nothing. -/
def ExactIndex (d : Definitions) (database : libesedb_database) (element_index : Int) :
    Prop :=
  ∃ child_page_number : Nat,
    1 ≤ child_page_number
    ∧ child_page_number ≤ database.page_tree.io_handle.last_page_number
    ∧ child_page_number ≤ INT_MAX d
    ∧ to_int d child_page_number = (child_page_number : Int)
    ∧ element_index = (child_page_number : Int) - 1
    ∧ 0 ≤ element_index

/-- The events from `s` to `s2` request pages at exact indexes only. -/
def RequestsExact (d : Definitions) (database : libesedb_database) (s s2 : State) : Prop :=
  ∃ δ, s2.trace = s.trace ++ δ
    ∧ ∀ cache element_index, Event.get_element_value cache element_index ∈ δ →
        ExactIndex d database element_index

/-- The value loop as the source writes it (lines 309-553): `for(
page_value_index = 1; page_value_index < number_of_page_values;
page_value_index++ )`, the condition tested before every pass and the 16-bit
index incremented modulo 2^16 after it. `fuel` bounds the number of tests:
`none` when it runs out. The outcome is the value of `page_value_index` when the
loop is left, with how it is left. -/
def value_loop (d : Definitions) (database : libesedb_database)
    (descend : libesedb_page → State → Int × State)
    (page : libesedb_page) (page_flags : Nat) (child_page_cache : Nat)
    (number_of_page_values : Nat) : Nat → Nat → State → Option (Nat × Step)
  | 0, _, _ => none
  | fuel + 1, page_value_index, s =>
    if page_value_index < number_of_page_values then
      match read_page_value d database descend page page_flags child_page_cache
          page_value_index s with
      | Step.next s => value_loop d database descend page page_flags child_page_cache
          number_of_page_values fuel ((page_value_index + 1) % 2 ^ 16) s
      | Step.on_error live s => some (page_value_index, Step.on_error live s)
    else some (page_value_index, Step.next s)

/-- Following the spec (each index once, in ascending order): the passes of the
loop body at the indexes of a list, one after the other, up to the first that
jumps to `on_error`. -/
def passes (d : Definitions) (database : libesedb_database)
    (descend : libesedb_page → State → Int × State)
    (page : libesedb_page) (page_flags : Nat) (child_page_cache : Nat) :
    List Nat → State → Step
  | [], s => Step.next s
  | page_value_index :: rest, s =>
    match read_page_value d database descend page page_flags child_page_cache
        page_value_index s with
    | Step.next s => passes d database descend page page_flags child_page_cache rest s
    | Step.on_error live s => Step.on_error live s

/-! ## The sequence objects of pyesedb -/

/-- The exceptions the functions of pyesedb_columns.c and pyesedb_tables.c
raise. -/
inductive PyExc where
  | ValueError
  | MemoryError
  | StopIteration
  deriving DecidableEq, Repr

/-- What a function that returns a `PyObject *` returns: an object, or `NULL`
with the exception the function itself raised, if any (a `NULL` handed on from
the getter comes with none). -/
inductive PyReturn (Item : Type) where
  | object (item : Item)
  | null (raised : Option PyExc)
  deriving DecidableEq, Repr

/-- The return of a pointer the getter gave: the object, or `NULL` as it is. -/
def PyReturn.of_pointer {Item : Type} : Option Item → PyReturn Item
  | some item => PyReturn.object item
  | none => PyReturn.null none

/-- The objects `pyesedb_columns_t` (pyesedb_columns.h is not at hand; the fields
are those pyesedb_columns.c uses): the parent object, the getter (`none`:
`NULL`), the current index and the number of items, both `int`. The getter
takes the parent, an index and the world outside the object, and gives an item
or `NULL` and the world after the call. -/
structure pyesedb_columns (Parent Item World : Type) where
  parent_object : Option Parent
  get_item_by_index : Option (Option Parent → Int → World → Option Item × World)
  current_index : Int
  number_of_items : Int

/-- The objects `pyesedb_tables_t`, with the same four fields (pyesedb_tables.c
is pyesedb_columns.c with the names changed). -/
abbrev pyesedb_tables (Parent Item World : Type) := pyesedb_columns Parent Item World

/-- What a call works in besides the object: the world the getter acts on and
the calls of the getter made so far, each with its parent and its index. -/
structure Python (Parent World : Type) where
  world : World
  calls : List (Option Parent × Int)

/-- The function `pyesedb_columns_init` (lines 230-252): -1 for `NULL`; otherwise
the fields are cleared and the result is 0. The outcome is the result and the
object after the call. -/
def pyesedb_columns_init {Parent Item World : Type}
    (columns_object : Option (pyesedb_columns Parent Item World)) :
    Int × Option (pyesedb_columns Parent Item World) :=
  match columns_object with
  | none => (-1, none)
  | some _ =>
    (0, some
      { parent_object := none
        get_item_by_index := none
        current_index := 0
        number_of_items := 0 })

/-- The function `pyesedb_columns_new` (lines 156-225). `PyObject_New` is the
outcome of the allocation: `NULL` or an object whose fields hold anything. The
count of references to the parent is not modelled. -/
def pyesedb_columns_new {Parent Item World : Type}
    (parent_object : Option Parent)
    (get_item_by_index : Option (Option Parent → Int → World → Option Item × World))
    (number_of_items : Int)
    (PyObject_New : Option (pyesedb_columns Parent Item World)) :
    PyReturn (pyesedb_columns Parent Item World) :=
  match parent_object with
  | none => PyReturn.null (some PyExc.ValueError)
  | some _ =>
    match get_item_by_index with
    | none => PyReturn.null (some PyExc.ValueError)
    | some _ =>
      match PyObject_New with
      | none => PyReturn.null (some PyExc.MemoryError)
      | some columns_object =>
        match pyesedb_columns_init (some columns_object) with
        | (_, none) => PyReturn.null (some PyExc.MemoryError)
        | (result, some columns_object) =>
          if result ≠ 0 then PyReturn.null (some PyExc.MemoryError)
          else
            PyReturn.object
              { columns_object with
                parent_object := parent_object
                get_item_by_index := get_item_by_index
                number_of_items := number_of_items }

/-- The function `pyesedb_columns_len` (lines 299-316): the result, the exception
raised if any, and the object after the call. -/
def pyesedb_columns_len {Parent Item World : Type}
    (columns_object : Option (pyesedb_columns Parent Item World)) :
    Int × Option PyExc × Option (pyesedb_columns Parent Item World) :=
  match columns_object with
  | none => (-1, some PyExc.ValueError, none)
  | some columns_object => (columns_object.number_of_items, none, some columns_object)

/-- The function `pyesedb_columns_getitem` (lines 320-371): what is returned, the
object after the call, and the world and the calls of the getter after it.
`item_index` is a `Py_ssize_t`, which holds every `int`. -/
def pyesedb_columns_getitem {Parent Item World : Type} (d : Definitions)
    (columns_object : Option (pyesedb_columns Parent Item World)) (item_index : Int)
    (python : Python Parent World) :
    PyReturn Item × Option (pyesedb_columns Parent Item World) × Python Parent World :=
  match columns_object with
  | none => (PyReturn.null (some PyExc.ValueError), none, python)
  | some columns_object =>
    match columns_object.get_item_by_index with
    | none => (PyReturn.null (some PyExc.ValueError), some columns_object, python)
    | some get_item_by_index =>
      if columns_object.number_of_items < 0 then
        (PyReturn.null (some PyExc.ValueError), some columns_object, python)
      else if item_index < 0 ∨ item_index ≥ columns_object.number_of_items then
        (PyReturn.null (some PyExc.ValueError), some columns_object, python)
      else
        let column_object := get_item_by_index columns_object.parent_object
          (int_cast d item_index) python.world
        (PyReturn.of_pointer column_object.1, some columns_object,
          { world := column_object.2
            calls := python.calls ++ [(columns_object.parent_object, int_cast d item_index)] })

/-- The function `pyesedb_columns_iter` (lines 375-393): the object itself. -/
def pyesedb_columns_iter {Parent Item World : Type}
    (columns_object : Option (pyesedb_columns Parent Item World)) :
    PyReturn (pyesedb_columns Parent Item World) :=
  match columns_object with
  | none => PyReturn.null (some PyExc.ValueError)
  | some columns_object => PyReturn.object columns_object

/-- The function `pyesedb_columns_iternext` (lines 397-455), with the same
outcome as `pyesedb_columns_getitem`. The increment of the `int` is taken
modulo its size. -/
def pyesedb_columns_iternext {Parent Item World : Type} (d : Definitions)
    (columns_object : Option (pyesedb_columns Parent Item World))
    (python : Python Parent World) :
    PyReturn Item × Option (pyesedb_columns Parent Item World) × Python Parent World :=
  match columns_object with
  | none => (PyReturn.null (some PyExc.ValueError), none, python)
  | some columns_object =>
    match columns_object.get_item_by_index with
    | none => (PyReturn.null (some PyExc.ValueError), some columns_object, python)
    | some get_item_by_index =>
      if columns_object.current_index < 0 then
        (PyReturn.null (some PyExc.ValueError), some columns_object, python)
      else if columns_object.number_of_items < 0 then
        (PyReturn.null (some PyExc.ValueError), some columns_object, python)
      else if columns_object.current_index ≥ columns_object.number_of_items then
        (PyReturn.null (some PyExc.StopIteration), some columns_object, python)
      else
        let column_object := get_item_by_index columns_object.parent_object
          columns_object.current_index python.world
        let python : Python Parent World :=
          { world := column_object.2
            calls := python.calls
              ++ [(columns_object.parent_object, columns_object.current_index)] }
        match column_object.1 with
        | some item =>
          (PyReturn.object item,
            some { columns_object with
              current_index := int_cast d (columns_object.current_index + 1) },
            python)
        | none => (PyReturn.null none, some columns_object, python)

/-- Consecutive calls of `pyesedb_columns_iternext` on the same object, `count`
of them: what they return, in order, and the object, the world and the calls of
the getter after the last one. -/
def pyesedb_columns_iternext_calls {Parent Item World : Type} (d : Definitions) :
    Nat → Option (pyesedb_columns Parent Item World) → Python Parent World →
    List (PyReturn Item) × Option (pyesedb_columns Parent Item World) × Python Parent World
  | 0, columns_object, python => ([], columns_object, python)
  | count + 1, columns_object, python =>
    let first := pyesedb_columns_iternext d columns_object python
    let rest := pyesedb_columns_iternext_calls d count first.2.1 first.2.2
    (first.1 :: rest.1, rest.2)

/-- The function `pyesedb_tables_init` (lines 230-252): -1 for `NULL`; otherwise
the fields are cleared and the result is 0. The outcome is the result and the
object after the call. -/
def pyesedb_tables_init {Parent Item World : Type}
    (tables_object : Option (pyesedb_tables Parent Item World)) :
    Int × Option (pyesedb_tables Parent Item World) :=
  match tables_object with
  | none => (-1, none)
  | some _ =>
    (0, some
      { parent_object := none
        get_item_by_index := none
        current_index := 0
        number_of_items := 0 })

/-- The function `pyesedb_tables_new` (lines 156-225). `PyObject_New` is the
outcome of the allocation: `NULL` or an object whose fields hold anything. The
count of references to the parent is not modelled. -/
def pyesedb_tables_new {Parent Item World : Type}
    (parent_object : Option Parent)
    (get_item_by_index : Option (Option Parent → Int → World → Option Item × World))
    (number_of_items : Int)
    (PyObject_New : Option (pyesedb_tables Parent Item World)) :
    PyReturn (pyesedb_tables Parent Item World) :=
  match parent_object with
  | none => PyReturn.null (some PyExc.ValueError)
  | some _ =>
    match get_item_by_index with
    | none => PyReturn.null (some PyExc.ValueError)
    | some _ =>
      match PyObject_New with
      | none => PyReturn.null (some PyExc.MemoryError)
      | some tables_object =>
        match pyesedb_tables_init (some tables_object) with
        | (_, none) => PyReturn.null (some PyExc.MemoryError)
        | (result, some tables_object) =>
          if result ≠ 0 then PyReturn.null (some PyExc.MemoryError)
          else
            PyReturn.object
              { tables_object with
                parent_object := parent_object
                get_item_by_index := get_item_by_index
                number_of_items := number_of_items }

/-- The function `pyesedb_tables_len` (lines 299-316): the result, the exception
raised if any, and the object after the call. -/
def pyesedb_tables_len {Parent Item World : Type}
    (tables_object : Option (pyesedb_tables Parent Item World)) :
    Int × Option PyExc × Option (pyesedb_tables Parent Item World) :=
  match tables_object with
  | none => (-1, some PyExc.ValueError, none)
  | some tables_object => (tables_object.number_of_items, none, some tables_object)

/-- The function `pyesedb_tables_getitem` (lines 320-371): what is returned, the
object after the call, and the world and the calls of the getter after it.
`item_index` is a `Py_ssize_t`, which holds every `int`. -/
def pyesedb_tables_getitem {Parent Item World : Type} (d : Definitions)
    (tables_object : Option (pyesedb_tables Parent Item World)) (item_index : Int)
    (python : Python Parent World) :
    PyReturn Item × Option (pyesedb_tables Parent Item World) × Python Parent World :=
  match tables_object with
  | none => (PyReturn.null (some PyExc.ValueError), none, python)
  | some tables_object =>
    match tables_object.get_item_by_index with
    | none => (PyReturn.null (some PyExc.ValueError), some tables_object, python)
    | some get_item_by_index =>
      if tables_object.number_of_items < 0 then
        (PyReturn.null (some PyExc.ValueError), some tables_object, python)
      else if item_index < 0 ∨ item_index ≥ tables_object.number_of_items then
        (PyReturn.null (some PyExc.ValueError), some tables_object, python)
      else
        let table_object := get_item_by_index tables_object.parent_object
          (int_cast d item_index) python.world
        (PyReturn.of_pointer table_object.1, some tables_object,
          { world := table_object.2
            calls := python.calls ++ [(tables_object.parent_object, int_cast d item_index)] })

/-- The function `pyesedb_tables_iter` (lines 375-393): the object itself. -/
def pyesedb_tables_iter {Parent Item World : Type}
    (tables_object : Option (pyesedb_tables Parent Item World)) :
    PyReturn (pyesedb_tables Parent Item World) :=
  match tables_object with
  | none => PyReturn.null (some PyExc.ValueError)
  | some tables_object => PyReturn.object tables_object

/-- The function `pyesedb_tables_iternext` (lines 397-455), with the same
outcome as `pyesedb_tables_getitem`. The increment of the `int` is taken
modulo its size. -/
def pyesedb_tables_iternext {Parent Item World : Type} (d : Definitions)
    (tables_object : Option (pyesedb_tables Parent Item World))
    (python : Python Parent World) :
    PyReturn Item × Option (pyesedb_tables Parent Item World) × Python Parent World :=
  match tables_object with
  | none => (PyReturn.null (some PyExc.ValueError), none, python)
  | some tables_object =>
    match tables_object.get_item_by_index with
    | none => (PyReturn.null (some PyExc.ValueError), some tables_object, python)
    | some get_item_by_index =>
      if tables_object.current_index < 0 then
        (PyReturn.null (some PyExc.ValueError), some tables_object, python)
      else if tables_object.number_of_items < 0 then
        (PyReturn.null (some PyExc.ValueError), some tables_object, python)
      else if tables_object.current_index ≥ tables_object.number_of_items then
        (PyReturn.null (some PyExc.StopIteration), some tables_object, python)
      else
        let table_object := get_item_by_index tables_object.parent_object
          tables_object.current_index python.world
        let python : Python Parent World :=
          { world := table_object.2
            calls := python.calls
              ++ [(tables_object.parent_object, tables_object.current_index)] }
        match table_object.1 with
        | some item =>
          (PyReturn.object item,
            some { tables_object with
              current_index := int_cast d (tables_object.current_index + 1) },
            python)
        | none => (PyReturn.null none, some tables_object, python)

/-- Consecutive calls of `pyesedb_tables_iternext` on the same object, `count`
of them: what they return, in order, and the object, the world and the calls of
the getter after the last one. -/
def pyesedb_tables_iternext_calls {Parent Item World : Type} (d : Definitions) :
    Nat → Option (pyesedb_tables Parent Item World) → Python Parent World →
    List (PyReturn Item) × Option (pyesedb_tables Parent Item World) × Python Parent World
  | 0, tables_object, python => ([], tables_object, python)
  | count + 1, tables_object, python =>
    let first := pyesedb_tables_iternext d tables_object python
    let rest := pyesedb_tables_iternext_calls d count first.2.1 first.2.2
    (first.1 :: rest.1, rest.2)

/-- Following the spec (items in index order): what the getter gives at the
indexes of a list, called at one after the other, and the world after the last
call. -/
def getter_results {Parent Item World : Type}
    (get_item_by_index : Option Parent → Int → World → Option Item × World)
    (parent_object : Option Parent) : List Int → World → List (Option Item) × World
  | [], world => ([], world)
  | index :: rest, world =>
    let first := get_item_by_index parent_object index world
    let others := getter_results get_item_by_index parent_object rest first.2
    (first.1 :: others.1, others.2)

/-- The predicate `0 <= current_index <= number_of_items` on a columns or tables
object. -/
def index_in_range {Parent Item World : Type} (o : pyesedb_columns Parent Item World) :
    Prop :=
  0 ≤ o.current_index ∧ o.current_index ≤ o.number_of_items

/-! ## The walk with the calls that may fail -/

/-- The calls of the walk whose failure does not depend on the page store: for
each of them, whether the call made in a given state fails. A state holds the
trace of everything done before it, so every pattern of failures is one such
record. `arguments_invalid` says that one of the pointer arguments tested at
the head of the two functions is `NULL` (lines 204-247 and 599-620). A call
that fails to create a cache or a page tree value creates nothing and leaves
`child_page_cache`, `root_page_cache` or `page_tree_value` at `NULL`; it is
not recorded in the trace, whose events `cache_init` and `value_init` stand for
caches and values that exist. -/
structure Failures where
  arguments_invalid : Bool
  get_number_of_values_fails : State → Bool
  get_flags_fails : State → Bool
  cache_init_fails : State → Bool
  get_value_by_index_fails : State → Bool
  value_init_fails : State → Bool

/-- No call fails and no argument is `NULL`. -/
def no_failures : Failures :=
  { arguments_invalid := false
    get_number_of_values_fails := fun _ => false
    get_flags_fails := fun _ => false
    cache_init_fails := fun _ => false
    get_value_by_index_fails := fun _ => false
    value_init_fails := fun _ => false }

/-- The body of the value loop (lines 313-553) with every exit: beside the exits
of `read_page_value`, a failing `libesedb_page_get_value_by_index` (exit of line
327) and a failing `libesedb_page_tree_value_initialize` (exit of line 371) jump
to `on_error` with `page_tree_value` at `NULL`. -/
def read_page_value_with_failures (failures : Failures) (d : Definitions)
    (database : libesedb_database) (descend : libesedb_page → State → Int × State)
    (page : libesedb_page) (page_flags : Nat) (child_page_cache : Nat)
    (page_value_index : Nat) (s : State) : Step :=
  if failures.get_value_by_index_fails s then
    Step.on_error false (s.emit (Event.get_value_by_index page.page_number page_value_index))
  else
    let s := s.emit (Event.get_value_by_index page.page_number page_value_index)
    match libesedb_page_get_value_by_index page page_value_index with
    | none => Step.on_error false s
    | some page_value =>
      if page_value.flags &&& d.LIBESEDB_PAGE_TAG_FLAG_IS_DEFUNCT ≠ 0 then
        Step.next s
      else if failures.value_init_fails s then
        Step.on_error false s
      else
        let s := s.emit Event.value_init
        let s := s.emit (Event.read_data page_value.data page_value.flags)
        match database.page_tree.libesedb_page_tree_value_read_data page_value.data
            page_value.flags with
        | none => Step.on_error true s
        | some page_tree_value =>
          if page_flags &&& d.LIBESEDB_PAGE_FLAG_IS_LEAF ≠ 0 then
            let s := s.emit (Event.leaf_value s.leaf_value_index page.page_number
              page_value_index page_tree_value)
            let s := { s with leaf_value_index := int_cast d (s.leaf_value_index + 1) }
            Step.next (s.emit Event.value_free)
          else if page_tree_value.data_size < 4 then
            Step.on_error true s
          else
            let child_page_number :=
              byte_stream_copy_to_uint32_little_endian page_tree_value.data
            if child_page_number_out_of_bounds d child_page_number then
              Step.on_error true s
            else if child_page_number > 0
                ∧ child_page_number ≤ database.page_tree.io_handle.last_page_number then
              let element_index := to_int d child_page_number - 1
              let s := s.emit (Event.get_element_value child_page_cache element_index)
              match database.page_tree.pages_vector element_index with
              | none => Step.on_error true s
              | some child_page =>
                let s := s.emit (Event.validate_page child_page.page_number)
                if database.page_tree.libesedb_page_validate_page child_page then
                  match descend child_page s with
                  | (result, s) =>
                    if result ≠ 1 then Step.on_error true s
                    else Step.next (s.emit Event.value_free)
                else Step.on_error true s
            else
              Step.next (s.emit Event.value_free)

/-- The value loop with every exit of its body. -/
def read_page_values_with_failures (failures : Failures) (d : Definitions)
    (database : libesedb_database) (descend : libesedb_page → State → Int × State)
    (page : libesedb_page) (page_flags : Nat) (child_page_cache : Nat) :
    Nat → Nat → State → Step
  | 0, _, s => Step.next s
  | remaining + 1, page_value_index, s =>
    match read_page_value_with_failures failures d database descend page page_flags
        child_page_cache page_value_index s with
    | Step.next s => read_page_values_with_failures failures d database descend page
        page_flags child_page_cache remaining ((page_value_index + 1) % 2 ^ 16) s
    | Step.on_error live s => Step.on_error live s

/-- Lines 260-568 of `libesedb_database_read_values_from_page` with every exit:
beside the exits of `read_values_from_page_frame`, a failing
`libesedb_page_get_number_of_values` (exit of line 272), a failing
`libesedb_page_get_flags` (exit of line 290) and a failing
`libfcache_cache_initialize` (exit of line 307) jump to `on_error` with
`child_page_cache` at `NULL`. -/
def read_values_from_page_frame_with_failures (failures : Failures) (d : Definitions)
    (database : libesedb_database) (descend : libesedb_page → State → Int × State)
    (page : libesedb_page) (s : State) : Int × State :=
  if failures.get_number_of_values_fails s then
    on_error false none (s.emit (Event.get_number_of_values page.page_number))
  else
    let s := s.emit (Event.get_number_of_values page.page_number)
    match libesedb_page_get_number_of_values page with
    | none => on_error false none s
    | some number_of_page_values =>
      if number_of_page_values = 0 then (1, s)
      else if failures.get_flags_fails s then
        on_error false none (s.emit (Event.get_flags page.page_number))
      else
        let s := s.emit (Event.get_flags page.page_number)
        match libesedb_page_get_flags page with
        | none => on_error false none s
        | some page_flags =>
          if failures.cache_init_fails s then on_error false none s
          else
            let child_page_cache := s.next_cache
            let s := { s with next_cache := s.next_cache + 1 }
            let s := s.emit (Event.cache_init child_page_cache)
            match read_page_values_with_failures failures d database descend page page_flags
                child_page_cache (number_of_page_values - 1) 1 s with
            | Step.on_error live s => on_error live (some child_page_cache) s
            | Step.next s => (1, s.emit (Event.cache_free child_page_cache))

/-- The body of `libesedb_database_read_values_from_page` from its first line
with every exit: the tests of the pointer arguments (lines 204-247), the guard
on `recursion_depth` (line 248) and the frame. -/
def read_values_from_page_body_with_failures (failures : Failures) (d : Definitions)
    (database : libesedb_database) (descend : libesedb_page → State → Int × State)
    (page : libesedb_page) (recursion_depth : Int) (s : State) : Int × State :=
  if failures.arguments_invalid then (-1, s)
  else if recursion_depth < 0
      ∨ recursion_depth > d.LIBESEDB_MAXIMUM_INDEX_NODE_RECURSION_DEPTH then
    (-1, s)
  else
    read_values_from_page_frame_with_failures failures d database descend page s

/-- The recursion of `libesedb_database_read_values_from_page` with every exit,
on the number of levels left as in `read_values_from_page_levels`. -/
def read_values_from_page_levels_with_failures (failures : Failures) (d : Definitions)
    (database : libesedb_database) : Nat → libesedb_page → Int → State → Int × State
  | 0, _, _, s => (-1, s)
  | levels + 1, page, recursion_depth, s =>
    read_values_from_page_body_with_failures failures d database
      (fun child_page s => read_values_from_page_levels_with_failures failures d database
        levels child_page (recursion_depth + 1) s)
      page recursion_depth s

/-- The function `libesedb_database_read_values_from_page` with every exit: the
one of `libesedb_database_read_values_from_page` when no call of `failures`
fails. -/
def libesedb_database_read_values_from_page_with_failures (failures : Failures)
    (d : Definitions) (database : libesedb_database) (page : libesedb_page)
    (recursion_depth : Int) (s : State) : Int × State :=
  read_values_from_page_levels_with_failures failures d database
    ((d.LIBESEDB_MAXIMUM_INDEX_NODE_RECURSION_DEPTH : Int) + 1 - recursion_depth).toNat
    page recursion_depth s

/-- The function `libesedb_database_read_file_io_handle` with every exit: beside
the exits of `libesedb_database_read_file_io_handle`, the tests of the pointer
arguments (lines 599-620) return -1 and a failing `libfcache_cache_initialize`
(exit of line 636) jumps to `on_error` with `root_page_cache` at `NULL`. -/
def libesedb_database_read_file_io_handle_with_failures (failures : Failures)
    (d : Definitions) (database : libesedb_database) (s : State) : Int × State :=
  let s := { s with leaf_value_index := 0 }
  if failures.arguments_invalid then (-1, s)
  else if failures.cache_init_fails s then (-1, s)
  else
    let root_page_cache := s.next_cache
    let s := { s with next_cache := s.next_cache + 1 }
    let s := s.emit (Event.cache_init root_page_cache)
    let element_index := to_int d d.LIBESEDB_PAGE_NUMBER_DATABASE - 1
    let s := s.emit (Event.get_element_value root_page_cache element_index)
    match database.page_tree.pages_vector element_index with
    | none => (-1, s.emit (Event.cache_free root_page_cache))
    | some root_page =>
      let s := s.emit (Event.validate_root_page root_page.page_number)
      if database.page_tree.libesedb_page_validate_root_page root_page then
        match libesedb_database_read_values_from_page_with_failures failures d database
            root_page 0 s with
        | (result, s) =>
          if result ≠ 1 then (-1, s.emit (Event.cache_free root_page_cache))
          else (1, s.emit (Event.cache_free root_page_cache))
      else (-1, s.emit (Event.cache_free root_page_cache))

/-! ## The page store and page loads -/

/-- Two databases with the same page store: they agree on what the walk reads
of a database, that is on the last page number, on the pages vector, on the two
validations and on the parser of page values. They may differ in the root page
number, in the object identifier and in the pages cache of the page tree. -/
def same_page_store (database database2 : libesedb_database) : Prop :=
  database2.page_tree.io_handle.last_page_number
      = database.page_tree.io_handle.last_page_number
  ∧ database2.page_tree.pages_vector = database.page_tree.pages_vector
  ∧ database2.page_tree.libesedb_page_validate_page
      = database.page_tree.libesedb_page_validate_page
  ∧ database2.page_tree.libesedb_page_validate_root_page
      = database.page_tree.libesedb_page_validate_root_page
  ∧ database2.page_tree.libesedb_page_tree_value_read_data
      = database.page_tree.libesedb_page_tree_value_read_data

/-- The function `libesedb_database_read_file_io_handle` on the pointer it is
given: `database` may be `NULL` (`none`) and so may `database->page_tree`
(`some none`), in which cases the function returns -1 at once (lines 599-620).
Beside the result and the state, the outcome holds what `database` points to
after the call: lines 589-711 assign to no field of the database or of the page
tree, and hand `database->page_tree->pages_vector` to
`libfdata_vector_get_element_value_by_index` only, a request recorded in the
trace. -/
def libesedb_database_read_file_io_handle_pointer (d : Definitions)
    (database : Option (Option libesedb_page_tree)) (s : State) :
    Int × Option (Option libesedb_page_tree) × State :=
  match database with
  | none => (-1, none, { s with leaf_value_index := 0 })
  | some none => (-1, some none, { s with leaf_value_index := 0 })
  | some (some page_tree) =>
    match libesedb_database_read_file_io_handle d { page_tree := page_tree } s with
    | (result, s) => (result, some (some page_tree), s)

/-- Modelled from the spec: the page loads of a trace (the Page Loader uses the
cache it is given to memoize and the pages vector is consulted for every miss;
`libfdata` and `libfcache` are not at hand). `slots` gives for each cache the
element index its single slot holds. A request through a cache whose slot holds
the requested element index is served from the cache; any other request is a
page load, and puts the page in the slot. Creating or releasing a cache
empties its slot. -/
def page_loads : (Nat → Option Int) → List Event → Nat
  | _, [] => 0
  | slots, e :: rest =>
    match e with
    | Event.cache_init cache =>
      page_loads (fun c => if c = cache then none else slots c) rest
    | Event.cache_free cache =>
      page_loads (fun c => if c = cache then none else slots c) rest
    | Event.get_element_value cache element_index =>
      (if slots cache = some element_index then 0 else 1)
        + page_loads (fun c => if c = cache then some element_index else slots c) rest
    | _ => page_loads slots rest

/-- Modelled from the spec: the page loads, with a loader that memoises through
the cache it is given, of the entry at `page_value_index` of a page whose child
page cache holds `slot`, and what the cache holds after the entry. An entry that
`branch_entries_of_value` counts requests its child page, which is a page load
unless the slot holds that page already; `below` gives the page loads of the
walk of the child page. -/
def page_loads_of_value (d : Definitions) (database : libesedb_database)
    (below : libesedb_page → Nat) (page : libesedb_page) (page_value_index : Nat)
    (slot : Option Int) : Nat × Option Int :=
  match page.values[page_value_index]? with
  | none => (0, slot)
  | some page_value =>
    if page_value.flags &&& d.LIBESEDB_PAGE_TAG_FLAG_IS_DEFUNCT ≠ 0 then (0, slot)
    else
      match database.page_tree.libesedb_page_tree_value_read_data page_value.data
          page_value.flags with
      | none => (0, slot)
      | some page_tree_value =>
        if (page.flags % 2 ^ 32) &&& d.LIBESEDB_PAGE_FLAG_IS_LEAF ≠ 0 then (0, slot)
        else if byte_stream_copy_to_uint32_little_endian page_tree_value.data > 0
            ∧ byte_stream_copy_to_uint32_little_endian page_tree_value.data
              ≤ database.page_tree.io_handle.last_page_number then
          match database.page_tree.pages_vector
              (to_int d (byte_stream_copy_to_uint32_little_endian page_tree_value.data) - 1) with
          | none =>
            ((if slot = some (to_int d
                  (byte_stream_copy_to_uint32_little_endian page_tree_value.data) - 1)
                then 0 else 1),
              some (to_int d
                (byte_stream_copy_to_uint32_little_endian page_tree_value.data) - 1))
          | some child_page =>
            ((if slot = some (to_int d
                  (byte_stream_copy_to_uint32_little_endian page_tree_value.data) - 1)
                then 0 else 1) + below child_page,
              some (to_int d
                (byte_stream_copy_to_uint32_little_endian page_tree_value.data) - 1))
        else (0, slot)

/-- Modelled from the spec: the page loads of `remaining` entries of a page from
`page_value_index` on, the child page cache holding `slot` before the first of
them. -/
def page_loads_of_values (d : Definitions) (database : libesedb_database)
    (below : libesedb_page → Nat) (page : libesedb_page) : Nat → Nat → Option Int → Nat
  | 0, _, _ => 0
  | remaining + 1, page_value_index, slot =>
    (page_loads_of_value d database below page page_value_index slot).1
      + page_loads_of_values d database below page remaining (page_value_index + 1)
          (page_loads_of_value d database below page page_value_index slot).2

/-- Modelled from the spec: the number of page loads below a page, that is the
branch entries that `branch_entries_in_range` counts, less those that name the page
the child page cache of their frame holds, which is the page of the entry
before them in the same frame that made a request; the cache of a frame is
empty when the frame begins. -/
def page_loads_below (d : Definitions) (database : libesedb_database) :
    Nat → libesedb_page → Nat
  | 0, _ => 0
  | levels + 1, page =>
    page_loads_of_values d database (page_loads_below d database levels) page
      (page.values.length - 1) 1 none

/-- The call `descend`, when it returns 1, has as many page loads as `below`
counts, whatever the caches held before, and names no cache older than
itself. -/
def LoadsExactly (descend : libesedb_page → State → Int × State)
    (below : libesedb_page → Nat) : Prop :=
  ∀ child_page s, (descend child_page s).1 = 1 →
    ∃ δ : List Event,
      (descend child_page s).2.trace = s.trace ++ δ
      ∧ (∀ slots : Nat → Option Int, page_loads slots δ = below child_page)
      ∧ ∀ e ∈ δ, ∀ cache, e.cache = some cache → s.next_cache ≤ cache

/-! ## The recursion equation -/

theorem levels_of_depth (d : Definitions) (recursion_depth : Int)
    (h : ¬ (recursion_depth < 0 ∨
      recursion_depth > d.LIBESEDB_MAXIMUM_INDEX_NODE_RECURSION_DEPTH)) :
    ((d.LIBESEDB_MAXIMUM_INDEX_NODE_RECURSION_DEPTH : Int) + 1 - recursion_depth).toNat
      = ((d.LIBESEDB_MAXIMUM_INDEX_NODE_RECURSION_DEPTH : Int) + 1
          - (recursion_depth + 1)).toNat + 1 := by
  omega

/-- The embedding satisfies the recursive equation of the source: the function
is its own body, the nested call being the function itself at
`recursion_depth + 1`. -/
theorem read_values_from_page_eq (d : Definitions) (database : libesedb_database)
    (page : libesedb_page) (recursion_depth : Int) (s : State) :
    libesedb_database_read_values_from_page d database page recursion_depth s
      = read_values_from_page_body d database
          (fun child_page s => libesedb_database_read_values_from_page d database child_page
            (recursion_depth + 1) s)
          page recursion_depth s := by
  by_cases h : recursion_depth < 0 ∨
      recursion_depth > d.LIBESEDB_MAXIMUM_INDEX_NODE_RECURSION_DEPTH
  · have hr : read_values_from_page_body d database
          (fun child_page s => libesedb_database_read_values_from_page d database child_page
            (recursion_depth + 1) s) page recursion_depth s = (-1, s) := by
      simp [read_values_from_page_body, h]
    rw [hr]
    unfold libesedb_database_read_values_from_page
    cases hl : ((d.LIBESEDB_MAXIMUM_INDEX_NODE_RECURSION_DEPTH : Int) + 1
        - recursion_depth).toNat with
    | zero => rfl
    | succ n => simp [read_values_from_page_levels, read_values_from_page_body, h]
  · unfold libesedb_database_read_values_from_page
    rw [levels_of_depth d recursion_depth h]
    rfl

/-- Outside the admissible depths the function returns -1 and does nothing. -/
theorem read_values_from_page_out_of_bounds (d : Definitions) (database : libesedb_database)
    (page : libesedb_page) (recursion_depth : Int) (s : State)
    (h : recursion_depth < 0 ∨
      recursion_depth > d.LIBESEDB_MAXIMUM_INDEX_NODE_RECURSION_DEPTH) :
    libesedb_database_read_values_from_page d database page recursion_depth s = (-1, s) := by
  rw [read_values_from_page_eq]
  simp [read_values_from_page_body, h]

/-- At an admissible depth the function runs its frame. -/
theorem read_values_from_page_in_bounds (d : Definitions) (database : libesedb_database)
    (page : libesedb_page) (recursion_depth : Int) (s : State)
    (h0 : 0 ≤ recursion_depth)
    (h1 : recursion_depth ≤ d.LIBESEDB_MAXIMUM_INDEX_NODE_RECURSION_DEPTH) :
    libesedb_database_read_values_from_page d database page recursion_depth s
      = read_values_from_page_frame d database
          (fun child_page s => libesedb_database_read_values_from_page d database child_page
            (recursion_depth + 1) s)
          page s := by
  rw [read_values_from_page_eq]
  have h : ¬ (recursion_depth < 0 ∨
      recursion_depth > d.LIBESEDB_MAXIMUM_INDEX_NODE_RECURSION_DEPTH) := by omega
  simp [read_values_from_page_body, h]

/-! ## The guard on the recursion depth and empty pages -/

/-- C4: a call whose `recursion_depth` is negative or greater than
`LIBESEDB_MAXIMUM_INDEX_NODE_RECURSION_DEPTH` returns -1 with the state
untouched (no event at all: neither the number of values nor the flags are
read, no page is loaded, `*leaf_value_index` keeps its value); hence a call
that does anything has a depth in the admissible range; and a call at depth
exactly the maximum runs its frame (its nested calls being the ones that are
refused), returning 1 on a page without values. -/
theorem recursion_depth_guard (d : Definitions) (database : libesedb_database)
    (page : libesedb_page) (recursion_depth : Int) (s : State) :
    ((recursion_depth < 0 ∨
        recursion_depth > d.LIBESEDB_MAXIMUM_INDEX_NODE_RECURSION_DEPTH) →
      libesedb_database_read_values_from_page d database page recursion_depth s = (-1, s))
    ∧ ((libesedb_database_read_values_from_page d database page recursion_depth s).2 ≠ s →
      0 ≤ recursion_depth ∧
        recursion_depth ≤ d.LIBESEDB_MAXIMUM_INDEX_NODE_RECURSION_DEPTH)
    ∧ libesedb_database_read_values_from_page d database page
        d.LIBESEDB_MAXIMUM_INDEX_NODE_RECURSION_DEPTH s
      = read_values_from_page_frame d database (fun _ s => (-1, s)) page s
    ∧ (page.values.length = 0 →
      libesedb_database_read_values_from_page d database page
        d.LIBESEDB_MAXIMUM_INDEX_NODE_RECURSION_DEPTH s
      = (1, s.emit (Event.get_number_of_values page.page_number))) := by
  have hframe : libesedb_database_read_values_from_page d database page
        d.LIBESEDB_MAXIMUM_INDEX_NODE_RECURSION_DEPTH s
      = read_values_from_page_frame d database (fun _ s => (-1, s)) page s := by
    rw [read_values_from_page_in_bounds d database page _ s (by omega) (by omega)]
    congr 1
    funext child_page s
    exact read_values_from_page_out_of_bounds d database child_page _ s (by omega)
  refine ⟨read_values_from_page_out_of_bounds d database page recursion_depth s, ?_, hframe, ?_⟩
  · intro hne
    by_contra hcon
    apply hne
    rw [read_values_from_page_out_of_bounds d database page recursion_depth s (by omega)]
  · intro hlen
    rw [hframe]
    simp [read_values_from_page_frame, libesedb_page_get_number_of_values, hlen]

/-- C4, at a concrete input: with the maximum at 256, depth 257 is refused and
depth 256 is accepted. -/
theorem recursion_depth_guard_witness :
    libesedb_database_read_values_from_page definitions (database_of 10 two_level_pages)
        { page_number := 9, flags := 2, values := [] } 257 State.initial
      = (-1, State.initial)
    ∧ libesedb_database_read_values_from_page definitions (database_of 10 two_level_pages)
        { page_number := 9, flags := 2, values := [] } 256 State.initial
      = (1, State.initial.emit (Event.get_number_of_values 9)) :=
  ⟨(recursion_depth_guard definitions (database_of 10 two_level_pages)
      { page_number := 9, flags := 2, values := [] } 257 State.initial).1 (by decide),
   (recursion_depth_guard definitions (database_of 10 two_level_pages)
      { page_number := 9, flags := 2, values := [] } 256 State.initial).2.2.2 (by decide)⟩

/-- C8: when the root page validates and holds its first tag only,
`libesedb_database_read_file_io_handle` returns 1, the trace showing one page
request (the root) and no leaf value; and on a page without values, at an
admissible depth, `libesedb_database_read_values_from_page` returns 1 right
after reading the number of values, whatever the page flags, the counter
unchanged. -/
theorem empty_root_page_and_empty_page (d : Definitions) (database : libesedb_database)
    (root_page page : libesedb_page) (recursion_depth : Int) (s : State) :
    (database.page_tree.pages_vector (to_int d d.LIBESEDB_PAGE_NUMBER_DATABASE - 1)
        = some root_page →
      database.page_tree.libesedb_page_validate_root_page root_page = true →
      root_page.values.length = 1 →
      libesedb_database_read_file_io_handle d database s
        = (1, { leaf_value_index := 0
                next_cache := s.next_cache + 2
                trace := s.trace ++
                  [Event.cache_init s.next_cache,
                   Event.get_element_value s.next_cache
                     (to_int d d.LIBESEDB_PAGE_NUMBER_DATABASE - 1),
                   Event.validate_root_page root_page.page_number,
                   Event.get_number_of_values root_page.page_number,
                   Event.get_flags root_page.page_number,
                   Event.cache_init (s.next_cache + 1),
                   Event.cache_free (s.next_cache + 1),
                   Event.cache_free s.next_cache] }))
    ∧ (0 ≤ recursion_depth →
      recursion_depth ≤ d.LIBESEDB_MAXIMUM_INDEX_NODE_RECURSION_DEPTH →
      page.values.length = 0 →
      libesedb_database_read_values_from_page d database page recursion_depth s
        = (1, { s with trace := s.trace ++ [Event.get_number_of_values page.page_number] })) := by
  constructor
  · intro hvec hval hlen
    unfold libesedb_database_read_file_io_handle
    simp only [hvec, hval]
    rw [read_values_from_page_in_bounds d database root_page 0 _ (by omega) (by omega)]
    simp [read_values_from_page_frame, libesedb_page_get_number_of_values, hlen,
      libesedb_page_get_flags, read_page_values, State.emit]
  · intro h0 h1 hlen
    rw [read_values_from_page_in_bounds d database page recursion_depth s h0 h1]
    simp [read_values_from_page_frame, libesedb_page_get_number_of_values, hlen, State.emit]

/-- C8, at a concrete input: a root page with its first tag only, and a page
without values at depth 3. -/
theorem empty_root_page_and_empty_page_witness :
    libesedb_database_read_file_io_handle definitions
        (database_of 10 fun element_index =>
          if element_index = 3 then some { page_number := 4, flags := 3, values := [root_tag] }
          else none) State.initial
      = (1, { leaf_value_index := 0
              next_cache := 2
              trace := [Event.cache_init 0, Event.get_element_value 0 3,
                Event.validate_root_page 4, Event.get_number_of_values 4, Event.get_flags 4,
                Event.cache_init 1, Event.cache_free 1, Event.cache_free 0] })
    ∧ libesedb_database_read_values_from_page definitions (database_of 10 two_level_pages)
        { page_number := 9, flags := 0, values := [] } 3 State.initial
      = (1, { leaf_value_index := 0, next_cache := 0,
              trace := [Event.get_number_of_values 9] }) :=
  ⟨(empty_root_page_and_empty_page definitions
      (database_of 10 fun element_index =>
          if element_index = 3 then some { page_number := 4, flags := 3, values := [root_tag] }
          else none)
      { page_number := 4, flags := 3, values := [root_tag] }
      { page_number := 9, flags := 0, values := [] } 3 State.initial).1
      (by decide) (by decide) (by decide),
   (empty_root_page_and_empty_page definitions (database_of 10 two_level_pages)
      { page_number := 4, flags := 3, values := [root_tag] }
      { page_number := 9, flags := 0, values := [] } 3 State.initial).2
      (by decide) (by decide) (by decide)⟩

/-! ## Page flags -/

theorem read_page_value_flags (d : Definitions) (database : libesedb_database)
    (descend : libesedb_page → State → Int × State) (page : libesedb_page)
    (flags page_flags page_flags' child_page_cache page_value_index : Nat) (s : State)
    (h : (page_flags' &&& d.LIBESEDB_PAGE_FLAG_IS_LEAF ≠ 0) ↔
      (page_flags &&& d.LIBESEDB_PAGE_FLAG_IS_LEAF ≠ 0)) :
    read_page_value d database descend { page with flags := flags } page_flags'
        child_page_cache page_value_index s
      = read_page_value d database descend page page_flags child_page_cache
          page_value_index s := by
  unfold read_page_value
  simp only [libesedb_page_get_value_by_index]
  by_cases hl : page_flags &&& d.LIBESEDB_PAGE_FLAG_IS_LEAF ≠ 0
  · have hl' := h.mpr hl
    simp [hl, hl']
  · have hl' : ¬ (page_flags' &&& d.LIBESEDB_PAGE_FLAG_IS_LEAF ≠ 0) := fun x => hl (h.mp x)
    simp [hl, hl']

theorem read_page_values_flags (d : Definitions) (database : libesedb_database)
    (descend : libesedb_page → State → Int × State) (page : libesedb_page)
    (flags page_flags page_flags' child_page_cache : Nat)
    (h : (page_flags' &&& d.LIBESEDB_PAGE_FLAG_IS_LEAF ≠ 0) ↔
      (page_flags &&& d.LIBESEDB_PAGE_FLAG_IS_LEAF ≠ 0))
    (remaining : Nat) :
    ∀ (page_value_index : Nat) (s : State),
    read_page_values d database descend { page with flags := flags } page_flags'
        child_page_cache remaining page_value_index s
      = read_page_values d database descend page page_flags child_page_cache
          remaining page_value_index s := by
  induction remaining with
  | zero => intro i s; rfl
  | succ n ih =>
    intro i s
    simp only [read_page_values]
    rw [read_page_value_flags d database descend page flags page_flags page_flags' _ _ _ h]
    cases read_page_value d database descend page page_flags child_page_cache i s with
    | next s2 => exact ih _ _
    | on_error live s2 => rfl

/-- C9 (amended): the page flags are not checked for consistency. The outcome of
`libesedb_database_read_values_from_page` depends on the page flags only through
the test `page_flags & LIBESEDB_PAGE_FLAG_IS_LEAF`: replacing the flags by any
others that agree on that test changes nothing, so `IS_PARENT` set or clear
makes no difference; and a page with one value only returns 1 at an admissible
depth whatever its flags. -/
theorem page_flags_only_leaf_test (d : Definitions) (database : libesedb_database)
    (page : libesedb_page) (flags : Nat) (recursion_depth : Int) (s : State) :
    (((flags % 2 ^ 32) &&& d.LIBESEDB_PAGE_FLAG_IS_LEAF ≠ 0 ↔
        (page.flags % 2 ^ 32) &&& d.LIBESEDB_PAGE_FLAG_IS_LEAF ≠ 0) →
      libesedb_database_read_values_from_page d database { page with flags := flags }
          recursion_depth s
        = libesedb_database_read_values_from_page d database page recursion_depth s)
    ∧ (0 ≤ recursion_depth →
      recursion_depth ≤ d.LIBESEDB_MAXIMUM_INDEX_NODE_RECURSION_DEPTH →
      page.values.length = 1 →
      (libesedb_database_read_values_from_page d database page recursion_depth s).1 = 1) := by
  constructor
  · intro h
    rw [read_values_from_page_eq d database page, read_values_from_page_eq d database _]
    unfold read_values_from_page_body
    split
    · rfl
    · unfold read_values_from_page_frame
      simp only [libesedb_page_get_number_of_values, libesedb_page_get_flags]
      split
      · rfl
      · rw [read_page_values_flags d database _ page flags _ _ _ h]
  · intro h0 h1 hlen
    rw [read_values_from_page_in_bounds d database page recursion_depth s h0 h1]
    simp [read_values_from_page_frame, libesedb_page_get_number_of_values, hlen,
      libesedb_page_get_flags, read_page_values]

/-- C9, at concrete inputs: a page with neither flag and a page with both flags
are walked without failure. -/
theorem page_flags_not_checked :
    (libesedb_database_read_values_from_page definitions (database_of 10 two_level_pages)
        { page_number := 9, flags := 0, values := [root_tag] } 0 State.initial).1 = 1
    ∧ (libesedb_database_read_values_from_page definitions (database_of 10 two_level_pages)
        { page_number := 9, flags := 6, values := [root_tag, leaf_value 0 65] } 0
        State.initial).1 = 1 := by
  decide

/-- C9 (amended), at a concrete input: setting `IS_PARENT` on a leaf page
changes nothing. -/
theorem page_flags_only_leaf_test_witness :
    libesedb_database_read_values_from_page definitions (database_of 10 two_level_pages)
        { page_number := 9, flags := 6, values := [root_tag, leaf_value 0 65] } 0 State.initial
      = libesedb_database_read_values_from_page definitions (database_of 10 two_level_pages)
        { page_number := 9, flags := 2, values := [root_tag, leaf_value 0 65] } 0 State.initial
    ∧ (libesedb_database_read_values_from_page definitions (database_of 10 two_level_pages)
        { page_number := 9, flags := 0, values := [root_tag] } 0 State.initial).1 = 1 :=
  ⟨(page_flags_only_leaf_test definitions (database_of 10 two_level_pages)
      { page_number := 9, flags := 2, values := [root_tag, leaf_value 0 65] } 6 0
      State.initial).1 (by decide),
   (page_flags_only_leaf_test definitions (database_of 10 two_level_pages)
      { page_number := 9, flags := 0, values := [root_tag] } 0 0
      State.initial).2 (by decide) (by decide) (by decide)⟩

/-! ## The loop body, case by case -/

theorem read_page_value_absent (d : Definitions) (database : libesedb_database)
    (descend : libesedb_page → State → Int × State) (page : libesedb_page)
    (page_flags child_page_cache page_value_index : Nat) (s : State)
    (hv : page.values[page_value_index]? = none) :
    read_page_value d database descend page page_flags child_page_cache page_value_index s
      = Step.on_error false
          (s.emit (Event.get_value_by_index page.page_number page_value_index)) := by
  simp [read_page_value, libesedb_page_get_value_by_index, hv]

theorem read_page_value_defunct (d : Definitions) (database : libesedb_database)
    (descend : libesedb_page → State → Int × State) (page : libesedb_page)
    (page_flags child_page_cache page_value_index : Nat) (s : State)
    (page_value : libesedb_page_value)
    (hv : page.values[page_value_index]? = some page_value)
    (hd : page_value.flags &&& d.LIBESEDB_PAGE_TAG_FLAG_IS_DEFUNCT ≠ 0) :
    read_page_value d database descend page page_flags child_page_cache page_value_index s
      = Step.next (s.emit (Event.get_value_by_index page.page_number page_value_index)) := by
  simp [read_page_value, libesedb_page_get_value_by_index, hv, hd]

theorem read_page_value_unparsed (d : Definitions) (database : libesedb_database)
    (descend : libesedb_page → State → Int × State) (page : libesedb_page)
    (page_flags child_page_cache page_value_index : Nat) (s : State)
    (page_value : libesedb_page_value)
    (hv : page.values[page_value_index]? = some page_value)
    (hd : page_value.flags &&& d.LIBESEDB_PAGE_TAG_FLAG_IS_DEFUNCT = 0)
    (hp : database.page_tree.libesedb_page_tree_value_read_data page_value.data
      page_value.flags = none) :
    read_page_value d database descend page page_flags child_page_cache page_value_index s
      = Step.on_error true (s.value_read page page_value_index page_value) := by
  simp [read_page_value, libesedb_page_get_value_by_index, hv, hd, hp, State.value_read]

theorem read_page_value_leaf (d : Definitions) (database : libesedb_database)
    (descend : libesedb_page → State → Int × State) (page : libesedb_page)
    (page_flags child_page_cache page_value_index : Nat) (s : State)
    (page_value : libesedb_page_value) (page_tree_value : libesedb_page_tree_value)
    (hv : page.values[page_value_index]? = some page_value)
    (hd : page_value.flags &&& d.LIBESEDB_PAGE_TAG_FLAG_IS_DEFUNCT = 0)
    (hp : database.page_tree.libesedb_page_tree_value_read_data page_value.data
      page_value.flags = some page_tree_value)
    (hl : page_flags &&& d.LIBESEDB_PAGE_FLAG_IS_LEAF ≠ 0) :
    read_page_value d database descend page page_flags child_page_cache page_value_index s
      = Step.next
          { leaf_value_index := int_cast d (s.leaf_value_index + 1)
            next_cache := s.next_cache
            trace := (s.value_read page page_value_index page_value).trace ++
              [Event.leaf_value s.leaf_value_index page.page_number page_value_index
                page_tree_value, Event.value_free] } := by
  simp [read_page_value, libesedb_page_get_value_by_index, hv, hd, hp, hl, State.value_read,
    State.emit]

theorem read_page_value_short (d : Definitions) (database : libesedb_database)
    (descend : libesedb_page → State → Int × State) (page : libesedb_page)
    (page_flags child_page_cache page_value_index : Nat) (s : State)
    (page_value : libesedb_page_value) (page_tree_value : libesedb_page_tree_value)
    (hv : page.values[page_value_index]? = some page_value)
    (hd : page_value.flags &&& d.LIBESEDB_PAGE_TAG_FLAG_IS_DEFUNCT = 0)
    (hp : database.page_tree.libesedb_page_tree_value_read_data page_value.data
      page_value.flags = some page_tree_value)
    (hl : page_flags &&& d.LIBESEDB_PAGE_FLAG_IS_LEAF = 0)
    (hs : page_tree_value.data_size < 4) :
    read_page_value d database descend page page_flags child_page_cache page_value_index s
      = Step.on_error true (s.value_read page page_value_index page_value) := by
  simp [read_page_value, libesedb_page_get_value_by_index, hv, hd, hp, hl, hs, State.value_read]

theorem read_page_value_out_of_bounds (d : Definitions) (database : libesedb_database)
    (descend : libesedb_page → State → Int × State) (page : libesedb_page)
    (page_flags child_page_cache page_value_index : Nat) (s : State)
    (page_value : libesedb_page_value) (page_tree_value : libesedb_page_tree_value)
    (hv : page.values[page_value_index]? = some page_value)
    (hd : page_value.flags &&& d.LIBESEDB_PAGE_TAG_FLAG_IS_DEFUNCT = 0)
    (hp : database.page_tree.libesedb_page_tree_value_read_data page_value.data
      page_value.flags = some page_tree_value)
    (hl : page_flags &&& d.LIBESEDB_PAGE_FLAG_IS_LEAF = 0)
    (hs : ¬ page_tree_value.data_size < 4)
    (hb : child_page_number_out_of_bounds d
      (byte_stream_copy_to_uint32_little_endian page_tree_value.data) = true) :
    read_page_value d database descend page page_flags child_page_cache page_value_index s
      = Step.on_error true (s.value_read page page_value_index page_value) := by
  simp [read_page_value, libesedb_page_get_value_by_index, hv, hd, hp, hl, hs, hb,
    State.value_read]

theorem read_page_value_skipped (d : Definitions) (database : libesedb_database)
    (descend : libesedb_page → State → Int × State) (page : libesedb_page)
    (page_flags child_page_cache page_value_index : Nat) (s : State)
    (page_value : libesedb_page_value) (page_tree_value : libesedb_page_tree_value)
    (hv : page.values[page_value_index]? = some page_value)
    (hd : page_value.flags &&& d.LIBESEDB_PAGE_TAG_FLAG_IS_DEFUNCT = 0)
    (hp : database.page_tree.libesedb_page_tree_value_read_data page_value.data
      page_value.flags = some page_tree_value)
    (hl : page_flags &&& d.LIBESEDB_PAGE_FLAG_IS_LEAF = 0)
    (hs : ¬ page_tree_value.data_size < 4)
    (hb : child_page_number_out_of_bounds d
      (byte_stream_copy_to_uint32_little_endian page_tree_value.data) = false)
    (hr : ¬ (byte_stream_copy_to_uint32_little_endian page_tree_value.data > 0
      ∧ byte_stream_copy_to_uint32_little_endian page_tree_value.data
        ≤ database.page_tree.io_handle.last_page_number)) :
    read_page_value d database descend page page_flags child_page_cache page_value_index s
      = Step.next ((s.value_read page page_value_index page_value).emit Event.value_free) := by
  simp only [read_page_value, libesedb_page_get_value_by_index, hv, hd, hp, hl, hs, hb, hr,
    State.value_read]
  simp

theorem read_page_value_load_failed (d : Definitions) (database : libesedb_database)
    (descend : libesedb_page → State → Int × State) (page : libesedb_page)
    (page_flags child_page_cache page_value_index : Nat) (s : State)
    (page_value : libesedb_page_value) (page_tree_value : libesedb_page_tree_value)
    (hv : page.values[page_value_index]? = some page_value)
    (hd : page_value.flags &&& d.LIBESEDB_PAGE_TAG_FLAG_IS_DEFUNCT = 0)
    (hp : database.page_tree.libesedb_page_tree_value_read_data page_value.data
      page_value.flags = some page_tree_value)
    (hl : page_flags &&& d.LIBESEDB_PAGE_FLAG_IS_LEAF = 0)
    (hs : ¬ page_tree_value.data_size < 4)
    (hb : child_page_number_out_of_bounds d
      (byte_stream_copy_to_uint32_little_endian page_tree_value.data) = false)
    (hr : byte_stream_copy_to_uint32_little_endian page_tree_value.data > 0
      ∧ byte_stream_copy_to_uint32_little_endian page_tree_value.data
        ≤ database.page_tree.io_handle.last_page_number)
    (hc : database.page_tree.pages_vector
      (to_int d (byte_stream_copy_to_uint32_little_endian page_tree_value.data) - 1) = none) :
    read_page_value d database descend page page_flags child_page_cache page_value_index s
      = Step.on_error true
          ((s.value_read page page_value_index page_value).emit
            (Event.get_element_value child_page_cache
              (to_int d (byte_stream_copy_to_uint32_little_endian page_tree_value.data) - 1))) := by
  simp only [read_page_value, libesedb_page_get_value_by_index, hv, hd, hp, hl, hs, hb, hr,
    hc, State.value_read]
  simp

theorem read_page_value_invalid (d : Definitions) (database : libesedb_database)
    (descend : libesedb_page → State → Int × State) (page : libesedb_page)
    (page_flags child_page_cache page_value_index : Nat) (s : State)
    (page_value : libesedb_page_value) (page_tree_value : libesedb_page_tree_value)
    (child_page : libesedb_page)
    (hv : page.values[page_value_index]? = some page_value)
    (hd : page_value.flags &&& d.LIBESEDB_PAGE_TAG_FLAG_IS_DEFUNCT = 0)
    (hp : database.page_tree.libesedb_page_tree_value_read_data page_value.data
      page_value.flags = some page_tree_value)
    (hl : page_flags &&& d.LIBESEDB_PAGE_FLAG_IS_LEAF = 0)
    (hs : ¬ page_tree_value.data_size < 4)
    (hb : child_page_number_out_of_bounds d
      (byte_stream_copy_to_uint32_little_endian page_tree_value.data) = false)
    (hr : byte_stream_copy_to_uint32_little_endian page_tree_value.data > 0
      ∧ byte_stream_copy_to_uint32_little_endian page_tree_value.data
        ≤ database.page_tree.io_handle.last_page_number)
    (hc : database.page_tree.pages_vector
      (to_int d (byte_stream_copy_to_uint32_little_endian page_tree_value.data) - 1)
        = some child_page)
    (hq : database.page_tree.libesedb_page_validate_page child_page = false) :
    read_page_value d database descend page page_flags child_page_cache page_value_index s
      = Step.on_error true
          (((s.value_read page page_value_index page_value).emit
            (Event.get_element_value child_page_cache
              (to_int d (byte_stream_copy_to_uint32_little_endian page_tree_value.data) - 1))).emit
            (Event.validate_page child_page.page_number)) := by
  simp only [read_page_value, libesedb_page_get_value_by_index, hv, hd, hp, hl, hs, hb, hr,
    hc, hq, State.value_read]
  simp

theorem read_page_value_descend (d : Definitions) (database : libesedb_database)
    (descend : libesedb_page → State → Int × State) (page : libesedb_page)
    (page_flags child_page_cache page_value_index : Nat) (s : State)
    (page_value : libesedb_page_value) (page_tree_value : libesedb_page_tree_value)
    (child_page : libesedb_page)
    (hv : page.values[page_value_index]? = some page_value)
    (hd : page_value.flags &&& d.LIBESEDB_PAGE_TAG_FLAG_IS_DEFUNCT = 0)
    (hp : database.page_tree.libesedb_page_tree_value_read_data page_value.data
      page_value.flags = some page_tree_value)
    (hl : page_flags &&& d.LIBESEDB_PAGE_FLAG_IS_LEAF = 0)
    (hs : ¬ page_tree_value.data_size < 4)
    (hb : child_page_number_out_of_bounds d
      (byte_stream_copy_to_uint32_little_endian page_tree_value.data) = false)
    (hr : byte_stream_copy_to_uint32_little_endian page_tree_value.data > 0
      ∧ byte_stream_copy_to_uint32_little_endian page_tree_value.data
        ≤ database.page_tree.io_handle.last_page_number)
    (hc : database.page_tree.pages_vector
      (to_int d (byte_stream_copy_to_uint32_little_endian page_tree_value.data) - 1)
        = some child_page)
    (hq : database.page_tree.libesedb_page_validate_page child_page = true) :
    read_page_value d database descend page page_flags child_page_cache page_value_index s
      = (if (descend child_page
            (((s.value_read page page_value_index page_value).emit
              (Event.get_element_value child_page_cache
                (to_int d (byte_stream_copy_to_uint32_little_endian page_tree_value.data) - 1))).emit
              (Event.validate_page child_page.page_number))).1 ≠ 1 then
          Step.on_error true (descend child_page
            (((s.value_read page page_value_index page_value).emit
              (Event.get_element_value child_page_cache
                (to_int d (byte_stream_copy_to_uint32_little_endian page_tree_value.data) - 1))).emit
              (Event.validate_page child_page.page_number))).2
        else
          Step.next ((descend child_page
            (((s.value_read page page_value_index page_value).emit
              (Event.get_element_value child_page_cache
                (to_int d (byte_stream_copy_to_uint32_little_endian page_tree_value.data) - 1))).emit
              (Event.validate_page child_page.page_number))).2.emit Event.value_free)) := by
  simp only [read_page_value, libesedb_page_get_value_by_index, hv, hd, hp, hl, hs, hb, hr,
    hc, hq, State.value_read]
  simp

/-- Case analysis of one pass through the loop body: a property of its outcome
holds as soon as it holds in each of the ten ways the pass can end. -/
theorem read_page_value_cases (d : Definitions) (database : libesedb_database)
    (descend : libesedb_page → State → Int × State) (page : libesedb_page)
    (page_flags child_page_cache page_value_index : Nat) (s : State) (P : Step → Prop)
    (absent : page.values[page_value_index]? = none →
      P (Step.on_error false
        (s.emit (Event.get_value_by_index page.page_number page_value_index))))
    (defunct : ∀ page_value, page.values[page_value_index]? = some page_value →
      page_value.flags &&& d.LIBESEDB_PAGE_TAG_FLAG_IS_DEFUNCT ≠ 0 →
      P (Step.next (s.emit (Event.get_value_by_index page.page_number page_value_index))))
    (unparsed : ∀ page_value, page.values[page_value_index]? = some page_value →
      page_value.flags &&& d.LIBESEDB_PAGE_TAG_FLAG_IS_DEFUNCT = 0 →
      database.page_tree.libesedb_page_tree_value_read_data page_value.data
        page_value.flags = none →
      P (Step.on_error true (s.value_read page page_value_index page_value)))
    (leaf : ∀ page_value page_tree_value,
      page.values[page_value_index]? = some page_value →
      page_value.flags &&& d.LIBESEDB_PAGE_TAG_FLAG_IS_DEFUNCT = 0 →
      database.page_tree.libesedb_page_tree_value_read_data page_value.data
        page_value.flags = some page_tree_value →
      page_flags &&& d.LIBESEDB_PAGE_FLAG_IS_LEAF ≠ 0 →
      P (Step.next
          { leaf_value_index := int_cast d (s.leaf_value_index + 1)
            next_cache := s.next_cache
            trace := (s.value_read page page_value_index page_value).trace ++
              [Event.leaf_value s.leaf_value_index page.page_number page_value_index
                page_tree_value, Event.value_free] }))
    (short : ∀ page_value page_tree_value,
      page.values[page_value_index]? = some page_value →
      page_value.flags &&& d.LIBESEDB_PAGE_TAG_FLAG_IS_DEFUNCT = 0 →
      database.page_tree.libesedb_page_tree_value_read_data page_value.data
        page_value.flags = some page_tree_value →
      page_flags &&& d.LIBESEDB_PAGE_FLAG_IS_LEAF = 0 →
      page_tree_value.data_size < 4 →
      P (Step.on_error true (s.value_read page page_value_index page_value)))
    (out_of_bounds : ∀ page_value page_tree_value,
      page.values[page_value_index]? = some page_value →
      page_value.flags &&& d.LIBESEDB_PAGE_TAG_FLAG_IS_DEFUNCT = 0 →
      database.page_tree.libesedb_page_tree_value_read_data page_value.data
        page_value.flags = some page_tree_value →
      page_flags &&& d.LIBESEDB_PAGE_FLAG_IS_LEAF = 0 →
      ¬ page_tree_value.data_size < 4 →
      child_page_number_out_of_bounds d
        (byte_stream_copy_to_uint32_little_endian page_tree_value.data) = true →
      P (Step.on_error true (s.value_read page page_value_index page_value)))
    (skipped : ∀ page_value page_tree_value,
      page.values[page_value_index]? = some page_value →
      page_value.flags &&& d.LIBESEDB_PAGE_TAG_FLAG_IS_DEFUNCT = 0 →
      database.page_tree.libesedb_page_tree_value_read_data page_value.data
        page_value.flags = some page_tree_value →
      page_flags &&& d.LIBESEDB_PAGE_FLAG_IS_LEAF = 0 →
      ¬ page_tree_value.data_size < 4 →
      child_page_number_out_of_bounds d
        (byte_stream_copy_to_uint32_little_endian page_tree_value.data) = false →
      ¬ (byte_stream_copy_to_uint32_little_endian page_tree_value.data > 0
        ∧ byte_stream_copy_to_uint32_little_endian page_tree_value.data
          ≤ database.page_tree.io_handle.last_page_number) →
      P (Step.next ((s.value_read page page_value_index page_value).emit Event.value_free)))
    (load_failed : ∀ page_value page_tree_value,
      page.values[page_value_index]? = some page_value →
      page_value.flags &&& d.LIBESEDB_PAGE_TAG_FLAG_IS_DEFUNCT = 0 →
      database.page_tree.libesedb_page_tree_value_read_data page_value.data
        page_value.flags = some page_tree_value →
      page_flags &&& d.LIBESEDB_PAGE_FLAG_IS_LEAF = 0 →
      ¬ page_tree_value.data_size < 4 →
      child_page_number_out_of_bounds d
        (byte_stream_copy_to_uint32_little_endian page_tree_value.data) = false →
      (byte_stream_copy_to_uint32_little_endian page_tree_value.data > 0
        ∧ byte_stream_copy_to_uint32_little_endian page_tree_value.data
          ≤ database.page_tree.io_handle.last_page_number) →
      database.page_tree.pages_vector
        (to_int d (byte_stream_copy_to_uint32_little_endian page_tree_value.data) - 1) = none →
      P (Step.on_error true
          ((s.value_read page page_value_index page_value).emit
            (Event.get_element_value child_page_cache
              (to_int d (byte_stream_copy_to_uint32_little_endian page_tree_value.data) - 1)))))
    (invalid : ∀ page_value page_tree_value child_page,
      page.values[page_value_index]? = some page_value →
      page_value.flags &&& d.LIBESEDB_PAGE_TAG_FLAG_IS_DEFUNCT = 0 →
      database.page_tree.libesedb_page_tree_value_read_data page_value.data
        page_value.flags = some page_tree_value →
      page_flags &&& d.LIBESEDB_PAGE_FLAG_IS_LEAF = 0 →
      ¬ page_tree_value.data_size < 4 →
      child_page_number_out_of_bounds d
        (byte_stream_copy_to_uint32_little_endian page_tree_value.data) = false →
      (byte_stream_copy_to_uint32_little_endian page_tree_value.data > 0
        ∧ byte_stream_copy_to_uint32_little_endian page_tree_value.data
          ≤ database.page_tree.io_handle.last_page_number) →
      database.page_tree.pages_vector
        (to_int d (byte_stream_copy_to_uint32_little_endian page_tree_value.data) - 1)
          = some child_page →
      database.page_tree.libesedb_page_validate_page child_page = false →
      P (Step.on_error true
          (((s.value_read page page_value_index page_value).emit
            (Event.get_element_value child_page_cache
              (to_int d (byte_stream_copy_to_uint32_little_endian page_tree_value.data) - 1))).emit
            (Event.validate_page child_page.page_number))))
    (nested : ∀ page_value page_tree_value child_page,
      page.values[page_value_index]? = some page_value →
      page_value.flags &&& d.LIBESEDB_PAGE_TAG_FLAG_IS_DEFUNCT = 0 →
      database.page_tree.libesedb_page_tree_value_read_data page_value.data
        page_value.flags = some page_tree_value →
      page_flags &&& d.LIBESEDB_PAGE_FLAG_IS_LEAF = 0 →
      ¬ page_tree_value.data_size < 4 →
      child_page_number_out_of_bounds d
        (byte_stream_copy_to_uint32_little_endian page_tree_value.data) = false →
      (byte_stream_copy_to_uint32_little_endian page_tree_value.data > 0
        ∧ byte_stream_copy_to_uint32_little_endian page_tree_value.data
          ≤ database.page_tree.io_handle.last_page_number) →
      database.page_tree.pages_vector
        (to_int d (byte_stream_copy_to_uint32_little_endian page_tree_value.data) - 1)
          = some child_page →
      database.page_tree.libesedb_page_validate_page child_page = true →
      P (if (descend child_page
            (((s.value_read page page_value_index page_value).emit
              (Event.get_element_value child_page_cache
                (to_int d (byte_stream_copy_to_uint32_little_endian page_tree_value.data) - 1))).emit
              (Event.validate_page child_page.page_number))).1 ≠ 1 then
          Step.on_error true (descend child_page
            (((s.value_read page page_value_index page_value).emit
              (Event.get_element_value child_page_cache
                (to_int d (byte_stream_copy_to_uint32_little_endian page_tree_value.data) - 1))).emit
              (Event.validate_page child_page.page_number))).2
        else
          Step.next ((descend child_page
            (((s.value_read page page_value_index page_value).emit
              (Event.get_element_value child_page_cache
                (to_int d (byte_stream_copy_to_uint32_little_endian page_tree_value.data) - 1))).emit
              (Event.validate_page child_page.page_number))).2.emit Event.value_free))) :
    P (read_page_value d database descend page page_flags child_page_cache
      page_value_index s) := by
  cases hv : page.values[page_value_index]? with
  | none => rw [read_page_value_absent _ _ _ _ _ _ _ _ hv]; exact absent hv
  | some page_value =>
    by_cases hd : page_value.flags &&& d.LIBESEDB_PAGE_TAG_FLAG_IS_DEFUNCT = 0
    swap
    · rw [read_page_value_defunct _ _ _ _ _ _ _ _ _ hv hd]; exact defunct _ hv hd
    cases hp : database.page_tree.libesedb_page_tree_value_read_data page_value.data
        page_value.flags with
    | none => rw [read_page_value_unparsed _ _ _ _ _ _ _ _ _ hv hd hp]; exact unparsed _ hv hd hp
    | some page_tree_value =>
      by_cases hl : page_flags &&& d.LIBESEDB_PAGE_FLAG_IS_LEAF = 0
      swap
      · rw [read_page_value_leaf _ _ _ _ _ _ _ _ _ _ hv hd hp hl]; exact leaf _ _ hv hd hp hl
      by_cases hs : page_tree_value.data_size < 4
      · rw [read_page_value_short _ _ _ _ _ _ _ _ _ _ hv hd hp hl hs]
        exact short _ _ hv hd hp hl hs
      cases hb : child_page_number_out_of_bounds d
          (byte_stream_copy_to_uint32_little_endian page_tree_value.data) with
      | true =>
        rw [read_page_value_out_of_bounds _ _ _ _ _ _ _ _ _ _ hv hd hp hl hs hb]
        exact out_of_bounds _ _ hv hd hp hl hs hb
      | false =>
        by_cases hr : byte_stream_copy_to_uint32_little_endian page_tree_value.data > 0
            ∧ byte_stream_copy_to_uint32_little_endian page_tree_value.data
              ≤ database.page_tree.io_handle.last_page_number
        swap
        · rw [read_page_value_skipped _ _ _ _ _ _ _ _ _ _ hv hd hp hl hs hb hr]
          exact skipped _ _ hv hd hp hl hs hb hr
        cases hc : database.page_tree.pages_vector
            (to_int d (byte_stream_copy_to_uint32_little_endian page_tree_value.data) - 1) with
        | none =>
          rw [read_page_value_load_failed _ _ _ _ _ _ _ _ _ _ hv hd hp hl hs hb hr hc]
          exact load_failed _ _ hv hd hp hl hs hb hr hc
        | some child_page =>
          cases hq : database.page_tree.libesedb_page_validate_page child_page with
          | false =>
            rw [read_page_value_invalid _ _ _ _ _ _ _ _ _ _ _ hv hd hp hl hs hb hr hc hq]
            exact invalid _ _ _ hv hd hp hl hs hb hr hc hq
          | true =>
            rw [read_page_value_descend _ _ _ _ _ _ _ _ _ _ _ hv hd hp hl hs hb hr hc hq]
            exact nested _ _ _ hv hd hp hl hs hb hr hc hq

/-! ## The value loop and the frame -/

/-- The frame of a page with at least one value: enter the loop, run it over the
indexes from 1 on, leave it. -/
theorem read_values_from_page_frame_eq (d : Definitions) (database : libesedb_database)
    (descend : libesedb_page → State → Int × State) (page : libesedb_page) (s : State)
    (hne : page.values.length ≠ 0) :
    read_values_from_page_frame d database descend page s
      = leave_loop s.next_cache
          (read_page_values d database descend page (page.flags % 2 ^ 32) s.next_cache
            (page.values.length - 1) 1 (s.enter_loop page)) := by
  simp only [read_values_from_page_frame, libesedb_page_get_number_of_values,
    libesedb_page_get_flags, hne, if_false]
  have hgen : ∀ st : Step,
      (match st with
        | Step.on_error live s2 => on_error live (some s.next_cache) s2
        | Step.next s2 => ((1 : Int), s2.emit (Event.cache_free s.next_cache)))
      = leave_loop s.next_cache st := by
    intro st
    cases st <;> rfl
  exact hgen _

/-- The loop over `a + b` indexes is the loop over the first `a` followed, when
no pass jumped to `on_error`, by the loop over the next `b`. -/
theorem read_page_values_split (d : Definitions) (database : libesedb_database)
    (descend : libesedb_page → State → Int × State) (page : libesedb_page)
    (page_flags child_page_cache : Nat) (a b : Nat) :
    ∀ (page_value_index : Nat) (s : State), page_value_index + a ≤ 65535 →
    read_page_values d database descend page page_flags child_page_cache (a + b)
        page_value_index s
      = match read_page_values d database descend page page_flags child_page_cache a
          page_value_index s with
        | Step.next s2 => read_page_values d database descend page page_flags
            child_page_cache b (page_value_index + a) s2
        | Step.on_error live s2 => Step.on_error live s2 := by
  induction a with
  | zero => intro i s _; simp [read_page_values]
  | succ n ih =>
    intro i s hi
    have hadd : n + 1 + b = (n + b) + 1 := by omega
    rw [hadd]
    simp only [read_page_values]
    cases read_page_value d database descend page page_flags child_page_cache i s with
    | on_error live s2 => rfl
    | next s2 =>
      have hmod : (i + 1) % 2 ^ 16 = i + 1 := Nat.mod_eq_of_lt (by omega)
      simp only [hmod]
      rw [ih (i + 1) s2 (by omega)]
      have hidx : i + 1 + n = i + (n + 1) := by omega
      rw [hidx]

/-- The frame seen from the entry at `page_value_index`: the loop over the
entries before it, the pass for the entry, the loop over the entries after it. -/
theorem read_values_from_page_frame_at (d : Definitions) (database : libesedb_database)
    (descend : libesedb_page → State → Int × State) (page : libesedb_page) (s : State)
    (page_value_index : Nat) (h1 : 1 ≤ page_value_index)
    (hn : page_value_index < page.values.length) :
    read_values_from_page_frame d database descend page s
      = match read_page_values d database descend page (page.flags % 2 ^ 32) s.next_cache
          (page_value_index - 1) 1 (s.enter_loop page) with
        | Step.on_error live s2 => on_error live (some s.next_cache) s2
        | Step.next s2 =>
          match read_page_value d database descend page (page.flags % 2 ^ 32) s.next_cache
              page_value_index s2 with
          | Step.on_error live s3 => on_error live (some s.next_cache) s3
          | Step.next s3 =>
            leave_loop s.next_cache
              (read_page_values d database descend page (page.flags % 2 ^ 32) s.next_cache
                (page.values.length - 1 - page_value_index) (page_value_index + 1) s3) := by
  have hfit := page.number_of_values_fits
  rw [read_values_from_page_frame_eq d database descend page s (by omega)]
  have hlen : page.values.length - 1
      = (page_value_index - 1) + ((page.values.length - 1 - page_value_index) + 1) := by omega
  conv_lhs => rw [hlen, read_page_values_split d database descend page _ _ _ _ 1 _ (by omega)]
  cases read_page_values d database descend page (page.flags % 2 ^ 32) s.next_cache
      (page_value_index - 1) 1 (s.enter_loop page) with
  | on_error live s2 => rfl
  | next s2 =>
    have hidx : 1 + (page_value_index - 1) = page_value_index := by omega
    simp only [hidx, read_page_values]
    cases read_page_value d database descend page (page.flags % 2 ^ 32) s.next_cache
        page_value_index s2 with
    | on_error live s3 => rfl
    | next s3 =>
      have hmod : (page_value_index + 1) % 2 ^ 16 = page_value_index + 1 :=
        Nat.mod_eq_of_lt (by omega)
      simp only [hmod]

theorem index_lt_of_value {α : Type} (l : List α) (i : Nat) (a : α) (h : l[i]? = some a) :
    i < l.length := by
  by_contra hcon
  have hnone : l[i]? = none := List.getElem?_eq_none (by omega)
  rw [hnone] at h
  cases h

/-- A pass that jumps to `on_error` ends the function with -1; at an admissible
depth, when the passes before it all reached the end of the loop body, the
final state is the state of the jump followed by the releases of `on_error`. -/
theorem read_values_from_page_fails_at (d : Definitions) (database : libesedb_database)
    (page : libesedb_page) (recursion_depth : Int) (s : State) (page_value_index : Nat)
    (live : Bool) (after : State → State)
    (hi : 1 ≤ page_value_index) (hn : page_value_index < page.values.length)
    (hfail : ∀ s2, read_page_value d database
        (fun child_page s => libesedb_database_read_values_from_page d database child_page
          (recursion_depth + 1) s)
        page (page.flags % 2 ^ 32) s.next_cache page_value_index s2
      = Step.on_error live (after s2)) :
    (libesedb_database_read_values_from_page d database page recursion_depth s).1 = -1
    ∧ (0 ≤ recursion_depth →
      recursion_depth ≤ d.LIBESEDB_MAXIMUM_INDEX_NODE_RECURSION_DEPTH →
      ∀ s2, read_page_values d database
          (fun child_page s => libesedb_database_read_values_from_page d database child_page
            (recursion_depth + 1) s)
          page (page.flags % 2 ^ 32) s.next_cache (page_value_index - 1) 1 (s.enter_loop page)
        = Step.next s2 →
      libesedb_database_read_values_from_page d database page recursion_depth s
        = on_error live (some s.next_cache) (after s2)) := by
  by_cases hguard : recursion_depth < 0 ∨
      recursion_depth > d.LIBESEDB_MAXIMUM_INDEX_NODE_RECURSION_DEPTH
  · rw [read_values_from_page_out_of_bounds d database page recursion_depth s hguard]
    refine ⟨rfl, ?_⟩
    intro h0 h1
    omega
  · have h0 : 0 ≤ recursion_depth := by omega
    have h1 : recursion_depth ≤ d.LIBESEDB_MAXIMUM_INDEX_NODE_RECURSION_DEPTH := by omega
    rw [read_values_from_page_in_bounds d database page recursion_depth s h0 h1,
      read_values_from_page_frame_at d database _ page s page_value_index hi hn]
    cases hpre : read_page_values d database
        (fun child_page s => libesedb_database_read_values_from_page d database child_page
          (recursion_depth + 1) s)
        page (page.flags % 2 ^ 32) s.next_cache (page_value_index - 1) 1
        (s.enter_loop page) with
    | on_error live2 s2 =>
      refine ⟨by simp [on_error], ?_⟩
      intro _ _ s3 h3
      cases h3
    | next s2 =>
      simp only [hfail s2]
      refine ⟨by simp [on_error], ?_⟩
      intro _ _ s3 h3
      cases h3
      rfl

/-! ## Branch entries that fail or are skipped -/

/-- C6: on a page without the LEAF flag, a value at an index of 1 or more that
is not defunct and parses to less than four bytes of data makes
`libesedb_database_read_values_from_page` return -1; at an admissible depth,
when the entries before it were passed, the call ends at that entry: after the
parse the trace holds only the release of the page tree value and of the child
page cache, so no page is requested for the entry and no leaf value is visited
after it. -/
theorem short_branch_value_fails (d : Definitions) (database : libesedb_database)
    (page : libesedb_page) (recursion_depth : Int) (s : State) (page_value_index : Nat)
    (page_value : libesedb_page_value) (page_tree_value : libesedb_page_tree_value)
    (hi : 1 ≤ page_value_index)
    (hv : page.values[page_value_index]? = some page_value)
    (hd : page_value.flags &&& d.LIBESEDB_PAGE_TAG_FLAG_IS_DEFUNCT = 0)
    (hp : database.page_tree.libesedb_page_tree_value_read_data page_value.data
      page_value.flags = some page_tree_value)
    (hl : (page.flags % 2 ^ 32) &&& d.LIBESEDB_PAGE_FLAG_IS_LEAF = 0)
    (hs : page_tree_value.data_size < 4) :
    (libesedb_database_read_values_from_page d database page recursion_depth s).1 = -1
    ∧ (0 ≤ recursion_depth →
      recursion_depth ≤ d.LIBESEDB_MAXIMUM_INDEX_NODE_RECURSION_DEPTH →
      ∀ s2, read_page_values d database
          (fun child_page s => libesedb_database_read_values_from_page d database child_page
            (recursion_depth + 1) s)
          page (page.flags % 2 ^ 32) s.next_cache (page_value_index - 1) 1 (s.enter_loop page)
        = Step.next s2 →
      libesedb_database_read_values_from_page d database page recursion_depth s
        = (-1, ((s2.value_read page page_value_index page_value).emit Event.value_free).emit
            (Event.cache_free s.next_cache))) :=
  read_values_from_page_fails_at d database page recursion_depth s page_value_index true
    (fun s2 => s2.value_read page page_value_index page_value) hi
    (index_lt_of_value _ _ _ hv)
    (fun s2 => read_page_value_short d database _ page _ _ _ s2 page_value page_tree_value
      hv hd hp hl hs)

/-- C6, at a concrete input: a branch page whose first entry carries three bytes
of data. -/
theorem short_branch_value_fails_witness :
    (libesedb_database_read_values_from_page definitions (database_of 10 two_level_pages)
        { page_number := 4, flags := 5,
          values := [root_tag, { data := [0, 0, 5, 0, 0], flags := 0 }, branch_value 6 0 0 0] }
        0 State.initial).1 = -1 :=
  (short_branch_value_fails definitions (database_of 10 two_level_pages)
    { page_number := 4, flags := 5,
      values := [root_tag, { data := [0, 0, 5, 0, 0], flags := 0 }, branch_value 6 0 0 0] }
    0 State.initial 1 { data := [0, 0, 5, 0, 0], flags := 0 }
    { common_key_size := 0, local_key := [], data := [5, 0, 0] }
    (by decide) (by decide) (by decide) (by decide) (by decide) (by decide)).1

/-- C2 (amended): on a page without the LEAF flag, a value that is not defunct
and whose child page number decodes to 0 is not skipped: the guard
`child_page_number < 1` makes `libesedb_database_read_values_from_page` return
-1; at an admissible depth, when the entries before it were passed, the call
ends at that entry, no page being requested for it and no later entry being
visited. -/
theorem zero_child_page_number_fails (d : Definitions) (database : libesedb_database)
    (page : libesedb_page) (recursion_depth : Int) (s : State) (page_value_index : Nat)
    (page_value : libesedb_page_value) (page_tree_value : libesedb_page_tree_value)
    (hi : 1 ≤ page_value_index)
    (hv : page.values[page_value_index]? = some page_value)
    (hd : page_value.flags &&& d.LIBESEDB_PAGE_TAG_FLAG_IS_DEFUNCT = 0)
    (hp : database.page_tree.libesedb_page_tree_value_read_data page_value.data
      page_value.flags = some page_tree_value)
    (hl : (page.flags % 2 ^ 32) &&& d.LIBESEDB_PAGE_FLAG_IS_LEAF = 0)
    (hs : ¬ page_tree_value.data_size < 4)
    (hz : byte_stream_copy_to_uint32_little_endian page_tree_value.data = 0) :
    (libesedb_database_read_values_from_page d database page recursion_depth s).1 = -1
    ∧ (0 ≤ recursion_depth →
      recursion_depth ≤ d.LIBESEDB_MAXIMUM_INDEX_NODE_RECURSION_DEPTH →
      ∀ s2, read_page_values d database
          (fun child_page s => libesedb_database_read_values_from_page d database child_page
            (recursion_depth + 1) s)
          page (page.flags % 2 ^ 32) s.next_cache (page_value_index - 1) 1 (s.enter_loop page)
        = Step.next s2 →
      libesedb_database_read_values_from_page d database page recursion_depth s
        = (-1, ((s2.value_read page page_value_index page_value).emit Event.value_free).emit
            (Event.cache_free s.next_cache))) :=
  read_values_from_page_fails_at d database page recursion_depth s page_value_index true
    (fun s2 => s2.value_read page page_value_index page_value) hi
    (index_lt_of_value _ _ _ hv)
    (fun s2 => read_page_value_out_of_bounds d database _ page _ _ _ s2 page_value
      page_tree_value hv hd hp hl hs (by
        rw [hz]
        unfold child_page_number_out_of_bounds
        split <;> simp))

/-- C2, at a concrete input: the claim fails. A branch page whose first entry
decodes to child page number 0 makes the function return -1 and the second
entry is never visited, although the page with the second entry alone is
walked with success. -/
theorem zero_child_page_number_not_skipped :
    libesedb_database_read_values_from_page definitions (database_of 10 two_level_pages)
        { page_number := 4, flags := 5,
          values := [root_tag, branch_value 0 0 0 0, branch_value 5 0 0 0] }
        0 State.initial
      = (-1, { leaf_value_index := 0, next_cache := 1,
               trace := [Event.get_number_of_values 4, Event.get_flags 4, Event.cache_init 0,
                 Event.get_value_by_index 4 1, Event.value_init,
                 Event.read_data [0, 0, 0, 0, 0, 0] 0, Event.value_free,
                 Event.cache_free 0] })
    ∧ (libesedb_database_read_values_from_page definitions (database_of 10 two_level_pages)
        { page_number := 4, flags := 5, values := [root_tag, branch_value 5 0 0 0] }
        0 State.initial).1 = 1 := by
  decide

/-- C2 (amended), at a concrete input. -/
theorem zero_child_page_number_fails_witness :
    (libesedb_database_read_values_from_page definitions (database_of 10 two_level_pages)
        { page_number := 4, flags := 5,
          values := [root_tag, branch_value 0 0 0 0, branch_value 5 0 0 0] }
        0 State.initial).1 = -1 :=
  (zero_child_page_number_fails definitions (database_of 10 two_level_pages)
    { page_number := 4, flags := 5,
      values := [root_tag, branch_value 0 0 0 0, branch_value 5 0 0 0] }
    0 State.initial 1 (branch_value 0 0 0 0)
    { common_key_size := 0, local_key := [], data := [0, 0, 0, 0] }
    (by decide) (by decide) (by decide) (by decide) (by decide) (by decide) (by decide)).1

/-- C3 (amended): on a page without the LEAF flag, take a value that is not
defunct and whose child page number is greater than `last_page_number`. When
the number passes the guard of lines 453-459 (with an `int` of at most four
bytes: when it is at most `INT_MAX`), the entry is skipped: the pass ends
normally with no page requested, and the function (at an admissible depth, the
entries before it passed) goes on with the entries after it, which alone
decide the result. When `int` has at most four bytes and the number is above
`INT_MAX`, the function returns -1, at that entry when the entries before it
were passed. -/
theorem child_page_number_beyond_last_page (d : Definitions) (database : libesedb_database)
    (page : libesedb_page) (recursion_depth : Int) (s : State) (page_value_index : Nat)
    (page_value : libesedb_page_value) (page_tree_value : libesedb_page_tree_value)
    (hi : 1 ≤ page_value_index)
    (hv : page.values[page_value_index]? = some page_value)
    (hd : page_value.flags &&& d.LIBESEDB_PAGE_TAG_FLAG_IS_DEFUNCT = 0)
    (hp : database.page_tree.libesedb_page_tree_value_read_data page_value.data
      page_value.flags = some page_tree_value)
    (hl : (page.flags % 2 ^ 32) &&& d.LIBESEDB_PAGE_FLAG_IS_LEAF = 0)
    (hs : ¬ page_tree_value.data_size < 4)
    (hgt : byte_stream_copy_to_uint32_little_endian page_tree_value.data
      > database.page_tree.io_handle.last_page_number) :
    (child_page_number_out_of_bounds d
        (byte_stream_copy_to_uint32_little_endian page_tree_value.data) = false →
      (∀ descend child_page_cache s2,
        read_page_value d database descend page (page.flags % 2 ^ 32) child_page_cache
            page_value_index s2
          = Step.next ((s2.value_read page page_value_index page_value).emit Event.value_free))
      ∧ (0 ≤ recursion_depth →
        recursion_depth ≤ d.LIBESEDB_MAXIMUM_INDEX_NODE_RECURSION_DEPTH →
        ∀ s2, read_page_values d database
            (fun child_page s => libesedb_database_read_values_from_page d database child_page
              (recursion_depth + 1) s)
            page (page.flags % 2 ^ 32) s.next_cache (page_value_index - 1) 1
            (s.enter_loop page)
          = Step.next s2 →
        libesedb_database_read_values_from_page d database page recursion_depth s
          = leave_loop s.next_cache
              (read_page_values d database
                (fun child_page s => libesedb_database_read_values_from_page d database
                  child_page (recursion_depth + 1) s)
                page (page.flags % 2 ^ 32) s.next_cache
                (page.values.length - 1 - page_value_index) (page_value_index + 1)
                ((s2.value_read page page_value_index page_value).emit Event.value_free))))
    ∧ (d.SIZEOF_INT ≤ 4 →
      byte_stream_copy_to_uint32_little_endian page_tree_value.data > INT_MAX d % 2 ^ 32 →
      (libesedb_database_read_values_from_page d database page recursion_depth s).1 = -1
      ∧ (0 ≤ recursion_depth →
        recursion_depth ≤ d.LIBESEDB_MAXIMUM_INDEX_NODE_RECURSION_DEPTH →
        ∀ s2, read_page_values d database
            (fun child_page s => libesedb_database_read_values_from_page d database child_page
              (recursion_depth + 1) s)
            page (page.flags % 2 ^ 32) s.next_cache (page_value_index - 1) 1
            (s.enter_loop page)
          = Step.next s2 →
        libesedb_database_read_values_from_page d database page recursion_depth s
          = (-1, ((s2.value_read page page_value_index page_value).emit Event.value_free).emit
              (Event.cache_free s.next_cache)))) := by
  have hr : ¬ (byte_stream_copy_to_uint32_little_endian page_tree_value.data > 0
      ∧ byte_stream_copy_to_uint32_little_endian page_tree_value.data
        ≤ database.page_tree.io_handle.last_page_number) := by omega
  constructor
  · intro hb
    have hstep : ∀ descend child_page_cache s2,
        read_page_value d database descend page (page.flags % 2 ^ 32) child_page_cache
            page_value_index s2
          = Step.next ((s2.value_read page page_value_index page_value).emit
              Event.value_free) := fun descend child_page_cache s2 =>
      read_page_value_skipped d database descend page _ child_page_cache _ s2 page_value
        page_tree_value hv hd hp hl hs hb hr
    refine ⟨hstep, ?_⟩
    intro h0 h1 s2 hpre
    rw [read_values_from_page_in_bounds d database page recursion_depth s h0 h1,
      read_values_from_page_frame_at d database _ page s page_value_index hi
        (index_lt_of_value _ _ _ hv)]
    simp only [hpre, hstep]
  · intro hint hbig
    exact read_values_from_page_fails_at d database page recursion_depth s page_value_index
      true (fun s2 => s2.value_read page page_value_index page_value) hi
      (index_lt_of_value _ _ _ hv)
      (fun s2 => read_page_value_out_of_bounds d database _ page _ _ _ s2 page_value
        page_tree_value hv hd hp hl hs (by
          unfold child_page_number_out_of_bounds
          simp only [hint, if_true]
          have hbig2 : INT_MAX d % 2 ^ 32
              < byte_stream_copy_to_uint32_little_endian page_tree_value.data := hbig
          simp only [Bool.or_eq_true, decide_eq_true_eq]
          exact Or.inr hbig2))

/-- C3, at a concrete input: the claim fails. With a four-byte `int` and
`last_page_number` 10, a branch entry whose child page number is 0x80000000
makes the function return -1; the entry after it, which points to a leaf page
with two values, is never visited. -/
theorem child_page_number_above_int_max_fails :
    libesedb_database_read_values_from_page definitions (database_of 10 two_level_pages)
        { page_number := 4, flags := 5,
          values := [root_tag, branch_value 0 0 0 128, branch_value 5 0 0 0] }
        0 State.initial
      = (-1, { leaf_value_index := 0, next_cache := 1,
               trace := [Event.get_number_of_values 4, Event.get_flags 4, Event.cache_init 0,
                 Event.get_value_by_index 4 1, Event.value_init,
                 Event.read_data [0, 0, 0, 0, 0, 128] 0, Event.value_free,
                 Event.cache_free 0] })
    ∧ byte_stream_copy_to_uint32_little_endian [0, 0, 0, 128] = 0x80000000 := by
  decide

/-- C3 (amended), at a concrete input: child page number 11 with
`last_page_number` 10 is skipped and the next entry is walked; child page
number 0x80000000 fails. -/
theorem child_page_number_beyond_last_page_witness :
    libesedb_database_read_values_from_page definitions (database_of 10 two_level_pages)
        { page_number := 4, flags := 5,
          values := [root_tag, branch_value 11 0 0 0, branch_value 5 0 0 0] }
        0 State.initial
      = leave_loop 0
          (read_page_values definitions (database_of 10 two_level_pages)
            (fun child_page s => libesedb_database_read_values_from_page definitions
              (database_of 10 two_level_pages) child_page (0 + 1) s)
            { page_number := 4, flags := 5,
              values := [root_tag, branch_value 11 0 0 0, branch_value 5 0 0 0] }
            (5 % 2 ^ 32) 0 (3 - 1 - 1) (1 + 1)
            (((State.initial.enter_loop
                { page_number := 4, flags := 5,
                  values := [root_tag, branch_value 11 0 0 0, branch_value 5 0 0 0] }).value_read
                { page_number := 4, flags := 5,
                  values := [root_tag, branch_value 11 0 0 0, branch_value 5 0 0 0] }
                1 (branch_value 11 0 0 0)).emit Event.value_free))
    ∧ (libesedb_database_read_values_from_page definitions (database_of 10 two_level_pages)
        { page_number := 4, flags := 5,
          values := [root_tag, branch_value 0 0 0 128, branch_value 5 0 0 0] }
        0 State.initial).1 = -1 :=
  ⟨((child_page_number_beyond_last_page definitions (database_of 10 two_level_pages)
      { page_number := 4, flags := 5,
        values := [root_tag, branch_value 11 0 0 0, branch_value 5 0 0 0] }
      0 State.initial 1 (branch_value 11 0 0 0)
      { common_key_size := 0, local_key := [], data := [11, 0, 0, 0] }
      (by decide) (by decide) (by decide) (by decide) (by decide) (by decide)
      (by decide)).1 (by decide)).2 (by decide) (by decide) _ rfl,
   ((child_page_number_beyond_last_page definitions (database_of 10 two_level_pages)
      { page_number := 4, flags := 5,
        values := [root_tag, branch_value 0 0 0 128, branch_value 5 0 0 0] }
      0 State.initial 1 (branch_value 0 0 0 128)
      { common_key_size := 0, local_key := [], data := [0, 0, 0, 128] }
      (by decide) (by decide) (by decide) (by decide) (by decide) (by decide)
      (by decide)).2 (by decide) (by decide)).1⟩

/-! ## The walk does not read the trace -/

theorem prepend_emit (t : List Event) (s : State) (e : Event) :
    (s.prepend t).emit e = (s.emit e).prepend t := by
  simp [State.prepend, State.emit]

theorem prepend_value_read (t : List Event) (s : State) (page : libesedb_page)
    (page_value_index : Nat) (page_value : libesedb_page_value) :
    (s.prepend t).value_read page page_value_index page_value
      = (s.value_read page page_value_index page_value).prepend t := by
  simp [State.value_read, prepend_emit]

theorem prepend_enter_loop (t : List Event) (s : State) (page : libesedb_page) :
    (s.prepend t).enter_loop page = (s.enter_loop page).prepend t := by
  simp [State.prepend, State.emit, State.enter_loop]

theorem prepend_leave_loop (t : List Event) (child_page_cache : Nat) (st : Step) :
    leave_loop child_page_cache (st.prepend t)
      = ((leave_loop child_page_cache st).1, (leave_loop child_page_cache st).2.prepend t) := by
  cases st with
  | next s => simp [leave_loop, Step.prepend, prepend_emit]
  | on_error live s =>
    cases live <;> simp [leave_loop, Step.prepend, on_error, prepend_emit]

theorem read_page_value_prepend (d : Definitions) (database : libesedb_database)
    (descend : libesedb_page → State → Int × State) (hdesc : TraceBlind descend)
    (page : libesedb_page) (page_flags child_page_cache page_value_index : Nat)
    (t : List Event) (s : State) :
    read_page_value d database descend page page_flags child_page_cache page_value_index
        (s.prepend t)
      = (read_page_value d database descend page page_flags child_page_cache
          page_value_index s).prepend t := by
  apply read_page_value_cases d database descend page page_flags child_page_cache
    page_value_index s
    (fun st => read_page_value d database descend page page_flags child_page_cache
        page_value_index (s.prepend t) = st.prepend t)
  · intro hv
    rw [read_page_value_absent _ _ _ _ _ _ _ _ hv]
    simp [Step.prepend, prepend_emit]
  · intro pv hv hd
    rw [read_page_value_defunct _ _ _ _ _ _ _ _ _ hv hd]
    simp [Step.prepend, prepend_emit]
  · intro pv hv hd hp
    rw [read_page_value_unparsed _ _ _ _ _ _ _ _ _ hv hd hp]
    simp [Step.prepend, prepend_value_read]
  · intro pv ptv hv hd hp hl
    rw [read_page_value_leaf _ _ _ _ _ _ _ _ _ _ hv hd hp hl]
    simp only [prepend_value_read]
    simp [Step.prepend, State.prepend]
  · intro pv ptv hv hd hp hl hs
    rw [read_page_value_short _ _ _ _ _ _ _ _ _ _ hv hd hp hl hs]
    simp [Step.prepend, prepend_value_read]
  · intro pv ptv hv hd hp hl hs hb
    rw [read_page_value_out_of_bounds _ _ _ _ _ _ _ _ _ _ hv hd hp hl hs hb]
    simp [Step.prepend, prepend_value_read]
  · intro pv ptv hv hd hp hl hs hb hr
    rw [read_page_value_skipped _ _ _ _ _ _ _ _ _ _ hv hd hp hl hs hb hr]
    simp [Step.prepend, prepend_value_read, prepend_emit]
  · intro pv ptv hv hd hp hl hs hb hr hc
    rw [read_page_value_load_failed _ _ _ _ _ _ _ _ _ _ hv hd hp hl hs hb hr hc]
    simp [Step.prepend, prepend_value_read, prepend_emit]
  · intro pv ptv cp hv hd hp hl hs hb hr hc hq
    rw [read_page_value_invalid _ _ _ _ _ _ _ _ _ _ _ hv hd hp hl hs hb hr hc hq]
    simp [Step.prepend, prepend_value_read, prepend_emit]
  · intro pv ptv cp hv hd hp hl hs hb hr hc hq
    rw [read_page_value_descend _ _ _ _ _ _ _ _ _ _ _ hv hd hp hl hs hb hr hc hq]
    simp only [prepend_value_read, prepend_emit, hdesc t]
    split <;> simp [Step.prepend, prepend_emit]

theorem read_page_values_prepend (d : Definitions) (database : libesedb_database)
    (descend : libesedb_page → State → Int × State) (hdesc : TraceBlind descend)
    (page : libesedb_page) (page_flags child_page_cache : Nat) (t : List Event)
    (remaining : Nat) :
    ∀ (page_value_index : Nat) (s : State),
    read_page_values d database descend page page_flags child_page_cache remaining
        page_value_index (s.prepend t)
      = (read_page_values d database descend page page_flags child_page_cache remaining
          page_value_index s).prepend t := by
  induction remaining with
  | zero => intro i s; rfl
  | succ n ih =>
    intro i s
    simp only [read_page_values]
    rw [read_page_value_prepend d database descend hdesc]
    cases read_page_value d database descend page page_flags child_page_cache i s with
    | next s2 => exact ih _ s2
    | on_error live s2 => rfl

theorem read_values_from_page_frame_prepend (d : Definitions) (database : libesedb_database)
    (descend : libesedb_page → State → Int × State) (hdesc : TraceBlind descend)
    (page : libesedb_page) (t : List Event) (s : State) :
    read_values_from_page_frame d database descend page (s.prepend t)
      = ((read_values_from_page_frame d database descend page s).1,
         (read_values_from_page_frame d database descend page s).2.prepend t) := by
  by_cases hne : page.values.length = 0
  · simp [read_values_from_page_frame, libesedb_page_get_number_of_values, hne, prepend_emit]
  · rw [read_values_from_page_frame_eq d database descend page _ hne,
      read_values_from_page_frame_eq d database descend page _ hne, prepend_enter_loop,
      read_page_values_prepend d database descend hdesc]
    exact prepend_leave_loop t _ _

theorem read_values_from_page_levels_prepend (d : Definitions) (database : libesedb_database)
    (levels : Nat) :
    ∀ (recursion_depth : Int),
      TraceBlind (fun child_page s =>
        read_values_from_page_levels d database levels child_page recursion_depth s) := by
  induction levels with
  | zero =>
    intro depth t page s
    simp [read_values_from_page_levels]
  | succ n ih =>
    intro depth t page s
    simp only [read_values_from_page_levels, read_values_from_page_body]
    split
    · rfl
    · exact read_values_from_page_frame_prepend d database _ (ih (depth + 1)) page t s

/-- The function does not read the trace: an older history in front of the
trace stays in front and changes nothing else. -/
theorem read_values_from_page_prepend (d : Definitions) (database : libesedb_database)
    (recursion_depth : Int) :
    TraceBlind (fun child_page s =>
      libesedb_database_read_values_from_page d database child_page recursion_depth s) :=
  read_values_from_page_levels_prepend d database _ recursion_depth

/-- The trace only grows: the trace after a call is the trace before it followed
by the events of the call. -/
theorem read_values_from_page_trace (d : Definitions) (database : libesedb_database)
    (page : libesedb_page) (recursion_depth : Int) (s : State) :
    (libesedb_database_read_values_from_page d database page recursion_depth s).2.trace
      = s.trace ++ (libesedb_database_read_values_from_page d database page recursion_depth
          { s with trace := [] }).2.trace := by
  have h := read_values_from_page_prepend d database recursion_depth s.trace page
    { s with trace := [] }
  have hs : State.prepend s.trace { s with trace := [] } = s := by
    simp [State.prepend]
  rw [hs] at h
  simp only at h
  rw [h]
  rfl

/-! ## The root page and the cyclic tree -/

theorem page_requests_append (t t' : List Event) :
    page_requests (t ++ t') = page_requests t ++ page_requests t' := by
  simp [page_requests]

theorem page_requests_emit (s : State) (e : Event) :
    page_requests (s.emit e).trace = page_requests s.trace ++ page_requests [e] := by
  simp [State.emit, page_requests]

theorem read_page_values_root_page_number (d : Definitions)
    (database : libesedb_database) (root_page_number : Nat)
    (descend : libesedb_page → State → Int × State) (page : libesedb_page)
    (page_flags child_page_cache : Nat) (remaining : Nat) :
    ∀ (page_value_index : Nat) (s : State),
    read_page_values d
        { page_tree := { database.page_tree with root_page_number := root_page_number } }
        descend page page_flags child_page_cache remaining page_value_index s
      = read_page_values d database descend page page_flags child_page_cache remaining
          page_value_index s := by
  induction remaining with
  | zero => intro i s; rfl
  | succ n ih =>
    intro i s
    simp only [read_page_values]
    have hstep : read_page_value d
          { page_tree := { database.page_tree with root_page_number := root_page_number } }
          descend page page_flags child_page_cache i s
        = read_page_value d database descend page page_flags child_page_cache i s := rfl
    rw [hstep]
    cases read_page_value d database descend page page_flags child_page_cache i s with
    | next s2 => exact ih _ s2
    | on_error live s2 => rfl

theorem read_values_from_page_levels_root_page_number (d : Definitions)
    (database : libesedb_database) (root_page_number : Nat) (levels : Nat) :
    ∀ (page : libesedb_page) (recursion_depth : Int) (s : State),
    read_values_from_page_levels d
        { page_tree := { database.page_tree with root_page_number := root_page_number } }
        levels page recursion_depth s
      = read_values_from_page_levels d database levels page recursion_depth s := by
  induction levels with
  | zero => intro page depth s; rfl
  | succ n ih =>
    intro page depth s
    simp only [read_values_from_page_levels]
    have hfun : (fun child_page s => read_values_from_page_levels d
          { page_tree := { database.page_tree with root_page_number := root_page_number } }
          n child_page (depth + 1) s)
        = (fun child_page s => read_values_from_page_levels d database n child_page
          (depth + 1) s) := by
      funext child_page s2
      exact ih child_page (depth + 1) s2
    rw [hfun]
    simp only [read_values_from_page_body, read_values_from_page_frame,
      read_page_values_root_page_number]

theorem read_file_io_handle_not_fetched (d : Definitions) (database : libesedb_database)
    (s : State)
    (hvec : database.page_tree.pages_vector (to_int d d.LIBESEDB_PAGE_NUMBER_DATABASE - 1)
      = none) :
    libesedb_database_read_file_io_handle d database s
      = (-1, (s.fetch_root d).emit (Event.cache_free s.next_cache)) := by
  unfold libesedb_database_read_file_io_handle
  simp only [hvec]
  rfl

theorem read_file_io_handle_invalid (d : Definitions) (database : libesedb_database)
    (s : State) (root_page : libesedb_page)
    (hvec : database.page_tree.pages_vector (to_int d d.LIBESEDB_PAGE_NUMBER_DATABASE - 1)
      = some root_page)
    (hval : database.page_tree.libesedb_page_validate_root_page root_page = false) :
    libesedb_database_read_file_io_handle d database s
      = (-1, ((s.fetch_root d).emit (Event.validate_root_page root_page.page_number)).emit
          (Event.cache_free s.next_cache)) := by
  unfold libesedb_database_read_file_io_handle
  simp only [hvec, hval]
  rfl

theorem read_file_io_handle_walk (d : Definitions) (database : libesedb_database)
    (s : State) (root_page : libesedb_page)
    (hvec : database.page_tree.pages_vector (to_int d d.LIBESEDB_PAGE_NUMBER_DATABASE - 1)
      = some root_page)
    (hval : database.page_tree.libesedb_page_validate_root_page root_page = true) :
    libesedb_database_read_file_io_handle d database s
      = (if (libesedb_database_read_values_from_page d database root_page 0
            ((s.fetch_root d).emit (Event.validate_root_page root_page.page_number))).1 ≠ 1
          then -1 else 1,
         (libesedb_database_read_values_from_page d database root_page 0
            ((s.fetch_root d).emit (Event.validate_root_page root_page.page_number))).2.emit
          (Event.cache_free s.next_cache)) := by
  unfold libesedb_database_read_file_io_handle
  simp only [hvec, hval, if_true]
  have key : ∀ (c : Prop) [Decidable c] (x : State),
      (if c then ((-1 : Int), x) else (1, x)) = (if c then (-1 : Int) else 1, x) := by
    intro c _ x
    split <;> rfl
  exact key _ _

/-- C10 (amended): the root page that `libesedb_database_read_file_io_handle`
fetches does not depend on the page tree's `root_page_number`: with any other
value in that field the call gives the same result and the same state, and the
first page requested from the pages vector is the one at element index
`(int) LIBESEDB_PAGE_NUMBER_DATABASE - 1`, through the cache the call created. -/
theorem root_page_is_the_database_page (d : Definitions) (database : libesedb_database)
    (root_page_number : Nat) (s : State) :
    libesedb_database_read_file_io_handle d
        { page_tree := { database.page_tree with root_page_number := root_page_number } } s
      = libesedb_database_read_file_io_handle d database s
    ∧ ∃ rest, (libesedb_database_read_file_io_handle d database s).2.trace
      = s.trace ++ Event.cache_init s.next_cache
          :: Event.get_element_value s.next_cache
              (to_int d d.LIBESEDB_PAGE_NUMBER_DATABASE - 1) :: rest := by
  constructor
  · unfold libesedb_database_read_file_io_handle libesedb_database_read_values_from_page
    simp only [read_values_from_page_levels_root_page_number]
  · cases hvec : database.page_tree.pages_vector
        (to_int d d.LIBESEDB_PAGE_NUMBER_DATABASE - 1) with
    | none =>
      rw [read_file_io_handle_not_fetched d database s hvec]
      exact ⟨[Event.cache_free s.next_cache], by simp [State.emit, State.fetch_root]⟩
    | some root_page =>
      cases hval : database.page_tree.libesedb_page_validate_root_page root_page with
      | false =>
        rw [read_file_io_handle_invalid d database s root_page hvec hval]
        exact ⟨[Event.validate_root_page root_page.page_number, Event.cache_free s.next_cache],
          by simp [State.emit, State.fetch_root]⟩
      | true =>
        rw [read_file_io_handle_walk d database s root_page hvec hval]
        refine ⟨Event.validate_root_page root_page.page_number ::
          (libesedb_database_read_values_from_page d database root_page 0
            { ((s.fetch_root d).emit (Event.validate_root_page root_page.page_number)) with
              trace := [] }).2.trace ++ [Event.cache_free s.next_cache], ?_⟩
        simp only [State.emit]
        rw [read_values_from_page_trace]
        simp [State.fetch_root, State.emit]

/-- C10, at a concrete input: the claim fails. With `root_page_number` set to 7
the pages requested are those at element indexes 3, 4 and 5: the first one is
the page of `LIBESEDB_PAGE_NUMBER_DATABASE` (4), not page 7. -/
theorem root_page_number_not_used :
    page_requests (libesedb_database_read_file_io_handle definitions
        { page_tree :=
          { (database_of 10 two_level_pages).page_tree with root_page_number := 7 } }
        State.initial).2.trace = [3, 4, 5]
    ∧ (3 : Int) ≠ 7 - 1 := by
  decide

theorem self_cycle_levels (d : Definitions) (database : libesedb_database)
    (root_page : libesedb_page) (page_value : libesedb_page_value)
    (page_tree_value : libesedb_page_tree_value)
    (h : SelfCycle d database root_page page_value page_tree_value) (levels : Nat) :
    ∀ (recursion_depth : Int) (s : State), 0 ≤ recursion_depth →
      levels = ((d.LIBESEDB_MAXIMUM_INDEX_NODE_RECURSION_DEPTH : Int) + 1
        - recursion_depth).toNat →
      (read_values_from_page_levels d database levels root_page recursion_depth s).1 = -1
      ∧ page_requests
          (read_values_from_page_levels d database levels root_page recursion_depth s).2.trace
        = page_requests s.trace
          ++ List.replicate levels (to_int d d.LIBESEDB_PAGE_NUMBER_DATABASE - 1) := by
  induction levels with
  | zero =>
    intro depth s _ _
    simp [read_values_from_page_levels]
  | succ n ih =>
    intro depth s h0 hlev
    have hguard : ¬ (depth < 0 ∨ depth > d.LIBESEDB_MAXIMUM_INDEX_NODE_RECURSION_DEPTH) := by
      omega
    have hne : root_page.values.length ≠ 0 := by rw [h.single]; decide
    have hb : child_page_number_out_of_bounds d
        (byte_stream_copy_to_uint32_little_endian page_tree_value.data) = false := by
      rw [h.back]; exact h.in_bounds
    have hr : byte_stream_copy_to_uint32_little_endian page_tree_value.data > 0
        ∧ byte_stream_copy_to_uint32_little_endian page_tree_value.data
          ≤ database.page_tree.io_handle.last_page_number := by
      rw [h.back]; exact h.in_range
    have hc : database.page_tree.pages_vector
        (to_int d (byte_stream_copy_to_uint32_little_endian page_tree_value.data) - 1)
          = some root_page := by
      rw [h.back]; exact h.fetched
    simp only [read_values_from_page_levels, read_values_from_page_body, hguard, if_false]
    rw [read_values_from_page_frame_eq d database _ root_page s hne, h.single]
    simp only [Nat.add_one_sub_one, read_page_values]
    rw [read_page_value_descend d database _ root_page _ _ _ _ page_value page_tree_value
      root_page h.value h.live h.parsed h.branch h.size hb hr hc h.child_valid]
    generalize hs2 : (((State.value_read (s.enter_loop root_page) root_page 1 page_value).emit
        (Event.get_element_value s.next_cache
          (to_int d (byte_stream_copy_to_uint32_little_endian page_tree_value.data) - 1))).emit
        (Event.validate_page root_page.page_number)) = s2
    have hreq : page_requests s2.trace
        = page_requests s.trace ++ [to_int d d.LIBESEDB_PAGE_NUMBER_DATABASE - 1] := by
      rw [← hs2]
      simp [State.value_read, State.enter_loop, State.emit, page_requests, h.back]
    have hih := ih (depth + 1) s2 (by omega) (by omega)
    simp only [hih.1]
    simp only [ne_eq, show ¬ ((-1 : Int) = 1) by decide, not_false_eq_true, if_true, leave_loop,
      on_error, page_requests_emit, hih.2, hreq]
    simp [page_requests, List.replicate_succ]

theorem self_cycle_walk (d : Definitions) (database : libesedb_database)
    (root_page : libesedb_page) (page_value : libesedb_page_value)
    (page_tree_value : libesedb_page_tree_value) (s : State)
    (h : SelfCycle d database root_page page_value page_tree_value) :
    (libesedb_database_read_values_from_page d database root_page 0 s).1 = -1
    ∧ page_requests (libesedb_database_read_values_from_page d database root_page 0 s).2.trace
      = page_requests s.trace
        ++ List.replicate (d.LIBESEDB_MAXIMUM_INDEX_NODE_RECURSION_DEPTH + 1)
            (to_int d d.LIBESEDB_PAGE_NUMBER_DATABASE - 1) := by
  have hlev := self_cycle_levels d database root_page page_value page_tree_value h
    (d.LIBESEDB_MAXIMUM_INDEX_NODE_RECURSION_DEPTH + 1) 0 s (by omega) (by omega)
  have hfun : libesedb_database_read_values_from_page d database root_page 0 s
      = read_values_from_page_levels d database
          (d.LIBESEDB_MAXIMUM_INDEX_NODE_RECURSION_DEPTH + 1) root_page 0 s := by
    unfold libesedb_database_read_values_from_page
    congr 1
  rw [hfun]
  exact hlev

/-- The cyclic tree of `cycle_pages` is a self cycle. -/
theorem cycle_pages_self_cycle :
    SelfCycle definitions (database_of 10 cycle_pages)
      { page_number := 4, flags := 5, values := [root_tag, branch_value 4 0 0 0] }
      (branch_value 4 0 0 0) { common_key_size := 0, local_key := [], data := [4, 0, 0, 0] } :=
  { fetched := by decide
    root_valid := by decide
    child_valid := by decide
    branch := by decide
    single := by decide
    value := by decide
    live := by decide
    parsed := by decide
    size := by decide
    back := by decide
    in_bounds := by decide
    in_range := by decide }

/-- C5 (amended): on the cyclic tree `libesedb_database_read_file_io_handle`
returns -1 after exactly `LIBESEDB_MAXIMUM_INDEX_NODE_RECURSION_DEPTH + 2`
requests to the pages vector, the fetch of the root page included: one for the
root, and one by each of the frames at depths 0 to the maximum, the call at
depth maximum + 1 being the one refused. All of them ask for the root page. -/
theorem self_cycle_page_requests (d : Definitions) (database : libesedb_database)
    (root_page : libesedb_page) (page_value : libesedb_page_value)
    (page_tree_value : libesedb_page_tree_value) (s : State)
    (h : SelfCycle d database root_page page_value page_tree_value) :
    (libesedb_database_read_file_io_handle d database s).1 = -1
    ∧ page_requests (libesedb_database_read_file_io_handle d database s).2.trace
      = page_requests s.trace
        ++ List.replicate (d.LIBESEDB_MAXIMUM_INDEX_NODE_RECURSION_DEPTH + 2)
            (to_int d d.LIBESEDB_PAGE_NUMBER_DATABASE - 1) := by
  rw [read_file_io_handle_walk d database s root_page h.fetched h.root_valid]
  have hwalk := self_cycle_walk d database root_page page_value page_tree_value
    ((s.fetch_root d).emit (Event.validate_root_page root_page.page_number)) h
  refine ⟨by simp [hwalk.1], ?_⟩
  simp only [page_requests_emit, hwalk.2]
  simp [page_requests, List.replicate_succ, State.emit, State.fetch_root]

/-- C5 (amended), at a concrete input: with the maximum depth at 256, the walk of
`cycle_pages` returns -1 after 258 requests for the page at element index 3. -/
theorem self_cycle_page_requests_witness :
    (libesedb_database_read_file_io_handle definitions (database_of 10 cycle_pages)
        State.initial).1 = -1
    ∧ page_requests (libesedb_database_read_file_io_handle definitions
        (database_of 10 cycle_pages) State.initial).2.trace
      = page_requests State.initial.trace ++ List.replicate (256 + 2) (4 - 1) :=
  self_cycle_page_requests definitions (database_of 10 cycle_pages)
    { page_number := 4, flags := 5, values := [root_tag, branch_value 4 0 0 0] }
    (branch_value 4 0 0 0) { common_key_size := 0, local_key := [], data := [4, 0, 0, 0] }
    State.initial cycle_pages_self_cycle

/-- C5, at a concrete input: the claim fails. With the maximum depth at 256, the
walk of `cycle_pages` has made 258 requests to the pages vector when it returns
-1, not 257. -/
theorem self_cycle_not_maximum_plus_one :
    (libesedb_database_read_file_io_handle definitions (database_of 10 cycle_pages)
        State.initial).1 = -1
    ∧ (page_requests (libesedb_database_read_file_io_handle definitions
        (database_of 10 cycle_pages) State.initial).2.trace).length = 258
    ∧ 258 ≠ definitions.LIBESEDB_MAXIMUM_INDEX_NODE_RECURSION_DEPTH + 1 := by
  have hwalk := self_cycle_walk definitions (database_of 10 cycle_pages)
    { page_number := 4, flags := 5, values := [root_tag, branch_value 4 0 0 0] }
    (branch_value 4 0 0 0) { common_key_size := 0, local_key := [], data := [4, 0, 0, 0] }
    ((State.initial.fetch_root definitions).emit (Event.validate_root_page 4))
    cycle_pages_self_cycle
  rw [read_file_io_handle_walk definitions (database_of 10 cycle_pages) State.initial
    { page_number := 4, flags := 5, values := [root_tag, branch_value 4 0 0 0] }
    (by decide) (by decide)]
  refine ⟨by simp [hwalk.1], ?_, by decide⟩
  simp only [page_requests_emit, hwalk.2, List.length_append, List.length_replicate]
  rfl

/-! ## The order of the leaf values -/

theorem leaf_events_append (t t' : List Event) :
    leaf_events (t ++ t') = leaf_events t ++ leaf_events t' := by
  simp [leaf_events]

theorem leaf_events_emit (s : State) (e : Event) :
    leaf_events (s.emit e).trace = leaf_events s.trace ++ leaf_events [e] := by
  simp [State.emit, leaf_events]

theorem leaf_events_from_append (i : Int) (a b : List Leaf) :
    leaf_events_from i (a ++ b) = leaf_events_from i a ++ leaf_events_from (i + a.length) b := by
  induction a generalizing i with
  | nil => simp [leaf_events_from]
  | cons x xs ih =>
    have hidx : i + 1 + (xs.length : Int) = i + ((xs.length + 1 : Nat) : Int) := by
      push_cast; ring
    show Event.leaf_value i x.1 x.2.1 x.2.2 :: leaf_events_from (i + 1) (xs ++ b) = _
    rw [ih (i + 1), hidx]
    rfl

theorem leaf_events_from_getElem (visited : List Leaf) :
    ∀ (i : Int) (k : Nat) (hk : k < visited.length),
      (leaf_events_from i visited)[k]?
        = some (Event.leaf_value (i + k) (visited.get ⟨k, hk⟩).1
            (visited.get ⟨k, hk⟩).2.1 (visited.get ⟨k, hk⟩).2.2) := by
  induction visited with
  | nil => intro i k hk; cases hk
  | cons x xs ih =>
    intro i k hk
    cases k with
    | zero => simp [leaf_events_from]
    | succ k =>
      simp only [leaf_events_from, List.getElem?_cons_succ]
      rw [ih (i + 1) k (by simpa using hk)]
      simp only [List.get_eq_getElem, List.getElem_cons_succ]
      have : i + 1 + (k : Int) = i + ((k + 1 : Nat) : Int) := by
        push_cast; ring
      rw [this]

theorem increments_add (d : Definitions) (a b : Nat) :
    ∀ x : Int, increments d (a + b) x = increments d b (increments d a x) := by
  induction a with
  | zero => intro x; simp [increments]
  | succ a ih =>
    intro x
    have hsum : a + 1 + b = (a + b) + 1 := by omega
    rw [hsum]
    simp only [increments]
    exact ih _

theorem leaf_events_counting_append (d : Definitions) (a b : List Leaf) :
    ∀ i : Int, leaf_events_counting d i (a ++ b)
      = leaf_events_counting d i a ++ leaf_events_counting d (increments d a.length i) b := by
  induction a with
  | nil => intro i; rfl
  | cons x xs ih =>
    intro i
    show Event.leaf_value i x.1 x.2.1 x.2.2
        :: leaf_events_counting d (int_cast d (i + 1)) (xs ++ b) = _
    rw [ih]
    rfl

theorem leaf_events_counting_length (d : Definitions) (visited : List Leaf) :
    ∀ i : Int, (leaf_events_counting d i visited).length = visited.length := by
  induction visited with
  | nil => intro i; rfl
  | cons x xs ih => intro i; simp [leaf_events_counting, ih]

/-- Within the range of `int` the conversion changes nothing. -/
theorem int_cast_of_int (d : Definitions) (y : Int) (h0 : -(INT_MAX d : Int) ≤ y)
    (h1 : y ≤ (INT_MAX d : Nat)) : int_cast d y = y := by
  have hmax : INT_MAX d = 2 ^ (8 * d.SIZEOF_INT - 1) - 1 := rfl
  have hpos : 0 < 2 ^ (8 * d.SIZEOF_INT - 1) := Nat.two_pow_pos _
  have hle : 2 ^ (8 * d.SIZEOF_INT - 1) ≤ 2 ^ (8 * d.SIZEOF_INT) :=
    Nat.pow_le_pow_right (by decide) (Nat.sub_le _ _)
  by_cases hy : 0 ≤ y
  · have hlt : y < ((2 ^ (8 * d.SIZEOF_INT) : Nat) : Int) := by omega
    unfold int_cast
    rw [Int.emod_eq_of_lt hy hlt]
    have hmod : y.toNat % 2 ^ (8 * d.SIZEOF_INT) = y.toNat := Nat.mod_eq_of_lt (by omega)
    simp only [to_int, hmod]
    rw [if_neg (by omega)]
    omega
  · have hk : d.SIZEOF_INT ≠ 0 := by
      intro hzero
      rw [hzero] at hmax
      simp at hmax
      omega
    have hdouble : 2 ^ (8 * d.SIZEOF_INT) = 2 * 2 ^ (8 * d.SIZEOF_INT - 1) := by
      have hsucc : 8 * d.SIZEOF_INT = (8 * d.SIZEOF_INT - 1) + 1 := by omega
      conv_lhs => rw [hsucc]
      rw [pow_succ]
      ring
    obtain ⟨m, hm⟩ : ∃ m : Nat, (m : Int) = y + ((2 ^ (8 * d.SIZEOF_INT) : Nat) : Int) :=
      ⟨(y + ((2 ^ (8 * d.SIZEOF_INT) : Nat) : Int)).toNat, Int.toNat_of_nonneg (by omega)⟩
    have hshift : y % ((2 ^ (8 * d.SIZEOF_INT) : Nat) : Int) = (m : Int) := by
      rw [hm, ← Int.add_emod_self]
      exact Int.emod_eq_of_lt (by omega) (by omega)
    have hlt : m < 2 ^ (8 * d.SIZEOF_INT) := by omega
    have hge : m ≥ 2 ^ (8 * d.SIZEOF_INT - 1) := by omega
    unfold int_cast
    rw [hshift, Int.toNat_ofNat]
    simp only [to_int, Nat.mod_eq_of_lt hlt]
    rw [if_pos hge]
    push_cast at hm
    omega

/-- As long as the counter does not exceed `INT_MAX`, `count` increments add
`count`. -/
theorem increments_of_no_overflow (d : Definitions) (count : Nat) :
    ∀ x : Int, -(INT_MAX d : Int) - 1 ≤ x → x + count ≤ (INT_MAX d : Nat) →
      increments d count x = x + count := by
  induction count with
  | zero => intro x _ _; simp [increments]
  | succ n ih =>
    intro x h0 h1
    push_cast at h1
    simp only [increments]
    rw [int_cast_of_int d (x + 1) (by omega) (by omega), ih (x + 1) (by omega) (by omega)]
    push_cast
    omega

theorem leaf_events_counting_of_no_overflow (d : Definitions) (visited : List Leaf) :
    ∀ x : Int, -(INT_MAX d : Int) - 1 ≤ x → x + visited.length ≤ (INT_MAX d : Nat) →
      leaf_events_counting d x visited = leaf_events_from x visited := by
  induction visited with
  | nil => intro x _ _; rfl
  | cons leaf rest ih =>
    intro x h0 h1
    simp only [List.length_cons] at h1
    push_cast at h1
    simp only [leaf_events_counting, leaf_events_from]
    rw [int_cast_of_int d (x + 1) (by omega) (by omega), ih (x + 1) (by omega) (by omega)]

theorem visits_refl (d : Definitions) (s : State) : Visits d s s [] := by
  simp [Visits, leaf_events_counting, increments]

theorem visits_trans (d : Definitions) (s s2 s3 : State) (a b : List Leaf)
    (h1 : Visits d s s2 a) (h2 : Visits d s2 s3 b) : Visits d s s3 (a ++ b) := by
  unfold Visits at *
  rw [h2.1, h1.1, h2.2, h1.2, leaf_events_counting_append, List.length_append, increments_add]
  simp only [List.append_assoc, true_and]

theorem visits_of_same (d : Definitions) (s s2 : State)
    (ht : leaf_events s2.trace = leaf_events s.trace)
    (hi : s2.leaf_value_index = s.leaf_value_index) : Visits d s s2 [] := by
  simp [Visits, leaf_events_counting, increments, ht, hi]

theorem visits_emit (d : Definitions) (s s2 : State) (visited : List Leaf) (e : Event)
    (he : leaf_events [e] = []) (h : Visits d s s2 visited) :
    Visits d s (s2.emit e) visited := by
  unfold Visits at *
  rw [leaf_events_emit, he, List.append_nil]
  exact ⟨h.1, h.2⟩

theorem visits_value_read (d : Definitions) (s : State) (page : libesedb_page)
    (page_value_index : Nat) (page_value : libesedb_page_value) :
    Visits d s (s.value_read page page_value_index page_value) [] := by
  apply visits_of_same
  · simp only [State.value_read, leaf_events_emit]
    simp [leaf_events]
  · rfl

theorem visits_enter_loop (d : Definitions) (s : State) (page : libesedb_page) :
    Visits d s (s.enter_loop page) [] := by
  apply visits_of_same
  · simp only [State.enter_loop, leaf_events_emit]
    simp [leaf_events, State.emit]
  · rfl

theorem read_page_value_traverses (d : Definitions) (database : libesedb_database)
    (descend : libesedb_page → State → Int × State) (below deeper : libesedb_page → List Leaf)
    (hdesc : Traverses d descend below deeper)
    (page : libesedb_page) (child_page_cache page_value_index : Nat) (s : State) :
    ∃ visited : List Leaf,
      Visits d s (read_page_value d database descend page (page.flags % 2 ^ 32)
        child_page_cache page_value_index s).state visited
      ∧ visited <+: leaves_of_value d database below page page_value_index
      ∧ ((read_page_value d database descend page (page.flags % 2 ^ 32)
            child_page_cache page_value_index s).completed = true →
          visited = leaves_of_value d database below page page_value_index
          ∧ leaves_of_value d database deeper page page_value_index
            = leaves_of_value d database below page page_value_index) := by
  apply read_page_value_cases d database descend page (page.flags % 2 ^ 32) child_page_cache
    page_value_index s
    (fun st => ∃ visited : List Leaf,
      Visits d s st.state visited
      ∧ visited <+: leaves_of_value d database below page page_value_index
      ∧ (st.completed = true →
          visited = leaves_of_value d database below page page_value_index
          ∧ leaves_of_value d database deeper page page_value_index
            = leaves_of_value d database below page page_value_index))
  · intro hv
    exact ⟨[], visits_emit d _ _ _ _ rfl (visits_refl d s), List.nil_prefix,
      by simp [Step.completed]⟩
  · intro pv hv hd
    exact ⟨[], visits_emit d _ _ _ _ rfl (visits_refl d s), List.nil_prefix,
      by simp [leaves_of_value, hv, hd]⟩
  · intro pv hv hd hp
    exact ⟨[], visits_value_read d _ _ _ _, List.nil_prefix, by simp [Step.completed]⟩
  · intro pv ptv hv hd hp hl
    refine ⟨[(page.page_number, page_value_index, ptv)], ?_, ?_, ?_⟩
    · have h := (visits_value_read d s page page_value_index pv).1
      simp only [leaf_events_counting, List.append_nil] at h
      simp only [Visits, Step.state, leaf_events_append, h]
      simp [leaf_events, leaf_events_counting, increments]
    · simp only [leaves_of_value, hv, hd, hp, hl, ne_eq, not_false_eq_true, if_true]
      simp
    · simp only [leaves_of_value, hv, hd, hp, hl, ne_eq, not_false_eq_true, if_true]
      simp
  · intro pv ptv hv hd hp hl hs
    exact ⟨[], visits_value_read d _ _ _ _, List.nil_prefix, by simp [Step.completed]⟩
  · intro pv ptv hv hd hp hl hs hb
    exact ⟨[], visits_value_read d _ _ _ _, List.nil_prefix, by simp [Step.completed]⟩
  · intro pv ptv hv hd hp hl hs hb hr
    exact ⟨[], visits_emit d _ _ _ _ rfl (visits_value_read d _ _ _ _), List.nil_prefix,
      by simp only [leaves_of_value, hv, hd, hp, hl, hs, hb, hr]; simp⟩
  · intro pv ptv hv hd hp hl hs hb hr hc
    exact ⟨[], visits_emit d _ _ _ _ rfl (visits_value_read d _ _ _ _), List.nil_prefix,
      by simp [Step.completed]⟩
  · intro pv ptv cp hv hd hp hl hs hb hr hc hq
    exact ⟨[], visits_emit d _ _ _ _ rfl (visits_emit d _ _ _ _ rfl (visits_value_read d _ _ _ _)),
      List.nil_prefix, by simp [Step.completed]⟩
  · intro pv ptv cp hv hd hp hl hs hb hr hc hq
    have hbelow : ∀ f : libesedb_page → List Leaf,
        leaves_of_value d database f page page_value_index = f cp := by
      intro f
      simp only [leaves_of_value, hv, hd, hp, hl, hs, hb, hr, hc, hq]
      simp
    obtain ⟨visited, hvis, hpre, hfull⟩ := hdesc cp
      (((s.value_read page page_value_index pv).emit
        (Event.get_element_value child_page_cache
          (to_int d (byte_stream_copy_to_uint32_little_endian ptv.data) - 1))).emit
        (Event.validate_page cp.page_number))
    have hstart : Visits d s
        (((s.value_read page page_value_index pv).emit
          (Event.get_element_value child_page_cache
            (to_int d (byte_stream_copy_to_uint32_little_endian ptv.data) - 1))).emit
          (Event.validate_page cp.page_number)) [] :=
      visits_emit d _ _ _ _ rfl (visits_emit d _ _ _ _ rfl (visits_value_read d _ _ _ _))
    have hall := visits_trans d _ _ _ _ _ hstart hvis
    simp only [List.nil_append] at hall
    refine ⟨visited, ?_, ?_, ?_⟩
    · split
      · exact hall
      · exact visits_emit d _ _ _ _ rfl hall
    · rw [hbelow]; exact hpre
    · split
      · intro hc2; simp [Step.completed] at hc2
      · rename_i hres
        intro _
        have hone := hfull (by simpa using hres)
        rw [hbelow, hbelow]
        exact hone

theorem read_page_values_traverses (d : Definitions) (database : libesedb_database)
    (descend : libesedb_page → State → Int × State) (below deeper : libesedb_page → List Leaf)
    (hdesc : Traverses d descend below deeper)
    (page : libesedb_page) (child_page_cache : Nat) (remaining : Nat) :
    ∀ (page_value_index : Nat) (s : State), page_value_index + remaining ≤ 65535 →
    ∃ visited : List Leaf,
      Visits d s (read_page_values d database descend page (page.flags % 2 ^ 32)
        child_page_cache remaining page_value_index s).state visited
      ∧ visited <+: (List.range' page_value_index remaining).flatMap
          (leaves_of_value d database below page)
      ∧ ((read_page_values d database descend page (page.flags % 2 ^ 32)
            child_page_cache remaining page_value_index s).completed = true →
          visited = (List.range' page_value_index remaining).flatMap
              (leaves_of_value d database below page)
          ∧ (List.range' page_value_index remaining).flatMap
              (leaves_of_value d database deeper page)
            = (List.range' page_value_index remaining).flatMap
              (leaves_of_value d database below page)) := by
  induction remaining with
  | zero =>
    intro i s _
    exact ⟨[], visits_refl d s, List.nil_prefix, by simp⟩
  | succ n ih =>
    intro i s hi
    obtain ⟨v1, hvis1, hpre1, hfull1⟩ := read_page_value_traverses d database descend below
      deeper hdesc page child_page_cache i s
    simp only [read_page_values, List.range'_succ, List.flatMap_cons]
    cases hstep : read_page_value d database descend page (page.flags % 2 ^ 32)
        child_page_cache i s with
    | on_error live s2 =>
      rw [hstep] at hvis1
      refine ⟨v1, hvis1, ?_, by simp [Step.completed]⟩
      exact List.IsPrefix.trans hpre1 (List.prefix_append _ _)
    | next s2 =>
      rw [hstep] at hvis1 hfull1
      have hone := hfull1 rfl
      have hmod : (i + 1) % 2 ^ 16 = i + 1 := Nat.mod_eq_of_lt (by omega)
      simp only [hmod]
      obtain ⟨v2, hvis2, hpre2, hfull2⟩ := ih (i + 1) s2 (by omega)
      refine ⟨v1 ++ v2, visits_trans d _ _ _ _ _ hvis1 hvis2, ?_, ?_⟩
      · rw [hone.1]
        exact (List.prefix_append_right_inj _).mpr hpre2
      · intro hc
        have htwo := hfull2 hc
        rw [hone.1, htwo.1, hone.2, htwo.2]
        exact ⟨rfl, rfl⟩

theorem read_values_from_page_frame_traverses (d : Definitions) (database : libesedb_database)
    (descend : libesedb_page → State → Int × State) (below deeper : libesedb_page → List Leaf)
    (hdesc : Traverses d descend below deeper) (page : libesedb_page) (s : State) :
    ∃ visited : List Leaf,
      Visits d s (read_values_from_page_frame d database descend page s).2 visited
      ∧ visited <+: (List.range' 1 (page.values.length - 1)).flatMap
          (leaves_of_value d database below page)
      ∧ ((read_values_from_page_frame d database descend page s).1 = 1 →
          visited = (List.range' 1 (page.values.length - 1)).flatMap
              (leaves_of_value d database below page)
          ∧ (List.range' 1 (page.values.length - 1)).flatMap
              (leaves_of_value d database deeper page)
            = (List.range' 1 (page.values.length - 1)).flatMap
              (leaves_of_value d database below page)) := by
  by_cases hne : page.values.length = 0
  · refine ⟨[], ?_, List.nil_prefix, ?_⟩
    · simp only [read_values_from_page_frame, libesedb_page_get_number_of_values, hne,
        if_true]
      exact visits_emit d _ _ _ _ rfl (visits_refl d s)
    · simp [hne]
  · have hfit := page.number_of_values_fits
    rw [read_values_from_page_frame_eq d database descend page s hne]
    obtain ⟨v, hvis, hpre, hfull⟩ := read_page_values_traverses d database descend below
      deeper hdesc page s.next_cache (page.values.length - 1) 1 (s.enter_loop page)
      (by omega)
    have hall := visits_trans d _ _ _ _ _ (visits_enter_loop d s page) hvis
    simp only [List.nil_append] at hall
    refine ⟨v, ?_, hpre, ?_⟩
    · cases hloop : read_page_values d database descend page (page.flags % 2 ^ 32)
          s.next_cache (page.values.length - 1) 1 (s.enter_loop page) with
      | next s2 =>
        rw [hloop] at hall
        exact visits_emit d _ _ _ _ rfl hall
      | on_error live s2 =>
        rw [hloop] at hall
        cases live
        · exact visits_emit d _ _ _ _ rfl hall
        · exact visits_emit d _ _ _ _ rfl (visits_emit d _ _ _ _ rfl hall)
    · cases hloop : read_page_values d database descend page (page.flags % 2 ^ 32)
          s.next_cache (page.values.length - 1) 1 (s.enter_loop page) with
      | next s2 =>
        intro _
        rw [hloop] at hfull
        exact hfull rfl
      | on_error live s2 =>
        intro hone
        simp [leave_loop, on_error] at hone

theorem read_values_from_page_levels_traverses (d : Definitions)
    (database : libesedb_database) (levels : Nat) :
    ∀ (more : Nat) (recursion_depth : Int),
      Traverses d
        (fun child_page s =>
          read_values_from_page_levels d database levels child_page recursion_depth s)
        (leaves_in_order d database levels) (leaves_in_order d database (levels + more)) := by
  induction levels with
  | zero =>
    intro more depth page s
    exact ⟨[], visits_refl d s, List.nil_prefix, by simp [read_values_from_page_levels]⟩
  | succ n ih =>
    intro more depth page s
    have hmore : n + 1 + more = (n + more) + 1 := by omega
    simp only [read_values_from_page_levels, read_values_from_page_body, leaves_in_order, hmore]
    split
    · exact ⟨[], visits_refl d s, List.nil_prefix, by simp⟩
    · exact read_values_from_page_frame_traverses d database _ _ _ (ih more (depth + 1)) page s

theorem read_page_value_walkable (d : Definitions) (database : libesedb_database)
    (descend : libesedb_page → State → Int × State) (below : libesedb_page → Bool)
    (hdesc : ∀ child_page s, below child_page = true → (descend child_page s).1 = 1)
    (page : libesedb_page) (child_page_cache page_value_index : Nat) (s : State) :
    walkable_value d database below page page_value_index = true →
    (read_page_value d database descend page (page.flags % 2 ^ 32) child_page_cache
      page_value_index s).completed = true := by
  apply read_page_value_cases d database descend page (page.flags % 2 ^ 32) child_page_cache
    page_value_index s
    (fun st => walkable_value d database below page page_value_index = true →
      st.completed = true)
  · intro hv hw
    simp [walkable_value, hv] at hw
  · intro pv hv hd _
    rfl
  · intro pv hv hd hp hw
    simp [walkable_value, hv, hd, hp] at hw
  · intro pv ptv hv hd hp hl _
    rfl
  · intro pv ptv hv hd hp hl hs hw
    simp only [walkable_value, hv, hd, hp, hl, hs] at hw
    simp at hw
  · intro pv ptv hv hd hp hl hs hb hw
    simp only [walkable_value, hv, hd, hp, hl, hs, hb] at hw
    simp at hw
  · intro pv ptv hv hd hp hl hs hb hr _
    rfl
  · intro pv ptv hv hd hp hl hs hb hr hc hw
    simp only [walkable_value, hv, hd, hp, hl, hs, hb, hr, hc] at hw
    simp at hw
  · intro pv ptv cp hv hd hp hl hs hb hr hc hq hw
    simp only [walkable_value, hv, hd, hp, hl, hs, hb, hr, hc, hq] at hw
    simp at hw
  · intro pv ptv cp hv hd hp hl hs hb hr hc hq hw
    simp only [walkable_value, hv, hd, hp, hl, hs, hb, hr, hc, hq] at hw
    simp at hw
    rw [hdesc cp _ hw]
    simp [Step.completed]

theorem read_page_values_walkable (d : Definitions) (database : libesedb_database)
    (descend : libesedb_page → State → Int × State) (below : libesedb_page → Bool)
    (hdesc : ∀ child_page s, below child_page = true → (descend child_page s).1 = 1)
    (page : libesedb_page) (child_page_cache : Nat) (remaining : Nat) :
    ∀ (page_value_index : Nat) (s : State), page_value_index + remaining ≤ 65535 →
      (List.range' page_value_index remaining).all
        (walkable_value d database below page) = true →
      (read_page_values d database descend page (page.flags % 2 ^ 32) child_page_cache
        remaining page_value_index s).completed = true := by
  induction remaining with
  | zero => intro i s _ _; rfl
  | succ n ih =>
    intro i s hi hall
    simp only [List.range'_succ, List.all_cons, Bool.and_eq_true] at hall
    have hstep := read_page_value_walkable d database descend below hdesc page
      child_page_cache i s hall.1
    simp only [read_page_values]
    cases hst : read_page_value d database descend page (page.flags % 2 ^ 32)
        child_page_cache i s with
    | on_error live s2 =>
      rw [hst] at hstep
      cases hstep
    | next s2 =>
      have hmod : (i + 1) % 2 ^ 16 = i + 1 := Nat.mod_eq_of_lt (by omega)
      simp only [hmod]
      exact ih (i + 1) s2 (by omega) hall.2

theorem read_values_from_page_levels_walkable (d : Definitions)
    (database : libesedb_database) (levels : Nat) :
    ∀ (page : libesedb_page) (recursion_depth : Int) (s : State), 0 ≤ recursion_depth →
      levels = ((d.LIBESEDB_MAXIMUM_INDEX_NODE_RECURSION_DEPTH : Int) + 1
        - recursion_depth).toNat →
      walkable d database levels page = true →
      (read_values_from_page_levels d database levels page recursion_depth s).1 = 1 := by
  induction levels with
  | zero =>
    intro page depth s _ _ hw
    simp [walkable] at hw
  | succ n ih =>
    intro page depth s h0 hlev hw
    have hguard : ¬ (depth < 0 ∨ depth > d.LIBESEDB_MAXIMUM_INDEX_NODE_RECURSION_DEPTH) := by
      omega
    simp only [read_values_from_page_levels, read_values_from_page_body, hguard, if_false]
    by_cases hne : page.values.length = 0
    · simp [read_values_from_page_frame, libesedb_page_get_number_of_values, hne]
    · have hfit := page.number_of_values_fits
      rw [read_values_from_page_frame_eq d database _ page s hne]
      have hloop := read_page_values_walkable d database
        (fun child_page s => read_values_from_page_levels d database n child_page
          (depth + 1) s)
        (walkable d database n)
        (fun child_page s2 hb => ih child_page (depth + 1) s2 (by omega) (by omega) hb)
        page s.next_cache (page.values.length - 1) 1 (s.enter_loop page) (by omega) hw
      cases hst : read_page_values d database
          (fun child_page s => read_values_from_page_levels d database n child_page
            (depth + 1) s)
          page (page.flags % 2 ^ 32) s.next_cache (page.values.length - 1) 1
          (s.enter_loop page) with
      | on_error live s2 =>
        rw [hst] at hloop
        cases hloop
      | next s2 => rfl

/-- C1 (amended): `libesedb_database_read_values_from_page` visits leaf values
in the depth-first, left-to-right order of the tag arrays. In every run the
leaf values visited are a prefix of `leaves_in_order` (indexes ascending from 1
within a page, the whole subtree of a branch entry before the next entry), and
the counter is incremented once (line 407) after each of them. As long as the
counter does not overflow, that is when its initial value, an `int`, plus the
number of leaf values visited does not exceed `INT_MAX`, the k-th leaf value
visited is visited with `*leaf_value_index` at its initial value plus k and on
return the counter is its initial value plus the number of leaf values
visited. When the call returns 1 the leaf values visited are all of
`leaves_in_order`, and allowing more levels adds no leaf value. The call does
return 1 on a tree that is `walkable`: every page reached loads and validates,
every value reached that is not defunct parses, every branch entry reached is
accepted and the depth limit is not hit. -/
theorem leaf_values_in_order (d : Definitions) (database : libesedb_database)
    (page : libesedb_page) (recursion_depth : Int) (s : State) :
    (∃ visited : List Leaf,
      visited <+: leaves_in_order d database
        ((d.LIBESEDB_MAXIMUM_INDEX_NODE_RECURSION_DEPTH : Int) + 1 - recursion_depth).toNat page
      ∧ leaf_events
          (libesedb_database_read_values_from_page d database page recursion_depth s).2.trace
        = leaf_events s.trace ++ leaf_events_counting d s.leaf_value_index visited
      ∧ (libesedb_database_read_values_from_page d database page recursion_depth
          s).2.leaf_value_index = increments d visited.length s.leaf_value_index
      ∧ (-(INT_MAX d : Int) - 1 ≤ s.leaf_value_index →
          s.leaf_value_index + visited.length ≤ (INT_MAX d : Nat) →
          leaf_events
              (libesedb_database_read_values_from_page d database page recursion_depth
                s).2.trace
            = leaf_events s.trace ++ leaf_events_from s.leaf_value_index visited
          ∧ (∀ (k : Nat) (hk : k < visited.length),
              (leaf_events_from s.leaf_value_index visited)[k]?
                = some (Event.leaf_value (s.leaf_value_index + k) (visited.get ⟨k, hk⟩).1
                    (visited.get ⟨k, hk⟩).2.1 (visited.get ⟨k, hk⟩).2.2))
          ∧ (libesedb_database_read_values_from_page d database page recursion_depth
              s).2.leaf_value_index = s.leaf_value_index + visited.length)
      ∧ ((libesedb_database_read_values_from_page d database page recursion_depth s).1 = 1 →
          visited = leaves_in_order d database
            ((d.LIBESEDB_MAXIMUM_INDEX_NODE_RECURSION_DEPTH : Int) + 1
              - recursion_depth).toNat page
          ∧ ∀ more : Nat, leaves_in_order d database
              (((d.LIBESEDB_MAXIMUM_INDEX_NODE_RECURSION_DEPTH : Int) + 1
                - recursion_depth).toNat + more) page
            = leaves_in_order d database
              ((d.LIBESEDB_MAXIMUM_INDEX_NODE_RECURSION_DEPTH : Int) + 1
                - recursion_depth).toNat page))
    ∧ (0 ≤ recursion_depth →
      walkable d database
        ((d.LIBESEDB_MAXIMUM_INDEX_NODE_RECURSION_DEPTH : Int) + 1 - recursion_depth).toNat
        page = true →
      (libesedb_database_read_values_from_page d database page recursion_depth s).1 = 1) := by
  refine ⟨?_, fun h0 hw => read_values_from_page_levels_walkable d database _ page
    recursion_depth s h0 rfl hw⟩
  obtain ⟨visited, hvis, hpre, _⟩ := read_values_from_page_levels_traverses d database
    ((d.LIBESEDB_MAXIMUM_INDEX_NODE_RECURSION_DEPTH : Int) + 1 - recursion_depth).toNat 0
    recursion_depth page s
  refine ⟨visited, hpre, hvis.1, hvis.2, ?_, ?_⟩
  · intro hlow hhigh
    refine ⟨?_, leaf_events_from_getElem visited s.leaf_value_index, ?_⟩
    · rw [← leaf_events_counting_of_no_overflow d visited s.leaf_value_index hlow hhigh]
      exact hvis.1
    · rw [← increments_of_no_overflow d visited.length s.leaf_value_index hlow hhigh]
      exact hvis.2
  intro hone
  have hfull : ∀ more : Nat, visited = leaves_in_order d database
        ((d.LIBESEDB_MAXIMUM_INDEX_NODE_RECURSION_DEPTH : Int) + 1 - recursion_depth).toNat page
      ∧ leaves_in_order d database
          (((d.LIBESEDB_MAXIMUM_INDEX_NODE_RECURSION_DEPTH : Int) + 1
            - recursion_depth).toNat + more) page
        = leaves_in_order d database
          ((d.LIBESEDB_MAXIMUM_INDEX_NODE_RECURSION_DEPTH : Int) + 1
            - recursion_depth).toNat page := by
    intro more
    obtain ⟨visited2, hvis2, _, hfull2⟩ := read_values_from_page_levels_traverses d database
      ((d.LIBESEDB_MAXIMUM_INDEX_NODE_RECURSION_DEPTH : Int) + 1 - recursion_depth).toNat more
      recursion_depth page s
    have hsame : visited2 = visited := by
      have hlen : visited2.length = visited.length := by
        have e1 := congrArg List.length hvis.1
        have e2 := congrArg List.length hvis2.1
        simp only [List.length_append, leaf_events_counting_length] at e1 e2
        omega
      have hp := (hfull2 hone).1
      rw [hp]
      have hq := List.IsPrefix.eq_of_length hpre (by rw [← hlen, hp])
      exact hq.symm
    rw [← hsame]
    exact hfull2 hone
  exact ⟨(hfull 0).1, fun more => (hfull more).2⟩

/-- C1, at a concrete input: the claim fails where the counter overflows. On
the two-level tree with the counter at `INT_MAX - 1` the walk returns 1 after
four leaf values; the third is visited with the counter at `-INT_MAX - 1`, not
at its initial value plus 2, and on return the counter is `-INT_MAX + 1`, not
its initial value plus 4. -/
theorem leaf_counter_overflows :
    INT_MAX definitions = 2147483647
    ∧ (libesedb_database_read_values_from_page definitions (database_of 10 two_level_pages)
        { page_number := 4, flags := 5,
          values := [root_tag, branch_value 5 0 0 0, branch_value 6 0 0 0] }
        0 { leaf_value_index := 2147483646, next_cache := 0, trace := [] }).1 = 1
    ∧ leaf_events (libesedb_database_read_values_from_page definitions
        (database_of 10 two_level_pages)
        { page_number := 4, flags := 5,
          values := [root_tag, branch_value 5 0 0 0, branch_value 6 0 0 0] }
        0 { leaf_value_index := 2147483646, next_cache := 0, trace := [] }).2.trace
      = [Event.leaf_value 2147483646 5 1
           { common_key_size := 0, local_key := [0], data := [65] },
         Event.leaf_value 2147483647 5 2
           { common_key_size := 0, local_key := [1], data := [66] },
         Event.leaf_value (-2147483648) 6 1
           { common_key_size := 0, local_key := [2], data := [67] },
         Event.leaf_value (-2147483647) 6 2
           { common_key_size := 0, local_key := [3], data := [68] }]
    ∧ (libesedb_database_read_values_from_page definitions (database_of 10 two_level_pages)
        { page_number := 4, flags := 5,
          values := [root_tag, branch_value 5 0 0 0, branch_value 6 0 0 0] }
        0 { leaf_value_index := 2147483646, next_cache := 0, trace := [] }).2.leaf_value_index
      = -2147483646 := by
  decide

/-- C1 (amended), at a concrete input: on the two-level tree the walk returns 1
and visits the four leaf values of pages 5 and 6 in order, with the counter at
0, 1, 2, 3, and returns with the counter at 4. -/
theorem leaf_values_in_order_witness :
    ∃ visited : List Leaf,
      visited = [(5, 1, { common_key_size := 0, local_key := [0], data := [65] }),
                 (5, 2, { common_key_size := 0, local_key := [1], data := [66] }),
                 (6, 1, { common_key_size := 0, local_key := [2], data := [67] }),
                 (6, 2, { common_key_size := 0, local_key := [3], data := [68] })]
      ∧ leaf_events (libesedb_database_read_values_from_page definitions
          (database_of 10 two_level_pages)
          { page_number := 4, flags := 5,
            values := [root_tag, branch_value 5 0 0 0, branch_value 6 0 0 0] }
          0 State.initial).2.trace
        = leaf_events_from 0 visited
      ∧ (libesedb_database_read_values_from_page definitions
          (database_of 10 two_level_pages)
          { page_number := 4, flags := 5,
            values := [root_tag, branch_value 5 0 0 0, branch_value 6 0 0 0] }
          0 State.initial).2.leaf_value_index = 0 + (4 : Nat) := by
  have h := leaf_values_in_order definitions (database_of 10 two_level_pages)
    { page_number := 4, flags := 5,
      values := [root_tag, branch_value 5 0 0 0, branch_value 6 0 0 0] }
    0 State.initial
  obtain ⟨⟨visited, _, _, _, hexact, hfull⟩, hwalk⟩ := h
  have hall := (hfull (hwalk (by decide) (by decide))).1
  have hvisited : visited
      = [(5, 1, { common_key_size := 0, local_key := [0], data := [65] }),
         (5, 2, { common_key_size := 0, local_key := [1], data := [66] }),
         (6, 1, { common_key_size := 0, local_key := [2], data := [67] }),
         (6, 2, { common_key_size := 0, local_key := [3], data := [68] })] := by
    rw [hall]
    decide
  subst hvisited
  obtain ⟨hev, _, hcount⟩ := hexact (by decide) (by decide)
  exact ⟨_, rfl, by simpa [State.initial, leaf_events] using hev, hcount⟩

/-! ## Defunct values -/

theorem forget_indexes_append (t t' : List Event) :
    forget_indexes (t ++ t') = forget_indexes t ++ forget_indexes t' := by
  simp [forget_indexes]

theorem sim_refl (s : State) : Sim s s := ⟨rfl, rfl, rfl⟩

theorem sim_emit (s s2 : State) (e e2 : Event) (h : Sim s s2)
    (he : e2.forget_index = e.forget_index) : Sim (s.emit e) (s2.emit e2) := by
  refine ⟨h.1, h.2.1, ?_⟩
  simp only [State.emit, forget_indexes_append, h.2.2]
  simp only [forget_indexes, List.filterMap_cons, he]

theorem sim_emit_left (s s2 : State) (e : Event) (h : Sim s s2)
    (he : e.forget_index = none) : Sim (s.emit e) s2 := by
  refine ⟨h.1, h.2.1, ?_⟩
  simp only [State.emit, forget_indexes_append, h.2.2]
  simp [forget_indexes, he]

theorem sim_value_read (s s2 : State) (page page2 : libesedb_page) (i i2 : Nat)
    (page_value : libesedb_page_value) (h : Sim s s2) :
    Sim (s.value_read page i page_value) (s2.value_read page2 i2 page_value) := by
  unfold State.value_read
  exact sim_emit _ _ _ _ (sim_emit _ _ _ _ (sim_emit _ _ _ _ h rfl) rfl) rfl

theorem sim_descend (descend : libesedb_page → State → Int × State)
    (hdesc : TraceBlind descend) (child_page : libesedb_page) (s s2 : State) (h : Sim s s2) :
    (descend child_page s2).1 = (descend child_page s).1
    ∧ Sim (descend child_page s).2 (descend child_page s2).2 := by
  have hs : s = State.prepend s.trace { s with trace := [] } := by simp [State.prepend]
  have hs2 : s2 = State.prepend s2.trace { s with trace := [] } := by
    cases s2
    cases s
    simp only [Sim] at h
    simp [State.prepend, h.1, h.2.1]
  rw [hs2, hs, hdesc, hdesc]
  refine ⟨rfl, rfl, rfl, ?_⟩
  simp only [State.prepend, forget_indexes_append, h.2.2]

theorem read_page_value_sim (d : Definitions) (database : libesedb_database)
    (descend : libesedb_page → State → Int × State) (hdesc : TraceBlind descend)
    (page page2 : libesedb_page) (page_flags child_page_cache i i2 : Nat) (s s2 : State)
    (hnum : page2.page_number = page.page_number)
    (hsame : page2.values[i2]? = page.values[i]?) (h : Sim s s2) :
    StepSim (read_page_value d database descend page page_flags child_page_cache i s)
      (read_page_value d database descend page2 page_flags child_page_cache i2 s2) := by
  apply read_page_value_cases d database descend page page_flags child_page_cache i s
    (fun st => StepSim st
      (read_page_value d database descend page2 page_flags child_page_cache i2 s2))
  · intro hv
    rw [read_page_value_absent _ _ _ _ _ _ _ _ (hsame.trans hv)]
    exact ⟨rfl, sim_emit _ _ _ _ h rfl⟩
  · intro pv hv hd
    rw [read_page_value_defunct _ _ _ _ _ _ _ _ _ (hsame.trans hv) hd]
    exact sim_emit _ _ _ _ h rfl
  · intro pv hv hd hp
    rw [read_page_value_unparsed _ _ _ _ _ _ _ _ _ (hsame.trans hv) hd hp]
    exact ⟨rfl, sim_value_read _ _ _ _ _ _ _ h⟩
  · intro pv ptv hv hd hp hl
    rw [read_page_value_leaf _ _ _ _ _ _ _ _ _ _ (hsame.trans hv) hd hp hl]
    have hvr := sim_value_read s s2 page page2 i i2 pv h
    refine ⟨by simp [h.1], h.2.1, ?_⟩
    simp only [forget_indexes_append, hvr.2.2, h.1, hnum]
    simp [forget_indexes, Event.forget_index]
  · intro pv ptv hv hd hp hl hs
    rw [read_page_value_short _ _ _ _ _ _ _ _ _ _ (hsame.trans hv) hd hp hl hs]
    exact ⟨rfl, sim_value_read _ _ _ _ _ _ _ h⟩
  · intro pv ptv hv hd hp hl hs hb
    rw [read_page_value_out_of_bounds _ _ _ _ _ _ _ _ _ _ (hsame.trans hv) hd hp hl hs hb]
    exact ⟨rfl, sim_value_read _ _ _ _ _ _ _ h⟩
  · intro pv ptv hv hd hp hl hs hb hr
    rw [read_page_value_skipped _ _ _ _ _ _ _ _ _ _ (hsame.trans hv) hd hp hl hs hb hr]
    exact sim_emit _ _ _ _ (sim_value_read _ _ _ _ _ _ _ h) rfl
  · intro pv ptv hv hd hp hl hs hb hr hc
    rw [read_page_value_load_failed _ _ _ _ _ _ _ _ _ _ (hsame.trans hv) hd hp hl hs hb hr hc]
    exact ⟨rfl, sim_emit _ _ _ _ (sim_value_read _ _ _ _ _ _ _ h) rfl⟩
  · intro pv ptv cp hv hd hp hl hs hb hr hc hq
    rw [read_page_value_invalid _ _ _ _ _ _ _ _ _ _ _ (hsame.trans hv) hd hp hl hs hb hr hc hq]
    exact ⟨rfl, sim_emit _ _ _ _ (sim_emit _ _ _ _ (sim_value_read _ _ _ _ _ _ _ h) rfl) rfl⟩
  · intro pv ptv cp hv hd hp hl hs hb hr hc hq
    rw [read_page_value_descend _ _ _ _ _ _ _ _ _ _ _ (hsame.trans hv) hd hp hl hs hb hr hc hq]
    have hstart := sim_emit _ _
      (Event.validate_page cp.page_number) (Event.validate_page cp.page_number)
      (sim_emit _ _
        (Event.get_element_value child_page_cache
          (to_int d (byte_stream_copy_to_uint32_little_endian ptv.data) - 1))
        (Event.get_element_value child_page_cache
          (to_int d (byte_stream_copy_to_uint32_little_endian ptv.data) - 1))
        (sim_value_read s s2 page page2 i i2 pv h) rfl) rfl
    obtain ⟨hres, hsim⟩ := sim_descend descend hdesc cp _ _ hstart
    rw [hres]
    split
    · exact ⟨rfl, hsim⟩
    · exact sim_emit _ _ _ _ hsim rfl

theorem getElem?_length_append_cons {α : Type} (before : List α) (x : α) (rest : List α) :
    (before ++ x :: rest)[before.length]? = some x := by
  induction before with
  | nil => simp
  | cons a l ih => simpa using ih

theorem read_page_values_sim (d : Definitions) (database : libesedb_database)
    (descend : libesedb_page → State → Int × State) (hdesc : TraceBlind descend)
    (page page2 : libesedb_page) (page_flags child_page_cache : Nat)
    (hnum : page2.page_number = page.page_number)
    (rest : List libesedb_page_value) :
    ∀ (before before2 : List libesedb_page_value) (s s2 : State),
      page.values = before ++ rest →
      page2.values = before2 ++ rest.filter (is_live d) →
      Sim s s2 →
      StepSim
        (read_page_values d database descend page page_flags child_page_cache
          rest.length before.length s)
        (read_page_values d database descend page2 page_flags child_page_cache
          (rest.filter (is_live d)).length before2.length s2) := by
  induction rest with
  | nil =>
    intro before before2 s s2 _ _ h
    exact h
  | cons pv rest ih =>
    intro before before2 s s2 hvals hvals2 h
    have hfit := page.number_of_values_fits
    have hlen : before.length + (rest.length + 1) ≤ 65535 := by
      rw [hvals] at hfit
      simpa using hfit
    have hv : page.values[before.length]? = some pv := by
      rw [hvals]
      exact getElem?_length_append_cons _ _ _
    have hmod : (before.length + 1) % 2 ^ 16 = (before ++ [pv]).length := by
      rw [Nat.mod_eq_of_lt (by omega)]
      simp
    have hnext : page.values = (before ++ [pv]) ++ rest := by
      rw [hvals]
      simp
    by_cases hlive : is_live d pv = true
    · have hfit2 := page2.number_of_values_fits
      have hfilter : (pv :: rest).filter (is_live d) = pv :: rest.filter (is_live d) := by
        simp [List.filter_cons, hlive]
      rw [hfilter] at hvals2
      have hlen2 : before2.length + ((rest.filter (is_live d)).length + 1) ≤ 65535 := by
        rw [hvals2] at hfit2
        simpa using hfit2
      have hv2 : page2.values[before2.length]? = some pv := by
        rw [hvals2]
        exact getElem?_length_append_cons _ _ _
      have hmod2 : (before2.length + 1) % 2 ^ 16 = (before2 ++ [pv]).length := by
        rw [Nat.mod_eq_of_lt (by omega)]
        simp
      have hnext2 : page2.values = (before2 ++ [pv]) ++ rest.filter (is_live d) := by
        rw [hvals2]
        simp
      have hstep := read_page_value_sim d database descend hdesc page page2 page_flags
        child_page_cache before.length before2.length s s2 hnum (hv2.trans hv.symm) h
      simp only [hfilter, List.length_cons, read_page_values]
      cases h1 : read_page_value d database descend page page_flags child_page_cache
          before.length s with
      | next t =>
        cases h2 : read_page_value d database descend page2 page_flags child_page_cache
            before2.length s2 with
        | next t2 =>
          rw [h1, h2] at hstep
          simp only [hmod, hmod2]
          exact ih (before ++ [pv]) (before2 ++ [pv]) t t2 hnext hnext2 hstep
        | on_error live2 t2 =>
          rw [h1, h2] at hstep
          exact hstep.elim
      | on_error live t =>
        cases h2 : read_page_value d database descend page2 page_flags child_page_cache
            before2.length s2 with
        | next t2 =>
          rw [h1, h2] at hstep
          exact hstep.elim
        | on_error live2 t2 =>
          rw [h1, h2] at hstep
          exact hstep
    · have hfilter : (pv :: rest).filter (is_live d) = rest.filter (is_live d) := by
        simp [List.filter_cons, hlive]
      rw [hfilter] at hvals2
      have hd : pv.flags &&& d.LIBESEDB_PAGE_TAG_FLAG_IS_DEFUNCT ≠ 0 := by
        simpa [is_live] using hlive
      simp only [hfilter, List.length_cons, read_page_values]
      rw [read_page_value_defunct _ _ _ _ _ _ _ _ _ hv hd]
      simp only [hmod]
      exact ih (before ++ [pv]) before2 _ s2 hnext hvals2 (sim_emit_left _ _ _ h rfl)

theorem leave_loop_sim (child_page_cache : Nat) (st st2 : Step) (h : StepSim st st2) :
    (leave_loop child_page_cache st2).1 = (leave_loop child_page_cache st).1
    ∧ Sim (leave_loop child_page_cache st).2 (leave_loop child_page_cache st2).2 := by
  cases st with
  | next s =>
    cases st2 with
    | next s2 => exact ⟨rfl, sim_emit _ _ _ _ h rfl⟩
    | on_error live2 s2 => exact h.elim
  | on_error live s =>
    cases st2 with
    | next s2 => exact h.elim
    | on_error live2 s2 =>
      obtain ⟨hl, hs⟩ := h
      subst hl
      cases live2
      · exact ⟨rfl, sim_emit _ _ _ _ hs rfl⟩
      · exact ⟨rfl, sim_emit _ _ _ _ (sim_emit _ _ _ _ hs rfl) rfl⟩

theorem read_values_from_page_frame_without_defunct (d : Definitions)
    (database : libesedb_database) (descend : libesedb_page → State → Int × State)
    (hdesc : TraceBlind descend) (page : libesedb_page) (s : State) :
    (read_values_from_page_frame d database descend (without_defunct d page) s).1
      = (read_values_from_page_frame d database descend page s).1
    ∧ Sim (read_values_from_page_frame d database descend page s).2
        (read_values_from_page_frame d database descend (without_defunct d page) s).2 := by
  cases hvals : page.values with
  | nil =>
    have hl : page.values.length = 0 := by rw [hvals]; rfl
    have hl2 : (without_defunct d page).values.length = 0 := by
      simp [without_defunct, hvals, live_values]
    simp only [read_values_from_page_frame, libesedb_page_get_number_of_values, hl, hl2,
      if_true, true_and]
    exact sim_emit _ _ _ _ (sim_refl s) rfl
  | cons first_tag values =>
    have hne : page.values.length ≠ 0 := by rw [hvals]; simp
    have hvals2 : (without_defunct d page).values
        = [first_tag] ++ values.filter (is_live d) := by
      simp [without_defunct, hvals, live_values]
    have hne2 : (without_defunct d page).values.length ≠ 0 := by rw [hvals2]; simp
    rw [read_values_from_page_frame_eq d database descend page s hne,
      read_values_from_page_frame_eq d database descend _ s hne2]
    have hloop := read_page_values_sim d database descend hdesc page (without_defunct d page)
      (page.flags % 2 ^ 32) s.next_cache rfl values [first_tag] [first_tag]
      (s.enter_loop page) (s.enter_loop (without_defunct d page)) hvals hvals2 (sim_refl _)
    have hlen : page.values.length - 1 = values.length := by rw [hvals]; simp
    have hlen2 : (without_defunct d page).values.length - 1
        = (values.filter (is_live d)).length := by rw [hvals2]; simp
    rw [hlen, hlen2]
    exact leave_loop_sim s.next_cache _ _ hloop

theorem page_requests_forget_indexes (t : List Event) :
    page_requests (forget_indexes t) = page_requests t := by
  induction t with
  | nil => rfl
  | cons e t ih =>
    have hcons : ∀ (a : Event) (l : List Event),
        page_requests (a :: l) = page_requests [a] ++ page_requests l :=
      fun a l => page_requests_append [a] l
    have hf : forget_indexes (e :: t) = forget_indexes [e] ++ forget_indexes t :=
      forget_indexes_append [e] t
    rw [hf, page_requests_append, ih, hcons e t]
    congr 1
    cases e <;> rfl

theorem read_page_values_leaf_page (d : Definitions) (database : libesedb_database)
    (descend : libesedb_page → State → Int × State) (page : libesedb_page)
    (child_page_cache : Nat)
    (hl : (page.flags % 2 ^ 32) &&& d.LIBESEDB_PAGE_FLAG_IS_LEAF ≠ 0)
    (rest : List libesedb_page_value) :
    ∀ (before : List libesedb_page_value) (s : State),
      page.values = before ++ rest →
      (∀ pv ∈ rest, is_live d pv = true →
        (database.page_tree.libesedb_page_tree_value_read_data pv.data pv.flags).isSome
          = true) →
      ∃ s2, read_page_values d database descend page (page.flags % 2 ^ 32) child_page_cache
            rest.length before.length s = Step.next s2
        ∧ s2.leaf_value_index
          = increments d (rest.filter (is_live d)).length s.leaf_value_index
        ∧ s2.next_cache = s.next_cache
        ∧ page_requests s2.trace = page_requests s.trace := by
  induction rest with
  | nil =>
    intro before s _ _
    exact ⟨s, rfl, rfl, rfl, rfl⟩
  | cons pv rest ih =>
    intro before s hvals hparse
    have hfit := page.number_of_values_fits
    have hlen : before.length + (rest.length + 1) ≤ 65535 := by
      rw [hvals] at hfit
      simpa using hfit
    have hv : page.values[before.length]? = some pv := by
      rw [hvals]
      exact getElem?_length_append_cons _ _ _
    have hmod : (before.length + 1) % 2 ^ 16 = (before ++ [pv]).length := by
      rw [Nat.mod_eq_of_lt (by omega)]
      simp
    have hnext : page.values = (before ++ [pv]) ++ rest := by
      rw [hvals]
      simp
    have hrest : ∀ pv2 ∈ rest, is_live d pv2 = true →
        (database.page_tree.libesedb_page_tree_value_read_data pv2.data pv2.flags).isSome
          = true := fun pv2 hmem => hparse pv2 (List.mem_cons_of_mem _ hmem)
    simp only [List.length_cons, read_page_values]
    by_cases hlive : is_live d pv = true
    · have hd : pv.flags &&& d.LIBESEDB_PAGE_TAG_FLAG_IS_DEFUNCT = 0 := by
        simpa [is_live] using hlive
      obtain ⟨ptv, hp⟩ := Option.isSome_iff_exists.mp (hparse pv (List.mem_cons_self _ _) hlive)
      rw [read_page_value_leaf _ _ _ _ _ _ _ _ _ _ hv hd hp hl]
      simp only [hmod]
      obtain ⟨s2, h1, h2, h3, h4⟩ := ih (before ++ [pv]) _ hnext hrest
      refine ⟨s2, h1, ?_, h3, ?_⟩
      · rw [h2]
        simp only [List.filter_cons, hlive, if_true, List.length_cons, increments]
      · rw [h4]
        simp [page_requests, State.value_read, State.emit]
    · have hd : pv.flags &&& d.LIBESEDB_PAGE_TAG_FLAG_IS_DEFUNCT ≠ 0 := by
        simpa [is_live] using hlive
      rw [read_page_value_defunct _ _ _ _ _ _ _ _ _ hv hd]
      simp only [hmod]
      obtain ⟨s2, h1, h2, h3, h4⟩ := ih (before ++ [pv]) _ hnext hrest
      refine ⟨s2, h1, ?_, h3, ?_⟩
      · rw [h2]
        simp [List.filter_cons, hlive, State.emit]
      · rw [h4]
        simp [page_requests, State.emit]

theorem read_page_values_leaf_counts (d : Definitions) (database : libesedb_database)
    (descend : libesedb_page → State → Int × State) (page : libesedb_page)
    (child_page_cache : Nat)
    (hl : (page.flags % 2 ^ 32) &&& d.LIBESEDB_PAGE_FLAG_IS_LEAF ≠ 0)
    (rest : List libesedb_page_value) :
    ∀ (before : List libesedb_page_value) (s : State),
      page.values = before ++ rest →
      ∃ count : Nat, count ≤ (rest.filter (is_live d)).length
        ∧ (read_page_values d database descend page (page.flags % 2 ^ 32) child_page_cache
            rest.length before.length s).state.leaf_value_index
          = increments d count s.leaf_value_index
        ∧ ((read_page_values d database descend page (page.flags % 2 ^ 32) child_page_cache
            rest.length before.length s).completed = true →
          count = (rest.filter (is_live d)).length) := by
  induction rest with
  | nil =>
    intro before s _
    exact ⟨0, Nat.le_refl _, rfl, fun _ => rfl⟩
  | cons pv rest ih =>
    intro before s hvals
    have hfit := page.number_of_values_fits
    have hlen : before.length + (rest.length + 1) ≤ 65535 := by
      rw [hvals] at hfit
      simpa using hfit
    have hv : page.values[before.length]? = some pv := by
      rw [hvals]
      exact getElem?_length_append_cons _ _ _
    have hmod : (before.length + 1) % 2 ^ 16 = (before ++ [pv]).length := by
      rw [Nat.mod_eq_of_lt (by omega)]
      simp
    have hnext : page.values = (before ++ [pv]) ++ rest := by
      rw [hvals]
      simp
    simp only [List.length_cons, read_page_values]
    by_cases hlive : is_live d pv = true
    · have hd : pv.flags &&& d.LIBESEDB_PAGE_TAG_FLAG_IS_DEFUNCT = 0 := by
        simpa [is_live] using hlive
      have hfilter : ((pv :: rest).filter (is_live d)).length
          = (rest.filter (is_live d)).length + 1 := by
        simp [List.filter_cons, hlive]
      cases hp : database.page_tree.libesedb_page_tree_value_read_data pv.data pv.flags with
      | none =>
        rw [read_page_value_unparsed _ _ _ _ _ _ _ _ _ hv hd hp]
        exact ⟨0, Nat.zero_le _, rfl, fun hc => by simp [Step.completed] at hc⟩
      | some ptv =>
        rw [read_page_value_leaf _ _ _ _ _ _ _ _ _ _ hv hd hp hl]
        simp only [hmod]
        obtain ⟨count, hle, hcount, hall⟩ := ih (before ++ [pv]) _ hnext
        refine ⟨count + 1, by omega, ?_, ?_⟩
        · rw [hcount]
          rfl
        · intro hc
          rw [hall hc, hfilter]
    · have hd : pv.flags &&& d.LIBESEDB_PAGE_TAG_FLAG_IS_DEFUNCT ≠ 0 := by
        simpa [is_live] using hlive
      have hfilter : ((pv :: rest).filter (is_live d)).length
          = (rest.filter (is_live d)).length := by
        simp [List.filter_cons, hlive]
      rw [read_page_value_defunct _ _ _ _ _ _ _ _ _ hv hd]
      simp only [hmod]
      obtain ⟨count, hle, hcount, hall⟩ := ih (before ++ [pv]) _ hnext
      refine ⟨count, by omega, ?_, ?_⟩
      · rw [hcount]
        rfl
      · intro hc
        rw [hall hc, hfilter]

/-- A leaf page, however the call ends: the counter has been incremented once
for each of the values in use that were visited, and these are all the values
in use after the first tag when the call returns 1. -/
theorem read_values_from_page_leaf_counts (d : Definitions) (database : libesedb_database)
    (page : libesedb_page) (recursion_depth : Int) (s : State)
    (hl : (page.flags % 2 ^ 32) &&& d.LIBESEDB_PAGE_FLAG_IS_LEAF ≠ 0) :
    ∃ count : Nat, count ≤ (page.values.tail.filter (is_live d)).length
      ∧ (libesedb_database_read_values_from_page d database page recursion_depth
          s).2.leaf_value_index = increments d count s.leaf_value_index
      ∧ ((libesedb_database_read_values_from_page d database page recursion_depth s).1 = 1 →
        count = (page.values.tail.filter (is_live d)).length) := by
  rw [read_values_from_page_eq]
  unfold read_values_from_page_body
  split
  · exact ⟨0, Nat.zero_le _, rfl, fun h => by simp at h⟩
  · cases hvals : page.values with
    | nil =>
      have hlen : page.values.length = 0 := by rw [hvals]; rfl
      simp only [read_values_from_page_frame, libesedb_page_get_number_of_values, hlen,
        if_true]
      exact ⟨0, Nat.zero_le _, rfl, fun _ => rfl⟩
    | cons first_tag values =>
      have hne : page.values.length ≠ 0 := by rw [hvals]; simp
      have hlen : page.values.length - 1 = values.length := by rw [hvals]; simp
      obtain ⟨count, hle, hcount, hall⟩ := read_page_values_leaf_counts d database
        (fun child_page s => libesedb_database_read_values_from_page d database child_page
          (recursion_depth + 1) s) page s.next_cache hl values [first_tag]
        (s.enter_loop page) hvals
      simp only [List.length_singleton] at hcount hall
      rw [read_values_from_page_frame_eq d database _ page s hne, hlen]
      simp only [List.tail_cons]
      cases hloop : read_page_values d database
          (fun child_page s => libesedb_database_read_values_from_page d database child_page
            (recursion_depth + 1) s) page (page.flags % 2 ^ 32) s.next_cache values.length 1
          (s.enter_loop page) with
      | next s2 =>
        rw [hloop] at hcount hall
        exact ⟨count, hle, hcount, fun _ => hall rfl⟩
      | on_error live s2 =>
        rw [hloop] at hcount
        refine ⟨count, hle, ?_, fun h => by simp [leave_loop, on_error] at h⟩
        cases live <;> exact hcount

/-- C7 (amended): defunct values are skipped silently and never parsed. The
outcome of `libesedb_database_read_values_from_page` on a page equals its
outcome on the same page with the defunct values removed: same result, same
counter, same caches, and the same trace once tag indexes are forgotten, so the
same leaf values in the same order, the same parses and the same page
requests, whatever the bytes of the defunct values. On a leaf page, when the
call returns 1, the counter has been incremented once for each value that is
not defunct among the indexes 1 to n-1, and so has advanced by exactly their
number when its initial value, an `int`, plus that number does not exceed
`INT_MAX`. The call does return 1, without requesting a page, when the depth
is admissible and every value of the page that is not defunct parses. -/
theorem defunct_values_skipped (d : Definitions) (database : libesedb_database)
    (page : libesedb_page) (recursion_depth : Int) (s : State) :
    (libesedb_database_read_values_from_page d database (without_defunct d page)
        recursion_depth s).1
      = (libesedb_database_read_values_from_page d database page recursion_depth s).1
    ∧ (libesedb_database_read_values_from_page d database (without_defunct d page)
        recursion_depth s).2.leaf_value_index
      = (libesedb_database_read_values_from_page d database page recursion_depth
          s).2.leaf_value_index
    ∧ (libesedb_database_read_values_from_page d database (without_defunct d page)
        recursion_depth s).2.next_cache
      = (libesedb_database_read_values_from_page d database page recursion_depth
          s).2.next_cache
    ∧ forget_indexes (libesedb_database_read_values_from_page d database
        (without_defunct d page) recursion_depth s).2.trace
      = forget_indexes (libesedb_database_read_values_from_page d database page
          recursion_depth s).2.trace
    ∧ page_requests (libesedb_database_read_values_from_page d database
        (without_defunct d page) recursion_depth s).2.trace
      = page_requests (libesedb_database_read_values_from_page d database page
          recursion_depth s).2.trace
    ∧ ((page.flags % 2 ^ 32) &&& d.LIBESEDB_PAGE_FLAG_IS_LEAF ≠ 0 →
      ((libesedb_database_read_values_from_page d database page recursion_depth s).1 = 1 →
        (libesedb_database_read_values_from_page d database page recursion_depth
            s).2.leaf_value_index
          = increments d (page.values.tail.filter (is_live d)).length s.leaf_value_index
        ∧ (-(INT_MAX d : Int) - 1 ≤ s.leaf_value_index →
          s.leaf_value_index + ((page.values.tail.filter (is_live d)).length : Nat)
            ≤ (INT_MAX d : Nat) →
          (libesedb_database_read_values_from_page d database page recursion_depth
              s).2.leaf_value_index
            = s.leaf_value_index + ((page.values.tail.filter (is_live d)).length : Nat)))
      ∧ (0 ≤ recursion_depth →
        recursion_depth ≤ d.LIBESEDB_MAXIMUM_INDEX_NODE_RECURSION_DEPTH →
        (∀ pv ∈ page.values.tail, is_live d pv = true →
          (database.page_tree.libesedb_page_tree_value_read_data pv.data pv.flags).isSome
            = true) →
        (libesedb_database_read_values_from_page d database page recursion_depth s).1 = 1
        ∧ page_requests (libesedb_database_read_values_from_page d database page
            recursion_depth s).2.trace = page_requests s.trace)) := by
  have hsim : (libesedb_database_read_values_from_page d database (without_defunct d page)
        recursion_depth s).1
      = (libesedb_database_read_values_from_page d database page recursion_depth s).1
      ∧ Sim (libesedb_database_read_values_from_page d database page recursion_depth s).2
        (libesedb_database_read_values_from_page d database (without_defunct d page)
          recursion_depth s).2 := by
    rw [read_values_from_page_eq d database page, read_values_from_page_eq d database _]
    unfold read_values_from_page_body
    split
    · exact ⟨rfl, sim_refl s⟩
    · exact read_values_from_page_frame_without_defunct d database _
        (read_values_from_page_prepend d database (recursion_depth + 1)) page s
  refine ⟨hsim.1, hsim.2.1, hsim.2.2.1, hsim.2.2.2, ?_, ?_⟩
  · rw [← page_requests_forget_indexes, hsim.2.2.2, page_requests_forget_indexes]
  · intro hl
    constructor
    · intro hone
      obtain ⟨count, _, hcount, hall⟩ := read_values_from_page_leaf_counts d database page
        recursion_depth s hl
      rw [hall hone] at hcount
      refine ⟨hcount, fun hlow hhigh => ?_⟩
      rw [hcount]
      exact increments_of_no_overflow d _ s.leaf_value_index hlow hhigh
    · intro h0 h1 hparse
      rw [read_values_from_page_in_bounds d database page recursion_depth s h0 h1]
      cases hvals : page.values with
      | nil =>
        have hlen : page.values.length = 0 := by rw [hvals]; rfl
        simp [read_values_from_page_frame, libesedb_page_get_number_of_values, hlen,
          State.emit, page_requests]
      | cons first_tag values =>
        have hne : page.values.length ≠ 0 := by rw [hvals]; simp
        rw [hvals] at hparse
        obtain ⟨s2, h1, _, _, h4⟩ := read_page_values_leaf_page d database
          (fun child_page s => libesedb_database_read_values_from_page d database child_page
            (recursion_depth + 1) s) page s.next_cache hl values [first_tag]
          (s.enter_loop page) hvals hparse
        have hlen : page.values.length - 1 = values.length := by rw [hvals]; simp
        rw [read_values_from_page_frame_eq d database _ page s hne, hlen]
        have h1b : read_page_values d database
            (fun child_page s => libesedb_database_read_values_from_page d database child_page
              (recursion_depth + 1) s) page (page.flags % 2 ^ 32) s.next_cache values.length 1
            (s.enter_loop page) = Step.next s2 := h1
        rw [h1b]
        refine ⟨rfl, ?_⟩
        simp only [leave_loop, page_requests_emit, h4]
        simp [page_requests, State.enter_loop, State.emit]

/-- C7, at a concrete input: the last clause of the claim fails. The leaf page 9
has one value after its first tag, and that value is not defunct. Whatever the
database, a call beyond the maximum depth returns -1 with the state, and so
the counter, as it was; and a call at depth 0 with the counter at `INT_MAX`
that returns 1 leaves the counter at `-INT_MAX - 1`, not at its initial value
plus one, which is what happens with the database of the two-level tree. -/
theorem leaf_counter_not_advanced_by_live_values :
    (([root_tag, leaf_value 0 65].tail.filter (is_live definitions)).length = 1)
    ∧ INT_MAX definitions = 2147483647
    ∧ (∀ (database : libesedb_database) (s : State),
        libesedb_database_read_values_from_page definitions database
          { page_number := 9, flags := 2, values := [root_tag, leaf_value 0 65] } 257 s
        = (-1, s))
    ∧ (∀ database : libesedb_database,
        (libesedb_database_read_values_from_page definitions database
          { page_number := 9, flags := 2, values := [root_tag, leaf_value 0 65] } 0
          { leaf_value_index := 2147483647, next_cache := 0, trace := [] }).1 = 1 →
        (libesedb_database_read_values_from_page definitions database
          { page_number := 9, flags := 2, values := [root_tag, leaf_value 0 65] } 0
          { leaf_value_index := 2147483647, next_cache := 0, trace := [] }).2.leaf_value_index
          = -2147483648)
    ∧ (libesedb_database_read_values_from_page definitions (database_of 10 two_level_pages)
        { page_number := 9, flags := 2, values := [root_tag, leaf_value 0 65] } 0
        { leaf_value_index := 2147483647, next_cache := 0, trace := [] }).1 = 1
    ∧ (libesedb_database_read_values_from_page definitions (database_of 10 two_level_pages)
        { page_number := 9, flags := 2, values := [root_tag, leaf_value 0 65] } 0
        { leaf_value_index := 2147483647, next_cache := 0, trace := [] }).2.leaf_value_index
      = -2147483648 := by
  refine ⟨by decide, by decide, ?_, ?_, by decide, by decide⟩
  · intro database s
    exact read_values_from_page_out_of_bounds definitions database _ 257 s
      (Or.inr (by decide))
  · intro database hone
    obtain ⟨count, _, hcount, hall⟩ := read_values_from_page_leaf_counts definitions database
      { page_number := 9, flags := 2, values := [root_tag, leaf_value 0 65] } 0
      { leaf_value_index := 2147483647, next_cache := 0, trace := [] } (by decide)
    rw [hcount, hall hone]
    decide

/-- C7 (amended), at a concrete input: a leaf page with a defunct value, whose
single byte would not parse, between two values in use. The call returns 1 and
the counter advances by 2. -/
theorem defunct_values_skipped_witness :
    (libesedb_database_read_values_from_page definitions (database_of 10 two_level_pages)
        { page_number := 9, flags := 2,
          values := [root_tag, leaf_value 0 65, { data := [1], flags := 2 }, leaf_value 1 66] }
        0 State.initial).1 = 1
    ∧ (libesedb_database_read_values_from_page definitions (database_of 10 two_level_pages)
        { page_number := 9, flags := 2,
          values := [root_tag, leaf_value 0 65, { data := [1], flags := 2 }, leaf_value 1 66] }
        0 State.initial).2.leaf_value_index = 0 + (2 : Nat) :=
  have h := (defunct_values_skipped definitions (database_of 10 two_level_pages)
    { page_number := 9, flags := 2,
      values := [root_tag, leaf_value 0 65, { data := [1], flags := 2 }, leaf_value 1 66] }
    0 State.initial).2.2.2.2.2 (by decide)
  have hone := (h.2 (by decide) (by decide) (by decide)).1
  ⟨hone, ((h.1 hone).2 (by decide) (by decide))⟩

/-! ## Leaf pages -/

theorem page_requests_value_read (s : State) (page : libesedb_page) (page_value_index : Nat)
    (page_value : libesedb_page_value) :
    page_requests (s.value_read page page_value_index page_value).trace
      = page_requests s.trace := by
  simp only [State.value_read, page_requests_emit]
  simp [page_requests]

theorem page_requests_enter_loop (s : State) (page : libesedb_page) :
    page_requests (s.enter_loop page).trace = page_requests s.trace := by
  simp only [State.enter_loop, page_requests_emit]
  simp [page_requests, State.emit]

theorem page_requests_leave_loop (child_page_cache : Nat) (st : Step) :
    page_requests (leave_loop child_page_cache st).2.trace = page_requests st.state.trace := by
  cases st with
  | next s =>
    simp only [leave_loop, Step.state, page_requests_emit]
    simp [page_requests]
  | on_error live s =>
    cases live <;>
      · simp only [leave_loop, on_error, Step.state, if_true, if_false, Bool.false_eq_true,
          page_requests_emit]
        simp [page_requests]

theorem read_page_value_leaf_no_requests (d : Definitions) (database : libesedb_database)
    (descend : libesedb_page → State → Int × State) (page : libesedb_page)
    (hl : (page.flags % 2 ^ 32) &&& d.LIBESEDB_PAGE_FLAG_IS_LEAF ≠ 0)
    (child_page_cache page_value_index : Nat) (s : State) :
    page_requests (read_page_value d database descend page (page.flags % 2 ^ 32)
      child_page_cache page_value_index s).state.trace = page_requests s.trace := by
  apply read_page_value_cases d database descend page (page.flags % 2 ^ 32) child_page_cache
    page_value_index s
    (fun st => page_requests st.state.trace = page_requests s.trace)
  · intro _
    simp only [Step.state, page_requests_emit]
    simp [page_requests]
  · intro pv _ _
    simp only [Step.state, page_requests_emit]
    simp [page_requests]
  · intro pv _ _ _
    exact page_requests_value_read _ _ _ _
  · intro pv ptv _ _ _ _
    simp only [Step.state, page_requests_append, page_requests_value_read]
    simp [page_requests]
  · intro pv ptv _ _ _ hl2; exact absurd hl2 hl
  · intro pv ptv _ _ _ hl2; exact absurd hl2 hl
  · intro pv ptv _ _ _ hl2; exact absurd hl2 hl
  · intro pv ptv _ _ _ hl2; exact absurd hl2 hl
  · intro pv ptv cp _ _ _ hl2; exact absurd hl2 hl
  · intro pv ptv cp _ _ _ hl2; exact absurd hl2 hl

theorem read_page_values_leaf_no_requests (d : Definitions) (database : libesedb_database)
    (descend : libesedb_page → State → Int × State) (page : libesedb_page)
    (hl : (page.flags % 2 ^ 32) &&& d.LIBESEDB_PAGE_FLAG_IS_LEAF ≠ 0)
    (child_page_cache : Nat) (remaining : Nat) :
    ∀ (page_value_index : Nat) (s : State),
    page_requests (read_page_values d database descend page (page.flags % 2 ^ 32)
      child_page_cache remaining page_value_index s).state.trace = page_requests s.trace := by
  induction remaining with
  | zero => intro i s; rfl
  | succ n ih =>
    intro i s
    have hstep := read_page_value_leaf_no_requests d database descend page hl
      child_page_cache i s
    simp only [read_page_values]
    cases hst : read_page_value d database descend page (page.flags % 2 ^ 32)
        child_page_cache i s with
    | on_error live s2 =>
      rw [hst] at hstep
      exact hstep
    | next s2 =>
      rw [hst] at hstep
      rw [ih _ s2]
      exact hstep

/-- A leaf page never asks for a page, however its walk ends. -/
theorem read_values_from_page_leaf_no_requests (d : Definitions)
    (database : libesedb_database) (page : libesedb_page)
    (hl : (page.flags % 2 ^ 32) &&& d.LIBESEDB_PAGE_FLAG_IS_LEAF ≠ 0)
    (recursion_depth : Int) (s : State) :
    page_requests (libesedb_database_read_values_from_page d database page recursion_depth
      s).2.trace = page_requests s.trace := by
  rw [read_values_from_page_eq]
  unfold read_values_from_page_body
  split
  · rfl
  · by_cases hne : page.values.length = 0
    · simp only [read_values_from_page_frame, libesedb_page_get_number_of_values, hne,
        if_true, page_requests_emit]
      simp [page_requests]
    · rw [read_values_from_page_frame_eq d database _ page s hne, page_requests_leave_loop,
        read_page_values_leaf_no_requests d database _ page hl, page_requests_enter_loop]

/-- A leaf page whose values in use all parse, at an admissible depth: the call
returns 1, the counter is incremented once for each value in use after the
first tag, one cache is handed out when the page has a value at all, and no
page is requested. -/
theorem read_values_from_page_leaf_page (d : Definitions) (database : libesedb_database)
    (page : libesedb_page) (recursion_depth : Int) (s : State)
    (h0 : 0 ≤ recursion_depth)
    (h1 : recursion_depth ≤ d.LIBESEDB_MAXIMUM_INDEX_NODE_RECURSION_DEPTH)
    (hl : (page.flags % 2 ^ 32) &&& d.LIBESEDB_PAGE_FLAG_IS_LEAF ≠ 0)
    (hparse : ∀ pv ∈ page.values.tail, is_live d pv = true →
      (database.page_tree.libesedb_page_tree_value_read_data pv.data pv.flags).isSome
        = true) :
    (libesedb_database_read_values_from_page d database page recursion_depth s).1 = 1
    ∧ (libesedb_database_read_values_from_page d database page recursion_depth
        s).2.leaf_value_index
      = increments d (page.values.tail.filter (is_live d)).length s.leaf_value_index
    ∧ (libesedb_database_read_values_from_page d database page recursion_depth
        s).2.next_cache = s.next_cache + (if page.values.length = 0 then 0 else 1)
    ∧ page_requests (libesedb_database_read_values_from_page d database page
        recursion_depth s).2.trace = page_requests s.trace := by
  refine ⟨?_, ?_, ?_, read_values_from_page_leaf_no_requests d database page hl _ s⟩
  all_goals
    rw [read_values_from_page_in_bounds d database page recursion_depth s h0 h1]
    cases hvals : page.values with
    | nil =>
      have hlen : page.values.length = 0 := by rw [hvals]; rfl
      simp [read_values_from_page_frame, libesedb_page_get_number_of_values, hlen,
        State.emit, increments]
    | cons first_tag values =>
      have hne : page.values.length ≠ 0 := by rw [hvals]; simp
      rw [hvals] at hparse
      obtain ⟨s2, h1, h2, h3, _⟩ := read_page_values_leaf_page d database
        (fun child_page s => libesedb_database_read_values_from_page d database child_page
          (recursion_depth + 1) s) page s.next_cache hl values [first_tag]
        (s.enter_loop page) hvals hparse
      have hlen : page.values.length - 1 = values.length := by rw [hvals]; simp
      have h1b : read_page_values d database
          (fun child_page s => libesedb_database_read_values_from_page d database child_page
            (recursion_depth + 1) s) page (page.flags % 2 ^ 32) s.next_cache values.length 1
          (s.enter_loop page) = Step.next s2 := h1
      rw [read_values_from_page_frame_eq d database _ page s hne, hlen, h1b]
      first
        | rfl
        | (simp only [leave_loop, List.tail_cons]; exact h2)
        | (simp only [leave_loop, State.emit, h3, List.length_cons]; simp [State.enter_loop, State.emit])

/-- C20: on a page with the LEAF flag the value data is opaque. A value at any
index that is not defunct and parses is one leaf value whatever its data (of
size 0, below 4 or more): the pass records the leaf value, increments the
counter once (line 407, which adds one when the counter is below `INT_MAX`) and
requests no page, the size and child page number checks not being reached. A
leaf page never requests a page, however its walk ends, and when its values in
use all parse, at an admissible depth, the call returns 1 with the counter
incremented once for each value in use among the indexes from 1. -/
theorem leaf_page_values_opaque (d : Definitions) (database : libesedb_database)
    (page : libesedb_page) (recursion_depth : Int) (s : State)
    (hl : (page.flags % 2 ^ 32) &&& d.LIBESEDB_PAGE_FLAG_IS_LEAF ≠ 0) :
    (∀ (descend : libesedb_page → State → Int × State)
        (child_page_cache page_value_index : Nat) (s2 : State)
        (page_value : libesedb_page_value) (page_tree_value : libesedb_page_tree_value),
      page.values[page_value_index]? = some page_value →
      page_value.flags &&& d.LIBESEDB_PAGE_TAG_FLAG_IS_DEFUNCT = 0 →
      database.page_tree.libesedb_page_tree_value_read_data page_value.data
        page_value.flags = some page_tree_value →
      read_page_value d database descend page (page.flags % 2 ^ 32) child_page_cache
          page_value_index s2
        = Step.next
            { leaf_value_index := int_cast d (s2.leaf_value_index + 1)
              next_cache := s2.next_cache
              trace := s2.trace ++
                [Event.get_value_by_index page.page_number page_value_index,
                 Event.value_init,
                 Event.read_data page_value.data page_value.flags,
                 Event.leaf_value s2.leaf_value_index page.page_number page_value_index
                   page_tree_value,
                 Event.value_free] }
      ∧ (-(INT_MAX d : Int) - 1 ≤ s2.leaf_value_index →
          s2.leaf_value_index < (INT_MAX d : Nat) →
          int_cast d (s2.leaf_value_index + 1) = s2.leaf_value_index + 1))
    ∧ page_requests (libesedb_database_read_values_from_page d database page recursion_depth
        s).2.trace = page_requests s.trace
    ∧ (0 ≤ recursion_depth →
      recursion_depth ≤ d.LIBESEDB_MAXIMUM_INDEX_NODE_RECURSION_DEPTH →
      (∀ pv ∈ page.values.tail, is_live d pv = true →
        (database.page_tree.libesedb_page_tree_value_read_data pv.data pv.flags).isSome
          = true) →
      (libesedb_database_read_values_from_page d database page recursion_depth s).1 = 1
      ∧ (libesedb_database_read_values_from_page d database page recursion_depth
          s).2.leaf_value_index
        = increments d (page.values.tail.filter (is_live d)).length s.leaf_value_index
      ∧ (-(INT_MAX d : Int) - 1 ≤ s.leaf_value_index →
          s.leaf_value_index + ((page.values.tail.filter (is_live d)).length : Nat)
            ≤ (INT_MAX d : Nat) →
          (libesedb_database_read_values_from_page d database page recursion_depth
              s).2.leaf_value_index
            = s.leaf_value_index + ((page.values.tail.filter (is_live d)).length : Nat))) := by
  refine ⟨?_, read_values_from_page_leaf_no_requests d database page hl _ s, ?_⟩
  · intro descend child_page_cache i s2 pv ptv hv hd hp
    constructor
    · rw [read_page_value_leaf _ _ _ _ _ _ _ _ _ _ hv hd hp hl]
      simp [State.value_read, State.emit]
    · intro hlow hhigh
      exact int_cast_of_int d _ (by omega) (by omega)
  · intro h0 h1 hparse
    have h := read_values_from_page_leaf_page d database page recursion_depth s h0 h1 hl
      hparse
    refine ⟨h.1, h.2.1, fun hlow hhigh => ?_⟩
    rw [h.2.1]
    exact increments_of_no_overflow d _ s.leaf_value_index hlow hhigh

/-- C20, at a concrete input: a leaf page whose values parse to data of sizes 0,
1 and 5; each is one leaf value, no page is requested. -/
theorem leaf_page_values_opaque_witness :
    page_requests (libesedb_database_read_values_from_page definitions
        (database_of 10 two_level_pages)
        { page_number := 9, flags := 2,
          values := [root_tag, { data := [0, 0], flags := 0 }, leaf_value 1 66,
            { data := [0, 0, 0, 0, 0, 0, 0], flags := 0 }] }
        0 State.initial).2.trace = page_requests State.initial.trace
    ∧ (libesedb_database_read_values_from_page definitions (database_of 10 two_level_pages)
        { page_number := 9, flags := 2,
          values := [root_tag, { data := [0, 0], flags := 0 }, leaf_value 1 66,
            { data := [0, 0, 0, 0, 0, 0, 0], flags := 0 }] }
        0 State.initial).2.leaf_value_index = 0 + (3 : Nat) :=
  have h := leaf_page_values_opaque definitions (database_of 10 two_level_pages)
    { page_number := 9, flags := 2,
      values := [root_tag, { data := [0, 0], flags := 0 }, leaf_value 1 66,
        { data := [0, 0, 0, 0, 0, 0, 0], flags := 0 }] }
    0 State.initial (by decide)
  ⟨h.2.1, (h.2.2 (by decide) (by decide) (by decide)).2.2 (by decide) (by decide)⟩

/-! ## Validation and failures -/

/-- C18: pages are validated after the load and before any of their values is
read. When the root page fails `libesedb_page_validate_root_page`,
`libesedb_database_read_file_io_handle` returns -1 right after the validation:
no value is read and no leaf value visited. When it passes, the walk of the
root page starts from the state that ends with the validation. When a child
page fails `libesedb_page_validate_page`, the function returns -1 and, the
entries before it passed, ends with the releases right after the validation,
no value of the child being read. When it passes, the nested call starts from
the state that ends with the load and the validation of the child. -/
theorem pages_validated_before_read (d : Definitions) (database : libesedb_database) :
    (∀ (s : State) (root_page : libesedb_page),
      database.page_tree.pages_vector (to_int d d.LIBESEDB_PAGE_NUMBER_DATABASE - 1)
        = some root_page →
      database.page_tree.libesedb_page_validate_root_page root_page = false →
      libesedb_database_read_file_io_handle d database s
        = (-1, { leaf_value_index := 0
                 next_cache := s.next_cache + 1
                 trace := s.trace ++
                   [Event.cache_init s.next_cache,
                    Event.get_element_value s.next_cache
                      (to_int d d.LIBESEDB_PAGE_NUMBER_DATABASE - 1),
                    Event.validate_root_page root_page.page_number,
                    Event.cache_free s.next_cache] }))
    ∧ (∀ (s : State) (root_page : libesedb_page),
      database.page_tree.pages_vector (to_int d d.LIBESEDB_PAGE_NUMBER_DATABASE - 1)
        = some root_page →
      database.page_tree.libesedb_page_validate_root_page root_page = true →
      libesedb_database_read_file_io_handle d database s
        = (if (libesedb_database_read_values_from_page d database root_page 0
              { leaf_value_index := 0
                next_cache := s.next_cache + 1
                trace := s.trace ++
                  [Event.cache_init s.next_cache,
                   Event.get_element_value s.next_cache
                     (to_int d d.LIBESEDB_PAGE_NUMBER_DATABASE - 1),
                   Event.validate_root_page root_page.page_number] }).1 ≠ 1
            then -1 else 1,
           (libesedb_database_read_values_from_page d database root_page 0
              { leaf_value_index := 0
                next_cache := s.next_cache + 1
                trace := s.trace ++
                  [Event.cache_init s.next_cache,
                   Event.get_element_value s.next_cache
                     (to_int d d.LIBESEDB_PAGE_NUMBER_DATABASE - 1),
                   Event.validate_root_page root_page.page_number] }).2.emit
            (Event.cache_free s.next_cache)))
    ∧ (∀ (page : libesedb_page) (recursion_depth : Int) (s : State) (page_value_index : Nat)
        (page_value : libesedb_page_value) (page_tree_value : libesedb_page_tree_value)
        (child_page : libesedb_page),
      1 ≤ page_value_index →
      page.values[page_value_index]? = some page_value →
      page_value.flags &&& d.LIBESEDB_PAGE_TAG_FLAG_IS_DEFUNCT = 0 →
      database.page_tree.libesedb_page_tree_value_read_data page_value.data
        page_value.flags = some page_tree_value →
      (page.flags % 2 ^ 32) &&& d.LIBESEDB_PAGE_FLAG_IS_LEAF = 0 →
      ¬ page_tree_value.data_size < 4 →
      child_page_number_out_of_bounds d
        (byte_stream_copy_to_uint32_little_endian page_tree_value.data) = false →
      (byte_stream_copy_to_uint32_little_endian page_tree_value.data > 0
        ∧ byte_stream_copy_to_uint32_little_endian page_tree_value.data
          ≤ database.page_tree.io_handle.last_page_number) →
      database.page_tree.pages_vector
        (to_int d (byte_stream_copy_to_uint32_little_endian page_tree_value.data) - 1)
          = some child_page →
      (database.page_tree.libesedb_page_validate_page child_page = false →
        (libesedb_database_read_values_from_page d database page recursion_depth s).1 = -1
        ∧ (0 ≤ recursion_depth →
          recursion_depth ≤ d.LIBESEDB_MAXIMUM_INDEX_NODE_RECURSION_DEPTH →
          ∀ s2, read_page_values d database
              (fun child_page s => libesedb_database_read_values_from_page d database
                child_page (recursion_depth + 1) s)
              page (page.flags % 2 ^ 32) s.next_cache (page_value_index - 1) 1
              (s.enter_loop page)
            = Step.next s2 →
          libesedb_database_read_values_from_page d database page recursion_depth s
            = (-1, { leaf_value_index := s2.leaf_value_index
                     next_cache := s2.next_cache
                     trace := s2.trace ++
                       [Event.get_value_by_index page.page_number page_value_index,
                        Event.value_init,
                        Event.read_data page_value.data page_value.flags,
                        Event.get_element_value s.next_cache
                          (to_int d (byte_stream_copy_to_uint32_little_endian
                            page_tree_value.data) - 1),
                        Event.validate_page child_page.page_number,
                        Event.value_free,
                        Event.cache_free s.next_cache] })))
      ∧ (database.page_tree.libesedb_page_validate_page child_page = true →
        ∀ (child_page_cache : Nat) (s2 : State),
          read_page_value d database
              (fun child_page s => libesedb_database_read_values_from_page d database
                child_page (recursion_depth + 1) s)
              page (page.flags % 2 ^ 32) child_page_cache page_value_index s2
            = (if (libesedb_database_read_values_from_page d database child_page
                  (recursion_depth + 1)
                  { leaf_value_index := s2.leaf_value_index
                    next_cache := s2.next_cache
                    trace := s2.trace ++
                      [Event.get_value_by_index page.page_number page_value_index,
                       Event.value_init,
                       Event.read_data page_value.data page_value.flags,
                       Event.get_element_value child_page_cache
                         (to_int d (byte_stream_copy_to_uint32_little_endian
                           page_tree_value.data) - 1),
                       Event.validate_page child_page.page_number] }).1 ≠ 1
                then Step.on_error true
                  (libesedb_database_read_values_from_page d database child_page
                    (recursion_depth + 1)
                    { leaf_value_index := s2.leaf_value_index
                      next_cache := s2.next_cache
                      trace := s2.trace ++
                        [Event.get_value_by_index page.page_number page_value_index,
                         Event.value_init,
                         Event.read_data page_value.data page_value.flags,
                         Event.get_element_value child_page_cache
                           (to_int d (byte_stream_copy_to_uint32_little_endian
                             page_tree_value.data) - 1),
                         Event.validate_page child_page.page_number] }).2
                else Step.next
                  ((libesedb_database_read_values_from_page d database child_page
                    (recursion_depth + 1)
                    { leaf_value_index := s2.leaf_value_index
                      next_cache := s2.next_cache
                      trace := s2.trace ++
                        [Event.get_value_by_index page.page_number page_value_index,
                         Event.value_init,
                         Event.read_data page_value.data page_value.flags,
                         Event.get_element_value child_page_cache
                           (to_int d (byte_stream_copy_to_uint32_little_endian
                             page_tree_value.data) - 1),
                         Event.validate_page child_page.page_number] }).2.emit
                    Event.value_free)))) := by
  refine ⟨?_, ?_, ?_⟩
  · intro s root_page hvec hval
    rw [read_file_io_handle_invalid d database s root_page hvec hval]
    simp [State.fetch_root, State.emit]
  · intro s root_page hvec hval
    rw [read_file_io_handle_walk d database s root_page hvec hval]
    have hst : (s.fetch_root d).emit (Event.validate_root_page root_page.page_number)
        = { leaf_value_index := 0
            next_cache := s.next_cache + 1
            trace := s.trace ++
              [Event.cache_init s.next_cache,
               Event.get_element_value s.next_cache
                 (to_int d d.LIBESEDB_PAGE_NUMBER_DATABASE - 1),
               Event.validate_root_page root_page.page_number] } := by
      simp [State.fetch_root, State.emit]
    rw [hst]
  · intro page depth s i pv ptv cp hi hv hd hp hl hs hb hr hc
    constructor
    · intro hq
      have h := read_values_from_page_fails_at d database page depth s i true
        (fun s2 => ((s2.value_read page i pv).emit
          (Event.get_element_value s.next_cache
            (to_int d (byte_stream_copy_to_uint32_little_endian ptv.data) - 1))).emit
          (Event.validate_page cp.page_number)) hi (index_lt_of_value _ _ _ hv)
        (fun s2 => read_page_value_invalid d database _ page _ _ _ s2 pv ptv cp
          hv hd hp hl hs hb hr hc hq)
      refine ⟨h.1, ?_⟩
      intro h0 h1 s2 hpre
      rw [h.2 h0 h1 s2 hpre]
      simp [on_error, State.value_read, State.emit]
    · intro hq child_page_cache s2
      rw [read_page_value_descend d database _ page _ _ _ s2 pv ptv cp
        hv hd hp hl hs hb hr hc hq]
      have hst : ((s2.value_read page i pv).emit
            (Event.get_element_value child_page_cache
              (to_int d (byte_stream_copy_to_uint32_little_endian ptv.data) - 1))).emit
            (Event.validate_page cp.page_number)
          = { leaf_value_index := s2.leaf_value_index
              next_cache := s2.next_cache
              trace := s2.trace ++
                [Event.get_value_by_index page.page_number i,
                 Event.value_init,
                 Event.read_data pv.data pv.flags,
                 Event.get_element_value child_page_cache
                   (to_int d (byte_stream_copy_to_uint32_little_endian ptv.data) - 1),
                 Event.validate_page cp.page_number] } := by
        simp [State.value_read, State.emit]
      rw [hst]

/-- C18, at a concrete input: a tree whose root page fails the root validation,
and the two-level tree with a validation that refuses the leaf page 5. -/
theorem pages_validated_before_read_witness :
    libesedb_database_read_file_io_handle definitions
        { page_tree :=
          { (database_of 10 two_level_pages).page_tree with
            libesedb_page_validate_root_page := fun _ => false } } State.initial
      = (-1, { leaf_value_index := 0, next_cache := 1,
               trace := [Event.cache_init 0, Event.get_element_value 0 3,
                 Event.validate_root_page 4, Event.cache_free 0] })
    ∧ (libesedb_database_read_values_from_page definitions
        { page_tree :=
          { (database_of 10 two_level_pages).page_tree with
            libesedb_page_validate_page := fun page => decide (page.page_number ≠ 5) } }
        { page_number := 4, flags := 5,
          values := [root_tag, branch_value 5 0 0 0, branch_value 6 0 0 0] }
        0 State.initial).1 = -1 :=
  ⟨(pages_validated_before_read definitions
      { page_tree :=
        { (database_of 10 two_level_pages).page_tree with
          libesedb_page_validate_root_page := fun _ => false } }).1 State.initial
      { page_number := 4, flags := 5,
        values := [root_tag, branch_value 5 0 0 0, branch_value 6 0 0 0] }
      (by decide) (by decide),
   (((pages_validated_before_read definitions
      { page_tree :=
        { (database_of 10 two_level_pages).page_tree with
          libesedb_page_validate_page := fun page => decide (page.page_number ≠ 5) } }).2.2
      { page_number := 4, flags := 5,
        values := [root_tag, branch_value 5 0 0 0, branch_value 6 0 0 0] }
      0 State.initial 1 (branch_value 5 0 0 0)
      { common_key_size := 0, local_key := [], data := [5, 0, 0, 0] }
      { page_number := 5, flags := 2, values := [root_tag, leaf_value 0 65, leaf_value 1 66] }
      (by decide) (by decide) (by decide) (by decide) (by decide) (by decide) (by decide)
      (by decide) (by decide)).1 (by decide)).1⟩

theorem leaf_events_leave_loop (child_page_cache : Nat) (st : Step) :
    leaf_events (leave_loop child_page_cache st).2.trace = leaf_events st.state.trace
    ∧ (leave_loop child_page_cache st).2.leaf_value_index = st.state.leaf_value_index := by
  cases st with
  | next s =>
    simp only [leave_loop, Step.state, leaf_events_emit]
    simp [leaf_events, State.emit]
  | on_error live s =>
    cases live <;>
      · simp only [leave_loop, on_error, Step.state, if_true, if_false, Bool.false_eq_true,
          leaf_events_emit]
        simp [leaf_events, State.emit]

/-- C16 (amended): a failure does not roll the counter back and ends the walk.
In every run of `libesedb_database_read_values_from_page`, failing ones
included, the leaf values visited are a prefix of the depth-first order and the
counter on return has been incremented once for each of them, so that it is
its initial value, an `int`, plus their number when that sum does not exceed
`INT_MAX`. When the pass for an entry jumps to `on_error` (the entries before
it passed), the function returns -1 from the state of the jump with only the
releases added: the counter and the leaf values visited are those at the
failure. A value that does not parse, a child page that does not load or does
not validate, and a nested call that does not return 1 each make the pass jump
to `on_error`, so every enclosing frame returns -1, and so does
`libesedb_database_read_file_io_handle` when the walk of the root page, its
load or its validation fails. -/
theorem failure_ends_walk (d : Definitions) (database : libesedb_database)
    (page : libesedb_page) (recursion_depth : Int) (s : State) :
    (∃ visited : List Leaf,
      visited <+: leaves_in_order d database
        ((d.LIBESEDB_MAXIMUM_INDEX_NODE_RECURSION_DEPTH : Int) + 1 - recursion_depth).toNat page
      ∧ leaf_events
          (libesedb_database_read_values_from_page d database page recursion_depth s).2.trace
        = leaf_events s.trace ++ leaf_events_counting d s.leaf_value_index visited
      ∧ (libesedb_database_read_values_from_page d database page recursion_depth
          s).2.leaf_value_index = increments d visited.length s.leaf_value_index
      ∧ (-(INT_MAX d : Int) - 1 ≤ s.leaf_value_index →
          s.leaf_value_index + visited.length ≤ (INT_MAX d : Nat) →
          leaf_events
              (libesedb_database_read_values_from_page d database page recursion_depth
                s).2.trace
            = leaf_events s.trace ++ leaf_events_from s.leaf_value_index visited
          ∧ (libesedb_database_read_values_from_page d database page recursion_depth
              s).2.leaf_value_index = s.leaf_value_index + visited.length))
    ∧ (0 ≤ recursion_depth →
      recursion_depth ≤ d.LIBESEDB_MAXIMUM_INDEX_NODE_RECURSION_DEPTH →
      ∀ (page_value_index : Nat) (s2 s3 : State) (live : Bool),
        1 ≤ page_value_index → page_value_index < page.values.length →
        read_page_values d database
            (fun child_page s => libesedb_database_read_values_from_page d database child_page
              (recursion_depth + 1) s)
            page (page.flags % 2 ^ 32) s.next_cache (page_value_index - 1) 1
            (s.enter_loop page)
          = Step.next s2 →
        read_page_value d database
            (fun child_page s => libesedb_database_read_values_from_page d database child_page
              (recursion_depth + 1) s)
            page (page.flags % 2 ^ 32) s.next_cache page_value_index s2
          = Step.on_error live s3 →
        libesedb_database_read_values_from_page d database page recursion_depth s
          = on_error live (some s.next_cache) s3
        ∧ (libesedb_database_read_values_from_page d database page recursion_depth s).1 = -1
        ∧ (libesedb_database_read_values_from_page d database page recursion_depth
            s).2.leaf_value_index = s3.leaf_value_index
        ∧ leaf_events (libesedb_database_read_values_from_page d database page
            recursion_depth s).2.trace = leaf_events s3.trace)
    ∧ (∀ (descend : libesedb_page → State → Int × State)
        (child_page_cache page_value_index : Nat) (s2 : State)
        (page_value : libesedb_page_value),
      page.values[page_value_index]? = some page_value →
      page_value.flags &&& d.LIBESEDB_PAGE_TAG_FLAG_IS_DEFUNCT = 0 →
      (database.page_tree.libesedb_page_tree_value_read_data page_value.data
          page_value.flags = none →
        (read_page_value d database descend page (page.flags % 2 ^ 32) child_page_cache
          page_value_index s2).completed = false)
      ∧ ∀ page_tree_value : libesedb_page_tree_value,
        database.page_tree.libesedb_page_tree_value_read_data page_value.data
          page_value.flags = some page_tree_value →
        (page.flags % 2 ^ 32) &&& d.LIBESEDB_PAGE_FLAG_IS_LEAF = 0 →
        ¬ page_tree_value.data_size < 4 →
        child_page_number_out_of_bounds d
          (byte_stream_copy_to_uint32_little_endian page_tree_value.data) = false →
        (byte_stream_copy_to_uint32_little_endian page_tree_value.data > 0
          ∧ byte_stream_copy_to_uint32_little_endian page_tree_value.data
            ≤ database.page_tree.io_handle.last_page_number) →
        (database.page_tree.pages_vector
            (to_int d (byte_stream_copy_to_uint32_little_endian page_tree_value.data) - 1)
              = none →
          (read_page_value d database descend page (page.flags % 2 ^ 32) child_page_cache
            page_value_index s2).completed = false)
        ∧ ∀ child_page : libesedb_page,
          database.page_tree.pages_vector
            (to_int d (byte_stream_copy_to_uint32_little_endian page_tree_value.data) - 1)
              = some child_page →
          (database.page_tree.libesedb_page_validate_page child_page = false →
            (read_page_value d database descend page (page.flags % 2 ^ 32) child_page_cache
              page_value_index s2).completed = false)
          ∧ (database.page_tree.libesedb_page_validate_page child_page = true →
            (descend child_page
              (((s2.value_read page page_value_index page_value).emit
                (Event.get_element_value child_page_cache
                  (to_int d (byte_stream_copy_to_uint32_little_endian
                    page_tree_value.data) - 1))).emit
                (Event.validate_page child_page.page_number))).1 ≠ 1 →
            read_page_value d database descend page (page.flags % 2 ^ 32) child_page_cache
                page_value_index s2
              = Step.on_error true
                  (descend child_page
                    (((s2.value_read page page_value_index page_value).emit
                      (Event.get_element_value child_page_cache
                        (to_int d (byte_stream_copy_to_uint32_little_endian
                          page_tree_value.data) - 1))).emit
                      (Event.validate_page child_page.page_number))).2))
    ∧ (∀ s0 : State,
      (database.page_tree.pages_vector (to_int d d.LIBESEDB_PAGE_NUMBER_DATABASE - 1) = none →
        (libesedb_database_read_file_io_handle d database s0).1 = -1)
      ∧ ∀ root_page : libesedb_page,
        database.page_tree.pages_vector (to_int d d.LIBESEDB_PAGE_NUMBER_DATABASE - 1)
          = some root_page →
        (database.page_tree.libesedb_page_validate_root_page root_page = false →
          (libesedb_database_read_file_io_handle d database s0).1 = -1)
        ∧ (database.page_tree.libesedb_page_validate_root_page root_page = true →
          (libesedb_database_read_values_from_page d database root_page 0
            ((s0.fetch_root d).emit (Event.validate_root_page root_page.page_number))).1 ≠ 1 →
          (libesedb_database_read_file_io_handle d database s0).1 = -1
          ∧ (libesedb_database_read_file_io_handle d database s0).2.leaf_value_index
            = (libesedb_database_read_values_from_page d database root_page 0
                ((s0.fetch_root d).emit
                  (Event.validate_root_page root_page.page_number))).2.leaf_value_index)) := by
  refine ⟨?_, ?_, ?_, ?_⟩
  · obtain ⟨visited, hvis, hpre, _⟩ := read_values_from_page_levels_traverses d database
      ((d.LIBESEDB_MAXIMUM_INDEX_NODE_RECURSION_DEPTH : Int) + 1 - recursion_depth).toNat 0
      recursion_depth page s
    refine ⟨visited, hpre, hvis.1, hvis.2, fun hlow hhigh => ⟨?_, ?_⟩⟩
    · rw [← leaf_events_counting_of_no_overflow d visited s.leaf_value_index hlow hhigh]
      exact hvis.1
    · rw [← increments_of_no_overflow d visited.length s.leaf_value_index hlow hhigh]
      exact hvis.2
  · intro h0 h1 i s2 s3 live hi hn hpre hpass
    have hf : libesedb_database_read_values_from_page d database page recursion_depth s
        = on_error live (some s.next_cache) s3 := by
      rw [read_values_from_page_in_bounds d database page recursion_depth s h0 h1,
        read_values_from_page_frame_at d database _ page s i hi hn]
      simp only [hpre, hpass]
    rw [hf]
    have hl := leaf_events_leave_loop s.next_cache (Step.on_error live s3)
    exact ⟨rfl, rfl, hl.2, hl.1⟩
  · intro descend child_page_cache i s2 pv hv hd
    constructor
    · intro hp
      rw [read_page_value_unparsed _ _ _ _ _ _ _ _ _ hv hd hp]
      rfl
    · intro ptv hp hl hs hb hr
      constructor
      · intro hc
        rw [read_page_value_load_failed _ _ _ _ _ _ _ _ _ _ hv hd hp hl hs hb hr hc]
        rfl
      · intro cp hc
        constructor
        · intro hq
          rw [read_page_value_invalid _ _ _ _ _ _ _ _ _ _ _ hv hd hp hl hs hb hr hc hq]
          rfl
        · intro hq hres
          rw [read_page_value_descend _ _ _ _ _ _ _ _ _ _ _ hv hd hp hl hs hb hr hc hq]
          rw [if_pos hres]
  · intro s0
    constructor
    · intro hvec
      rw [read_file_io_handle_not_fetched d database s0 hvec]
    · intro root_page hvec
      constructor
      · intro hval
        rw [read_file_io_handle_invalid d database s0 root_page hvec hval]
      · intro hval hres
        rw [read_file_io_handle_walk d database s0 root_page hvec hval]
        exact ⟨if_pos hres, rfl⟩

/-- C16, at a concrete input: the claim fails where the counter overflows. The
two-level tree with the second leaf page refused by the validation, walked
with the counter at `INT_MAX - 1`: the call returns -1 after the two leaf
values of the first leaf page, and the counter is `-INT_MAX - 1`, not its
initial value plus 2. -/
theorem failed_walk_counter_overflows :
    INT_MAX definitions = 2147483647
    ∧ (libesedb_database_read_values_from_page definitions
        { page_tree :=
          { (database_of 10 two_level_pages).page_tree with
            libesedb_page_validate_page := fun page => decide (page.page_number ≠ 6) } }
        { page_number := 4, flags := 5,
          values := [root_tag, branch_value 5 0 0 0, branch_value 6 0 0 0] }
        0 { leaf_value_index := 2147483646, next_cache := 0, trace := [] }).1 = -1
    ∧ leaf_events (libesedb_database_read_values_from_page definitions
        { page_tree :=
          { (database_of 10 two_level_pages).page_tree with
            libesedb_page_validate_page := fun page => decide (page.page_number ≠ 6) } }
        { page_number := 4, flags := 5,
          values := [root_tag, branch_value 5 0 0 0, branch_value 6 0 0 0] }
        0 { leaf_value_index := 2147483646, next_cache := 0, trace := [] }).2.trace
      = [Event.leaf_value 2147483646 5 1
           { common_key_size := 0, local_key := [0], data := [65] },
         Event.leaf_value 2147483647 5 2
           { common_key_size := 0, local_key := [1], data := [66] }]
    ∧ (libesedb_database_read_values_from_page definitions
        { page_tree :=
          { (database_of 10 two_level_pages).page_tree with
            libesedb_page_validate_page := fun page => decide (page.page_number ≠ 6) } }
        { page_number := 4, flags := 5,
          values := [root_tag, branch_value 5 0 0 0, branch_value 6 0 0 0] }
        0 { leaf_value_index := 2147483646, next_cache := 0, trace := [] }).2.leaf_value_index
      = -2147483648 := by
  decide

/-- C16 (amended), at a concrete input: the two-level tree with the second leaf page
refused by the validation. The walk returns -1 and the counter keeps the two
leaf values of the first leaf page. -/
theorem failure_ends_walk_witness :
    (libesedb_database_read_file_io_handle definitions
        { page_tree :=
          { (database_of 10 two_level_pages).page_tree with
            libesedb_page_validate_page := fun page => decide (page.page_number ≠ 6) } }
        State.initial).1 = -1
    ∧ (libesedb_database_read_file_io_handle definitions
        { page_tree :=
          { (database_of 10 two_level_pages).page_tree with
            libesedb_page_validate_page := fun page => decide (page.page_number ≠ 6) } }
        State.initial).2.leaf_value_index
      = (libesedb_database_read_values_from_page definitions
          { page_tree :=
            { (database_of 10 two_level_pages).page_tree with
              libesedb_page_validate_page := fun page => decide (page.page_number ≠ 6) } }
          { page_number := 4, flags := 5,
            values := [root_tag, branch_value 5 0 0 0, branch_value 6 0 0 0] }
          0 ((State.initial.fetch_root definitions).emit
            (Event.validate_root_page 4))).2.leaf_value_index
    ∧ (libesedb_database_read_values_from_page definitions
          { page_tree :=
            { (database_of 10 two_level_pages).page_tree with
              libesedb_page_validate_page := fun page => decide (page.page_number ≠ 6) } }
          { page_number := 4, flags := 5,
            values := [root_tag, branch_value 5 0 0 0, branch_value 6 0 0 0] }
          0 ((State.initial.fetch_root definitions).emit
            (Event.validate_root_page 4))).2.leaf_value_index = 2 :=
  have h := ((failure_ends_walk definitions
      { page_tree :=
        { (database_of 10 two_level_pages).page_tree with
          libesedb_page_validate_page := fun page => decide (page.page_number ≠ 6) } }
      { page_number := 4, flags := 5,
        values := [root_tag, branch_value 5 0 0 0, branch_value 6 0 0 0] }
      0 State.initial).2.2.2 State.initial).2
    { page_number := 4, flags := 5,
      values := [root_tag, branch_value 5 0 0 0, branch_value 6 0 0 0] }
    (by decide)
  ⟨(h.2 (by decide) (by decide)).1, (h.2 (by decide) (by decide)).2, by decide⟩

/-! ## Caches and page tree values -/

theorem caches_created_append (t t' : List Event) :
    caches_created (t ++ t') = caches_created t ++ caches_created t' := by
  simp [caches_created]

theorem caches_released_append (t t' : List Event) :
    caches_released (t ++ t') = caches_released t ++ caches_released t' := by
  simp [caches_released]

theorem values_created_append (t t' : List Event) :
    values_created (t ++ t') = values_created t + values_created t' := by
  simp [values_created]

theorem values_released_append (t t' : List Event) :
    values_released (t ++ t') = values_released t + values_released t' := by
  simp [values_released]

theorem cache_discipline_append (a : List Event) :
    ∀ (stack : List Nat) (b : List Event),
      cache_discipline stack (a ++ b)
        = (cache_discipline stack a).bind fun stack2 => cache_discipline stack2 b := by
  induction a with
  | nil => intro stack b; simp [cache_discipline]
  | cons e a ih =>
    intro stack b
    cases e with
    | cache_init c =>
      simp only [List.cons_append, cache_discipline]
      split
      · rfl
      · exact ih _ _
    | cache_free c =>
      simp only [List.cons_append, cache_discipline]
      split
      · exact ih _ _
      · rfl
    | get_element_value c idx =>
      simp only [List.cons_append, cache_discipline]
      split
      · exact ih _ _
      · rfl
    | validate_root_page pn => simpa [cache_discipline] using ih stack b
    | validate_page pn => simpa [cache_discipline] using ih stack b
    | get_number_of_values pn => simpa [cache_discipline] using ih stack b
    | get_flags pn => simpa [cache_discipline] using ih stack b
    | get_value_by_index pn i => simpa [cache_discipline] using ih stack b
    | value_init => simpa [cache_discipline] using ih stack b
    | read_data data flags => simpa [cache_discipline] using ih stack b
    | value_free => simpa [cache_discipline] using ih stack b
    | leaf_value i pn j v => simpa [cache_discipline] using ih stack b

theorem bracketed_nil (top : Option Nat) (s : State) : Bracketed top s s 0 [] :=
  { trace := by simp
    mono := Nat.le_refl _
    created := by simp [caches_created]
    discipline := fun _ _ _ => by simp [cache_discipline]
    values := by simp [values_created, values_released]
    caches := fun e he => by cases he
    indexes := fun _ _ h => by cases h }

theorem bracketed_append (top : Option Nat) (s s2 s3 : State) (e1 e2 : Int)
    (a b : List Event) (h1 : Bracketed top s s2 e1 a) (h2 : Bracketed top s2 s3 e2 b) :
    Bracketed top s s3 (e1 + e2) (a ++ b) :=
  { trace := by rw [h2.trace, h1.trace, List.append_assoc]
    mono := Nat.le_trans h1.mono h2.mono
    created := by
      obtain ⟨a, ha⟩ := Nat.exists_eq_add_of_le h1.mono
      obtain ⟨b, hb⟩ := Nat.exists_eq_add_of_le h2.mono
      have hc1 := h1.created
      have hc2 := h2.created
      rw [ha, Nat.add_sub_cancel_left] at hc1
      rw [hb, Nat.add_sub_cancel_left, ha] at hc2
      have hlen : s3.next_cache - s.next_cache = b + a := by omega
      rw [caches_created_append, hc1, hc2, hlen]
      exact List.range'_append_1 _ _ _
    discipline := by
      intro stack hst htop
      rw [cache_discipline_append, h1.discipline stack hst htop]
      exact h2.discipline stack (fun x hx => Nat.lt_of_lt_of_le (hst x hx) h1.mono) htop
    values := by
      have hv1 := h1.values
      have hv2 := h2.values
      rw [values_created_append, values_released_append]
      push_cast
      omega
    caches := by
      intro e he x hx
      rcases List.mem_append.mp he with ha | hb
      · exact h1.caches e ha x hx
      · rcases h2.caches e hb x hx with h | h
        · exact Or.inl h
        · exact Or.inr (Nat.le_trans h1.mono h)
    indexes := by
      intro pn i hmem
      rcases List.mem_append.mp hmem with ha | hb
      · exact h1.indexes pn i ha
      · exact h2.indexes pn i hb }

theorem bracketed_weaken (c : Nat) (s s2 : State) (extra : Int) (δ : List Event)
    (h : Bracketed none s s2 extra δ) : Bracketed (some c) s s2 extra δ :=
  { trace := h.trace
    mono := h.mono
    created := h.created
    discipline := fun stack hst _ => h.discipline stack hst (fun _ hc => by cases hc)
    values := h.values
    caches := by
      intro e he x hx
      rcases h.caches e he x hx with h2 | h2
      · cases h2
      · exact Or.inr h2
    indexes := h.indexes }

/-- One event that is neither the creation nor the release of a cache: a request
goes through `top`, a value is fetched at an index of 1 or more. -/
theorem bracketed_emit (top : Option Nat) (s : State) (e : Event)
    (hcreate : ∀ c, e ≠ Event.cache_init c) (hrelease : ∀ c, e ≠ Event.cache_free c)
    (hrequest : ∀ c idx, e = Event.get_element_value c idx → top = some c)
    (hindex : ∀ pn i, e = Event.get_value_by_index pn i → 1 ≤ i) :
    Bracketed top s (s.emit e) e.value_delta [e] :=
  { trace := rfl
    mono := Nat.le_refl _
    created := by
      cases e with
      | cache_init c => exact absurd rfl (hcreate c)
      | _ => simp [caches_created, State.emit]
    discipline := by
      intro stack hst htop
      cases e with
      | cache_init c => exact absurd rfl (hcreate c)
      | cache_free c => exact absurd rfl (hrelease c)
      | get_element_value c idx =>
        have h := htop c (hrequest c idx rfl)
        simp [cache_discipline, h]
      | validate_root_page pn => simp [cache_discipline]
      | validate_page pn => simp [cache_discipline]
      | get_number_of_values pn => simp [cache_discipline]
      | get_flags pn => simp [cache_discipline]
      | get_value_by_index pn i => simp [cache_discipline]
      | value_init => simp [cache_discipline]
      | read_data data flags => simp [cache_discipline]
      | value_free => simp [cache_discipline]
      | leaf_value i pn j v => simp [cache_discipline]
    values := by
      cases e <;> simp [values_created, values_released, Event.value_delta]
    caches := by
      intro e2 he2 x hx
      simp only [List.mem_singleton] at he2
      subst he2
      cases e2 with
      | cache_init c => exact absurd rfl (hcreate c)
      | cache_free c => exact absurd rfl (hrelease c)
      | get_element_value c idx =>
        simp only [Event.cache, Option.some.injEq] at hx
        subst hx
        exact Or.inl (hrequest c idx rfl).symm
      | validate_root_page pn => cases hx
      | validate_page pn => cases hx
      | get_number_of_values pn => cases hx
      | get_flags pn => cases hx
      | get_value_by_index pn i => cases hx
      | value_init => cases hx
      | read_data data flags => cases hx
      | value_free => cases hx
      | leaf_value i pn j v => cases hx
    indexes := by
      intro pn i hmem
      simp only [List.mem_singleton] at hmem
      exact hindex pn i hmem.symm }

theorem bracketed_cast (top : Option Nat) (s s2 s3 : State) (e e2 : Int) (δ : List Event)
    (h : Bracketed top s s2 e δ) (he : e = e2) (ht : s3.trace = s2.trace)
    (hn : s3.next_cache = s2.next_cache) : Bracketed top s s3 e2 δ :=
  { trace := by rw [ht]; exact h.trace
    mono := by rw [hn]; exact h.mono
    created := by rw [hn]; exact h.created
    discipline := h.discipline
    values := by rw [← he]; exact h.values
    caches := h.caches
    indexes := h.indexes }

theorem bracketed_value_read (top : Option Nat) (s : State) (page : libesedb_page)
    (page_value_index : Nat) (page_value : libesedb_page_value) (hi : 1 ≤ page_value_index) :
    Bracketed top s (s.value_read page page_value_index page_value) 1
      [Event.get_value_by_index page.page_number page_value_index, Event.value_init,
       Event.read_data page_value.data page_value.flags] := by
  have h1 := bracketed_emit top s (Event.get_value_by_index page.page_number page_value_index)
    (fun _ h => by cases h) (fun _ h => by cases h) (fun _ _ h => by cases h)
    (fun _ _ h => by cases h; exact hi)
  have h2 := bracketed_emit top
    (s.emit (Event.get_value_by_index page.page_number page_value_index)) Event.value_init
    (fun _ h => by cases h) (fun _ h => by cases h) (fun _ _ h => by cases h)
    (fun _ _ h => by cases h)
  have h3 := bracketed_emit top
    ((s.emit (Event.get_value_by_index page.page_number page_value_index)).emit
      Event.value_init) (Event.read_data page_value.data page_value.flags)
    (fun _ h => by cases h) (fun _ h => by cases h) (fun _ _ h => by cases h)
    (fun _ _ h => by cases h)
  exact bracketed_cast _ _ _ _ _ _ _
    (bracketed_append _ _ _ _ _ _ _ _ (bracketed_append _ _ _ _ _ _ _ _ h1 h2) h3)
    (by simp [Event.value_delta]) rfl rfl

theorem bracketed_value_free (top : Option Nat) (s : State) :
    Bracketed top s (s.emit Event.value_free) (-1) [Event.value_free] :=
  bracketed_emit top s Event.value_free
    (fun _ h => by cases h) (fun _ h => by cases h) (fun _ _ h => by cases h)
    (fun _ _ h => by cases h)

theorem bracketed_request (c : Nat) (s : State) (element_index : Int) :
    Bracketed (some c) s (s.emit (Event.get_element_value c element_index)) 0
      [Event.get_element_value c element_index] :=
  bracketed_emit (some c) s (Event.get_element_value c element_index)
    (fun _ h => by cases h) (fun _ h => by cases h)
    (fun _ _ h => by cases h; rfl) (fun _ _ h => by cases h)

theorem bracketed_validate_page (top : Option Nat) (s : State) (page_number : Nat) :
    Bracketed top s (s.emit (Event.validate_page page_number)) 0
      [Event.validate_page page_number] :=
  bracketed_emit top s (Event.validate_page page_number)
    (fun _ h => by cases h) (fun _ h => by cases h) (fun _ _ h => by cases h)
    (fun _ _ h => by cases h)

theorem read_page_value_bracketed (d : Definitions) (database : libesedb_database)
    (descend : libesedb_page → State → Int × State)
    (hdesc : ∀ child_page s, ∃ δ, Bracketed none s (descend child_page s).2 0 δ)
    (page : libesedb_page) (page_flags child_page_cache page_value_index : Nat) (s : State)
    (hi : 1 ≤ page_value_index) :
    ∃ δ, Bracketed (some child_page_cache) s
      (read_page_value d database descend page page_flags child_page_cache
        page_value_index s).state
      (read_page_value d database descend page page_flags child_page_cache
        page_value_index s).live_values δ := by
  apply read_page_value_cases d database descend page page_flags child_page_cache
    page_value_index s
    (fun st => ∃ δ, Bracketed (some child_page_cache) s st.state st.live_values δ)
  · intro _
    exact ⟨_, bracketed_emit _ s _ (fun _ h => by cases h) (fun _ h => by cases h)
      (fun _ _ h => by cases h) (fun _ _ h => by cases h; exact hi)⟩
  · intro pv _ _
    exact ⟨_, bracketed_emit _ s _ (fun _ h => by cases h) (fun _ h => by cases h)
      (fun _ _ h => by cases h) (fun _ _ h => by cases h; exact hi)⟩
  · intro pv _ _ _
    exact ⟨_, bracketed_value_read _ s page page_value_index pv hi⟩
  · intro pv ptv _ _ _ _
    have h1 := bracketed_value_read (some child_page_cache) s page page_value_index pv hi
    have h2 := bracketed_emit (some child_page_cache)
      (s.value_read page page_value_index pv)
      (Event.leaf_value s.leaf_value_index page.page_number page_value_index ptv)
      (fun _ h => by cases h) (fun _ h => by cases h) (fun _ _ h => by cases h)
      (fun _ _ h => by cases h)
    have h3 := bracketed_value_free (some child_page_cache)
      ((s.value_read page page_value_index pv).emit
        (Event.leaf_value s.leaf_value_index page.page_number page_value_index ptv))
    exact ⟨_, bracketed_cast _ _ _ _ _ _ _
      (bracketed_append _ _ _ _ _ _ _ _ (bracketed_append _ _ _ _ _ _ _ _ h1 h2) h3)
      (by simp [Event.value_delta, Step.live_values])
      (by simp [Step.state, State.emit]) rfl⟩
  · intro pv ptv _ _ _ _ _
    exact ⟨_, bracketed_value_read _ s page page_value_index pv hi⟩
  · intro pv ptv _ _ _ _ _ _
    exact ⟨_, bracketed_value_read _ s page page_value_index pv hi⟩
  · intro pv ptv _ _ _ _ _ _ _
    exact ⟨_, bracketed_cast _ _ _ _ _ _ _
      (bracketed_append _ _ _ _ _ _ _ _
        (bracketed_value_read (some child_page_cache) s page page_value_index pv hi)
        (bracketed_value_free _ _))
      (by simp [Step.live_values]) rfl rfl⟩
  · intro pv ptv _ _ _ _ _ _ _ _
    exact ⟨_, bracketed_cast _ _ _ _ _ _ _
      (bracketed_append _ _ _ _ _ _ _ _
        (bracketed_value_read (some child_page_cache) s page page_value_index pv hi)
        (bracketed_request _ _ _))
      (by simp [Step.live_values]) rfl rfl⟩
  · intro pv ptv cp _ _ _ _ _ _ _ _ _
    exact ⟨_, bracketed_cast _ _ _ _ _ _ _
      (bracketed_append _ _ _ _ _ _ _ _
        (bracketed_append _ _ _ _ _ _ _ _
          (bracketed_value_read (some child_page_cache) s page page_value_index pv hi)
          (bracketed_request _ _ _))
        (bracketed_validate_page _ _ _))
      (by simp [Step.live_values]) rfl rfl⟩
  · intro pv ptv cp _ _ _ _ _ _ _ _ _
    obtain ⟨δ, hδ⟩ := hdesc cp
      (((s.value_read page page_value_index pv).emit
        (Event.get_element_value child_page_cache
          (to_int d (byte_stream_copy_to_uint32_little_endian ptv.data) - 1))).emit
        (Event.validate_page cp.page_number))
    have hpre := bracketed_append _ _ _ _ _ _ _ _
      (bracketed_append _ _ _ _ _ _ _ _
        (bracketed_append _ _ _ _ _ _ _ _
          (bracketed_value_read (some child_page_cache) s page page_value_index pv hi)
          (bracketed_request _ _ _))
        (bracketed_validate_page _ _ _))
      (bracketed_weaken child_page_cache _ _ _ _ hδ)
    split
    · exact ⟨_, bracketed_cast _ _ _ _ _ _ _ hpre (by simp [Step.live_values]) rfl rfl⟩
    · exact ⟨_, bracketed_cast _ _ _ _ _ _ _
        (bracketed_append _ _ _ _ _ _ _ _ hpre (bracketed_value_free _ _))
        (by simp [Step.live_values]) rfl rfl⟩

theorem read_page_values_bracketed (d : Definitions) (database : libesedb_database)
    (descend : libesedb_page → State → Int × State)
    (hdesc : ∀ child_page s, ∃ δ, Bracketed none s (descend child_page s).2 0 δ)
    (page : libesedb_page) (page_flags child_page_cache : Nat) :
    ∀ (remaining page_value_index : Nat) (s : State), 1 ≤ page_value_index →
      page_value_index + remaining ≤ 65535 →
      ∃ δ, Bracketed (some child_page_cache) s
        (read_page_values d database descend page page_flags child_page_cache remaining
          page_value_index s).state
        (read_page_values d database descend page page_flags child_page_cache remaining
          page_value_index s).live_values δ := by
  intro remaining
  induction remaining with
  | zero =>
    intro i s _ _
    exact ⟨[], bracketed_nil _ s⟩
  | succ n ih =>
    intro i s hi hb
    obtain ⟨δ1, h1⟩ := read_page_value_bracketed d database descend hdesc page page_flags
      child_page_cache i s hi
    have hnext : (i + 1) % 2 ^ 16 = i + 1 := Nat.mod_eq_of_lt (by omega)
    unfold read_page_values
    cases hstep : read_page_value d database descend page page_flags child_page_cache i s with
    | next s1 =>
      rw [hstep] at h1
      obtain ⟨δ2, h2⟩ := ih ((i + 1) % 2 ^ 16) s1 (by rw [hnext]; omega)
        (by rw [hnext]; omega)
      exact ⟨δ1 ++ δ2, bracketed_cast _ _ _ _ _ _ _
        (bracketed_append _ _ _ _ _ _ _ _ h1 h2)
        (by simp [Step.live_values]) rfl rfl⟩
    | on_error live s1 =>
      rw [hstep] at h1
      exact ⟨δ1, h1⟩

theorem bracketed_scope (s s3 s4 : State) (extra : Int) (δ : List Event)
    (h : Bracketed (some s.next_cache) s3 s4 extra δ)
    (h3t : s3.trace = s.trace ++ [Event.cache_init s.next_cache])
    (h3n : s3.next_cache = s.next_cache + 1) :
    Bracketed none s (s4.emit (Event.cache_free s.next_cache)) extra
      ([Event.cache_init s.next_cache] ++ δ ++ [Event.cache_free s.next_cache]) :=
  { trace := by
      simp [State.emit, h.trace, h3t]
    mono := by
      have := h.mono
      simp only [State.emit]
      omega
    created := by
      have hm := h.mono
      have hc := h.created
      rw [caches_created_append, caches_created_append, hc, h3n]
      have hlen : (s4.emit (Event.cache_free s.next_cache)).next_cache - s.next_cache
          = (s4.next_cache - (s.next_cache + 1)) + 1 := by
        simp only [State.emit]
        omega
      rw [hlen, List.range'_succ]
      simp [caches_created]
    discipline := by
      intro stack hstack _
      have hnot : s.next_cache ∉ stack := fun hmem => Nat.lt_irrefl _ (hstack _ hmem)
      have hin := h.discipline (s.next_cache :: stack)
        (by
          intro x hx
          rw [h3n]
          rcases List.mem_cons.mp hx with hx | hx
          · omega
          · exact Nat.lt_succ_of_lt (hstack x hx))
        (by intro c hc; cases hc; rfl)
      rw [List.append_assoc, cache_discipline_append]
      simp only [cache_discipline, hnot, if_false, Option.bind_eq_bind, Option.some_bind]
      rw [cache_discipline_append, hin]
      simp [cache_discipline]
    values := by
      have hv := h.values
      rw [values_created_append, values_created_append, values_released_append,
        values_released_append]
      simp only [values_created, values_released] at hv ⊢
      simp
      exact hv
    caches := by
      intro e he x hx
      right
      simp only [List.append_assoc, List.mem_append, List.mem_singleton] at he
      rcases he with he | he | he
      · subst he
        cases hx
        exact Nat.le_refl _
      · rcases h.caches e he x hx with hc | hc
        · cases hc
          exact Nat.le_refl _
        · omega
      · subst he
        cases hx
        exact Nat.le_refl _
    indexes := by
      intro pn i hmem
      simp only [List.append_assoc, List.mem_append, List.mem_singleton] at hmem
      rcases hmem with hmem | hmem | hmem
      · cases hmem
      · exact h.indexes pn i hmem
      · cases hmem }

theorem read_values_from_page_frame_bracketed (d : Definitions) (database : libesedb_database)
    (descend : libesedb_page → State → Int × State)
    (hdesc : ∀ child_page s, ∃ δ, Bracketed none s (descend child_page s).2 0 δ)
    (page : libesedb_page) (s : State) :
    ∃ δ, Bracketed none s (read_values_from_page_frame d database descend page s).2 0 δ := by
  by_cases hne : page.values.length = 0
  · simp only [read_values_from_page_frame, libesedb_page_get_number_of_values, hne, if_true]
    exact ⟨_, bracketed_emit none s (Event.get_number_of_values page.page_number)
      (fun _ h => by cases h) (fun _ h => by cases h) (fun _ _ h => by cases h)
      (fun _ _ h => by cases h)⟩
  · rw [read_values_from_page_frame_eq d database descend page s hne]
    have hpre := bracketed_append _ _ _ _ _ _ _ _
      (bracketed_emit none s (Event.get_number_of_values page.page_number)
        (fun _ h => by cases h) (fun _ h => by cases h) (fun _ _ h => by cases h)
        (fun _ _ h => by cases h))
      (bracketed_emit none (s.emit (Event.get_number_of_values page.page_number))
        (Event.get_flags page.page_number)
        (fun _ h => by cases h) (fun _ h => by cases h) (fun _ _ h => by cases h)
        (fun _ _ h => by cases h))
    have hfits := page.number_of_values_fits
    obtain ⟨δ, hδ⟩ := read_page_values_bracketed d database descend hdesc page
      (page.flags % 2 ^ 32) s.next_cache (page.values.length - 1) 1 (s.enter_loop page)
      (Nat.le_refl 1) (by omega)
    cases hloop : read_page_values d database descend page (page.flags % 2 ^ 32) s.next_cache
        (page.values.length - 1) 1 (s.enter_loop page) with
    | next s4 =>
      rw [hloop] at hδ
      have hscope := bracketed_scope
        ((s.emit (Event.get_number_of_values page.page_number)).emit
          (Event.get_flags page.page_number)) (s.enter_loop page) s4 0 δ hδ rfl rfl
      exact ⟨_, bracketed_cast _ _ _ _ _ _ _
        (bracketed_append _ _ _ _ _ _ _ _ hpre hscope)
        (by simp [Event.value_delta]) rfl rfl⟩
    | on_error live s4 =>
      rw [hloop] at hδ
      cases live with
      | false =>
        have hscope := bracketed_scope
          ((s.emit (Event.get_number_of_values page.page_number)).emit
            (Event.get_flags page.page_number)) (s.enter_loop page) s4 0 δ hδ rfl rfl
        exact ⟨_, bracketed_cast _ _ _ _ _ _ _
          (bracketed_append _ _ _ _ _ _ _ _ hpre hscope)
          (by simp [Event.value_delta]) rfl rfl⟩
      | true =>
        have hfree := bracketed_cast _ _ _ _ _ 0 _
          (bracketed_append _ _ _ _ _ _ _ _ hδ (bracketed_value_free (some s.next_cache) s4))
          (by simp [Step.live_values]) rfl rfl
        have hscope := bracketed_scope
          ((s.emit (Event.get_number_of_values page.page_number)).emit
            (Event.get_flags page.page_number)) (s.enter_loop page)
          (s4.emit Event.value_free) 0 _ hfree rfl rfl
        exact ⟨_, bracketed_cast _ _ _ _ _ _ _
          (bracketed_append _ _ _ _ _ _ _ _ hpre hscope)
          (by simp [Event.value_delta]) rfl rfl⟩

theorem read_values_from_page_levels_bracketed (d : Definitions)
    (database : libesedb_database) :
    ∀ (levels : Nat) (page : libesedb_page) (recursion_depth : Int) (s : State),
      ∃ δ, Bracketed none s
        (read_values_from_page_levels d database levels page recursion_depth s).2 0 δ := by
  intro levels
  induction levels with
  | zero =>
    intro page recursion_depth s
    exact ⟨[], bracketed_nil none s⟩
  | succ n ih =>
    intro page recursion_depth s
    simp only [read_values_from_page_levels, read_values_from_page_body]
    split
    · exact ⟨[], bracketed_nil none s⟩
    · exact read_values_from_page_frame_bracketed d database _
        (fun child_page s2 => ih child_page (recursion_depth + 1) s2) page s

theorem read_values_from_page_bracketed (d : Definitions) (database : libesedb_database)
    (page : libesedb_page) (recursion_depth : Int) (s : State) :
    ∃ δ, Bracketed none s
      (libesedb_database_read_values_from_page d database page recursion_depth s).2 0 δ :=
  read_values_from_page_levels_bracketed d database _ page recursion_depth s

theorem read_file_io_handle_bracketed (d : Definitions) (database : libesedb_database)
    (s : State) :
    ∃ δ, Bracketed none s (libesedb_database_read_file_io_handle d database s).2 0 δ := by
  have hfetch : Bracketed (some s.next_cache)
      (({ leaf_value_index := 0, next_cache := s.next_cache + 1, trace := s.trace } : State).emit
        (Event.cache_init s.next_cache)) (s.fetch_root d) 0
      [Event.get_element_value s.next_cache (to_int d d.LIBESEDB_PAGE_NUMBER_DATABASE - 1)] :=
    bracketed_request s.next_cache _ _
  cases hvec : database.page_tree.pages_vector (to_int d d.LIBESEDB_PAGE_NUMBER_DATABASE - 1)
    with
  | none =>
    rw [read_file_io_handle_not_fetched d database s hvec]
    exact ⟨_, bracketed_scope s _ _ 0 _ hfetch rfl rfl⟩
  | some root_page =>
    have hroot := bracketed_append _ _ _ _ _ _ _ _ hfetch
      (bracketed_emit (some s.next_cache) (s.fetch_root d)
        (Event.validate_root_page root_page.page_number)
        (fun _ h => by cases h) (fun _ h => by cases h) (fun _ _ h => by cases h)
        (fun _ _ h => by cases h))
    cases hval : database.page_tree.libesedb_page_validate_root_page root_page with
    | false =>
      rw [read_file_io_handle_invalid d database s root_page hvec hval]
      exact ⟨_, bracketed_scope s _ _ _ _ hroot rfl rfl⟩
    | true =>
      rw [read_file_io_handle_walk d database s root_page hvec hval]
      obtain ⟨δ, hδ⟩ := read_values_from_page_bracketed d database root_page 0
        ((s.fetch_root d).emit (Event.validate_root_page root_page.page_number))
      have hall := bracketed_cast _ _ _ _ _ 0 _
        (bracketed_append _ _ _ _ _ _ _ _ hroot
          (bracketed_weaken s.next_cache _ _ _ _ hδ))
        (by simp [Event.value_delta]) rfl rfl
      exact ⟨_, bracketed_scope s _ _ 0 _ hall rfl rfl⟩

theorem cache_discipline_perm :
    ∀ (δ : List Event) (stack stack2 : List Nat), cache_discipline stack δ = some stack2 →
      (caches_released δ ++ stack2).Perm (stack ++ caches_created δ) := by
  intro δ
  induction δ with
  | nil =>
    intro stack stack2 h
    simp only [cache_discipline, Option.some.injEq] at h
    subst h
    simp [caches_released, caches_created]
  | cons e rest ih =>
    intro stack stack2 h
    cases e with
    | cache_init c =>
      simp only [cache_discipline] at h
      split at h
      · cases h
      · have h2 := ih _ _ h
        have hc : caches_created (Event.cache_init c :: rest) = c :: caches_created rest := by
          simp [caches_created]
        have hr : caches_released (Event.cache_init c :: rest) = caches_released rest := by
          simp [caches_released]
        rw [hc, hr]
        exact h2.trans (List.perm_middle.symm)
    | cache_free c =>
      simp only [cache_discipline] at h
      split at h
      · rename_i hhead
        have h2 := ih _ _ h
        have hc : caches_created (Event.cache_free c :: rest) = caches_created rest := by
          simp [caches_created]
        have hr : caches_released (Event.cache_free c :: rest) = c :: caches_released rest := by
          simp [caches_released]
        rw [hc, hr]
        cases stack with
        | nil => cases hhead
        | cons x tail =>
          simp only [List.head?_cons, Option.some.injEq] at hhead
          subst hhead
          simpa using h2
      · cases h
    | get_element_value c idx =>
      simp only [cache_discipline] at h
      split at h
      · simpa [caches_created, caches_released] using ih _ _ h
      · cases h
    | _ =>
      simp only [cache_discipline] at h
      simpa [caches_created, caches_released] using ih _ _ h

theorem live_caches_append (a b : List Event) :
    live_caches (a ++ b) = live_caches a + live_caches b := by
  simp only [live_caches, caches_created_append, caches_released_append, List.length_append]
  push_cast
  ring

theorem live_page_tree_values_append (a b : List Event) :
    live_page_tree_values (a ++ b) = live_page_tree_values a + live_page_tree_values b := by
  simp only [live_page_tree_values, values_created_append, values_released_append]
  push_cast
  ring

theorem bracketed_balanced (s s2 : State) (δ : List Event) (h : Bracketed none s s2 0 δ) :
    Balanced s s2 := by
  have hperm := cache_discipline_perm δ [] [] (h.discipline [] (by simp) (by simp))
  simp only [List.append_nil, List.nil_append] at hperm
  have hvalues : values_created δ = values_released δ := by
    have := h.values
    omega
  refine ⟨δ, h.trace, ?_, hperm, hvalues, ?_, ?_⟩
  · rw [h.created]
    exact List.nodup_range' _ _
  · rw [h.trace, live_caches_append]
    simp [live_caches, hperm.length_eq]
  · rw [h.trace, live_page_tree_values_append]
    simp [live_page_tree_values, hvalues]

theorem read_page_value_no_failures (d : Definitions) (database : libesedb_database)
    (descend : libesedb_page → State → Int × State) (page : libesedb_page)
    (page_flags child_page_cache page_value_index : Nat) (s : State) :
    read_page_value_with_failures no_failures d database descend page page_flags
        child_page_cache page_value_index s
      = read_page_value d database descend page page_flags child_page_cache
          page_value_index s := by
  simp only [read_page_value_with_failures, read_page_value, no_failures,
    Bool.false_eq_true, if_false]

theorem read_page_values_no_failures (d : Definitions) (database : libesedb_database)
    (descend : libesedb_page → State → Int × State) (page : libesedb_page)
    (page_flags child_page_cache : Nat) (remaining : Nat) :
    ∀ (page_value_index : Nat) (s : State),
      read_page_values_with_failures no_failures d database descend page page_flags
          child_page_cache remaining page_value_index s
        = read_page_values d database descend page page_flags child_page_cache remaining
            page_value_index s := by
  induction remaining with
  | zero => intro i s; rfl
  | succ n ih =>
    intro i s
    simp only [read_page_values_with_failures, read_page_values, read_page_value_no_failures]
    cases read_page_value d database descend page page_flags child_page_cache i s with
    | next s2 => exact ih _ s2
    | on_error live s2 => rfl

theorem read_values_from_page_frame_no_failures (d : Definitions)
    (database : libesedb_database) (descend : libesedb_page → State → Int × State)
    (page : libesedb_page) (s : State) :
    read_values_from_page_frame_with_failures no_failures d database descend page s
      = read_values_from_page_frame d database descend page s := by
  simp only [read_values_from_page_frame_with_failures, read_values_from_page_frame,
    read_page_values_no_failures]
  simp only [no_failures, Bool.false_eq_true, if_false]

theorem read_values_from_page_levels_no_failures (d : Definitions)
    (database : libesedb_database) (levels : Nat) :
    ∀ (page : libesedb_page) (recursion_depth : Int) (s : State),
      read_values_from_page_levels_with_failures no_failures d database levels page
          recursion_depth s
        = read_values_from_page_levels d database levels page recursion_depth s := by
  induction levels with
  | zero => intro page depth s; rfl
  | succ n ih =>
    intro page depth s
    simp only [read_values_from_page_levels_with_failures, read_values_from_page_levels]
    have hfun : (fun child_page s => read_values_from_page_levels_with_failures no_failures d
          database n child_page (depth + 1) s)
        = (fun child_page s => read_values_from_page_levels d database n child_page
          (depth + 1) s) := by
      funext child_page s2
      exact ih child_page (depth + 1) s2
    rw [hfun]
    simp only [read_values_from_page_body_with_failures, read_values_from_page_body,
      read_values_from_page_frame_no_failures]
    simp [no_failures]

theorem read_values_from_page_no_failures (d : Definitions) (database : libesedb_database)
    (page : libesedb_page) (recursion_depth : Int) (s : State) :
    libesedb_database_read_values_from_page_with_failures no_failures d database page
        recursion_depth s
      = libesedb_database_read_values_from_page d database page recursion_depth s :=
  read_values_from_page_levels_no_failures d database _ page recursion_depth s

theorem read_file_io_handle_no_failures (d : Definitions) (database : libesedb_database)
    (s : State) :
    libesedb_database_read_file_io_handle_with_failures no_failures d database s
      = libesedb_database_read_file_io_handle d database s := by
  simp only [libesedb_database_read_file_io_handle_with_failures,
    libesedb_database_read_file_io_handle, read_values_from_page_no_failures]
  simp only [no_failures, Bool.false_eq_true, if_false]

theorem read_page_value_with_failures_bracketed (failures : Failures) (d : Definitions)
    (database : libesedb_database) (descend : libesedb_page → State → Int × State)
    (hdesc : ∀ child_page s, ∃ δ, Bracketed none s (descend child_page s).2 0 δ)
    (page : libesedb_page) (page_flags child_page_cache page_value_index : Nat) (s : State)
    (hi : 1 ≤ page_value_index) :
    ∃ δ, Bracketed (some child_page_cache) s
      (read_page_value_with_failures failures d database descend page page_flags
        child_page_cache page_value_index s).state
      (read_page_value_with_failures failures d database descend page page_flags
        child_page_cache page_value_index s).live_values δ := by
  have hemit : ∃ δ, Bracketed (some child_page_cache) s
      (s.emit (Event.get_value_by_index page.page_number page_value_index)) 0 δ :=
    ⟨_, bracketed_emit _ s _ (fun _ h => by cases h) (fun _ h => by cases h)
      (fun _ _ h => by cases h) (fun _ _ h => by cases h; exact hi)⟩
  by_cases h1 : failures.get_value_by_index_fails s = true
  · have hpass : read_page_value_with_failures failures d database descend page page_flags
          child_page_cache page_value_index s
        = Step.on_error false
            (s.emit (Event.get_value_by_index page.page_number page_value_index)) := by
      simp only [read_page_value_with_failures, h1, if_true]
    rw [hpass]
    exact hemit
  · by_cases h2 : failures.value_init_fails
        (s.emit (Event.get_value_by_index page.page_number page_value_index)) = true
    · cases hv : page.values[page_value_index]? with
      | none =>
        have hpass : read_page_value_with_failures failures d database descend page
              page_flags child_page_cache page_value_index s
            = Step.on_error false
                (s.emit (Event.get_value_by_index page.page_number page_value_index)) := by
          simp [read_page_value_with_failures, h1, libesedb_page_get_value_by_index, hv]
        rw [hpass]
        exact hemit
      | some pv =>
        by_cases hd : pv.flags &&& d.LIBESEDB_PAGE_TAG_FLAG_IS_DEFUNCT ≠ 0
        · have hpass : read_page_value_with_failures failures d database descend page
                page_flags child_page_cache page_value_index s
              = Step.next
                  (s.emit (Event.get_value_by_index page.page_number page_value_index)) := by
            simp [read_page_value_with_failures, h1, libesedb_page_get_value_by_index, hv,
              hd]
          rw [hpass]
          exact hemit
        · have hpass : read_page_value_with_failures failures d database descend page
                page_flags child_page_cache page_value_index s
              = Step.on_error false
                  (s.emit (Event.get_value_by_index page.page_number page_value_index)) := by
            simp [read_page_value_with_failures, h1, libesedb_page_get_value_by_index, hv,
              hd, h2]
          rw [hpass]
          exact hemit
    · have hpass : read_page_value_with_failures failures d database descend page page_flags
            child_page_cache page_value_index s
          = read_page_value d database descend page page_flags child_page_cache
              page_value_index s := by
        simp only [read_page_value_with_failures, read_page_value, h1, h2, Bool.false_eq_true, if_false]
      rw [hpass]
      exact read_page_value_bracketed d database descend hdesc page page_flags
        child_page_cache page_value_index s hi

theorem read_page_values_with_failures_bracketed (failures : Failures) (d : Definitions)
    (database : libesedb_database) (descend : libesedb_page → State → Int × State)
    (hdesc : ∀ child_page s, ∃ δ, Bracketed none s (descend child_page s).2 0 δ)
    (page : libesedb_page) (page_flags child_page_cache : Nat) :
    ∀ (remaining page_value_index : Nat) (s : State), 1 ≤ page_value_index →
      page_value_index + remaining ≤ 65535 →
      ∃ δ, Bracketed (some child_page_cache) s
        (read_page_values_with_failures failures d database descend page page_flags
          child_page_cache remaining page_value_index s).state
        (read_page_values_with_failures failures d database descend page page_flags
          child_page_cache remaining page_value_index s).live_values δ := by
  intro remaining
  induction remaining with
  | zero =>
    intro i s _ _
    exact ⟨[], bracketed_nil _ s⟩
  | succ n ih =>
    intro i s hi hb
    obtain ⟨δ1, h1⟩ := read_page_value_with_failures_bracketed failures d database descend
      hdesc page page_flags child_page_cache i s hi
    have hnext : (i + 1) % 2 ^ 16 = i + 1 := Nat.mod_eq_of_lt (by omega)
    unfold read_page_values_with_failures
    cases hstep : read_page_value_with_failures failures d database descend page page_flags
        child_page_cache i s with
    | next s1 =>
      rw [hstep] at h1
      obtain ⟨δ2, h2⟩ := ih ((i + 1) % 2 ^ 16) s1 (by rw [hnext]; omega)
        (by rw [hnext]; omega)
      exact ⟨δ1 ++ δ2, bracketed_cast _ _ _ _ _ _ _
        (bracketed_append _ _ _ _ _ _ _ _ h1 h2)
        (by simp [Step.live_values]) rfl rfl⟩
    | on_error live s1 =>
      rw [hstep] at h1
      exact ⟨δ1, h1⟩

theorem read_values_from_page_frame_with_failures_bracketed (failures : Failures)
    (d : Definitions) (database : libesedb_database)
    (descend : libesedb_page → State → Int × State)
    (hdesc : ∀ child_page s, ∃ δ, Bracketed none s (descend child_page s).2 0 δ)
    (page : libesedb_page) (s : State) :
    ∃ δ, Bracketed none s
      (read_values_from_page_frame_with_failures failures d database descend page s).2 0 δ := by
  have hnumber : ∃ δ, Bracketed none s
      (s.emit (Event.get_number_of_values page.page_number)) 0 δ :=
    ⟨_, bracketed_emit none s (Event.get_number_of_values page.page_number)
      (fun _ h => by cases h) (fun _ h => by cases h) (fun _ _ h => by cases h)
      (fun _ _ h => by cases h)⟩
  have hpre := bracketed_append _ _ _ _ _ _ _ _
    (bracketed_emit none s (Event.get_number_of_values page.page_number)
      (fun _ h => by cases h) (fun _ h => by cases h) (fun _ _ h => by cases h)
      (fun _ _ h => by cases h))
    (bracketed_emit none (s.emit (Event.get_number_of_values page.page_number))
      (Event.get_flags page.page_number)
      (fun _ h => by cases h) (fun _ h => by cases h) (fun _ _ h => by cases h)
      (fun _ _ h => by cases h))
  have hflags : ∃ δ, Bracketed none s
      ((s.emit (Event.get_number_of_values page.page_number)).emit
        (Event.get_flags page.page_number)) 0 δ :=
    ⟨_, bracketed_cast _ _ _ _ _ 0 _ hpre (by simp [Event.value_delta]) rfl rfl⟩
  by_cases h1 : failures.get_number_of_values_fails s = true
  · have hframe : read_values_from_page_frame_with_failures failures d database descend page s
        = (-1, s.emit (Event.get_number_of_values page.page_number)) := by
      simp only [read_values_from_page_frame_with_failures, h1, if_true]
      rfl
    rw [hframe]
    exact hnumber
  by_cases hne : page.values.length = 0
  · have hframe : read_values_from_page_frame_with_failures failures d database descend page s
        = (1, s.emit (Event.get_number_of_values page.page_number)) := by
      simp only [read_values_from_page_frame_with_failures, h1,
        libesedb_page_get_number_of_values, hne, if_true, Bool.false_eq_true, if_false]
    rw [hframe]
    exact hnumber
  by_cases h2 : failures.get_flags_fails
      (s.emit (Event.get_number_of_values page.page_number)) = true
  · have hframe : read_values_from_page_frame_with_failures failures d database descend page s
        = (-1, (s.emit (Event.get_number_of_values page.page_number)).emit
            (Event.get_flags page.page_number)) := by
      simp only [read_values_from_page_frame_with_failures, h1,
        libesedb_page_get_number_of_values, hne, h2, if_true, Bool.false_eq_true, if_false]
      rfl
    rw [hframe]
    exact hflags
  by_cases h3 : failures.cache_init_fails
      ((s.emit (Event.get_number_of_values page.page_number)).emit
        (Event.get_flags page.page_number)) = true
  · have hframe : read_values_from_page_frame_with_failures failures d database descend page s
        = (-1, (s.emit (Event.get_number_of_values page.page_number)).emit
            (Event.get_flags page.page_number)) := by
      simp only [read_values_from_page_frame_with_failures, h1,
        libesedb_page_get_number_of_values, libesedb_page_get_flags, hne, h2, h3, if_true,
        Bool.false_eq_true, if_false]
      rfl
    rw [hframe]
    exact hflags
  have hframe : read_values_from_page_frame_with_failures failures d database descend page s
      = leave_loop s.next_cache
          (read_page_values_with_failures failures d database descend page
            (page.flags % 2 ^ 32) s.next_cache (page.values.length - 1) 1
            (s.enter_loop page)) := by
    simp only [read_values_from_page_frame_with_failures, h1,
      libesedb_page_get_number_of_values, libesedb_page_get_flags, hne, h2, h3, Bool.false_eq_true, if_false]
    have hgen : ∀ st : Step,
        (match st with
          | Step.on_error live s2 => on_error live (some s.next_cache) s2
          | Step.next s2 => ((1 : Int), s2.emit (Event.cache_free s.next_cache)))
        = leave_loop s.next_cache st := by
      intro st
      cases st <;> rfl
    exact hgen _
  rw [hframe]
  have hfits := page.number_of_values_fits
  obtain ⟨δ, hδ⟩ := read_page_values_with_failures_bracketed failures d database descend
    hdesc page (page.flags % 2 ^ 32) s.next_cache (page.values.length - 1) 1
    (s.enter_loop page) (Nat.le_refl 1) (by omega)
  cases hloop : read_page_values_with_failures failures d database descend page
      (page.flags % 2 ^ 32) s.next_cache (page.values.length - 1) 1 (s.enter_loop page) with
  | next s4 =>
    rw [hloop] at hδ
    have hscope := bracketed_scope
      ((s.emit (Event.get_number_of_values page.page_number)).emit
        (Event.get_flags page.page_number)) (s.enter_loop page) s4 0 δ hδ rfl rfl
    exact ⟨_, bracketed_cast _ _ _ _ _ _ _
      (bracketed_append _ _ _ _ _ _ _ _ hpre hscope)
      (by simp [Event.value_delta]) rfl rfl⟩
  | on_error live s4 =>
    rw [hloop] at hδ
    cases live with
    | false =>
      have hscope := bracketed_scope
        ((s.emit (Event.get_number_of_values page.page_number)).emit
          (Event.get_flags page.page_number)) (s.enter_loop page) s4 0 δ hδ rfl rfl
      exact ⟨_, bracketed_cast _ _ _ _ _ _ _
        (bracketed_append _ _ _ _ _ _ _ _ hpre hscope)
        (by simp [Event.value_delta]) rfl rfl⟩
    | true =>
      have hfree := bracketed_cast _ _ _ _ _ 0 _
        (bracketed_append _ _ _ _ _ _ _ _ hδ (bracketed_value_free (some s.next_cache) s4))
        (by simp [Step.live_values]) rfl rfl
      have hscope := bracketed_scope
        ((s.emit (Event.get_number_of_values page.page_number)).emit
          (Event.get_flags page.page_number)) (s.enter_loop page)
        (s4.emit Event.value_free) 0 _ hfree rfl rfl
      exact ⟨_, bracketed_cast _ _ _ _ _ _ _
        (bracketed_append _ _ _ _ _ _ _ _ hpre hscope)
        (by simp [Event.value_delta]) rfl rfl⟩

theorem read_values_from_page_levels_with_failures_bracketed (failures : Failures)
    (d : Definitions) (database : libesedb_database) :
    ∀ (levels : Nat) (page : libesedb_page) (recursion_depth : Int) (s : State),
      ∃ δ, Bracketed none s
        (read_values_from_page_levels_with_failures failures d database levels page
          recursion_depth s).2 0 δ := by
  intro levels
  induction levels with
  | zero =>
    intro page recursion_depth s
    exact ⟨[], bracketed_nil none s⟩
  | succ n ih =>
    intro page recursion_depth s
    simp only [read_values_from_page_levels_with_failures,
      read_values_from_page_body_with_failures]
    split
    · exact ⟨[], bracketed_nil none s⟩
    · split
      · exact ⟨[], bracketed_nil none s⟩
      · exact read_values_from_page_frame_with_failures_bracketed failures d database _
          (fun child_page s2 => ih child_page (recursion_depth + 1) s2) page s

theorem read_values_from_page_with_failures_bracketed (failures : Failures) (d : Definitions)
    (database : libesedb_database) (page : libesedb_page) (recursion_depth : Int)
    (s : State) :
    ∃ δ, Bracketed none s
      (libesedb_database_read_values_from_page_with_failures failures d database page
        recursion_depth s).2 0 δ :=
  read_values_from_page_levels_with_failures_bracketed failures d database _ page
    recursion_depth s

theorem read_file_io_handle_with_failures_bracketed (failures : Failures) (d : Definitions)
    (database : libesedb_database) (s : State) :
    ∃ δ, Bracketed none s
      (libesedb_database_read_file_io_handle_with_failures failures d database s).2 0 δ := by
  have hstart : ∃ δ, Bracketed none s ({ s with leaf_value_index := 0 } : State) 0 δ :=
    ⟨[], bracketed_cast _ _ _ _ _ _ _ (bracketed_nil none s) rfl rfl rfl⟩
  by_cases ha : failures.arguments_invalid = true
  · have hrun : libesedb_database_read_file_io_handle_with_failures failures d database s
        = (-1, { s with leaf_value_index := 0 }) := by
      simp only [libesedb_database_read_file_io_handle_with_failures, ha, if_true]
    rw [hrun]
    exact hstart
  by_cases hc : failures.cache_init_fails { s with leaf_value_index := 0 } = true
  · have hrun : libesedb_database_read_file_io_handle_with_failures failures d database s
        = (-1, { s with leaf_value_index := 0 }) := by
      simp only [libesedb_database_read_file_io_handle_with_failures, ha, hc, if_true,
        Bool.false_eq_true, if_false]
    rw [hrun]
    exact hstart
  have hfetch : Bracketed (some s.next_cache)
      (({ leaf_value_index := 0, next_cache := s.next_cache + 1, trace := s.trace } : State).emit
        (Event.cache_init s.next_cache)) (s.fetch_root d) 0
      [Event.get_element_value s.next_cache (to_int d d.LIBESEDB_PAGE_NUMBER_DATABASE - 1)] :=
    bracketed_request s.next_cache _ _
  cases hvec : database.page_tree.pages_vector (to_int d d.LIBESEDB_PAGE_NUMBER_DATABASE - 1)
    with
  | none =>
    have hrun : libesedb_database_read_file_io_handle_with_failures failures d database s
        = (-1, (s.fetch_root d).emit (Event.cache_free s.next_cache)) := by
      simp only [libesedb_database_read_file_io_handle_with_failures, ha, hc, hvec, Bool.false_eq_true, if_false]
      rfl
    rw [hrun]
    exact ⟨_, bracketed_scope s _ _ 0 _ hfetch rfl rfl⟩
  | some root_page =>
    have hroot := bracketed_append _ _ _ _ _ _ _ _ hfetch
      (bracketed_emit (some s.next_cache) (s.fetch_root d)
        (Event.validate_root_page root_page.page_number)
        (fun _ h => by cases h) (fun _ h => by cases h) (fun _ _ h => by cases h)
        (fun _ _ h => by cases h))
    cases hval : database.page_tree.libesedb_page_validate_root_page root_page with
    | false =>
      have hrun : libesedb_database_read_file_io_handle_with_failures failures d database s
          = (-1, ((s.fetch_root d).emit (Event.validate_root_page root_page.page_number)).emit
              (Event.cache_free s.next_cache)) := by
        simp only [libesedb_database_read_file_io_handle_with_failures, ha, hc, hvec, hval,
          Bool.false_eq_true, if_false]
        rfl
      rw [hrun]
      exact ⟨_, bracketed_scope s _ _ _ _ hroot rfl rfl⟩
    | true =>
      have hrun : (libesedb_database_read_file_io_handle_with_failures failures d database s).2
          = (libesedb_database_read_values_from_page_with_failures failures d database
              root_page 0
              ((s.fetch_root d).emit (Event.validate_root_page root_page.page_number))).2.emit
            (Event.cache_free s.next_cache) := by
        simp only [libesedb_database_read_file_io_handle_with_failures, ha, hc, hvec, hval,
          if_true, Bool.false_eq_true, if_false]
        have key : ∀ r : Int × State,
            (match r with
              | (result, s2) =>
                if result ≠ 1 then ((-1 : Int), s2.emit (Event.cache_free s.next_cache))
                else (1, s2.emit (Event.cache_free s.next_cache))).2
            = r.2.emit (Event.cache_free s.next_cache) := by
          intro r
          obtain ⟨result, s2⟩ := r
          by_cases hres : result ≠ 1 <;> simp [hres]
        exact key _
      rw [hrun]
      obtain ⟨δ, hδ⟩ := read_values_from_page_with_failures_bracketed failures d database
        root_page 0 ((s.fetch_root d).emit (Event.validate_root_page root_page.page_number))
      have hall := bracketed_cast _ _ _ _ _ 0 _
        (bracketed_append _ _ _ _ _ _ _ _ hroot
          (bracketed_weaken s.next_cache _ _ _ _ hδ))
        (by simp [Event.value_delta]) rfl rfl
      exact ⟨_, bracketed_scope s _ _ 0 _ hall rfl rfl⟩

/-- Claim C13: on every exit path of `libesedb_database_read_values_from_page` and
of `libesedb_database_read_file_io_handle`, with result 1 or -1, the caches the
call created have been released, each once, and as many page tree values have
been released as were created: the numbers of live caches and of live page tree
values after the call are those before it. This holds whichever of the calls of
`failures` fail and wherever they do: a pointer argument that is `NULL`, the
accessors of the page, the creation of a cache (lines 295 and 624) and the
creation of a page tree value (line 360); the exits that depend on the page
store are those of the walk. With no such failure the two functions are
`libesedb_database_read_values_from_page` and
`libesedb_database_read_file_io_handle`, for which the same holds. Only the
calls that release a cache or a page tree value are taken to succeed. -/
theorem resources_released (failures : Failures) (d : Definitions)
    (database : libesedb_database) (page : libesedb_page) (recursion_depth : Int)
    (s : State) :
    Balanced s (libesedb_database_read_values_from_page_with_failures failures d database
      page recursion_depth s).2
    ∧ Balanced s (libesedb_database_read_file_io_handle_with_failures failures d database s).2
    ∧ libesedb_database_read_values_from_page_with_failures no_failures d database page
        recursion_depth s
      = libesedb_database_read_values_from_page d database page recursion_depth s
    ∧ libesedb_database_read_file_io_handle_with_failures no_failures d database s
      = libesedb_database_read_file_io_handle d database s
    ∧ Balanced s (libesedb_database_read_values_from_page d database page recursion_depth s).2
    ∧ Balanced s (libesedb_database_read_file_io_handle d database s).2 := by
  obtain ⟨δ1, h1⟩ := read_values_from_page_with_failures_bracketed failures d database page
    recursion_depth s
  obtain ⟨δ2, h2⟩ := read_file_io_handle_with_failures_bracketed failures d database s
  obtain ⟨δ3, h3⟩ := read_values_from_page_bracketed d database page recursion_depth s
  obtain ⟨δ4, h4⟩ := read_file_io_handle_bracketed d database s
  exact ⟨bracketed_balanced _ _ _ h1, bracketed_balanced _ _ _ h2,
    read_values_from_page_no_failures d database page recursion_depth s,
    read_file_io_handle_no_failures d database s,
    bracketed_balanced _ _ _ h3, bracketed_balanced _ _ _ h4⟩

/-- Claim C13, at a concrete input: the two-level tree when the creation of the
page tree value for the second leaf value of page 5 fails, and when the
creation of the child page cache of the frame of page 5 fails. Each run returns
-1 after releasing what it had created: in the first the cache of the frame of
page 5, then the page tree value and the cache of the root frame and the root
page cache; in the second the page tree value and the cache of the root frame
and the root page cache. -/
theorem resources_released_witness :
    libesedb_database_read_file_io_handle_with_failures
        { no_failures with value_init_fails := fun s => decide (s.trace.length = 20) }
        definitions (database_of 6 two_level_pages) State.initial
      = (-1, { leaf_value_index := 1, next_cache := 3,
               trace := [Event.cache_init 0, Event.get_element_value 0 3,
                 Event.validate_root_page 4, Event.get_number_of_values 4, Event.get_flags 4,
                 Event.cache_init 1, Event.get_value_by_index 4 1, Event.value_init,
                 Event.read_data [0, 0, 5, 0, 0, 0] 0, Event.get_element_value 1 4,
                 Event.validate_page 5, Event.get_number_of_values 5, Event.get_flags 5,
                 Event.cache_init 2, Event.get_value_by_index 5 1, Event.value_init,
                 Event.read_data [1, 0, 0, 65] 0,
                 Event.leaf_value 0 5 1
                   { common_key_size := 0, local_key := [0], data := [65] },
                 Event.value_free, Event.get_value_by_index 5 2, Event.cache_free 2,
                 Event.value_free, Event.cache_free 1, Event.cache_free 0] })
    ∧ Balanced State.initial
        (libesedb_database_read_file_io_handle_with_failures
          { no_failures with value_init_fails := fun s => decide (s.trace.length = 20) }
          definitions (database_of 6 two_level_pages) State.initial).2
    ∧ libesedb_database_read_file_io_handle_with_failures
        { no_failures with cache_init_fails := fun s => decide (s.trace.length = 13) }
        definitions (database_of 6 two_level_pages) State.initial
      = (-1, { leaf_value_index := 0, next_cache := 2,
               trace := [Event.cache_init 0, Event.get_element_value 0 3,
                 Event.validate_root_page 4, Event.get_number_of_values 4, Event.get_flags 4,
                 Event.cache_init 1, Event.get_value_by_index 4 1, Event.value_init,
                 Event.read_data [0, 0, 5, 0, 0, 0] 0, Event.get_element_value 1 4,
                 Event.validate_page 5, Event.get_number_of_values 5, Event.get_flags 5,
                 Event.value_free, Event.cache_free 1, Event.cache_free 0] })
    ∧ Balanced State.initial
        (libesedb_database_read_file_io_handle_with_failures
          { no_failures with cache_init_fails := fun s => decide (s.trace.length = 13) }
          definitions (database_of 6 two_level_pages) State.initial).2 :=
  ⟨by decide,
    (resources_released
      { no_failures with value_init_fails := fun s => decide (s.trace.length = 20) }
      definitions (database_of 6 two_level_pages)
      { page_number := 4, flags := 5,
        values := [root_tag, branch_value 5 0 0 0, branch_value 6 0 0 0] } 0
      State.initial).2.1,
    by decide,
    (resources_released
      { no_failures with cache_init_fails := fun s => decide (s.trace.length = 13) }
      definitions (database_of 6 two_level_pages)
      { page_number := 4, flags := 5,
        values := [root_tag, branch_value 5 0 0 0, branch_value 6 0 0 0] } 0
      State.initial).2.1⟩

theorem cache_discipline_created_before (cache : Nat) (element_index : Int)
    (after : List Event) :
    ∀ (before : List Event) (stack stack2 : List Nat),
      cache_discipline stack (before ++ Event.get_element_value cache element_index :: after)
        = some stack2 →
      cache ∈ stack ∨ cache ∈ caches_created before := by
  intro before
  induction before with
  | nil =>
    intro stack stack2 h
    left
    simp only [List.nil_append, cache_discipline] at h
    split at h
    · rename_i hhead
      exact List.mem_of_mem_head? hhead
    · cases h
  | cons e rest ih =>
    intro stack stack2 h
    cases e with
    | cache_init c =>
      simp only [List.cons_append, cache_discipline] at h
      split at h
      · cases h
      · rcases ih _ _ h with hmem | hmem
        · rcases List.mem_cons.mp hmem with hmem | hmem
          · right
            simp [caches_created, hmem]
          · exact Or.inl hmem
        · right
          simp only [caches_created] at hmem ⊢
          simp [hmem]
    | cache_free c =>
      simp only [List.cons_append, cache_discipline] at h
      split at h
      · rcases ih _ _ h with hmem | hmem
        · exact Or.inl (List.mem_of_mem_tail hmem)
        · right
          simpa [caches_created] using hmem
      · cases h
    | get_element_value c idx =>
      simp only [List.cons_append, cache_discipline] at h
      split at h
      · rcases ih _ _ h with hmem | hmem
        · exact Or.inl hmem
        · right
          simpa [caches_created] using hmem
      · cases h
    | _ =>
      simp only [List.cons_append, cache_discipline] at h
      rcases ih _ _ h with hmem | hmem
      · exact Or.inl hmem
      · right
        simpa [caches_created] using hmem

theorem cache_slot_untouched (cache : Nat) :
    ∀ (events : List Event) (slot : Option Int),
      (∀ e ∈ events, e.cache ≠ some cache) → cache_slot cache slot events = slot := by
  intro events
  induction events with
  | nil =>
    intro slot _
    rfl
  | cons e rest ih =>
    intro slot h
    have hrest : ∀ e2 ∈ rest, e2.cache ≠ some cache :=
      fun e2 he2 => h e2 (List.mem_cons_of_mem _ he2)
    have he := h e (List.mem_cons_self _ _)
    cases e with
    | cache_init c =>
      have hc : c ≠ cache := fun hc => he (by rw [hc]; rfl)
      simp only [cache_slot, hc, if_false]
      exact ih slot hrest
    | cache_free c =>
      have hc : c ≠ cache := fun hc => he (by rw [hc]; rfl)
      simp only [cache_slot, hc, if_false]
      exact ih slot hrest
    | get_element_value c idx =>
      have hc : c ≠ cache := fun hc => he (by rw [hc]; rfl)
      simp only [cache_slot, hc, if_false]
      exact ih slot hrest
    | _ =>
      simp only [cache_slot]
      exact ih slot hrest

/-- Claim C14: in a call of `libesedb_database_read_values_from_page` every page
is requested through the innermost live cache, which the requesting frame
created (with one entry: `libfcache_cache_initialize( &child_page_cache, 1, ...)`)
earlier in the same call and releases itself; the value loop of the frame is run
with the cache the frame created. A cache older than the call, such as the one
through which the page of the frame was loaded or the pages cache of the page
tree, is never named by a request, and the single slot of such a cache holds,
at every moment of the call, what it held when the call began. -/
theorem child_page_cache_owned (d : Definitions) (database : libesedb_database)
    (page : libesedb_page) (recursion_depth : Int) (s : State) (cache : Nat)
    (hcache : cache < s.next_cache) :
    (∃ δ, (libesedb_database_read_values_from_page d database page recursion_depth s).2.trace
        = s.trace ++ δ
      ∧ (∀ stack : List Nat, (∀ x ∈ stack, x < s.next_cache) →
          cache_discipline stack δ = some stack)
      ∧ (∀ (before after : List Event) (child_page_cache : Nat) (element_index : Int),
          δ = before ++ Event.get_element_value child_page_cache element_index :: after →
          child_page_cache ∈ caches_created before ∧ child_page_cache ≠ cache)
      ∧ (caches_released δ).Perm (caches_created δ)
      ∧ (∀ (slot : Option Int) (before : List Event), before <+: δ →
          cache_slot cache slot before = slot))
    ∧ (0 ≤ recursion_depth →
        recursion_depth ≤ d.LIBESEDB_MAXIMUM_INDEX_NODE_RECURSION_DEPTH →
        page.values.length ≠ 0 →
        libesedb_database_read_values_from_page d database page recursion_depth s
          = leave_loop s.next_cache
              (read_page_values d database
                (fun child_page s => libesedb_database_read_values_from_page d database
                  child_page (recursion_depth + 1) s)
                page (page.flags % 2 ^ 32) s.next_cache (page.values.length - 1) 1
                { leaf_value_index := s.leaf_value_index
                  next_cache := s.next_cache + 1
                  trace := s.trace ++
                    [Event.get_number_of_values page.page_number,
                     Event.get_flags page.page_number,
                     Event.cache_init s.next_cache] })) := by
  constructor
  · obtain ⟨δ, h⟩ := read_values_from_page_bracketed d database page recursion_depth s
    have hnew : ∀ e ∈ δ, ∀ x, e.cache = some x → s.next_cache ≤ x := by
      intro e he x hx
      rcases h.caches e he x hx with hc | hc
      · cases hc
      · exact hc
    refine ⟨δ, h.trace, fun stack hstack => h.discipline stack hstack (by simp), ?_, ?_, ?_⟩
    · intro before after c idx hsplit
      have hle : s.next_cache ≤ c :=
        hnew (Event.get_element_value c idx) (by rw [hsplit]; simp) c rfl
      refine ⟨?_, by omega⟩
      have hd := h.discipline [] (by simp) (by simp)
      rw [hsplit] at hd
      rcases cache_discipline_created_before c idx after before [] [] hd with hmem | hmem
      · cases hmem
      · exact hmem
    · have hperm := cache_discipline_perm δ [] [] (h.discipline [] (by simp) (by simp))
      simpa using hperm
    · intro slot before hpre
      apply cache_slot_untouched
      intro e he hcontra
      have := hnew e (hpre.subset he) cache hcontra
      omega
  · intro h0 h1 hne
    rw [read_values_from_page_in_bounds d database page recursion_depth s h0 h1,
      read_values_from_page_frame_eq d database _ page s hne]
    have hst : s.enter_loop page
        = { leaf_value_index := s.leaf_value_index
            next_cache := s.next_cache + 1
            trace := s.trace ++
              [Event.get_number_of_values page.page_number,
               Event.get_flags page.page_number,
               Event.cache_init s.next_cache] } := by
      simp [State.enter_loop, State.emit]
    rw [hst]

theorem child_page_cache_owned_witness :
    (database_of 6 two_level_pages).page_tree.pages_cache < 1
    ∧ ∃ δ, (libesedb_database_read_values_from_page definitions
          (database_of 6 two_level_pages)
          { page_number := 4, flags := 5,
            values := [root_tag, branch_value 5 0 0 0, branch_value 6 0 0 0] }
          0 { leaf_value_index := 0, next_cache := 1, trace := [] }).2.trace = [] ++ δ
        ∧ cache_discipline [0] δ = some [0]
        ∧ ∀ (slot : Option Int) (before : List Event), before <+: δ →
            cache_slot (database_of 6 two_level_pages).page_tree.pages_cache slot before
              = slot :=
  have h := (child_page_cache_owned definitions (database_of 6 two_level_pages)
    { page_number := 4, flags := 5,
      values := [root_tag, branch_value 5 0 0 0, branch_value 6 0 0 0] }
    0 { leaf_value_index := 0, next_cache := 1, trace := [] }
    (database_of 6 two_level_pages).page_tree.pages_cache (by decide)).1
  ⟨by decide, h.choose, h.choose_spec.1, h.choose_spec.2.1 [0] (by decide),
    h.choose_spec.2.2.2.2⟩

/-! ## The first tag -/

theorem read_page_value_congr (d : Definitions) (database : libesedb_database)
    (descend : libesedb_page → State → Int × State) (page page2 : libesedb_page)
    (page_flags child_page_cache page_value_index : Nat) (s : State)
    (hnumber : page2.page_number = page.page_number)
    (hvalue : page2.values[page_value_index]? = page.values[page_value_index]?) :
    read_page_value d database descend page2 page_flags child_page_cache page_value_index s
      = read_page_value d database descend page page_flags child_page_cache
          page_value_index s := by
  simp only [read_page_value, libesedb_page_get_value_by_index, hnumber, hvalue]

theorem read_page_values_congr (d : Definitions) (database : libesedb_database)
    (descend : libesedb_page → State → Int × State) (page page2 : libesedb_page)
    (page_flags child_page_cache : Nat)
    (hnumber : page2.page_number = page.page_number)
    (hvalues : page2.values.tail = page.values.tail) :
    ∀ (remaining page_value_index : Nat) (s : State), 1 ≤ page_value_index →
      page_value_index + remaining ≤ 65535 →
      read_page_values d database descend page2 page_flags child_page_cache remaining
          page_value_index s
        = read_page_values d database descend page page_flags child_page_cache remaining
            page_value_index s := by
  intro remaining
  induction remaining with
  | zero =>
    intro i s _ _
    rfl
  | succ n ih =>
    intro i s hi hb
    have hnext : (i + 1) % 2 ^ 16 = i + 1 := Nat.mod_eq_of_lt (by omega)
    have hvalue : page2.values[i]? = page.values[i]? := by
      obtain ⟨j, rfl⟩ : ∃ j, i = j + 1 := ⟨i - 1, by omega⟩
      have h1 : page2.values[j + 1]? = page2.values.tail[j]? := by
        cases page2.values <;> simp
      have h2 : page.values[j + 1]? = page.values.tail[j]? := by
        cases page.values <;> simp
      rw [h1, h2, hvalues]
    simp only [read_page_values]
    rw [read_page_value_congr d database descend page page2 page_flags child_page_cache i s
      hnumber hvalue]
    cases read_page_value d database descend page page_flags child_page_cache i s with
    | next s1 => exact ih _ s1 (by rw [hnext]; omega) (by rw [hnext]; omega)
    | on_error live s1 => rfl

theorem read_values_from_page_frame_congr (d : Definitions) (database : libesedb_database)
    (descend : libesedb_page → State → Int × State) (page page2 : libesedb_page) (s : State)
    (hnumber : page2.page_number = page.page_number)
    (hflags : page2.flags = page.flags)
    (hlength : page2.values.length = page.values.length)
    (hvalues : page2.values.tail = page.values.tail) :
    read_values_from_page_frame d database descend page2 s
      = read_values_from_page_frame d database descend page s := by
  by_cases hne : page.values.length = 0
  · simp [read_values_from_page_frame, libesedb_page_get_number_of_values, hne, hlength,
      hnumber]
  · have hfits := page.number_of_values_fits
    rw [read_values_from_page_frame_eq d database descend page s hne,
      read_values_from_page_frame_eq d database descend page2 s (by omega), hflags, hlength,
      read_page_values_congr d database descend page page2 _ _ hnumber hvalues _ 1 _
        (Nat.le_refl 1) (by omega)]
    simp only [State.enter_loop, hnumber]

/-- Claim C19 (amended): the value at index 0 of a page is never fetched. Two
pages that differ in that value only (its flags, its size, its bytes) give the
same result and the same state, so the same leaf counter and the same page
requests; no call of `libesedb_page_get_value_by_index` in the walk of a page,
nested calls included, is at index 0; and on a leaf page of n values, those
after the first all parseable and not defunct, walked at an admissible depth,
the leaf counter is incremented n - 1 times, not n, and so advances by n - 1
when its initial value, an `int`, plus n - 1 does not exceed `INT_MAX`. -/
theorem first_tag_never_visited (d : Definitions) (database : libesedb_database)
    (page page2 : libesedb_page) (first_tag first_tag2 : libesedb_page_value)
    (values : List libesedb_page_value) (recursion_depth : Int) (s : State)
    (hnumber : page2.page_number = page.page_number)
    (hflags : page2.flags = page.flags)
    (hpage : page.values = first_tag :: values)
    (hpage2 : page2.values = first_tag2 :: values) :
    libesedb_database_read_values_from_page d database page2 recursion_depth s
      = libesedb_database_read_values_from_page d database page recursion_depth s
    ∧ (∃ δ, (libesedb_database_read_values_from_page d database page recursion_depth
          s).2.trace = s.trace ++ δ
        ∧ ∀ page_number page_value_index,
            Event.get_value_by_index page_number page_value_index ∈ δ →
            1 ≤ page_value_index)
    ∧ (0 ≤ recursion_depth →
        recursion_depth ≤ d.LIBESEDB_MAXIMUM_INDEX_NODE_RECURSION_DEPTH →
        (page.flags % 2 ^ 32) &&& d.LIBESEDB_PAGE_FLAG_IS_LEAF ≠ 0 →
        (∀ pv ∈ values, pv.flags &&& d.LIBESEDB_PAGE_TAG_FLAG_IS_DEFUNCT = 0
          ∧ (database.page_tree.libesedb_page_tree_value_read_data pv.data pv.flags).isSome
            = true) →
        (libesedb_database_read_values_from_page d database page recursion_depth s).1 = 1
        ∧ (libesedb_database_read_values_from_page d database page recursion_depth
            s).2.leaf_value_index
          = increments d (page.values.length - 1) s.leaf_value_index
        ∧ (-(INT_MAX d : Int) - 1 ≤ s.leaf_value_index →
            s.leaf_value_index + ((page.values.length - 1 : Nat) : Int) ≤ (INT_MAX d : Nat) →
            (libesedb_database_read_values_from_page d database page recursion_depth
                s).2.leaf_value_index
              = s.leaf_value_index + ((page.values.length - 1 : Nat) : Int))) := by
  refine ⟨?_, ?_, ?_⟩
  · rw [read_values_from_page_eq d database page2, read_values_from_page_eq d database page]
    simp only [read_values_from_page_body]
    split
    · rfl
    · exact read_values_from_page_frame_congr d database _ page page2 s hnumber hflags
        (by rw [hpage, hpage2]; rfl) (by rw [hpage, hpage2]; rfl)
  · obtain ⟨δ, h⟩ := read_values_from_page_bracketed d database page recursion_depth s
    exact ⟨δ, h.trace, h.indexes⟩
  · intro h0 h1 hl hall
    have h := read_values_from_page_leaf_page d database page recursion_depth s h0 h1 hl
      (by
        intro pv hpv _
        rw [hpage] at hpv
        exact (hall pv hpv).2)
    have hfilter : values.filter (is_live d) = values := by
      apply List.filter_eq_self.mpr
      intro pv hpv
      simp [is_live, (hall pv hpv).1]
    have hcount : (page.values.tail.filter (is_live d)).length = page.values.length - 1 := by
      rw [hpage]
      simp [hfilter]
    have hcounter := h.2.1
    rw [hcount] at hcounter
    refine ⟨h.1, hcounter, fun hlow hhigh => ?_⟩
    rw [hcounter]
    exact increments_of_no_overflow d _ s.leaf_value_index hlow hhigh

/-- Claim C19, at a concrete input: the last clause of the claim fails. The leaf
page 5 has n = 3 values, those after the first parseable and not defunct. With
the counter at `INT_MAX - 1` the call returns 1 and leaves the counter at
`-INT_MAX - 1`, not at its initial value plus n - 1; and beyond the maximum
depth the call returns -1 with the counter as it was. -/
theorem first_tag_leaf_counter_overflows :
    INT_MAX definitions = 2147483647
    ∧ libesedb_database_read_values_from_page definitions (database_of 6 two_level_pages)
        { page_number := 5, flags := 2,
          values := [root_tag, leaf_value 0 65, leaf_value 1 66] }
        0 { leaf_value_index := 2147483646, next_cache := 0, trace := [] }
      = (1, { leaf_value_index := -2147483648, next_cache := 1,
              trace := [Event.get_number_of_values 5, Event.get_flags 5, Event.cache_init 0,
                Event.get_value_by_index 5 1, Event.value_init, Event.read_data [1, 0, 0, 65] 0,
                Event.leaf_value 2147483646 5 1
                  { common_key_size := 0, local_key := [0], data := [65] },
                Event.value_free,
                Event.get_value_by_index 5 2, Event.value_init, Event.read_data [1, 0, 1, 66] 0,
                Event.leaf_value 2147483647 5 2
                  { common_key_size := 0, local_key := [1], data := [66] },
                Event.value_free, Event.cache_free 0] })
    ∧ libesedb_database_read_values_from_page definitions (database_of 6 two_level_pages)
        { page_number := 5, flags := 2,
          values := [root_tag, leaf_value 0 65, leaf_value 1 66] }
        257 { leaf_value_index := 0, next_cache := 0, trace := [] }
      = (-1, { leaf_value_index := 0, next_cache := 0, trace := [] }) := by
  decide

/-- Claim C19 (amended), at a concrete input: a first tag that is defunct and of
three bytes changes nothing, and the leaf page of three values advances the
counter by two. -/
theorem first_tag_never_visited_witness :
    libesedb_database_read_values_from_page definitions (database_of 6 two_level_pages)
        { page_number := 5, flags := 2,
          values := [{ data := [1, 2, 3], flags := 2 }, leaf_value 0 65, leaf_value 1 66] }
        0 State.initial
      = libesedb_database_read_values_from_page definitions (database_of 6 two_level_pages)
          { page_number := 5, flags := 2,
            values := [root_tag, leaf_value 0 65, leaf_value 1 66] }
          0 State.initial
    ∧ (libesedb_database_read_values_from_page definitions (database_of 6 two_level_pages)
        { page_number := 5, flags := 2,
          values := [root_tag, leaf_value 0 65, leaf_value 1 66] }
        0 State.initial).2.leaf_value_index = 0 + ((3 - 1 : Nat) : Int) :=
  have h := first_tag_never_visited definitions (database_of 6 two_level_pages)
    { page_number := 5, flags := 2, values := [root_tag, leaf_value 0 65, leaf_value 1 66] }
    { page_number := 5, flags := 2,
      values := [{ data := [1, 2, 3], flags := 2 }, leaf_value 0 65, leaf_value 1 66] }
    root_tag { data := [1, 2, 3], flags := 2 } [leaf_value 0 65, leaf_value 1 66]
    0 State.initial rfl rfl rfl rfl
  ⟨h.1, (h.2.2 (by decide) (by decide) (by decide) (by decide)).2.2 (by decide) (by decide)⟩

/-! ## Page loads -/

theorem read_page_value_loads (d : Definitions) (database : libesedb_database)
    (descend : libesedb_page → State → Int × State) (below : libesedb_page → Nat)
    (hdesc : Loads descend below)
    (page : libesedb_page) (child_page_cache page_value_index : Nat) (s : State) :
    ∀ s2, read_page_value d database descend page (page.flags % 2 ^ 32) child_page_cache
        page_value_index s = Step.next s2 →
      ∃ requests : List Int,
        page_requests s2.trace = page_requests s.trace ++ requests
        ∧ requests.length = branch_entries_of_value d database below page page_value_index := by
  apply read_page_value_cases d database descend page (page.flags % 2 ^ 32) child_page_cache
    page_value_index s
    (fun st => ∀ s2, st = Step.next s2 →
      ∃ requests : List Int,
        page_requests s2.trace = page_requests s.trace ++ requests
        ∧ requests.length = branch_entries_of_value d database below page page_value_index)
  · intro _ s2 h
    cases h
  · intro pv hv hd s2 h
    cases h
    refine ⟨[], ?_, ?_⟩
    · simp only [page_requests_emit]
      simp [page_requests]
    · simp [branch_entries_of_value, hv, hd]
  · intro pv _ _ _ s2 h
    cases h
  · intro pv ptv hv hd hp hl s2 h
    cases h
    refine ⟨[], ?_, ?_⟩
    · simp only [page_requests_append, page_requests_value_read]
      simp [page_requests]
    · simp only [branch_entries_of_value, hv, hd, hp, hl, ne_eq, not_true_eq_false,
        not_false_eq_true, if_true, if_false, List.length_nil]
  · intro pv ptv _ _ _ _ _ s2 h
    cases h
  · intro pv ptv _ _ _ _ _ _ s2 h
    cases h
  · intro pv ptv hv hd hp hl hs hb hr s2 h
    cases h
    refine ⟨[], ?_, ?_⟩
    · simp only [page_requests_emit, page_requests_value_read]
      simp [page_requests]
    · simp only [branch_entries_of_value, hv, hd, hp, hl, hr, ne_eq, not_true_eq_false,
        not_false_eq_true, if_true, if_false, List.length_nil]
  · intro pv ptv _ _ _ _ _ _ _ _ s2 h
    cases h
  · intro pv ptv cp _ _ _ _ _ _ _ _ _ s2 h
    cases h
  · intro pv ptv cp hv hd hp hl hs hb hr hc hq s2 h
    split at h
    · cases h
    · rename_i hres
      cases h
      obtain ⟨requests, hreq, hlen⟩ := hdesc cp _ (by simpa using hres)
      refine ⟨(to_int d (byte_stream_copy_to_uint32_little_endian ptv.data) - 1) :: requests,
        ?_, ?_⟩
      · simp only [page_requests_emit, hreq, page_requests_value_read]
        simp [page_requests]
      · simp only [branch_entries_of_value, hv, hd, hp, hl, hr, hc, ne_eq, not_true_eq_false,
          not_false_eq_true, if_true, if_false, and_self, List.length_cons, hlen]
        omega

theorem read_page_values_loads (d : Definitions) (database : libesedb_database)
    (descend : libesedb_page → State → Int × State) (below : libesedb_page → Nat)
    (hdesc : Loads descend below)
    (page : libesedb_page) (child_page_cache : Nat) (remaining : Nat) :
    ∀ (page_value_index : Nat) (s s2 : State), page_value_index + remaining ≤ 65535 →
      read_page_values d database descend page (page.flags % 2 ^ 32) child_page_cache
        remaining page_value_index s = Step.next s2 →
      ∃ requests : List Int,
        page_requests s2.trace = page_requests s.trace ++ requests
        ∧ requests.length = ((List.range' page_value_index remaining).map
            (branch_entries_of_value d database below page)).sum := by
  induction remaining with
  | zero =>
    intro i s s2 _ h
    cases h
    exact ⟨[], by simp, by simp⟩
  | succ n ih =>
    intro i s s2 hi h
    simp only [read_page_values] at h
    cases hstep : read_page_value d database descend page (page.flags % 2 ^ 32)
        child_page_cache i s with
    | on_error live s1 =>
      rw [hstep] at h
      cases h
    | next s1 =>
      rw [hstep] at h
      have hmod : (i + 1) % 2 ^ 16 = i + 1 := Nat.mod_eq_of_lt (by omega)
      simp only [hmod] at h
      obtain ⟨r1, hr1, hl1⟩ := read_page_value_loads d database descend below hdesc page
        child_page_cache i s s1 hstep
      obtain ⟨r2, hr2, hl2⟩ := ih (i + 1) s1 s2 (by omega) h
      refine ⟨r1 ++ r2, ?_, ?_⟩
      · rw [hr2, hr1, List.append_assoc]
      · simp only [List.range'_succ, List.map_cons, List.sum_cons, List.length_append, hl1,
          hl2]

theorem read_values_from_page_frame_loads (d : Definitions) (database : libesedb_database)
    (descend : libesedb_page → State → Int × State) (below : libesedb_page → Nat)
    (hdesc : Loads descend below) (page : libesedb_page) (s : State)
    (hone : (read_values_from_page_frame d database descend page s).1 = 1) :
    ∃ requests : List Int,
      page_requests (read_values_from_page_frame d database descend page s).2.trace
        = page_requests s.trace ++ requests
      ∧ requests.length = ((List.range' 1 (page.values.length - 1)).map
          (branch_entries_of_value d database below page)).sum := by
  by_cases hne : page.values.length = 0
  · refine ⟨[], ?_, by simp [hne]⟩
    simp only [read_values_from_page_frame, libesedb_page_get_number_of_values, hne, if_true,
      page_requests_emit]
    simp [page_requests]
  · have hfit := page.number_of_values_fits
    rw [read_values_from_page_frame_eq d database descend page s hne] at hone ⊢
    rw [page_requests_leave_loop]
    cases hloop : read_page_values d database descend page (page.flags % 2 ^ 32)
        s.next_cache (page.values.length - 1) 1 (s.enter_loop page) with
    | on_error live s2 =>
      rw [hloop] at hone
      simp [leave_loop, on_error] at hone
    | next s2 =>
      obtain ⟨requests, hreq, hlen⟩ := read_page_values_loads d database descend below hdesc
        page s.next_cache (page.values.length - 1) 1 (s.enter_loop page) s2 (by omega) hloop
      rw [page_requests_enter_loop] at hreq
      exact ⟨requests, hreq, hlen⟩

theorem read_values_from_page_levels_loads (d : Definitions) (database : libesedb_database)
    (levels : Nat) :
    ∀ recursion_depth : Int,
      Loads
        (fun child_page s =>
          read_values_from_page_levels d database levels child_page recursion_depth s)
        (branch_entries_in_range d database levels) := by
  induction levels with
  | zero =>
    intro depth page s hone
    simp [read_values_from_page_levels] at hone
  | succ n ih =>
    intro depth page s hone
    simp only [read_values_from_page_levels, read_values_from_page_body,
      branch_entries_in_range] at hone ⊢
    split at hone
    · simp at hone
    · rename_i hguard
      simp only [hguard, if_false]
      exact read_values_from_page_frame_loads d database _ _ (ih (depth + 1)) page s hone

theorem page_loads_le_requests :
    ∀ (trace : List Event) (slots : Nat → Option Int),
      page_loads slots trace ≤ (page_requests trace).length := by
  intro trace
  induction trace with
  | nil => intro slots; simp [page_loads]
  | cons e rest ih =>
    intro slots
    have hcons : page_requests (e :: rest) = page_requests [e] ++ page_requests rest :=
      page_requests_append [e] rest
    rw [hcons, List.length_append]
    cases e with
    | get_element_value cache element_index =>
      have hrest := ih (fun c => if c = cache then some element_index else slots c)
      have hone : (page_requests [Event.get_element_value cache element_index]).length = 1 :=
        rfl
      simp only [page_loads, hone]
      split <;> omega
    | cache_init cache =>
      have hrest := ih (fun c => if c = cache then none else slots c)
      simp only [page_loads]
      omega
    | cache_free cache =>
      have hrest := ih (fun c => if c = cache then none else slots c)
      simp only [page_loads]
      omega
    | validate_root_page _ => have hrest := ih slots; simp only [page_loads]; omega
    | validate_page _ => have hrest := ih slots; simp only [page_loads]; omega
    | get_number_of_values _ => have hrest := ih slots; simp only [page_loads]; omega
    | get_flags _ => have hrest := ih slots; simp only [page_loads]; omega
    | get_value_by_index _ _ => have hrest := ih slots; simp only [page_loads]; omega
    | value_init => have hrest := ih slots; simp only [page_loads]; omega
    | read_data _ _ => have hrest := ih slots; simp only [page_loads]; omega
    | value_free => have hrest := ih slots; simp only [page_loads]; omega
    | leaf_value _ _ _ _ => have hrest := ih slots; simp only [page_loads]; omega

/-- A run first creates the root page cache and requests the root page through
it. -/
theorem read_file_io_handle_first_events (d : Definitions) (database : libesedb_database)
    (s : State) :
    ∃ rest, (libesedb_database_read_file_io_handle d database s).2.trace
      = s.trace ++ Event.cache_init s.next_cache
          :: Event.get_element_value s.next_cache
              (to_int d d.LIBESEDB_PAGE_NUMBER_DATABASE - 1) :: rest := by
  cases hvec : database.page_tree.pages_vector
      (to_int d d.LIBESEDB_PAGE_NUMBER_DATABASE - 1) with
  | none =>
    rw [read_file_io_handle_not_fetched d database s hvec]
    exact ⟨[Event.cache_free s.next_cache], by simp [State.emit, State.fetch_root]⟩
  | some root_page =>
    cases hval : database.page_tree.libesedb_page_validate_root_page root_page with
    | false =>
      rw [read_file_io_handle_invalid d database s root_page hvec hval]
      exact ⟨[Event.validate_root_page root_page.page_number, Event.cache_free s.next_cache],
        by simp [State.emit, State.fetch_root]⟩
    | true =>
      rw [read_file_io_handle_walk d database s root_page hvec hval]
      refine ⟨Event.validate_root_page root_page.page_number ::
        (libesedb_database_read_values_from_page d database root_page 0
          { ((s.fetch_root d).emit (Event.validate_root_page root_page.page_number)) with
            trace := [] }).2.trace ++ [Event.cache_free s.next_cache], ?_⟩
      simp only [State.emit]
      rw [read_values_from_page_trace]
      simp [State.fetch_root, State.emit]

theorem read_file_io_handle_requests (d : Definitions) (database : libesedb_database)
    (s : State) (root_page : libesedb_page)
    (hroot : database.page_tree.pages_vector (to_int d d.LIBESEDB_PAGE_NUMBER_DATABASE - 1)
      = some root_page)
    (hone : (libesedb_database_read_file_io_handle d database s).1 = 1) :
    ∃ requests : List Int,
      page_requests (libesedb_database_read_file_io_handle d database s).2.trace
        = page_requests s.trace ++ requests
      ∧ requests.length = 1 + branch_entries_in_range d database
          (d.LIBESEDB_MAXIMUM_INDEX_NODE_RECURSION_DEPTH + 1) root_page := by
  cases hval : database.page_tree.libesedb_page_validate_root_page root_page with
  | false =>
    rw [read_file_io_handle_invalid d database s root_page hroot hval] at hone
    simp at hone
  | true =>
    rw [read_file_io_handle_walk d database s root_page hroot hval] at hone ⊢
    have hres : (libesedb_database_read_values_from_page d database root_page 0
        ((s.fetch_root d).emit (Event.validate_root_page root_page.page_number))).1 = 1 := by
      by_contra hne
      simp [hne] at hone
    have hlevels : ((d.LIBESEDB_MAXIMUM_INDEX_NODE_RECURSION_DEPTH : Int) + 1 - 0).toNat
        = d.LIBESEDB_MAXIMUM_INDEX_NODE_RECURSION_DEPTH + 1 := by omega
    obtain ⟨requests, hreq, hlen⟩ := read_values_from_page_levels_loads d database
      (d.LIBESEDB_MAXIMUM_INDEX_NODE_RECURSION_DEPTH + 1) 0 root_page
      ((s.fetch_root d).emit (Event.validate_root_page root_page.page_number))
      (by
        simp only [libesedb_database_read_values_from_page, hlevels] at hres
        exact hres)
    refine ⟨(to_int d d.LIBESEDB_PAGE_NUMBER_DATABASE - 1) :: requests, ?_, ?_⟩
    · simp only [libesedb_database_read_values_from_page, hlevels, page_requests_emit]
      rw [hreq]
      simp only [page_requests_emit, State.fetch_root]
      simp [page_requests, State.emit]
    · simp only [List.length_cons, hlen]
      omega

theorem page_loads_append (a : List Event) :
    ∀ (slots : Nat → Option Int) (b : List Event),
      page_loads slots (a ++ b)
        = page_loads slots a + page_loads (fun c => cache_slot c (slots c) a) b := by
  induction a with
  | nil => intro slots b; simp [page_loads, cache_slot]
  | cons e a ih =>
    intro slots b
    cases e with
    | cache_init cache =>
      have hslots : (fun c => cache_slot c (if c = cache then none else slots c) a)
          = (fun c => cache_slot c (if cache = c then none else slots c) a) := by
        funext c
        by_cases hc : c = cache
        · subst hc; simp
        · have hc2 : ¬ cache = c := fun h => hc h.symm
          simp [hc, hc2]
      simp only [List.cons_append, page_loads, cache_slot]
      rw [← hslots]
      exact ih _ _
    | cache_free cache =>
      have hslots : (fun c => cache_slot c (if c = cache then none else slots c) a)
          = (fun c => cache_slot c (if cache = c then none else slots c) a) := by
        funext c
        by_cases hc : c = cache
        · subst hc; simp
        · have hc2 : ¬ cache = c := fun h => hc h.symm
          simp [hc, hc2]
      simp only [List.cons_append, page_loads, cache_slot]
      rw [← hslots]
      exact ih _ _
    | get_element_value cache element_index =>
      have hslots : (fun c => cache_slot c (if c = cache then some element_index
            else slots c) a)
          = (fun c => cache_slot c (if cache = c then some element_index else slots c) a) := by
        funext c
        by_cases hc : c = cache
        · subst hc; simp
        · have hc2 : ¬ cache = c := fun h => hc h.symm
          simp [hc, hc2]
      simp only [List.cons_append, page_loads, cache_slot]
      rw [← hslots, Nat.add_assoc]
      congr 1
      exact ih _ _
    | validate_root_page _ => simpa [page_loads, cache_slot] using ih slots b
    | validate_page _ => simpa [page_loads, cache_slot] using ih slots b
    | get_number_of_values _ => simpa [page_loads, cache_slot] using ih slots b
    | get_flags _ => simpa [page_loads, cache_slot] using ih slots b
    | get_value_by_index _ _ => simpa [page_loads, cache_slot] using ih slots b
    | value_init => simpa [page_loads, cache_slot] using ih slots b
    | read_data _ _ => simpa [page_loads, cache_slot] using ih slots b
    | value_free => simpa [page_loads, cache_slot] using ih slots b
    | leaf_value _ _ _ _ => simpa [page_loads, cache_slot] using ih slots b

theorem cache_slot_append (cache : Nat) (a : List Event) :
    ∀ (slot : Option Int) (b : List Event),
      cache_slot cache slot (a ++ b) = cache_slot cache (cache_slot cache slot a) b := by
  induction a with
  | nil => intro slot b; rfl
  | cons e a ih =>
    intro slot b
    cases e <;>
      · simp only [List.cons_append, cache_slot]
        exact ih _ _

theorem value_read_trace (s : State) (page : libesedb_page) (page_value_index : Nat)
    (page_value : libesedb_page_value) :
    (s.value_read page page_value_index page_value).trace
      = s.trace ++ [Event.get_value_by_index page.page_number page_value_index,
          Event.value_init, Event.read_data page_value.data page_value.flags] := by
  simp [State.value_read, State.emit]

theorem read_page_value_page_loads (d : Definitions) (database : libesedb_database)
    (descend : libesedb_page → State → Int × State) (below : libesedb_page → Nat)
    (hdesc : LoadsExactly descend below)
    (page : libesedb_page) (child_page_cache page_value_index : Nat) (s : State)
    (hcache : child_page_cache < s.next_cache) :
    ∀ s2, read_page_value d database descend page (page.flags % 2 ^ 32) child_page_cache
        page_value_index s = Step.next s2 →
      ∃ δ : List Event, s2.trace = s.trace ++ δ
        ∧ ∀ slots : Nat → Option Int,
          page_loads slots δ
            = (page_loads_of_value d database below page page_value_index
                (slots child_page_cache)).1
          ∧ cache_slot child_page_cache (slots child_page_cache) δ
            = (page_loads_of_value d database below page page_value_index
                (slots child_page_cache)).2 := by
  apply read_page_value_cases d database descend page (page.flags % 2 ^ 32) child_page_cache
    page_value_index s
    (fun st => ∀ s2, st = Step.next s2 →
      ∃ δ : List Event, s2.trace = s.trace ++ δ
        ∧ ∀ slots : Nat → Option Int,
          page_loads slots δ
            = (page_loads_of_value d database below page page_value_index
                (slots child_page_cache)).1
          ∧ cache_slot child_page_cache (slots child_page_cache) δ
            = (page_loads_of_value d database below page page_value_index
                (slots child_page_cache)).2)
  · intro _ s2 h
    cases h
  · intro pv hv hd s2 h
    cases h
    refine ⟨[Event.get_value_by_index page.page_number page_value_index], rfl, fun slots => ?_⟩
    simp [page_loads, cache_slot, page_loads_of_value, hv, hd]
  · intro pv _ _ _ s2 h
    cases h
  · intro pv ptv hv hd hp hl s2 h
    cases h
    refine ⟨[Event.get_value_by_index page.page_number page_value_index, Event.value_init,
      Event.read_data pv.data pv.flags,
      Event.leaf_value s.leaf_value_index page.page_number page_value_index ptv,
      Event.value_free], ?_, fun slots => ?_⟩
    · simp [value_read_trace]
    · simp only [page_loads, cache_slot, page_loads_of_value, hv, hd, hp, hl, ne_eq,
        not_true_eq_false, not_false_eq_true, if_true, if_false, and_self]
  · intro pv ptv _ _ _ _ _ s2 h
    cases h
  · intro pv ptv _ _ _ _ _ _ s2 h
    cases h
  · intro pv ptv hv hd hp hl hs hb hr s2 h
    cases h
    refine ⟨[Event.get_value_by_index page.page_number page_value_index, Event.value_init,
      Event.read_data pv.data pv.flags, Event.value_free], ?_, fun slots => ?_⟩
    · simp [State.emit, value_read_trace]
    · simp only [page_loads, cache_slot, page_loads_of_value, hv, hd, hp, hl, hr, ne_eq,
        not_true_eq_false, not_false_eq_true, if_true, if_false, and_self]
  · intro pv ptv _ _ _ _ _ _ _ _ s2 h
    cases h
  · intro pv ptv cp _ _ _ _ _ _ _ _ _ s2 h
    cases h
  · intro pv ptv cp hv hd hp hl hs hb hr hc hq s2 h
    split at h
    · cases h
    · rename_i hres
      cases h
      obtain ⟨δn, htrace, hloads, hfresh⟩ := hdesc cp _ (by simpa using hres)
      have hnested : ∀ e ∈ δn, e.cache ≠ some child_page_cache := by
        intro e he hcache2
        have hle := hfresh e he child_page_cache hcache2
        have hstart : (((s.value_read page page_value_index pv).emit
            (Event.get_element_value child_page_cache
              (to_int d (byte_stream_copy_to_uint32_little_endian ptv.data) - 1))).emit
            (Event.validate_page cp.page_number)).next_cache = s.next_cache := rfl
        rw [hstart] at hle
        omega
      refine ⟨[Event.get_value_by_index page.page_number page_value_index, Event.value_init,
        Event.read_data pv.data pv.flags,
        Event.get_element_value child_page_cache
          (to_int d (byte_stream_copy_to_uint32_little_endian ptv.data) - 1),
        Event.validate_page cp.page_number] ++ (δn ++ [Event.value_free]), ?_, fun slots => ?_⟩
      · have hstart : (((s.value_read page page_value_index pv).emit
            (Event.get_element_value child_page_cache
              (to_int d (byte_stream_copy_to_uint32_little_endian ptv.data) - 1))).emit
            (Event.validate_page cp.page_number)).trace
            = s.trace ++ [Event.get_value_by_index page.page_number page_value_index,
                Event.value_init, Event.read_data pv.data pv.flags,
                Event.get_element_value child_page_cache
                  (to_int d (byte_stream_copy_to_uint32_little_endian ptv.data) - 1),
                Event.validate_page cp.page_number] := by
          simp [State.emit, value_read_trace]
        show (descend cp _).2.trace ++ [Event.value_free] = _
        rw [htrace, hstart]
        simp
      · constructor
        · rw [page_loads_append, page_loads_append, hloads]
          simp only [page_loads, cache_slot, page_loads_of_value, hv, hd, hp, hl, hr, hc, ne_eq,
            not_true_eq_false, not_false_eq_true, if_true, if_false, and_self]
          omega
        · rw [cache_slot_append, cache_slot_append,
            cache_slot_untouched child_page_cache δn _ hnested]
          simp only [cache_slot, page_loads_of_value, hv, hd, hp, hl, hr, hc, ne_eq,
            not_true_eq_false, not_false_eq_true, if_true, if_false, and_self]

theorem read_page_values_page_loads (d : Definitions) (database : libesedb_database)
    (descend : libesedb_page → State → Int × State) (below : libesedb_page → Nat)
    (hdesc : LoadsExactly descend below)
    (hbracketed : ∀ child_page s, ∃ δ, Bracketed none s (descend child_page s).2 0 δ)
    (page : libesedb_page) (child_page_cache : Nat) (remaining : Nat) :
    ∀ (page_value_index : Nat) (s s2 : State), 1 ≤ page_value_index →
      page_value_index + remaining ≤ 65535 → child_page_cache < s.next_cache →
      read_page_values d database descend page (page.flags % 2 ^ 32) child_page_cache
        remaining page_value_index s = Step.next s2 →
      ∃ δ : List Event, s2.trace = s.trace ++ δ
        ∧ ∀ slots : Nat → Option Int,
          page_loads slots δ
            = page_loads_of_values d database below page remaining page_value_index
                (slots child_page_cache) := by
  induction remaining with
  | zero =>
    intro i s s2 _ _ _ h
    cases h
    exact ⟨[], by simp, fun slots => rfl⟩
  | succ n ih =>
    intro i s s2 h1 hi hcache h
    simp only [read_page_values] at h
    cases hstep : read_page_value d database descend page (page.flags % 2 ^ 32)
        child_page_cache i s with
    | on_error live s1 =>
      rw [hstep] at h
      cases h
    | next s1 =>
      rw [hstep] at h
      have hmod : (i + 1) % 2 ^ 16 = i + 1 := Nat.mod_eq_of_lt (by omega)
      simp only [hmod] at h
      obtain ⟨δb, hb⟩ := read_page_value_bracketed d database descend hbracketed page
        (page.flags % 2 ^ 32) child_page_cache i s h1
      rw [hstep] at hb
      have hmono : s.next_cache ≤ s1.next_cache := hb.mono
      obtain ⟨δ1, ht1, hl1⟩ := read_page_value_page_loads d database descend below hdesc page
        child_page_cache i s hcache s1 hstep
      obtain ⟨δ2, ht2, hl2⟩ := ih (i + 1) s1 s2 (by omega) (by omega) (by omega) h
      refine ⟨δ1 ++ δ2, by rw [ht2, ht1, List.append_assoc], fun slots => ?_⟩
      rw [page_loads_append, (hl1 slots).1, hl2, (hl1 slots).2]
      rfl

theorem read_values_from_page_frame_page_loads (d : Definitions)
    (database : libesedb_database) (descend : libesedb_page → State → Int × State)
    (below : libesedb_page → Nat) (hdesc : LoadsExactly descend below)
    (hbracketed : ∀ child_page s, ∃ δ, Bracketed none s (descend child_page s).2 0 δ)
    (page : libesedb_page) (s : State)
    (hone : (read_values_from_page_frame d database descend page s).1 = 1) :
    ∃ δ : List Event,
      (read_values_from_page_frame d database descend page s).2.trace = s.trace ++ δ
      ∧ ∀ slots : Nat → Option Int,
        page_loads slots δ
          = page_loads_of_values d database below page (page.values.length - 1) 1 none := by
  by_cases hne : page.values.length = 0
  · refine ⟨[Event.get_number_of_values page.page_number], ?_, fun slots => ?_⟩
    · simp only [read_values_from_page_frame, libesedb_page_get_number_of_values, hne, if_true]
      rfl
    · simp [page_loads, hne, page_loads_of_values]
  · have hfit := page.number_of_values_fits
    rw [read_values_from_page_frame_eq d database descend page s hne] at hone ⊢
    cases hloop : read_page_values d database descend page (page.flags % 2 ^ 32)
        s.next_cache (page.values.length - 1) 1 (s.enter_loop page) with
    | on_error live s2 =>
      rw [hloop] at hone
      simp [leave_loop, on_error] at hone
    | next s2 =>
      obtain ⟨δ, ht, hl⟩ := read_page_values_page_loads d database descend below hdesc
        hbracketed page s.next_cache (page.values.length - 1) 1 (s.enter_loop page) s2
        (Nat.le_refl 1) (by omega) (Nat.lt_succ_self _) hloop
      refine ⟨[Event.get_number_of_values page.page_number, Event.get_flags page.page_number,
        Event.cache_init s.next_cache] ++ (δ ++ [Event.cache_free s.next_cache]), ?_,
        fun slots => ?_⟩
      · simp only [leave_loop, State.emit, ht]
        simp [State.enter_loop, State.emit]
      · rw [page_loads_append, page_loads_append, hl]
        simp [page_loads, cache_slot]

theorem read_values_from_page_levels_page_loads (d : Definitions)
    (database : libesedb_database) (levels : Nat) :
    ∀ recursion_depth : Int,
      LoadsExactly
        (fun child_page s =>
          read_values_from_page_levels d database levels child_page recursion_depth s)
        (page_loads_below d database levels) := by
  induction levels with
  | zero =>
    intro depth page s hone
    simp [read_values_from_page_levels] at hone
  | succ n ih =>
    intro depth page s hone
    obtain ⟨δb, hb⟩ := read_values_from_page_levels_bracketed d database (n + 1) page depth s
    simp only [read_values_from_page_levels, read_values_from_page_body,
      page_loads_below] at hone hb ⊢
    split at hone
    · simp at hone
    · rename_i hguard
      simp only [hguard, if_false] at hb ⊢
      obtain ⟨δ, ht, hl⟩ := read_values_from_page_frame_page_loads d database _ _
        (ih (depth + 1))
        (fun child_page s2 =>
          read_values_from_page_levels_bracketed d database n child_page (depth + 1) s2)
        page s hone
      refine ⟨δ, ht, hl, ?_⟩
      have hsame : δb = δ := List.append_cancel_left (hb.trace.symm.trans ht)
      subst hsame
      intro e he cache hcache
      cases hb.caches e he cache hcache with
      | inl hnone => cases hnone
      | inr hfresh => exact hfresh

/-- The page loads of a run that returns 1: the root page and the page loads
below it, whatever the caches held before the run. -/
theorem read_file_io_handle_page_loads (d : Definitions) (database : libesedb_database)
    (s : State) (root_page : libesedb_page)
    (hroot : database.page_tree.pages_vector (to_int d d.LIBESEDB_PAGE_NUMBER_DATABASE - 1)
      = some root_page)
    (hone : (libesedb_database_read_file_io_handle d database s).1 = 1) :
    ∃ δ : List Event,
      (libesedb_database_read_file_io_handle d database s).2.trace = s.trace ++ δ
      ∧ ∀ slots : Nat → Option Int,
        page_loads slots δ = 1 + page_loads_below d database
          (d.LIBESEDB_MAXIMUM_INDEX_NODE_RECURSION_DEPTH + 1) root_page := by
  cases hval : database.page_tree.libesedb_page_validate_root_page root_page with
  | false =>
    rw [read_file_io_handle_invalid d database s root_page hroot hval] at hone
    simp at hone
  | true =>
    rw [read_file_io_handle_walk d database s root_page hroot hval] at hone ⊢
    have hres : (libesedb_database_read_values_from_page d database root_page 0
        ((s.fetch_root d).emit (Event.validate_root_page root_page.page_number))).1 = 1 := by
      by_contra hne
      simp [hne] at hone
    have hlevels : ((d.LIBESEDB_MAXIMUM_INDEX_NODE_RECURSION_DEPTH : Int) + 1 - 0).toNat
        = d.LIBESEDB_MAXIMUM_INDEX_NODE_RECURSION_DEPTH + 1 := by omega
    obtain ⟨δ, ht, hl, _⟩ := read_values_from_page_levels_page_loads d database
      (d.LIBESEDB_MAXIMUM_INDEX_NODE_RECURSION_DEPTH + 1) 0 root_page
      ((s.fetch_root d).emit (Event.validate_root_page root_page.page_number))
      (by
        simp only [libesedb_database_read_values_from_page, hlevels] at hres
        exact hres)
    refine ⟨[Event.cache_init s.next_cache,
      Event.get_element_value s.next_cache (to_int d d.LIBESEDB_PAGE_NUMBER_DATABASE - 1),
      Event.validate_root_page root_page.page_number]
        ++ (δ ++ [Event.cache_free s.next_cache]), ?_, fun slots => ?_⟩
    · have hstart : ((s.fetch_root d).emit
            (Event.validate_root_page root_page.page_number)).trace
          = s.trace ++ [Event.cache_init s.next_cache,
              Event.get_element_value s.next_cache
                (to_int d d.LIBESEDB_PAGE_NUMBER_DATABASE - 1),
              Event.validate_root_page root_page.page_number] := by
        simp [State.fetch_root, State.emit]
      have hwalk : (libesedb_database_read_values_from_page d database root_page 0
          ((s.fetch_root d).emit (Event.validate_root_page root_page.page_number))).2.trace
          = ((s.fetch_root d).emit (Event.validate_root_page root_page.page_number)).trace
            ++ δ := by
        simp only [libesedb_database_read_values_from_page, hlevels]
        exact ht
      show (libesedb_database_read_values_from_page d database root_page 0 _).2.trace
        ++ [Event.cache_free s.next_cache] = _
      rw [hwalk, hstart]
      simp
    · rw [page_loads_append, page_loads_append, hl]
      simp [page_loads, cache_slot]

theorem page_loads_of_values_leaf_page (d : Definitions) (database : libesedb_database)
    (below : libesedb_page → Nat) (page : libesedb_page)
    (hl : (page.flags % 2 ^ 32) &&& d.LIBESEDB_PAGE_FLAG_IS_LEAF ≠ 0) (remaining : Nat) :
    ∀ (page_value_index : Nat) (slot : Option Int),
      page_loads_of_values d database below page remaining page_value_index slot = 0 := by
  induction remaining with
  | zero => intro i slot; rfl
  | succ n ih =>
    intro i slot
    have hvalue : page_loads_of_value d database below page i slot = (0, slot) := by
      unfold page_loads_of_value
      cases page.values[i]? with
      | none => rfl
      | some pv =>
        by_cases hd : pv.flags &&& d.LIBESEDB_PAGE_TAG_FLAG_IS_DEFUNCT ≠ 0
        · exact if_pos hd
        · refine (if_neg hd).trans ?_
          cases database.page_tree.libesedb_page_tree_value_read_data pv.data pv.flags with
          | none => rfl
          | some ptv => exact if_pos hl
    simp only [page_loads_of_values, hvalue, ih, Nat.add_zero]

/-- The two-level tree: two branch entries make a request, and the page loads
below the root page are two when the entries name different pages, one when
they name the same page. -/
theorem two_level_tree_page_loads (d : Definitions) (database : libesedb_database)
    (root_page page1 page2 : libesedb_page) (entry1 entry2 : libesedb_page_value)
    (value1 value2 : libesedb_page_tree_value)
    (T : TwoLevelTree d database root_page page1 page2 entry1 entry2 value1 value2) :
    branch_entries_in_range d database (d.LIBESEDB_MAXIMUM_INDEX_NODE_RECURSION_DEPTH + 1)
        root_page = 2
    ∧ page_loads_below d database (d.LIBESEDB_MAXIMUM_INDEX_NODE_RECURSION_DEPTH + 1) root_page
      = if to_int d (byte_stream_copy_to_uint32_little_endian value1.data) - 1
          = to_int d (byte_stream_copy_to_uint32_little_endian value2.data) - 1
        then 1 else 2 := by
  obtain ⟨first_tag, hvals⟩ := T.two_entries
  have hv1 : root_page.values[1]? = some entry1 := by rw [hvals]; rfl
  have hv2 : root_page.values[2]? = some entry2 := by rw [hvals]; rfl
  have hcount : root_page.values.length - 1 = 2 := by rw [hvals]; rfl
  obtain ⟨m, hm⟩ : ∃ m, d.LIBESEDB_MAXIMUM_INDEX_NODE_RECURSION_DEPTH = m + 1 :=
    ⟨d.LIBESEDB_MAXIMUM_INDEX_NODE_RECURSION_DEPTH - 1, by have := T.depth; omega⟩
  have hleaf_entries : ∀ (page : libesedb_page),
      (page.flags % 2 ^ 32) &&& d.LIBESEDB_PAGE_FLAG_IS_LEAF ≠ 0 →
      branch_entries_in_range d database (m + 1) page = 0 := by
    intro page hl
    simp only [branch_entries_in_range]
    apply List.sum_eq_zero
    intro x hx
    obtain ⟨i, _, rfl⟩ := List.mem_map.mp hx
    unfold branch_entries_of_value
    cases page.values[i]? with
    | none => rfl
    | some pv =>
      by_cases hd : pv.flags &&& d.LIBESEDB_PAGE_TAG_FLAG_IS_DEFUNCT ≠ 0
      · exact if_pos hd
      · refine (if_neg hd).trans ?_
        cases database.page_tree.libesedb_page_tree_value_read_data pv.data pv.flags with
        | none => rfl
        | some ptv => exact if_pos hl
  have hleaf_loads : ∀ (page : libesedb_page),
      (page.flags % 2 ^ 32) &&& d.LIBESEDB_PAGE_FLAG_IS_LEAF ≠ 0 →
      page_loads_below d database (m + 1) page = 0 := by
    intro page hl
    simp only [page_loads_below]
    exact page_loads_of_values_leaf_page d database _ page hl _ _ _
  constructor
  · rw [hm]
    simp only [branch_entries_in_range, hcount]
    have hrange : List.range' 1 2 = [1, 2] := rfl
    rw [hrange]
    simp only [List.map_cons, List.map_nil, List.sum_cons, List.sum_nil,
      branch_entries_of_value, hv1, hv2, T.live1, T.live2, T.parsed1, T.parsed2, T.branch,
      T.in_range1, T.in_range2, T.child1, T.child2, ne_eq, not_true_eq_false,
      not_false_eq_true, if_true, if_false, and_self]
    have h1 := hleaf_entries page1 T.leaf1
    have h2 := hleaf_entries page2 T.leaf2
    simp only [branch_entries_in_range] at h1 h2
    rw [h1, h2]
    omega
  · rw [hm]
    simp only [page_loads_below, hcount, page_loads_of_values, page_loads_of_value, hv1, hv2,
      T.live1, T.live2, T.parsed1, T.parsed2, T.branch, T.in_range1, T.in_range2, T.child1,
      T.child2, ne_eq, not_true_eq_false, not_false_eq_true, if_true, if_false, and_self]
    have h1 := hleaf_loads page1 T.leaf1
    have h2 := hleaf_loads page2 T.leaf2
    simp only [page_loads_below] at h1 h2
    rw [h1, h2]
    by_cases hsame : to_int d (byte_stream_copy_to_uint32_little_endian value1.data) - 1
        = to_int d (byte_stream_copy_to_uint32_little_endian value2.data) - 1
    · simp [hsame]
    · simp [hsame]

/-- Claim C11 (amended): a run of `libesedb_database_read_file_io_handle` that
returns 1 makes exactly 1 + B page requests (calls of
`libfdata_vector_get_element_value_by_index`), B being the number of branch
entries visited that are not defunct and whose child page number lies between
1 and `last_page_number`: the root page and one request for each such entry,
the walk itself remembering no page. Each request goes through a cache of one
slot, which serves it without a load when the slot holds the requested page;
so the run has exactly 1 + L page loads, whatever the caches held before, L
being the number of those entries that do not name the page which the entry
before them in the same frame requested, and L is at most B. On the two-level
tree B is 2, and L is 2 when the two entries of the root page name different
pages, 1 when they name the same page. -/
theorem page_loads_counted (d : Definitions) (database : libesedb_database) (s : State)
    (root_page : libesedb_page)
    (hroot : database.page_tree.pages_vector (to_int d d.LIBESEDB_PAGE_NUMBER_DATABASE - 1)
      = some root_page)
    (hone : (libesedb_database_read_file_io_handle d database s).1 = 1) :
    (∃ δ : List Event,
      (libesedb_database_read_file_io_handle d database s).2.trace = s.trace ++ δ
      ∧ (page_requests δ).length = 1 + branch_entries_in_range d database
          (d.LIBESEDB_MAXIMUM_INDEX_NODE_RECURSION_DEPTH + 1) root_page
      ∧ ∀ slots : Nat → Option Int,
          page_loads slots δ = 1 + page_loads_below d database
            (d.LIBESEDB_MAXIMUM_INDEX_NODE_RECURSION_DEPTH + 1) root_page)
    ∧ page_loads_below d database (d.LIBESEDB_MAXIMUM_INDEX_NODE_RECURSION_DEPTH + 1)
        root_page
      ≤ branch_entries_in_range d database (d.LIBESEDB_MAXIMUM_INDEX_NODE_RECURSION_DEPTH + 1)
          root_page
    ∧ (∀ (page1 page2 : libesedb_page) (entry1 entry2 : libesedb_page_value)
        (value1 value2 : libesedb_page_tree_value),
        TwoLevelTree d database root_page page1 page2 entry1 entry2 value1 value2 →
        branch_entries_in_range d database (d.LIBESEDB_MAXIMUM_INDEX_NODE_RECURSION_DEPTH + 1)
            root_page = 2
        ∧ page_loads_below d database (d.LIBESEDB_MAXIMUM_INDEX_NODE_RECURSION_DEPTH + 1)
            root_page
          = if to_int d (byte_stream_copy_to_uint32_little_endian value1.data) - 1
              = to_int d (byte_stream_copy_to_uint32_little_endian value2.data) - 1
            then 1 else 2) := by
  obtain ⟨requests, hreq, hlen⟩ := read_file_io_handle_requests d database s root_page hroot
    hone
  obtain ⟨δ, htrace, hloads⟩ := read_file_io_handle_page_loads d database s root_page hroot
    hone
  have hδ : page_requests δ = requests := by
    rw [htrace, page_requests_append] at hreq
    exact List.append_cancel_left hreq
  have hle := page_loads_le_requests δ (fun _ => none)
  rw [hloads, hδ, hlen] at hle
  refine ⟨⟨δ, htrace, by rw [hδ]; exact hlen, hloads⟩, by omega, ?_⟩
  intro page1 page2 entry1 entry2 value1 value2 T
  exact two_level_tree_page_loads d database root_page page1 page2 entry1 entry2 value1
    value2 T

/-- Claim C11, at a concrete input: the claim fails for a page referenced twice.
In the tree whose root page has two entries for page 5 the run returns 1 and
requests the elements 3, 4 and 4, which is 1 + B requests with B = 2; the second
request for element 4 goes through cache 1, whose slot holds element 4 since
the first, so that the run has two page loads, not three. -/
theorem page_referenced_twice_loaded_once :
    (libesedb_database_read_file_io_handle definitions
        (database_of 6 (fun element_index =>
          if element_index = 3 then
            some { page_number := 4, flags := 5,
                   values := [root_tag, branch_value 5 0 0 0, branch_value 5 0 0 0] }
          else two_level_pages element_index)) State.initial).1 = 1
    ∧ page_requests (libesedb_database_read_file_io_handle definitions
        (database_of 6 (fun element_index =>
          if element_index = 3 then
            some { page_number := 4, flags := 5,
                   values := [root_tag, branch_value 5 0 0 0, branch_value 5 0 0 0] }
          else two_level_pages element_index)) State.initial).2.trace = [3, 4, 4]
    ∧ (libesedb_database_read_file_io_handle definitions
        (database_of 6 (fun element_index =>
          if element_index = 3 then
            some { page_number := 4, flags := 5,
                   values := [root_tag, branch_value 5 0 0 0, branch_value 5 0 0 0] }
          else two_level_pages element_index)) State.initial).2.trace[29]?
      = some (Event.get_element_value 1 4)
    ∧ cache_slot 1 none
        ((libesedb_database_read_file_io_handle definitions
          (database_of 6 (fun element_index =>
            if element_index = 3 then
              some { page_number := 4, flags := 5,
                     values := [root_tag, branch_value 5 0 0 0, branch_value 5 0 0 0] }
            else two_level_pages element_index)) State.initial).2.trace.take 29) = some 4
    ∧ page_loads (fun _ => none) (libesedb_database_read_file_io_handle definitions
        (database_of 6 (fun element_index =>
          if element_index = 3 then
            some { page_number := 4, flags := 5,
                   values := [root_tag, branch_value 5 0 0 0, branch_value 5 0 0 0] }
          else two_level_pages element_index)) State.initial).2.trace = 2
    ∧ 1 + branch_entries_in_range definitions
        (database_of 6 (fun element_index =>
          if element_index = 3 then
            some { page_number := 4, flags := 5,
                   values := [root_tag, branch_value 5 0 0 0, branch_value 5 0 0 0] }
          else two_level_pages element_index))
        (definitions.LIBESEDB_MAXIMUM_INDEX_NODE_RECURSION_DEPTH + 1)
        { page_number := 4, flags := 5,
          values := [root_tag, branch_value 5 0 0 0, branch_value 5 0 0 0] } = 3 := by
  decide

/-- Claim C11 (amended), at a concrete input: the two-level tree, whose root page
has entries for the leaf pages 5 and 6, has three page requests and three page
loads. -/
theorem page_loads_counted_witness :
    (page_requests (libesedb_database_read_file_io_handle definitions
        (database_of 6 two_level_pages) State.initial).2.trace).length = 1 + 2
    ∧ page_loads (fun _ => none) (libesedb_database_read_file_io_handle definitions
        (database_of 6 two_level_pages) State.initial).2.trace = 1 + 2 := by
  have h := page_loads_counted definitions (database_of 6 two_level_pages) State.initial
    { page_number := 4, flags := 5,
      values := [root_tag, branch_value 5 0 0 0, branch_value 6 0 0 0] }
    (by decide) (by decide)
  obtain ⟨⟨δ, htrace, hlen, hloads⟩, _, _⟩ := h
  have hδ : (libesedb_database_read_file_io_handle definitions
      (database_of 6 two_level_pages) State.initial).2.trace = δ := by
    rw [htrace]
    rfl
  rw [hδ]
  exact ⟨hlen.trans (by decide), (hloads _).trans (by decide)⟩

/-! ## The caches of the two-level tree -/

theorem read_page_values_succ_next (d : Definitions) (database : libesedb_database)
    (descend : libesedb_page → State → Int × State) (page : libesedb_page)
    (page_flags child_page_cache remaining page_value_index : Nat) (s s2 : State)
    (h : read_page_value d database descend page page_flags child_page_cache
      page_value_index s = Step.next s2) :
    read_page_values d database descend page page_flags child_page_cache (remaining + 1)
        page_value_index s
      = read_page_values d database descend page page_flags child_page_cache remaining
          ((page_value_index + 1) % 2 ^ 16) s2 := by
  simp only [read_page_values, h]

theorem read_page_value_leaf_child (d : Definitions) (database : libesedb_database)
    (page : libesedb_page) (page_flags child_page_cache page_value_index : Nat) (s : State)
    (recursion_depth : Int)
    (page_value : libesedb_page_value) (page_tree_value : libesedb_page_tree_value)
    (child_page : libesedb_page)
    (hv : page.values[page_value_index]? = some page_value)
    (hd : page_value.flags &&& d.LIBESEDB_PAGE_TAG_FLAG_IS_DEFUNCT = 0)
    (hp : database.page_tree.libesedb_page_tree_value_read_data page_value.data
      page_value.flags = some page_tree_value)
    (hl : page_flags &&& d.LIBESEDB_PAGE_FLAG_IS_LEAF = 0)
    (hs : ¬ page_tree_value.data_size < 4)
    (hb : child_page_number_out_of_bounds d
      (byte_stream_copy_to_uint32_little_endian page_tree_value.data) = false)
    (hr : byte_stream_copy_to_uint32_little_endian page_tree_value.data > 0
      ∧ byte_stream_copy_to_uint32_little_endian page_tree_value.data
        ≤ database.page_tree.io_handle.last_page_number)
    (hc : database.page_tree.pages_vector
      (to_int d (byte_stream_copy_to_uint32_little_endian page_tree_value.data) - 1)
        = some child_page)
    (hq : database.page_tree.libesedb_page_validate_page child_page = true)
    (h0 : 0 ≤ recursion_depth + 1)
    (h1 : recursion_depth + 1 ≤ d.LIBESEDB_MAXIMUM_INDEX_NODE_RECURSION_DEPTH)
    (hleaf : (child_page.flags % 2 ^ 32) &&& d.LIBESEDB_PAGE_FLAG_IS_LEAF ≠ 0)
    (hne : child_page.values.length ≠ 0)
    (hparse : ∀ pv ∈ child_page.values.tail, is_live d pv = true
      ∧ (database.page_tree.libesedb_page_tree_value_read_data pv.data pv.flags).isSome
        = true) :
    ∃ s2, read_page_value d database
        (fun child_page s => libesedb_database_read_values_from_page d database child_page
          (recursion_depth + 1) s)
        page page_flags child_page_cache page_value_index s = Step.next s2
      ∧ s2.next_cache = s.next_cache + 1 := by
  have hL := read_values_from_page_leaf_page d database child_page (recursion_depth + 1)
    (((s.value_read page page_value_index page_value).emit
      (Event.get_element_value child_page_cache
        (to_int d (byte_stream_copy_to_uint32_little_endian page_tree_value.data) - 1))).emit
      (Event.validate_page child_page.page_number)) h0 h1 hleaf
    (fun pv hpv _ => (hparse pv hpv).2)
  rw [read_page_value_descend d database _ page page_flags child_page_cache page_value_index
    s page_value page_tree_value child_page hv hd hp hl hs hb hr hc hq]
  simp only [hL.1, ne_eq, not_true_eq_false, if_false]
  have hn := hL.2.2.1
  rw [if_neg hne] at hn
  exact ⟨_, rfl, hn⟩

theorem two_level_root_walk (d : Definitions) (database : libesedb_database)
    (root_page page1 page2 : libesedb_page) (entry1 entry2 : libesedb_page_value)
    (value1 value2 : libesedb_page_tree_value)
    (T : TwoLevelTree d database root_page page1 page2 entry1 entry2 value1 value2)
    (s : State) :
    (libesedb_database_read_values_from_page d database root_page 0 s).1 = 1
    ∧ (libesedb_database_read_values_from_page d database root_page 0 s).2.next_cache
      = s.next_cache + 3 := by
  obtain ⟨first_tag, hvals⟩ := T.two_entries
  have hv1 : root_page.values[1]? = some entry1 := by rw [hvals]; rfl
  have hv2 : root_page.values[2]? = some entry2 := by rw [hvals]; rfl
  have hlen : root_page.values.length ≠ 0 := by rw [hvals]; simp
  have hcount : root_page.values.length - 1 = 0 + 1 + 1 := by rw [hvals]; rfl
  have hdepth : ((0 : Int) + 1) ≤ d.LIBESEDB_MAXIMUM_INDEX_NODE_RECURSION_DEPTH := by
    have := T.depth
    omega
  rw [read_values_from_page_in_bounds d database root_page 0 s (le_refl 0) (by omega),
    read_values_from_page_frame_eq d database _ root_page s hlen, hcount]
  obtain ⟨sA, hA, hAn⟩ := read_page_value_leaf_child d database root_page
    (root_page.flags % 2 ^ 32) s.next_cache 1 (s.enter_loop root_page) 0 entry1 value1 page1
    hv1 T.live1 T.parsed1 T.branch T.size1 T.in_bounds1 T.in_range1 T.child1 T.valid1
    (by omega) hdepth T.leaf1 (by rw [T.two_values1]; decide) T.leaves1
  obtain ⟨sB, hB, hBn⟩ := read_page_value_leaf_child d database root_page
    (root_page.flags % 2 ^ 32) s.next_cache 2 sA 0 entry2 value2 page2
    hv2 T.live2 T.parsed2 T.branch T.size2 T.in_bounds2 T.in_range2 T.child2 T.valid2
    (by omega) hdepth T.leaf2 (by rw [T.two_values2]; decide) T.leaves2
  rw [read_page_values_succ_next d database _ root_page _ _ _ _ _ sA hA,
    show (1 + 1) % 2 ^ 16 = 2 from rfl,
    read_page_values_succ_next d database _ root_page _ _ _ _ _ sB hB]
  have hE : (s.enter_loop root_page).next_cache = s.next_cache + 1 := rfl
  refine ⟨rfl, ?_⟩
  show sB.next_cache = s.next_cache + 3
  omega

theorem two_level_walk (d : Definitions) (database : libesedb_database)
    (root_page page1 page2 : libesedb_page) (entry1 entry2 : libesedb_page_value)
    (value1 value2 : libesedb_page_tree_value)
    (T : TwoLevelTree d database root_page page1 page2 entry1 entry2 value1 value2)
    (s : State) :
    (libesedb_database_read_file_io_handle d database s).1 = 1
    ∧ (libesedb_database_read_file_io_handle d database s).2.next_cache
      = s.next_cache + 4 := by
  have hW := two_level_root_walk d database root_page page1 page2 entry1 entry2 value1 value2
    T ((s.fetch_root d).emit (Event.validate_root_page root_page.page_number))
  rw [read_file_io_handle_walk d database s root_page T.fetched T.root_valid]
  have hS : ((s.fetch_root d).emit
      (Event.validate_root_page root_page.page_number)).next_cache = s.next_cache + 1 := rfl
  constructor
  · show (if (libesedb_database_read_values_from_page d database root_page 0
        ((s.fetch_root d).emit (Event.validate_root_page root_page.page_number))).1 ≠ 1
      then (-1 : Int) else 1) = 1
    rw [hW.1]
    simp
  · show (libesedb_database_read_values_from_page d database root_page 0
        ((s.fetch_root d).emit (Event.validate_root_page root_page.page_number))).2.next_cache
      = s.next_cache + 4
    omega

theorem two_level_pages_two_level_tree :
    TwoLevelTree definitions (database_of 6 two_level_pages)
      { page_number := 4, flags := 5,
        values := [root_tag, branch_value 5 0 0 0, branch_value 6 0 0 0] }
      { page_number := 5, flags := 2, values := [root_tag, leaf_value 0 65, leaf_value 1 66] }
      { page_number := 6, flags := 2, values := [root_tag, leaf_value 2 67, leaf_value 3 68] }
      (branch_value 5 0 0 0) (branch_value 6 0 0 0)
      { common_key_size := 0, local_key := [], data := [5, 0, 0, 0] }
      { common_key_size := 0, local_key := [], data := [6, 0, 0, 0] } :=
  { depth := by decide
    fetched := by decide
    root_valid := rfl
    branch := by decide
    two_entries := ⟨root_tag, rfl⟩
    live1 := by decide
    live2 := by decide
    parsed1 := by decide
    parsed2 := by decide
    size1 := by decide
    size2 := by decide
    in_bounds1 := by decide
    in_bounds2 := by decide
    in_range1 := by decide
    in_range2 := by decide
    child1 := by decide
    child2 := by decide
    valid1 := rfl
    valid2 := rfl
    leaf1 := by decide
    leaf2 := by decide
    two_values1 := rfl
    two_values2 := rfl
    leaves1 := by decide
    leaves2 := by decide }

/-- Claim C12, as the code has it: on the two-level tree a run of
`libesedb_database_read_file_io_handle` returns 1 and creates four caches, which
it releases: the root page cache and one child page cache in each of the three
calls of `libesedb_database_read_values_from_page`, the two on the leaf pages
included, since the cache is created before the page flags are looked at. -/
theorem two_level_tree_caches (d : Definitions) (database : libesedb_database)
    (root_page page1 page2 : libesedb_page) (entry1 entry2 : libesedb_page_value)
    (value1 value2 : libesedb_page_tree_value) (s : State)
    (T : TwoLevelTree d database root_page page1 page2 entry1 entry2 value1 value2) :
    (libesedb_database_read_file_io_handle d database s).1 = 1
    ∧ ∃ δ, (libesedb_database_read_file_io_handle d database s).2.trace = s.trace ++ δ
      ∧ caches_created δ
        = [s.next_cache, s.next_cache + 1, s.next_cache + 2, s.next_cache + 3]
      ∧ (caches_released δ).Perm (caches_created δ)
      ∧ (caches_created δ).length = 4
      ∧ (caches_released δ).length = 4 := by
  have hW := two_level_walk d database root_page page1 page2 entry1 entry2 value1 value2 T s
  obtain ⟨δ, h⟩ := read_file_io_handle_bracketed d database s
  have hperm := cache_discipline_perm δ [] [] (h.discipline [] (by simp) (by simp))
  simp only [List.append_nil, List.nil_append] at hperm
  have hcreated : caches_created δ
      = [s.next_cache, s.next_cache + 1, s.next_cache + 2, s.next_cache + 3] := by
    rw [h.created, hW.2]
    have h4 : s.next_cache + 4 - s.next_cache = 4 := by omega
    rw [h4]
    rfl
  refine ⟨hW.1, δ, h.trace, hcreated, hperm, ?_, ?_⟩
  · rw [hcreated]
    rfl
  · rw [hperm.length_eq, hcreated]
    rfl

theorem two_level_tree_caches_witness :
    (libesedb_database_read_file_io_handle definitions (database_of 6 two_level_pages)
        State.initial).1 = 1
    ∧ ∃ δ, (libesedb_database_read_file_io_handle definitions (database_of 6 two_level_pages)
          State.initial).2.trace = State.initial.trace ++ δ
      ∧ caches_created δ = [0, 1, 2, 3]
      ∧ (caches_released δ).Perm (caches_created δ)
      ∧ (caches_created δ).length = 4
      ∧ (caches_released δ).length = 4 :=
  two_level_tree_caches definitions (database_of 6 two_level_pages)
    { page_number := 4, flags := 5,
      values := [root_tag, branch_value 5 0 0 0, branch_value 6 0 0 0] }
    { page_number := 5, flags := 2, values := [root_tag, leaf_value 0 65, leaf_value 1 66] }
    { page_number := 6, flags := 2, values := [root_tag, leaf_value 2 67, leaf_value 3 68] }
    (branch_value 5 0 0 0) (branch_value 6 0 0 0)
    { common_key_size := 0, local_key := [], data := [5, 0, 0, 0] }
    { common_key_size := 0, local_key := [], data := [6, 0, 0, 0] }
    State.initial two_level_pages_two_level_tree

/-- C12, at a concrete input: the claim fails. The walk of `two_level_pages`
calls `libfcache_cache_initialize` four times and `libfcache_cache_free` four
times, not three times. -/
theorem two_level_tree_not_three_caches :
    (libesedb_database_read_file_io_handle definitions (database_of 6 two_level_pages)
        State.initial).1 = 1
    ∧ caches_created (libesedb_database_read_file_io_handle definitions
        (database_of 6 two_level_pages) State.initial).2.trace = [0, 1, 2, 3]
    ∧ caches_released (libesedb_database_read_file_io_handle definitions
        (database_of 6 two_level_pages) State.initial).2.trace = [2, 3, 1, 0]
    ∧ (caches_created (libesedb_database_read_file_io_handle definitions
        (database_of 6 two_level_pages) State.initial).2.trace).length ≠ 3
    ∧ (caches_released (libesedb_database_read_file_io_handle definitions
        (database_of 6 two_level_pages) State.initial).2.trace).length ≠ 3 := by
  decide

/-! ## Runs that cannot be told apart -/

theorem observables_append (t t2 : List Event) :
    observables (t ++ t2) = observables t ++ observables t2 := by
  simp [observables]

theorem leaf_events_observables (t : List Event) :
    leaf_events (observables t) = leaf_events t := by
  induction t with
  | nil => rfl
  | cons e t ih =>
    have hl : ∀ (a : Event) (l : List Event),
        leaf_events (a :: l) = leaf_events [a] ++ leaf_events l :=
      fun a l => leaf_events_append [a] l
    have ho : observables (e :: t) = observables [e] ++ observables t :=
      observables_append [e] t
    rw [ho, leaf_events_append, hl e t, ih]
    cases e <;> rfl

theorem page_requests_observables (t : List Event) :
    page_requests (observables t) = page_requests t := by
  induction t with
  | nil => rfl
  | cons e t ih =>
    have hl : ∀ (a : Event) (l : List Event),
        page_requests (a :: l) = page_requests [a] ++ page_requests l :=
      fun a l => page_requests_append [a] l
    have ho : observables (e :: t) = observables [e] ++ observables t :=
      observables_append [e] t
    rw [ho, page_requests_append, hl e t, ih]
    cases e <;> rfl

theorem observed_refl (s : State) : Observed s s := ⟨rfl, rfl⟩

theorem observed_emit (s s2 : State) (e e2 : Event) (h : Observed s s2)
    (he : e2.observable = e.observable) : Observed (s.emit e) (s2.emit e2) := by
  refine ⟨h.1, ?_⟩
  simp only [State.emit, observables_append, h.2]
  simp only [observables, List.filterMap_cons, List.filterMap_nil, he]

theorem observed_value_read (s s2 : State) (page page2 : libesedb_page) (i : Nat)
    (pv pv2 : libesedb_page_value) (hnum : page2.page_number = page.page_number)
    (h : Observed s s2) :
    Observed (s.value_read page i pv) (s2.value_read page2 i pv2) := by
  unfold State.value_read
  exact observed_emit _ _ _ _ (observed_emit _ _ _ _
    (observed_emit _ _ _ _ h (by rw [hnum])) rfl) rfl

theorem observed_request (s s2 : State) (c c2 : Nat) (element_index : Int)
    (h : Observed s s2) :
    Observed (s.emit (Event.get_element_value c element_index))
      (s2.emit (Event.get_element_value c2 element_index)) :=
  observed_emit _ _ _ _ h rfl

theorem read_page_value_observed (d : Definitions) (database : libesedb_database)
    (descend : libesedb_page → State → Int × State) (hdesc : Observing descend)
    (page page2 : libesedb_page) (page_flags c c2 i : Nat) (s s2 : State)
    (hnum : page2.page_number = page.page_number)
    (hsame : page2.values[i]? = page.values[i]?) (h : Observed s s2) :
    StepObserved (read_page_value d database descend page page_flags c i s)
      (read_page_value d database descend page2 page_flags c2 i s2) := by
  apply read_page_value_cases d database descend page page_flags c i s
    (fun st => StepObserved st (read_page_value d database descend page2 page_flags c2 i s2))
  · intro hv
    rw [read_page_value_absent _ _ _ _ _ _ _ _ (hsame.trans hv)]
    exact ⟨rfl, observed_emit _ _ _ _ h (by rw [hnum])⟩
  · intro pv hv hd
    rw [read_page_value_defunct _ _ _ _ _ _ _ _ _ (hsame.trans hv) hd]
    exact observed_emit _ _ _ _ h (by rw [hnum])
  · intro pv hv hd hp
    rw [read_page_value_unparsed _ _ _ _ _ _ _ _ _ (hsame.trans hv) hd hp]
    exact ⟨rfl, observed_value_read _ _ _ _ _ _ _ hnum h⟩
  · intro pv ptv hv hd hp hl
    rw [read_page_value_leaf _ _ _ _ _ _ _ _ _ _ (hsame.trans hv) hd hp hl]
    have hvr := observed_value_read s s2 page page2 i pv pv hnum h
    refine ⟨by simp [h.1], ?_⟩
    simp only [observables_append, hvr.2, h.1, hnum]
  · intro pv ptv hv hd hp hl hs
    rw [read_page_value_short _ _ _ _ _ _ _ _ _ _ (hsame.trans hv) hd hp hl hs]
    exact ⟨rfl, observed_value_read _ _ _ _ _ _ _ hnum h⟩
  · intro pv ptv hv hd hp hl hs hb
    rw [read_page_value_out_of_bounds _ _ _ _ _ _ _ _ _ _ (hsame.trans hv) hd hp hl hs hb]
    exact ⟨rfl, observed_value_read _ _ _ _ _ _ _ hnum h⟩
  · intro pv ptv hv hd hp hl hs hb hr
    rw [read_page_value_skipped _ _ _ _ _ _ _ _ _ _ (hsame.trans hv) hd hp hl hs hb hr]
    exact observed_emit _ _ _ _ (observed_value_read _ _ _ _ _ _ _ hnum h) rfl
  · intro pv ptv hv hd hp hl hs hb hr hc
    rw [read_page_value_load_failed _ _ _ _ _ _ _ _ _ _ (hsame.trans hv) hd hp hl hs hb hr hc]
    exact ⟨rfl, observed_request _ _ _ _ _ (observed_value_read _ _ _ _ _ _ _ hnum h)⟩
  · intro pv ptv cp hv hd hp hl hs hb hr hc hq
    rw [read_page_value_invalid _ _ _ _ _ _ _ _ _ _ _ (hsame.trans hv) hd hp hl hs hb hr hc hq]
    exact ⟨rfl, observed_emit _ _ _ _
      (observed_request _ _ _ _ _ (observed_value_read _ _ _ _ _ _ _ hnum h)) rfl⟩
  · intro pv ptv cp hv hd hp hl hs hb hr hc hq
    rw [read_page_value_descend _ _ _ _ _ _ _ _ _ _ _ (hsame.trans hv) hd hp hl hs hb hr hc hq]
    have hstart := observed_emit _ _
      (Event.validate_page cp.page_number) (Event.validate_page cp.page_number)
      (observed_request _ _ c c2
        (to_int d (byte_stream_copy_to_uint32_little_endian ptv.data) - 1)
        (observed_value_read s s2 page page2 i pv pv hnum h)) rfl
    obtain ⟨hres, hobs⟩ := hdesc cp _ _ hstart
    rw [hres]
    split
    · exact ⟨rfl, hobs⟩
    · exact observed_emit _ _ _ _ hobs rfl

theorem read_page_value_observed_branch (d : Definitions) (database : libesedb_database)
    (descend : libesedb_page → State → Int × State) (hdesc : Observing descend)
    (page page2 : libesedb_page) (page_flags c c2 i : Nat) (s s2 : State)
    (pv pv2 : libesedb_page_value) (ptv ptv2 : libesedb_page_tree_value)
    (hnum : page2.page_number = page.page_number)
    (hv : page.values[i]? = some pv) (hv2 : page2.values[i]? = some pv2)
    (hd : pv.flags &&& d.LIBESEDB_PAGE_TAG_FLAG_IS_DEFUNCT = 0)
    (hd2 : pv2.flags &&& d.LIBESEDB_PAGE_TAG_FLAG_IS_DEFUNCT = 0)
    (hp : database.page_tree.libesedb_page_tree_value_read_data pv.data pv.flags = some ptv)
    (hp2 : database.page_tree.libesedb_page_tree_value_read_data pv2.data pv2.flags
      = some ptv2)
    (hl : page_flags &&& d.LIBESEDB_PAGE_FLAG_IS_LEAF = 0)
    (hs : ¬ ptv.data_size < 4) (hs2 : ¬ ptv2.data_size < 4)
    (hchild : byte_stream_copy_to_uint32_little_endian ptv2.data
      = byte_stream_copy_to_uint32_little_endian ptv.data)
    (h : Observed s s2) :
    StepObserved (read_page_value d database descend page page_flags c i s)
      (read_page_value d database descend page2 page_flags c2 i s2) := by
  have hread := observed_value_read s s2 page page2 i pv pv2 hnum h
  cases hb : child_page_number_out_of_bounds d
      (byte_stream_copy_to_uint32_little_endian ptv.data) with
  | true =>
    rw [read_page_value_out_of_bounds _ _ _ _ _ _ _ _ _ _ hv hd hp hl hs hb,
      read_page_value_out_of_bounds _ _ _ _ _ _ _ _ _ _ hv2 hd2 hp2 hl hs2
        (by rw [hchild]; exact hb)]
    exact ⟨rfl, hread⟩
  | false =>
    have hb2 : child_page_number_out_of_bounds d
        (byte_stream_copy_to_uint32_little_endian ptv2.data) = false := by
      rw [hchild]; exact hb
    by_cases hr : byte_stream_copy_to_uint32_little_endian ptv.data > 0
        ∧ byte_stream_copy_to_uint32_little_endian ptv.data
          ≤ database.page_tree.io_handle.last_page_number
    · have hr2 : byte_stream_copy_to_uint32_little_endian ptv2.data > 0
          ∧ byte_stream_copy_to_uint32_little_endian ptv2.data
            ≤ database.page_tree.io_handle.last_page_number := by
        rw [hchild]; exact hr
      have hreq := observed_request _ _ c c2
        (to_int d (byte_stream_copy_to_uint32_little_endian ptv.data) - 1) hread
      cases hc : database.page_tree.pages_vector
          (to_int d (byte_stream_copy_to_uint32_little_endian ptv.data) - 1) with
      | none =>
        rw [read_page_value_load_failed _ _ _ _ _ _ _ _ _ _ hv hd hp hl hs hb hr hc,
          read_page_value_load_failed _ _ _ _ _ _ _ _ _ _ hv2 hd2 hp2 hl hs2 hb2 hr2
            (by rw [hchild]; exact hc), hchild]
        exact ⟨rfl, hreq⟩
      | some cp =>
        have hc2 : database.page_tree.pages_vector
            (to_int d (byte_stream_copy_to_uint32_little_endian ptv2.data) - 1) = some cp := by
          rw [hchild]; exact hc
        cases hq : database.page_tree.libesedb_page_validate_page cp with
        | false =>
          rw [read_page_value_invalid _ _ _ _ _ _ _ _ _ _ _ hv hd hp hl hs hb hr hc hq,
            read_page_value_invalid _ _ _ _ _ _ _ _ _ _ _ hv2 hd2 hp2 hl hs2 hb2 hr2 hc2 hq,
            hchild]
          exact ⟨rfl, observed_emit _ _ _ _ hreq rfl⟩
        | true =>
          rw [read_page_value_descend _ _ _ _ _ _ _ _ _ _ _ hv hd hp hl hs hb hr hc hq,
            read_page_value_descend _ _ _ _ _ _ _ _ _ _ _ hv2 hd2 hp2 hl hs2 hb2 hr2 hc2 hq,
            hchild]
          obtain ⟨hres, hobs⟩ := hdesc cp _ _
            (observed_emit _ _ (Event.validate_page cp.page_number)
              (Event.validate_page cp.page_number) hreq rfl)
          rw [hres]
          split
          · exact ⟨rfl, hobs⟩
          · exact observed_emit _ _ _ _ hobs rfl
    · have hr2 : ¬ (byte_stream_copy_to_uint32_little_endian ptv2.data > 0
          ∧ byte_stream_copy_to_uint32_little_endian ptv2.data
            ≤ database.page_tree.io_handle.last_page_number) := by
        rw [hchild]; exact hr
      rw [read_page_value_skipped _ _ _ _ _ _ _ _ _ _ hv hd hp hl hs hb hr,
        read_page_value_skipped _ _ _ _ _ _ _ _ _ _ hv2 hd2 hp2 hl hs2 hb2 hr2]
      exact observed_emit _ _ _ _ hread rfl

theorem read_page_value_observed_alike (d : Definitions) (database : libesedb_database)
    (descend : libesedb_page → State → Int × State) (hdesc : Observing descend)
    (page page2 : libesedb_page) (page_flags c c2 i : Nat) (s s2 : State)
    (hnum : page2.page_number = page.page_number)
    (halike : EntryAlike d database page_flags (page.values[i]?) (page2.values[i]?))
    (h : Observed s s2) :
    StepObserved (read_page_value d database descend page page_flags c i s)
      (read_page_value d database descend page2 page_flags c2 i s2) := by
  rcases halike with hsame | ⟨hl, pv, pv2, ptv, ptv2, hv, hv2, hd, hd2, hp, hp2, hs, hs2,
    hchild⟩
  · exact read_page_value_observed d database descend hdesc page page2 page_flags c c2 i s s2
      hnum hsame h
  · exact read_page_value_observed_branch d database descend hdesc page page2 page_flags c c2
      i s s2 pv pv2 ptv ptv2 hnum hv hv2 hd hd2 hp hp2 hl hs hs2 hchild h

theorem read_page_values_observed (d : Definitions) (database : libesedb_database)
    (descend : libesedb_page → State → Int × State) (hdesc : Observing descend)
    (page page2 : libesedb_page) (page_flags c c2 : Nat)
    (hnum : page2.page_number = page.page_number)
    (halike : ∀ i : Nat, EntryAlike d database page_flags (page.values[i]?) (page2.values[i]?)) :
    ∀ (remaining i : Nat) (s s2 : State), Observed s s2 →
      StepObserved (read_page_values d database descend page page_flags c remaining i s)
        (read_page_values d database descend page2 page_flags c2 remaining i s2) := by
  intro remaining
  induction remaining with
  | zero =>
    intro i s s2 h
    exact h
  | succ n ih =>
    intro i s s2 h
    have hstep := read_page_value_observed_alike d database descend hdesc page page2
      page_flags c c2 i s s2 hnum (halike i) h
    simp only [read_page_values]
    cases h1 : read_page_value d database descend page page_flags c i s with
    | next t =>
      cases h2 : read_page_value d database descend page2 page_flags c2 i s2 with
      | next t2 =>
        rw [h1, h2] at hstep
        exact ih _ t t2 hstep
      | on_error live2 t2 =>
        rw [h1, h2] at hstep
        exact hstep.elim
    | on_error live t =>
      cases h2 : read_page_value d database descend page2 page_flags c2 i s2 with
      | next t2 =>
        rw [h1, h2] at hstep
        exact hstep.elim
      | on_error live2 t2 =>
        rw [h1, h2] at hstep
        exact hstep

theorem leave_loop_observed (c c2 : Nat) (st st2 : Step) (h : StepObserved st st2) :
    (leave_loop c2 st2).1 = (leave_loop c st).1
    ∧ Observed (leave_loop c st).2 (leave_loop c2 st2).2 := by
  cases st with
  | next s =>
    cases st2 with
    | next s2 => exact ⟨rfl, observed_emit _ _ _ _ h rfl⟩
    | on_error live2 s2 => exact h.elim
  | on_error live s =>
    cases st2 with
    | next s2 => exact h.elim
    | on_error live2 s2 =>
      obtain ⟨hl, hs⟩ := h
      subst hl
      cases live2
      · exact ⟨rfl, observed_emit _ _ _ _ hs rfl⟩
      · exact ⟨rfl, observed_emit _ _ _ _ (observed_emit _ _ _ _ hs rfl) rfl⟩

theorem observed_enter_loop (s s2 : State) (page page2 : libesedb_page)
    (hnum : page2.page_number = page.page_number) (h : Observed s s2) :
    Observed (s.enter_loop page) (s2.enter_loop page2) := by
  have h2 := observed_emit _ _ (Event.get_flags page.page_number)
    (Event.get_flags page2.page_number)
    (observed_emit _ _ (Event.get_number_of_values page.page_number)
      (Event.get_number_of_values page2.page_number) h (by rw [hnum])) (by rw [hnum])
  unfold State.enter_loop
  exact observed_emit _ _ _ _ (⟨h2.1, h2.2⟩ : Observed _ _) rfl

theorem read_values_from_page_frame_observed (d : Definitions) (database : libesedb_database)
    (descend : libesedb_page → State → Int × State) (hdesc : Observing descend)
    (page page2 : libesedb_page) (s s2 : State)
    (hnum : page2.page_number = page.page_number)
    (hflags : page2.flags = page.flags)
    (hlength : page2.values.length = page.values.length)
    (halike : ∀ i : Nat, EntryAlike d database (page.flags % 2 ^ 32) (page.values[i]?)
      (page2.values[i]?))
    (h : Observed s s2) :
    (read_values_from_page_frame d database descend page2 s2).1
      = (read_values_from_page_frame d database descend page s).1
    ∧ Observed (read_values_from_page_frame d database descend page s).2
        (read_values_from_page_frame d database descend page2 s2).2 := by
  by_cases hne : page.values.length = 0
  · have hne2 : page2.values.length = 0 := by rw [hlength]; exact hne
    simp only [read_values_from_page_frame, libesedb_page_get_number_of_values, hne, hne2,
      if_true]
    exact ⟨trivial, observed_emit _ _ _ _ h (by rw [hnum])⟩
  · rw [read_values_from_page_frame_eq d database descend page s hne,
      read_values_from_page_frame_eq d database descend page2 s2 (by rw [hlength]; exact hne),
      hflags, hlength]
    exact leave_loop_observed _ _ _ _
      (read_page_values_observed d database descend hdesc page page2 _ _ _ hnum halike _ 1
        _ _ (observed_enter_loop s s2 page page2 hnum h))

theorem read_values_from_page_levels_observed (d : Definitions)
    (database : libesedb_database) (levels : Nat) :
    ∀ recursion_depth : Int,
      Observing (fun child_page s =>
        read_values_from_page_levels d database levels child_page recursion_depth s) := by
  induction levels with
  | zero =>
    intro depth page s s2 h
    exact ⟨rfl, h⟩
  | succ n ih =>
    intro depth page s s2 h
    simp only [read_values_from_page_levels, read_values_from_page_body]
    split
    · exact ⟨rfl, h⟩
    · exact read_values_from_page_frame_observed d database _ (ih (depth + 1)) page page s s2
        rfl rfl rfl (fun _ => Or.inl rfl) h

theorem read_values_from_page_observed (d : Definitions) (database : libesedb_database)
    (page page2 : libesedb_page) (recursion_depth : Int) (s s2 : State)
    (hnum : page2.page_number = page.page_number)
    (hflags : page2.flags = page.flags)
    (hlength : page2.values.length = page.values.length)
    (halike : ∀ i : Nat, EntryAlike d database (page.flags % 2 ^ 32) (page.values[i]?)
      (page2.values[i]?))
    (h : Observed s s2) :
    (libesedb_database_read_values_from_page d database page2 recursion_depth s2).1
      = (libesedb_database_read_values_from_page d database page recursion_depth s).1
    ∧ Observed (libesedb_database_read_values_from_page d database page recursion_depth s).2
        (libesedb_database_read_values_from_page d database page2 recursion_depth s2).2 := by
  rw [read_values_from_page_eq d database page2, read_values_from_page_eq d database page]
  simp only [read_values_from_page_body]
  split
  · exact ⟨rfl, h⟩
  · exact read_values_from_page_frame_observed d database _
      (read_values_from_page_levels_observed d database _ (recursion_depth + 1))
      page page2 s s2 hnum hflags hlength halike h

theorem read_file_io_handle_observed (d : Definitions) (database : libesedb_database)
    (s s2 : State) (h : observables s2.trace = observables s.trace) :
    (libesedb_database_read_file_io_handle d database s2).1
      = (libesedb_database_read_file_io_handle d database s).1
    ∧ Observed (libesedb_database_read_file_io_handle d database s).2
        (libesedb_database_read_file_io_handle d database s2).2 := by
  have hfetch : Observed (s.fetch_root d) (s2.fetch_root d) := by
    refine ⟨rfl, ?_⟩
    simp only [State.fetch_root, State.emit, observables_append, h]
    rfl
  cases hvec : database.page_tree.pages_vector (to_int d d.LIBESEDB_PAGE_NUMBER_DATABASE - 1)
    with
  | none =>
    rw [read_file_io_handle_not_fetched d database s hvec,
      read_file_io_handle_not_fetched d database s2 hvec]
    exact ⟨rfl, observed_emit _ _ _ _ hfetch rfl⟩
  | some root_page =>
    have hroot := observed_emit _ _ (Event.validate_root_page root_page.page_number)
      (Event.validate_root_page root_page.page_number) hfetch rfl
    cases hval : database.page_tree.libesedb_page_validate_root_page root_page with
    | false =>
      rw [read_file_io_handle_invalid d database s root_page hvec hval,
        read_file_io_handle_invalid d database s2 root_page hvec hval]
      exact ⟨rfl, observed_emit _ _ _ _ hroot rfl⟩
    | true =>
      rw [read_file_io_handle_walk d database s root_page hvec hval,
        read_file_io_handle_walk d database s2 root_page hvec hval]
      obtain ⟨hres, hobs⟩ := read_values_from_page_observed d database root_page root_page 0
        _ _ rfl rfl rfl (fun _ => Or.inl rfl) hroot
      exact ⟨by simp only [hres], observed_emit _ _ _ _ hobs rfl⟩

theorem read_file_io_handle_prepend (d : Definitions) (database : libesedb_database)
    (t : List Event) (s : State) :
    libesedb_database_read_file_io_handle d database (s.prepend t)
      = ((libesedb_database_read_file_io_handle d database s).1,
         (libesedb_database_read_file_io_handle d database s).2.prepend t) := by
  cases hvec : database.page_tree.pages_vector (to_int d d.LIBESEDB_PAGE_NUMBER_DATABASE - 1)
    with
  | none =>
    rw [read_file_io_handle_not_fetched d database s hvec,
      read_file_io_handle_not_fetched d database (s.prepend t) hvec]
    simp [State.prepend, State.fetch_root, State.emit]
  | some root_page =>
    cases hval : database.page_tree.libesedb_page_validate_root_page root_page with
    | false =>
      rw [read_file_io_handle_invalid d database s root_page hvec hval,
        read_file_io_handle_invalid d database (s.prepend t) root_page hvec hval]
      simp [State.prepend, State.fetch_root, State.emit]
    | true =>
      rw [read_file_io_handle_walk d database s root_page hvec hval,
        read_file_io_handle_walk d database (s.prepend t) root_page hvec hval]
      have hstart : ((s.prepend t).fetch_root d).emit
            (Event.validate_root_page root_page.page_number)
          = (((s.fetch_root d).emit
            (Event.validate_root_page root_page.page_number)).prepend t) := by
        simp [State.prepend, State.fetch_root, State.emit]
      have hp := read_values_from_page_prepend d database 0 t root_page
        ((s.fetch_root d).emit (Event.validate_root_page root_page.page_number))
      simp only [] at hp
      rw [hstart, hp]
      simp [State.prepend, State.emit]

/-! ## Consecutive runs -/

theorem read_file_io_handle_trace (d : Definitions) (database : libesedb_database)
    (s : State) :
    (libesedb_database_read_file_io_handle d database s).1
      = (libesedb_database_read_file_io_handle d database { s with trace := [] }).1
    ∧ (libesedb_database_read_file_io_handle d database s).2.leaf_value_index
      = (libesedb_database_read_file_io_handle d database
          { s with trace := [] }).2.leaf_value_index
    ∧ (libesedb_database_read_file_io_handle d database s).2.trace
      = s.trace ++ (libesedb_database_read_file_io_handle d database
          { s with trace := [] }).2.trace := by
  have h := read_file_io_handle_prepend d database s.trace { s with trace := [] }
  have hs : State.prepend s.trace { s with trace := [] } = s := by
    simp [State.prepend]
  rw [hs] at h
  rw [h]
  exact ⟨rfl, rfl, rfl⟩

theorem read_page_value_same_page_store (d : Definitions)
    (database database2 : libesedb_database) (h : same_page_store database database2)
    (descend : libesedb_page → State → Int × State) (page : libesedb_page)
    (page_flags child_page_cache page_value_index : Nat) (s : State) :
    read_page_value d database2 descend page page_flags child_page_cache page_value_index s
      = read_page_value d database descend page page_flags child_page_cache
          page_value_index s := by
  obtain ⟨h1, h2, h3, _, h5⟩ := h
  simp only [read_page_value, h1, h2, h3, h5]

theorem read_page_values_same_page_store (d : Definitions)
    (database database2 : libesedb_database) (h : same_page_store database database2)
    (descend : libesedb_page → State → Int × State) (page : libesedb_page)
    (page_flags child_page_cache : Nat) (remaining : Nat) :
    ∀ (page_value_index : Nat) (s : State),
      read_page_values d database2 descend page page_flags child_page_cache remaining
          page_value_index s
        = read_page_values d database descend page page_flags child_page_cache remaining
            page_value_index s := by
  induction remaining with
  | zero => intro i s; rfl
  | succ n ih =>
    intro i s
    simp only [read_page_values, read_page_value_same_page_store d database database2 h]
    cases read_page_value d database descend page page_flags child_page_cache i s with
    | next s2 => exact ih _ s2
    | on_error live s2 => rfl

theorem read_values_from_page_levels_same_page_store (d : Definitions)
    (database database2 : libesedb_database) (h : same_page_store database database2)
    (levels : Nat) :
    ∀ (page : libesedb_page) (recursion_depth : Int) (s : State),
      read_values_from_page_levels d database2 levels page recursion_depth s
        = read_values_from_page_levels d database levels page recursion_depth s := by
  induction levels with
  | zero => intro page depth s; rfl
  | succ n ih =>
    intro page depth s
    simp only [read_values_from_page_levels]
    have hfun : (fun child_page s => read_values_from_page_levels d database2 n child_page
          (depth + 1) s)
        = (fun child_page s => read_values_from_page_levels d database n child_page
          (depth + 1) s) := by
      funext child_page s2
      exact ih child_page (depth + 1) s2
    rw [hfun]
    simp only [read_values_from_page_body, read_values_from_page_frame,
      read_page_values_same_page_store d database database2 h]

/-- The walk is a function of the page store: two databases with the same page
store give the same result and the same state. -/
theorem read_file_io_handle_same_page_store (d : Definitions)
    (database database2 : libesedb_database) (h : same_page_store database database2)
    (s : State) :
    libesedb_database_read_file_io_handle d database2 s
      = libesedb_database_read_file_io_handle d database s := by
  have hlevels := read_values_from_page_levels_same_page_store d database database2 h
  obtain ⟨_, h2, _, h4, _⟩ := h
  simp only [libesedb_database_read_file_io_handle, libesedb_database_read_values_from_page,
    hlevels, h2, h4]

/-- Claim C17: for a fixed page store two consecutive runs of
`libesedb_database_read_file_io_handle` agree, and the database is left as it
was. The result of a run and the leaf values it visits (their order, their
counter values, their pages, indexes and contents), its page requests and its
final counter are the same from any two states, so in two consecutive runs, the
second started in the state the first one left. The outcome is a function of
the page store: a database that agrees on the last page number, the pages
vector, the validations and the parser gives the same result and state,
whatever its root page number, object identifier and pages cache. What the
`database` pointer points to after the call is what it pointed to before, in
every case of the pointer, and a run leaves nothing behind that a second run
could meet: the caches it created are released, each once, as are the page tree
values, and no event of the run names a cache that existed before it. Creating
a cache or a page tree value is taken to succeed. -/
theorem consecutive_runs_agree (d : Definitions) (database : libesedb_database)
    (s s2 : State) :
    ((libesedb_database_read_file_io_handle d database s2).1
        = (libesedb_database_read_file_io_handle d database s).1
      ∧ (libesedb_database_read_file_io_handle d database s2).2.leaf_value_index
        = (libesedb_database_read_file_io_handle d database s).2.leaf_value_index
      ∧ ∃ δ δ2,
        (libesedb_database_read_file_io_handle d database s).2.trace = s.trace ++ δ
        ∧ (libesedb_database_read_file_io_handle d database s2).2.trace = s2.trace ++ δ2
        ∧ leaf_events δ2 = leaf_events δ
        ∧ page_requests δ2 = page_requests δ)
    ∧ ((libesedb_database_read_file_io_handle d database
          (libesedb_database_read_file_io_handle d database s).2).1
        = (libesedb_database_read_file_io_handle d database s).1
      ∧ ∃ δ δ2,
        (libesedb_database_read_file_io_handle d database s).2.trace = s.trace ++ δ
        ∧ (libesedb_database_read_file_io_handle d database
            (libesedb_database_read_file_io_handle d database s).2).2.trace
          = (libesedb_database_read_file_io_handle d database s).2.trace ++ δ2
        ∧ leaf_events δ2 = leaf_events δ
        ∧ page_requests δ2 = page_requests δ)
    ∧ (∀ database2 : libesedb_database, same_page_store database database2 →
        libesedb_database_read_file_io_handle d database2 s
          = libesedb_database_read_file_io_handle d database s)
    ∧ (∀ pointer : Option (Option libesedb_page_tree),
        (libesedb_database_read_file_io_handle_pointer d pointer s).2.1 = pointer)
    ∧ libesedb_database_read_file_io_handle_pointer d (some (some database.page_tree)) s
      = ((libesedb_database_read_file_io_handle d database s).1,
         some (some database.page_tree),
         (libesedb_database_read_file_io_handle d database s).2)
    ∧ (libesedb_database_read_file_io_handle_pointer d
          (libesedb_database_read_file_io_handle_pointer d
            (some (some database.page_tree)) s).2.1
          (libesedb_database_read_file_io_handle_pointer d
            (some (some database.page_tree)) s).2.2).1
      = (libesedb_database_read_file_io_handle_pointer d
          (some (some database.page_tree)) s).1
    ∧ Balanced s (libesedb_database_read_file_io_handle d database s).2
    ∧ (∃ δ, (libesedb_database_read_file_io_handle d database s).2.trace = s.trace ++ δ
        ∧ ∀ e ∈ δ, ∀ cache, e.cache = some cache → s.next_cache ≤ cache) := by
  have hgen : ∀ a b : State,
      (libesedb_database_read_file_io_handle d database b).1
        = (libesedb_database_read_file_io_handle d database a).1
      ∧ (libesedb_database_read_file_io_handle d database b).2.leaf_value_index
        = (libesedb_database_read_file_io_handle d database a).2.leaf_value_index
      ∧ ∃ δ δ2,
        (libesedb_database_read_file_io_handle d database a).2.trace = a.trace ++ δ
        ∧ (libesedb_database_read_file_io_handle d database b).2.trace = b.trace ++ δ2
        ∧ leaf_events δ2 = leaf_events δ
        ∧ page_requests δ2 = page_requests δ := by
    intro a b
    obtain ⟨ha1, ha2, ha3⟩ := read_file_io_handle_trace d database a
    obtain ⟨hb1, hb2, hb3⟩ := read_file_io_handle_trace d database b
    obtain ⟨hres, hobs⟩ := read_file_io_handle_observed d database
      { a with trace := [] } { b with trace := [] } rfl
    refine ⟨by rw [ha1, hb1, hres], by rw [ha2, hb2, hobs.1], _, _, ha3, hb3, ?_, ?_⟩
    · rw [← leaf_events_observables, hobs.2, leaf_events_observables]
    · rw [← page_requests_observables, hobs.2, page_requests_observables]
  have hpointer : libesedb_database_read_file_io_handle_pointer d
        (some (some database.page_tree)) s
      = ((libesedb_database_read_file_io_handle d database s).1,
         some (some database.page_tree),
         (libesedb_database_read_file_io_handle d database s).2) := rfl
  obtain ⟨δ0, hδ0⟩ := read_file_io_handle_bracketed d database s
  refine ⟨hgen s s2, ?_, ?_, ?_, hpointer, ?_, bracketed_balanced _ _ _ hδ0, δ0, hδ0.trace, ?_⟩
  · obtain ⟨h1, _, δ, δ2, h3, h4, h5, h6⟩ := hgen s
      (libesedb_database_read_file_io_handle d database s).2
    exact ⟨h1, δ, δ2, h3, h4, h5, h6⟩
  · intro database2 hstore
    exact read_file_io_handle_same_page_store d database database2 hstore s
  · intro pointer
    cases pointer with
    | none => rfl
    | some content =>
      cases content with
      | none => rfl
      | some page_tree => rfl
  · rw [hpointer]
    exact (hgen s (libesedb_database_read_file_io_handle d database s).2).1
  · intro e he cache hcache
    cases hδ0.caches e he cache hcache with
    | inl hnone => cases hnone
    | inr hfresh => exact hfresh

/-- Claim C17, at a concrete input: two consecutive runs on the two-level tree
return 1 and visit the same four leaf values, and a database with the same page
store but another root page number, object identifier and pages cache gives
the same outcome. -/
theorem consecutive_runs_agree_witness :
    (libesedb_database_read_file_io_handle definitions (database_of 6 two_level_pages)
        (libesedb_database_read_file_io_handle definitions (database_of 6 two_level_pages)
          State.initial).2).1 = 1
    ∧ (libesedb_database_read_file_io_handle definitions (database_of 6 two_level_pages)
        State.initial).1 = 1
    ∧ libesedb_database_read_file_io_handle definitions
        { page_tree :=
          { (database_of 6 two_level_pages).page_tree with
            root_page_number := 9, object_identifier := 7, pages_cache := 5 } }
        State.initial
      = libesedb_database_read_file_io_handle definitions (database_of 6 two_level_pages)
          State.initial :=
  have h := consecutive_runs_agree definitions (database_of 6 two_level_pages) State.initial
    State.initial
  have hone : (libesedb_database_read_file_io_handle definitions
      (database_of 6 two_level_pages) State.initial).1 = 1 := by decide
  ⟨h.2.1.1.trans hone, hone,
    h.2.2.1 _ ⟨rfl, rfl, rfl, rfl, rfl⟩⟩

/-! ## The child page number -/

theorem byte_stream_copy_to_uint32_little_endian_cons (b0 b1 b2 b3 : Byte)
    (rest : List Byte) :
    byte_stream_copy_to_uint32_little_endian (b0 :: b1 :: b2 :: b3 :: rest)
      = b0.val + 256 * b1.val + 65536 * b2.val + 16777216 * b3.val := by
  simp only [byte_stream_copy_to_uint32_little_endian, List.getD_cons_zero,
    List.getD_cons_succ]
  omega

theorem entry_alike_of_replaced (d : Definitions) (database : libesedb_database)
    (page page2 : libesedb_page) (before after : List libesedb_page_value)
    (pv pv2 : libesedb_page_value) (ptv ptv2 : libesedb_page_tree_value)
    (hbranch : (page.flags % 2 ^ 32) &&& d.LIBESEDB_PAGE_FLAG_IS_LEAF = 0)
    (hvalues : page.values = before ++ pv :: after)
    (hvalues2 : page2.values = before ++ pv2 :: after)
    (hd : pv.flags &&& d.LIBESEDB_PAGE_TAG_FLAG_IS_DEFUNCT = 0)
    (hd2 : pv2.flags &&& d.LIBESEDB_PAGE_TAG_FLAG_IS_DEFUNCT = 0)
    (hp : database.page_tree.libesedb_page_tree_value_read_data pv.data pv.flags = some ptv)
    (hp2 : database.page_tree.libesedb_page_tree_value_read_data pv2.data pv2.flags
      = some ptv2)
    (hs : ¬ ptv.data_size < 4) (hs2 : ¬ ptv2.data_size < 4)
    (hchild : byte_stream_copy_to_uint32_little_endian ptv2.data
      = byte_stream_copy_to_uint32_little_endian ptv.data) :
    ∀ i : Nat, EntryAlike d database (page.flags % 2 ^ 32) (page.values[i]?)
      (page2.values[i]?) := by
  intro i
  rw [hvalues, hvalues2]
  rcases Nat.lt_trichotomy i before.length with hlt | heq | hgt
  · left
    rw [List.getElem?_append_left hlt, List.getElem?_append_left hlt]
  · subst heq
    right
    exact ⟨hbranch, pv, pv2, ptv, ptv2, getElem?_length_append_cons _ _ _,
      getElem?_length_append_cons _ _ _, hd, hd2, hp, hp2, hs, hs2, hchild⟩
  · left
    rw [List.getElem?_append_right (Nat.le_of_lt hgt),
      List.getElem?_append_right (Nat.le_of_lt hgt)]
    obtain ⟨k, hk⟩ : ∃ k, i - before.length = k + 1 := ⟨i - before.length - 1, by omega⟩
    rw [hk]
    rfl

theorem read_page_value_requests_child (d : Definitions) (database : libesedb_database)
    (page : libesedb_page) (page_flags c i : Nat) (s : State) (recursion_depth : Int)
    (pv : libesedb_page_value) (ptv : libesedb_page_tree_value)
    (hv : page.values[i]? = some pv)
    (hd : pv.flags &&& d.LIBESEDB_PAGE_TAG_FLAG_IS_DEFUNCT = 0)
    (hp : database.page_tree.libesedb_page_tree_value_read_data pv.data pv.flags = some ptv)
    (hl : page_flags &&& d.LIBESEDB_PAGE_FLAG_IS_LEAF = 0)
    (hs : ¬ ptv.data_size < 4)
    (hb : child_page_number_out_of_bounds d
      (byte_stream_copy_to_uint32_little_endian ptv.data) = false)
    (hr : byte_stream_copy_to_uint32_little_endian ptv.data > 0
      ∧ byte_stream_copy_to_uint32_little_endian ptv.data
        ≤ database.page_tree.io_handle.last_page_number) :
    ∃ events : List Event,
      (read_page_value d database
        (fun child_page s => libesedb_database_read_values_from_page d database child_page
          (recursion_depth + 1) s)
        page page_flags c i s).state.trace
      = s.trace ++
          [Event.get_value_by_index page.page_number i, Event.value_init,
           Event.read_data pv.data pv.flags,
           Event.get_element_value c
             (to_int d (byte_stream_copy_to_uint32_little_endian ptv.data) - 1)]
          ++ events := by
  cases hc : database.page_tree.pages_vector
      (to_int d (byte_stream_copy_to_uint32_little_endian ptv.data) - 1) with
  | none =>
    rw [read_page_value_load_failed _ _ _ _ _ _ _ _ _ _ hv hd hp hl hs hb hr hc]
    exact ⟨[], by simp [Step.state, State.emit, State.value_read]⟩
  | some cp =>
    cases hq : database.page_tree.libesedb_page_validate_page cp with
    | false =>
      rw [read_page_value_invalid _ _ _ _ _ _ _ _ _ _ _ hv hd hp hl hs hb hr hc hq]
      exact ⟨[Event.validate_page cp.page_number],
        by simp [Step.state, State.emit, State.value_read]⟩
    | true =>
      rw [read_page_value_descend _ _ _ _ _ _ _ _ _ _ _ hv hd hp hl hs hb hr hc hq]
      have ht := read_values_from_page_trace d database cp (recursion_depth + 1)
        (((s.value_read page i pv).emit
          (Event.get_element_value c
            (to_int d (byte_stream_copy_to_uint32_little_endian ptv.data) - 1))).emit
          (Event.validate_page cp.page_number))
      obtain ⟨δ, hδ⟩ : ∃ δ, (libesedb_database_read_values_from_page d database cp
          (recursion_depth + 1)
          (((s.value_read page i pv).emit
            (Event.get_element_value c
              (to_int d (byte_stream_copy_to_uint32_little_endian ptv.data) - 1))).emit
            (Event.validate_page cp.page_number))).2.trace
          = (((s.value_read page i pv).emit
            (Event.get_element_value c
              (to_int d (byte_stream_copy_to_uint32_little_endian ptv.data) - 1))).emit
            (Event.validate_page cp.page_number)).trace ++ δ := ⟨_, ht⟩
      split
      · refine ⟨Event.validate_page cp.page_number :: δ, ?_⟩
        simp only [Step.state]
        rw [hδ]
        simp [State.emit, State.value_read]
      · refine ⟨Event.validate_page cp.page_number :: (δ ++ [Event.value_free]), ?_⟩
        have hfree : ∀ st : State,
            (st.emit Event.value_free).trace = st.trace ++ [Event.value_free] := fun _ => rfl
        simp only [Step.state]
        rw [hfree, hδ]
        simp [State.emit, State.value_read]

/-- Claim C15: on a branch page the child page number of an entry is the
little-endian value of the first four bytes of its parsed data, and the page the
entry requests is the element at that number minus one. Two pages that differ in
one entry only, the two entries not defunct and parsed to data with the same
first four bytes, give the same result, the same counter, the same page requests
and the same leaf values: the bytes after the fourth are not looked at. -/
theorem child_page_number_little_endian (d : Definitions) (database : libesedb_database)
    (page page2 : libesedb_page) (before after : List libesedb_page_value)
    (pv pv2 : libesedb_page_value) (ptv ptv2 : libesedb_page_tree_value)
    (b0 b1 b2 b3 : Byte) (rest rest2 : List Byte) (recursion_depth : Int) (s : State)
    (hnumber : page2.page_number = page.page_number)
    (hflags : page2.flags = page.flags)
    (hbranch : (page.flags % 2 ^ 32) &&& d.LIBESEDB_PAGE_FLAG_IS_LEAF = 0)
    (hvalues : page.values = before ++ pv :: after)
    (hvalues2 : page2.values = before ++ pv2 :: after)
    (hd : pv.flags &&& d.LIBESEDB_PAGE_TAG_FLAG_IS_DEFUNCT = 0)
    (hd2 : pv2.flags &&& d.LIBESEDB_PAGE_TAG_FLAG_IS_DEFUNCT = 0)
    (hp : database.page_tree.libesedb_page_tree_value_read_data pv.data pv.flags = some ptv)
    (hp2 : database.page_tree.libesedb_page_tree_value_read_data pv2.data pv2.flags
      = some ptv2)
    (hdata : ptv.data = b0 :: b1 :: b2 :: b3 :: rest)
    (hdata2 : ptv2.data = b0 :: b1 :: b2 :: b3 :: rest2) :
    byte_stream_copy_to_uint32_little_endian ptv.data
      = b0.val + 256 * b1.val + 65536 * b2.val + 16777216 * b3.val
    ∧ byte_stream_copy_to_uint32_little_endian ptv2.data
      = b0.val + 256 * b1.val + 65536 * b2.val + 16777216 * b3.val
    ∧ (∀ (child_page_cache : Nat) (s2 : State),
        child_page_number_out_of_bounds d
          (b0.val + 256 * b1.val + 65536 * b2.val + 16777216 * b3.val) = false →
        (b0.val + 256 * b1.val + 65536 * b2.val + 16777216 * b3.val > 0
          ∧ b0.val + 256 * b1.val + 65536 * b2.val + 16777216 * b3.val
            ≤ database.page_tree.io_handle.last_page_number) →
        ∃ events : List Event,
          (read_page_value d database
            (fun child_page s => libesedb_database_read_values_from_page d database
              child_page (recursion_depth + 1) s)
            page (page.flags % 2 ^ 32) child_page_cache before.length s2).state.trace
          = s2.trace ++
              [Event.get_value_by_index page.page_number before.length, Event.value_init,
               Event.read_data pv.data pv.flags,
               Event.get_element_value child_page_cache
                 (to_int d (b0.val + 256 * b1.val + 65536 * b2.val + 16777216 * b3.val)
                   - 1)]
              ++ events)
    ∧ (libesedb_database_read_values_from_page d database page2 recursion_depth s).1
      = (libesedb_database_read_values_from_page d database page recursion_depth s).1
    ∧ (libesedb_database_read_values_from_page d database page2 recursion_depth
        s).2.leaf_value_index
      = (libesedb_database_read_values_from_page d database page recursion_depth
          s).2.leaf_value_index
    ∧ page_requests
        (libesedb_database_read_values_from_page d database page2 recursion_depth s).2.trace
      = page_requests
          (libesedb_database_read_values_from_page d database page recursion_depth s).2.trace
    ∧ leaf_events
        (libesedb_database_read_values_from_page d database page2 recursion_depth s).2.trace
      = leaf_events
          (libesedb_database_read_values_from_page d database page recursion_depth
            s).2.trace := by
  have hN := byte_stream_copy_to_uint32_little_endian_cons b0 b1 b2 b3 rest
  have hN2 := byte_stream_copy_to_uint32_little_endian_cons b0 b1 b2 b3 rest2
  rw [← hdata] at hN
  rw [← hdata2] at hN2
  have hs : ¬ ptv.data_size < 4 := by
    simp [libesedb_page_tree_value.data_size, hdata]
  have hs2 : ¬ ptv2.data_size < 4 := by
    simp [libesedb_page_tree_value.data_size, hdata2]
  have halike := entry_alike_of_replaced d database page page2 before after pv pv2 ptv ptv2
    hbranch hvalues hvalues2 hd hd2 hp hp2 hs hs2 (hN2.trans hN.symm)
  obtain ⟨hres, hobs⟩ := read_values_from_page_observed d database page page2
    recursion_depth s s hnumber hflags (by rw [hvalues, hvalues2]; simp) halike
    (observed_refl s)
  refine ⟨hN, hN2, ?_, hres, hobs.1, ?_, ?_⟩
  · intro c s2 hb hr
    rw [← hN] at hb hr ⊢
    exact read_page_value_requests_child d database page (page.flags % 2 ^ 32) c
      before.length s2 recursion_depth pv ptv
      (by rw [hvalues]; exact getElem?_length_append_cons _ _ _) hd hp hbranch hs hb hr
  · rw [← page_requests_observables, hobs.2, page_requests_observables]
  · rw [← leaf_events_observables, hobs.2, leaf_events_observables]

theorem child_page_number_little_endian_witness :
    byte_stream_copy_to_uint32_little_endian [5, 0, 0, 0, 9, 9] = 5
    ∧ (libesedb_database_read_values_from_page definitions (database_of 6 two_level_pages)
          { page_number := 4, flags := 5,
            values := [root_tag, { data := [0, 0, 5, 0, 0, 0, 9, 9], flags := 0 },
              branch_value 6 0 0 0] }
          0 State.initial).1
        = (libesedb_database_read_values_from_page definitions
            (database_of 6 two_level_pages)
            { page_number := 4, flags := 5,
              values := [root_tag, branch_value 5 0 0 0, branch_value 6 0 0 0] }
            0 State.initial).1
    ∧ page_requests (libesedb_database_read_values_from_page definitions
          (database_of 6 two_level_pages)
          { page_number := 4, flags := 5,
            values := [root_tag, { data := [0, 0, 5, 0, 0, 0, 9, 9], flags := 0 },
              branch_value 6 0 0 0] }
          0 State.initial).2.trace
        = page_requests (libesedb_database_read_values_from_page definitions
            (database_of 6 two_level_pages)
            { page_number := 4, flags := 5,
              values := [root_tag, branch_value 5 0 0 0, branch_value 6 0 0 0] }
            0 State.initial).2.trace
    ∧ leaf_events (libesedb_database_read_values_from_page definitions
          (database_of 6 two_level_pages)
          { page_number := 4, flags := 5,
            values := [root_tag, { data := [0, 0, 5, 0, 0, 0, 9, 9], flags := 0 },
              branch_value 6 0 0 0] }
          0 State.initial).2.trace
        = leaf_events (libesedb_database_read_values_from_page definitions
            (database_of 6 two_level_pages)
            { page_number := 4, flags := 5,
              values := [root_tag, branch_value 5 0 0 0, branch_value 6 0 0 0] }
            0 State.initial).2.trace :=
  have h := child_page_number_little_endian definitions (database_of 6 two_level_pages)
    { page_number := 4, flags := 5,
      values := [root_tag, branch_value 5 0 0 0, branch_value 6 0 0 0] }
    { page_number := 4, flags := 5,
      values := [root_tag, { data := [0, 0, 5, 0, 0, 0, 9, 9], flags := 0 },
        branch_value 6 0 0 0] }
    [root_tag] [branch_value 6 0 0 0] (branch_value 5 0 0 0)
    { data := [0, 0, 5, 0, 0, 0, 9, 9], flags := 0 }
    { common_key_size := 0, local_key := [], data := [5, 0, 0, 0] }
    { common_key_size := 0, local_key := [], data := [5, 0, 0, 0, 9, 9] }
    5 0 0 0 [] [9, 9] 0 State.initial rfl rfl (by decide) rfl rfl (by decide) (by decide)
    (by decide) (by decide) rfl rfl
  ⟨h.2.1, h.2.2.2.1, h.2.2.2.2.2.1, h.2.2.2.2.2.2⟩

/-! ## Creating and freeing a database: outcomes -/

/-- Claim C21: `libesedb_database_initialize` returns -1 without a call when
`database` is `NULL` and when `*database` is set already, which it leaves as it
is. From `*database` at `NULL` the result is 1 or -1. When it is not 1,
`*database` is `NULL` on return, and the memory that was allocated has been
freed when clearing it or creating the page tree failed. When it is 1,
`*database` points at the new memory, whose page tree is the one
`libesedb_page_tree_initialize` made for
`LIBESEDB_FDP_OBJECT_IDENTIFIER_DATABASE` with no table definition and no
template table definition. -/
theorem database_created_or_null (d : Definitions) (library : Library)
    (io_handle pages_vector pages_cache : Nat) :
    libesedb_database_initialize d library none io_handle pages_vector pages_cache
      = (-1, none, [])
    ∧ (∀ block : database_block,
        libesedb_database_initialize d library (some (some block)) io_handle pages_vector
            pages_cache
          = (-1, some (some block), []))
    ∧ (( libesedb_database_initialize d library (some none) io_handle pages_vector
          pages_cache).1 = 1
      ∨ ( libesedb_database_initialize d library (some none) io_handle pages_vector
          pages_cache).1 = -1)
    ∧ (( libesedb_database_initialize d library (some none) io_handle pages_vector
          pages_cache).1 ≠ 1 →
        ( libesedb_database_initialize d library (some none) io_handle pages_vector
          pages_cache).2.1 = some none)
    ∧ (∀ address : Nat, library.memory_allocate_structure = some address →
        (library.memory_set = false
          ∨ library.libesedb_page_tree_initialize
              { io_handle := io_handle
                pages_vector := pages_vector
                pages_cache := pages_cache
                object_identifier := d.LIBESEDB_FDP_OBJECT_IDENTIFIER_DATABASE
                table_definition := none
                template_table_definition := none } = none) →
        ( libesedb_database_initialize d library (some none) io_handle pages_vector
          pages_cache).1 = -1
        ∧ ( libesedb_database_initialize d library (some none) io_handle pages_vector
          pages_cache).2.1 = some none
        ∧ ( libesedb_database_initialize d library (some none) io_handle pages_vector
          pages_cache).2.2.getLast? = some (MemoryEvent.memory_free address))
    ∧ (( libesedb_database_initialize d library (some none) io_handle pages_vector
          pages_cache).1 = 1 →
        ∃ address page_tree : Nat,
          library.memory_allocate_structure = some address
          ∧ library.memory_set = true
          ∧ library.libesedb_page_tree_initialize
              { io_handle := io_handle
                pages_vector := pages_vector
                pages_cache := pages_cache
                object_identifier := d.LIBESEDB_FDP_OBJECT_IDENTIFIER_DATABASE
                table_definition := none
                template_table_definition := none } = some page_tree
          ∧ libesedb_database_initialize d library (some none) io_handle pages_vector
              pages_cache
            = (1, some (some { address := address, page_tree := some page_tree }),
                [MemoryEvent.memory_allocate_structure, MemoryEvent.memory_set address,
                 MemoryEvent.page_tree_init
                   { io_handle := io_handle
                     pages_vector := pages_vector
                     pages_cache := pages_cache
                     object_identifier := d.LIBESEDB_FDP_OBJECT_IDENTIFIER_DATABASE
                     table_definition := none
                     template_table_definition := none }])) := by
  refine ⟨rfl, fun _ => rfl, ?_, ?_, ?_, ?_⟩
  · unfold libesedb_database_initialize
    cases library.memory_allocate_structure with
    | none => simp
    | some address =>
      cases library.memory_set with
      | false => simp
      | true =>
        simp only [Bool.true_eq_false, if_false]
        cases library.libesedb_page_tree_initialize _ <;> simp
  · unfold libesedb_database_initialize
    cases library.memory_allocate_structure with
    | none => simp
    | some address =>
      cases library.memory_set with
      | false => simp
      | true =>
        simp only [Bool.true_eq_false, if_false]
        cases library.libesedb_page_tree_initialize _ <;> simp
  · intro address halloc hfail
    unfold libesedb_database_initialize
    simp only [halloc]
    cases hset : library.memory_set with
    | false => simp
    | true =>
      rcases hfail with hfail | hfail
      · rw [hset] at hfail
        cases hfail
      · simp [hfail]
  · unfold libesedb_database_initialize
    cases halloc : library.memory_allocate_structure with
    | none => simp
    | some address =>
      cases hset : library.memory_set with
      | false => simp
      | true =>
        simp only [Bool.true_eq_false, if_false]
        cases htree : library.libesedb_page_tree_initialize
            { io_handle := io_handle
              pages_vector := pages_vector
              pages_cache := pages_cache
              object_identifier := d.LIBESEDB_FDP_OBJECT_IDENTIFIER_DATABASE
              table_definition := none
              template_table_definition := none } with
        | none => simp
        | some page_tree =>
          intro _
          refine ⟨address, page_tree, ?_, ?_, ?_, ?_⟩ <;> first | rfl | trivial

/-- Claim C22: `libesedb_database_free` returns -1 without a call when `database`
is `NULL`; when `*database` is `NULL` it returns 1 without a call and leaves
`*database` at `NULL`, so that a second call after a first one does nothing;
when `*database` is set it frees the page tree and the memory, in this order,
leaves `*database` at `NULL`, and returns -1 when freeing the page tree failed
and 1 when it did not. -/
theorem database_freed (library : Library) :
    libesedb_database_free library none = (-1, none, [])
    ∧ libesedb_database_free library (some none) = (1, some none, [])
    ∧ (∀ block : database_block,
        (libesedb_database_free library (some (some block))).2.1 = some none
        ∧ (libesedb_database_free library (some (some block))).2.2
          = [MemoryEvent.page_tree_free block.page_tree,
             MemoryEvent.memory_free block.address]
        ∧ ((libesedb_database_free library (some (some block))).1 = -1
          ↔ library.libesedb_page_tree_free block.page_tree = false)
        ∧ ((libesedb_database_free library (some (some block))).1 = 1
          ↔ library.libesedb_page_tree_free block.page_tree = true))
    ∧ (∀ database : Option database_block,
        libesedb_database_free library
            (libesedb_database_free library (some database)).2.1
          = (1, some none, [])) := by
  refine ⟨rfl, rfl, ?_, ?_⟩
  · intro block
    refine ⟨rfl, rfl, ?_, ?_⟩
    · simp only [libesedb_database_free]
      cases library.libesedb_page_tree_free block.page_tree <;> simp
    · simp only [libesedb_database_free]
      cases library.libesedb_page_tree_free block.page_tree <;> simp
  · intro database
    cases database <;> rfl

/-! ## Termination -/

theorem read_page_value_events_bound (d : Definitions) (database : libesedb_database)
    (descend : libesedb_page → State → Int × State) (bound : Nat)
    (hdesc : ∀ child_page s, (descend child_page s).2.trace.length ≤ s.trace.length + bound)
    (page : libesedb_page) (page_flags child_page_cache page_value_index : Nat) (s : State) :
    (read_page_value d database descend page page_flags child_page_cache page_value_index
        s).state.trace.length + (read_page_value d database descend page page_flags
          child_page_cache page_value_index s).live_values.toNat
      ≤ s.trace.length + (6 + bound) := by
  apply read_page_value_cases d database descend page page_flags child_page_cache
    page_value_index s
    (fun st => st.state.trace.length + st.live_values.toNat ≤ s.trace.length + (6 + bound))
  · intro _
    simp [Step.state, Step.live_values, State.emit]
    omega
  · intro pv _ _
    simp [Step.state, Step.live_values, State.emit]
    omega
  · intro pv _ _ _
    simp [Step.state, Step.live_values, State.emit, State.value_read]
    omega
  · intro pv ptv _ _ _ _
    simp [Step.state, Step.live_values, State.emit, State.value_read]
    omega
  · intro pv ptv _ _ _ _ _
    simp [Step.state, Step.live_values, State.emit, State.value_read]
    omega
  · intro pv ptv _ _ _ _ _ _
    simp [Step.state, Step.live_values, State.emit, State.value_read]
    omega
  · intro pv ptv _ _ _ _ _ _ _
    simp [Step.state, Step.live_values, State.emit, State.value_read]
    omega
  · intro pv ptv _ _ _ _ _ _ _ _
    simp [Step.state, Step.live_values, State.emit, State.value_read]
    omega
  · intro pv ptv cp _ _ _ _ _ _ _ _ _
    simp [Step.state, Step.live_values, State.emit, State.value_read]
    omega
  · intro pv ptv cp _ _ _ _ _ _ _ _ _
    have h := hdesc cp
      (((s.value_read page page_value_index pv).emit
        (Event.get_element_value child_page_cache
          (to_int d (byte_stream_copy_to_uint32_little_endian ptv.data) - 1))).emit
        (Event.validate_page cp.page_number))
    have hlen : (((s.value_read page page_value_index pv).emit
        (Event.get_element_value child_page_cache
          (to_int d (byte_stream_copy_to_uint32_little_endian ptv.data) - 1))).emit
        (Event.validate_page cp.page_number)).trace.length = s.trace.length + 5 := by
      simp [State.emit, State.value_read]
    split
    · simp only [Step.state, Step.live_values, if_true]
      have : (1 : Int).toNat = 1 := rfl
      omega
    · have hfree : ∀ st : State,
          (st.emit Event.value_free).trace.length = st.trace.length + 1 := fun st => by
        simp [State.emit]
      simp only [Step.state, Step.live_values, hfree]
      have : (0 : Int).toNat = 0 := rfl
      omega

theorem read_page_values_events_bound (d : Definitions) (database : libesedb_database)
    (descend : libesedb_page → State → Int × State) (bound : Nat)
    (hdesc : ∀ child_page s, (descend child_page s).2.trace.length ≤ s.trace.length + bound)
    (page : libesedb_page) (page_flags child_page_cache : Nat) :
    ∀ (remaining page_value_index : Nat) (s : State),
      (read_page_values d database descend page page_flags child_page_cache remaining
          page_value_index s).state.trace.length
        + (read_page_values d database descend page page_flags child_page_cache remaining
          page_value_index s).live_values.toNat
        ≤ s.trace.length + remaining * (6 + bound) := by
  intro remaining
  induction remaining with
  | zero =>
    intro i s
    simp [read_page_values, Step.state, Step.live_values]
  | succ n ih =>
    intro i s
    have h1 := read_page_value_events_bound d database descend bound hdesc page page_flags
      child_page_cache i s
    cases hstep : read_page_value d database descend page page_flags child_page_cache i s with
    | next s1 =>
      rw [hstep] at h1
      have h2 := ih ((i + 1) % 2 ^ 16) s1
      simp only [Step.state, Step.live_values] at h1
      have hmul : (n + 1) * (6 + bound) = n * (6 + bound) + (6 + bound) := by ring
      simp only [read_page_values, hstep]
      omega
    | on_error live s1 =>
      rw [hstep] at h1
      have hmul : (n + 1) * (6 + bound) = n * (6 + bound) + (6 + bound) := by ring
      simp only [read_page_values, hstep]
      omega

theorem read_values_from_page_frame_events_bound (d : Definitions)
    (database : libesedb_database)
    (descend : libesedb_page → State → Int × State) (bound : Nat)
    (hdesc : ∀ child_page s, (descend child_page s).2.trace.length ≤ s.trace.length + bound)
    (page : libesedb_page) (s : State) :
    (read_values_from_page_frame d database descend page s).2.trace.length
      ≤ s.trace.length + (5 + 65534 * (6 + bound)) := by
  by_cases hne : page.values.length = 0
  · simp only [read_values_from_page_frame, libesedb_page_get_number_of_values, hne, if_true]
    simp [State.emit]
    omega
  · have hfit := page.number_of_values_fits
    rw [read_values_from_page_frame_eq d database descend page s hne]
    have hloop := read_page_values_events_bound d database descend bound hdesc page
      (page.flags % 2 ^ 32) s.next_cache (page.values.length - 1) 1 (s.enter_loop page)
    have hstart : (s.enter_loop page).trace.length = s.trace.length + 3 := by
      simp [State.enter_loop, State.emit]
    have hmul : (page.values.length - 1) * (6 + bound) ≤ 65534 * (6 + bound) :=
      Nat.mul_le_mul_right _ (by omega)
    cases hst : read_page_values d database descend page (page.flags % 2 ^ 32) s.next_cache
        (page.values.length - 1) 1 (s.enter_loop page) with
    | next s2 =>
      rw [hst] at hloop
      simp only [Step.state, Step.live_values] at hloop
      simp only [leave_loop, State.emit, List.length_append, List.length_singleton]
      omega
    | on_error live s2 =>
      rw [hst] at hloop
      cases live with
      | false =>
        simp only [Step.state, Step.live_values] at hloop
        simp [leave_loop, on_error, State.emit]
        omega
      | true =>
        simp only [Step.state, Step.live_values, if_true] at hloop
        have : (1 : Int).toNat = 1 := rfl
        simp [leave_loop, on_error, State.emit]
        omega

theorem read_values_from_page_levels_events_bound (d : Definitions)
    (database : libesedb_database) (levels : Nat) :
    ∀ (page : libesedb_page) (recursion_depth : Int) (s : State),
      (read_values_from_page_levels d database levels page recursion_depth s).2.trace.length
        ≤ s.trace.length + walk_events_bound levels := by
  induction levels with
  | zero =>
    intro page depth s
    simp [read_values_from_page_levels]
  | succ n ih =>
    intro page depth s
    simp only [read_values_from_page_levels, read_values_from_page_body, walk_events_bound]
    split
    · exact Nat.le_add_right _ _
    · exact read_values_from_page_frame_events_bound d database _ _
        (fun child_page s2 => ih child_page (depth + 1) s2) page s

theorem read_values_from_page_unique (d : Definitions) (database : libesedb_database)
    (walk : libesedb_page → Int → State → Int × State)
    (hwalk : ∀ page recursion_depth s,
      walk page recursion_depth s
        = read_values_from_page_body d database
            (fun child_page s => walk child_page (recursion_depth + 1) s)
            page recursion_depth s) :
    ∀ (levels : Nat) (recursion_depth : Int),
      ((d.LIBESEDB_MAXIMUM_INDEX_NODE_RECURSION_DEPTH : Int) + 1 - recursion_depth).toNat
        = levels →
      ∀ page s, walk page recursion_depth s
        = libesedb_database_read_values_from_page d database page recursion_depth s := by
  intro levels
  induction levels with
  | zero =>
    intro depth hlev page s
    have hguard : depth < 0 ∨ depth > d.LIBESEDB_MAXIMUM_INDEX_NODE_RECURSION_DEPTH := by
      omega
    rw [hwalk, read_values_from_page_out_of_bounds d database page depth s hguard]
    simp [read_values_from_page_body, hguard]
  | succ n ih =>
    intro depth hlev page s
    by_cases hguard : depth < 0 ∨ depth > d.LIBESEDB_MAXIMUM_INDEX_NODE_RECURSION_DEPTH
    · rw [hwalk, read_values_from_page_out_of_bounds d database page depth s hguard]
      simp [read_values_from_page_body, hguard]
    · have hnext : ((d.LIBESEDB_MAXIMUM_INDEX_NODE_RECURSION_DEPTH : Int) + 1
          - (depth + 1)).toNat = n := by omega
      have hsame : (fun child_page s => walk child_page (depth + 1) s)
          = (fun child_page s => libesedb_database_read_values_from_page d database
              child_page (depth + 1) s) := by
        funext child_page s2
        exact ih (depth + 1) hnext child_page s2
      rw [hwalk, hsame, ← read_values_from_page_eq]

/-- Claim C23: the walk ends on every page store. The embedding, a recursion on
the levels left, `LIBESEDB_MAXIMUM_INDEX_NODE_RECURSION_DEPTH + 1 - recursion_depth`,
is the function of the source: it is its own body with the nested call at
`recursion_depth + 1`, and it is the only function that is; a call deeper than
the maximum returns -1 at once; and whatever the pages, cyclic or not, a call
makes no more calls than a bound that depends on the depth limit only, each
frame making at most 65534 passes. -/
theorem walk_terminates (d : Definitions) (database : libesedb_database) :
    (∀ (page : libesedb_page) (recursion_depth : Int) (s : State),
      libesedb_database_read_values_from_page d database page recursion_depth s
        = read_values_from_page_body d database
            (fun child_page s => libesedb_database_read_values_from_page d database
              child_page (recursion_depth + 1) s)
            page recursion_depth s)
    ∧ (∀ walk : libesedb_page → Int → State → Int × State,
        (∀ page recursion_depth s,
          walk page recursion_depth s
            = read_values_from_page_body d database
                (fun child_page s => walk child_page (recursion_depth + 1) s)
                page recursion_depth s) →
        walk = libesedb_database_read_values_from_page d database)
    ∧ (∀ (page : libesedb_page) (recursion_depth : Int) (s : State),
        recursion_depth > d.LIBESEDB_MAXIMUM_INDEX_NODE_RECURSION_DEPTH →
        libesedb_database_read_values_from_page d database page recursion_depth s = (-1, s))
    ∧ (∀ (descend : libesedb_page → State → Int × State) (page : libesedb_page) (s : State),
        page.values.length ≠ 0 →
        page.values.length - 1 ≤ 65534
        ∧ read_values_from_page_frame d database descend page s
          = leave_loop s.next_cache
              (read_page_values d database descend page (page.flags % 2 ^ 32) s.next_cache
                (page.values.length - 1) 1 (s.enter_loop page)))
    ∧ (∀ (page : libesedb_page) (recursion_depth : Int) (s : State),
        (libesedb_database_read_values_from_page d database page recursion_depth
            s).2.trace.length
          ≤ s.trace.length + walk_events_bound
              ((d.LIBESEDB_MAXIMUM_INDEX_NODE_RECURSION_DEPTH : Int) + 1
                - recursion_depth).toNat)
    ∧ (∀ s : State,
        (libesedb_database_read_file_io_handle d database s).2.trace.length
          ≤ s.trace.length + 4
              + walk_events_bound (d.LIBESEDB_MAXIMUM_INDEX_NODE_RECURSION_DEPTH + 1)) := by
  refine ⟨read_values_from_page_eq d database, ?_, ?_, ?_, ?_, ?_⟩
  · intro walk hwalk
    funext page depth s
    exact read_values_from_page_unique d database walk hwalk _ depth rfl page s
  · intro page depth s h
    exact read_values_from_page_out_of_bounds d database page depth s (Or.inr h)
  · intro descend page s hne
    have hfit := page.number_of_values_fits
    exact ⟨by omega, read_values_from_page_frame_eq d database descend page s hne⟩
  · intro page depth s
    exact read_values_from_page_levels_events_bound d database _ page depth s
  · intro s
    have hlevels : ((d.LIBESEDB_MAXIMUM_INDEX_NODE_RECURSION_DEPTH : Int) + 1 - 0).toNat
        = d.LIBESEDB_MAXIMUM_INDEX_NODE_RECURSION_DEPTH + 1 := by omega
    cases hvec :
        database.page_tree.pages_vector (to_int d d.LIBESEDB_PAGE_NUMBER_DATABASE - 1) with
    | none =>
      rw [read_file_io_handle_not_fetched d database s hvec]
      simp only [State.fetch_root, State.emit, List.length_append, List.length_singleton]
      omega
    | some root_page =>
      cases hval : database.page_tree.libesedb_page_validate_root_page root_page with
      | false =>
        rw [read_file_io_handle_invalid d database s root_page hvec hval]
        simp only [State.fetch_root, State.emit, List.length_append, List.length_singleton]
        omega
      | true =>
        rw [read_file_io_handle_walk d database s root_page hvec hval]
        have h := read_values_from_page_levels_events_bound d database
          (d.LIBESEDB_MAXIMUM_INDEX_NODE_RECURSION_DEPTH + 1) root_page 0
          ((s.fetch_root d).emit (Event.validate_root_page root_page.page_number))
        have hstart : ((s.fetch_root d).emit
            (Event.validate_root_page root_page.page_number)).trace.length
            = s.trace.length + 3 := by
          simp [State.fetch_root, State.emit]
        have hfree : ∀ st : State,
            (st.emit (Event.cache_free s.next_cache)).trace.length = st.trace.length + 1 :=
          fun st => by simp [State.emit]
        simp only [libesedb_database_read_values_from_page, hlevels, hfree]
        omega

/-! ## The index of a child page -/

theorem byte_stream_copy_to_uint32_little_endian_lt (data : List Byte) :
    byte_stream_copy_to_uint32_little_endian data < 2 ^ 32 := by
  have h0 := (data.getD 0 0).isLt
  have h1 := (data.getD 1 0).isLt
  have h2 := (data.getD 2 0).isLt
  have h3 := (data.getD 3 0).isLt
  simp only [byte_stream_copy_to_uint32_little_endian]
  omega

theorem to_int_of_lt (d : Definitions) (n : Nat) (h : n < 2 ^ (8 * d.SIZEOF_INT - 1)) :
    to_int d n = (n : Int) := by
  have hle : 2 ^ (8 * d.SIZEOF_INT - 1) ≤ 2 ^ (8 * d.SIZEOF_INT) :=
    Nat.pow_le_pow_right (by decide) (Nat.sub_le _ _)
  have hmod : n % 2 ^ (8 * d.SIZEOF_INT) = n := Nat.mod_eq_of_lt (by omega)
  simp only [to_int, hmod]
  rw [if_neg (by omega)]

theorem child_page_number_in_bounds (d : Definitions) (n : Nat) (hn : n < 2 ^ 32)
    (hb : child_page_number_out_of_bounds d n = false) :
    1 ≤ n ∧ n ≤ INT_MAX d ∧ to_int d n = (n : Int) := by
  unfold child_page_number_out_of_bounds at hb
  by_cases hsize : d.SIZEOF_INT ≤ 4
  · simp only [hsize, if_true, Bool.or_eq_false_iff, decide_eq_false_iff_not] at hb
    have hmod : INT_MAX d % 2 ^ 32 ≤ INT_MAX d := Nat.mod_le _ _
    have hmax : n ≤ INT_MAX d := by omega
    have hlt : n < 2 ^ (8 * d.SIZEOF_INT - 1) := by
      unfold INT_MAX at hmax
      omega
    exact ⟨by omega, hmax, to_int_of_lt d n hlt⟩
  · simp only [hsize, if_false, Bool.or_eq_false_iff, decide_eq_false_iff_not] at hb
    have hpow : 2 ^ 32 ≤ 2 ^ (8 * d.SIZEOF_INT - 1) :=
      Nat.pow_le_pow_right (by decide) (by omega)
    have hlt : n < 2 ^ (8 * d.SIZEOF_INT - 1) := by omega
    refine ⟨by omega, ?_, to_int_of_lt d n hlt⟩
    unfold INT_MAX
    omega

theorem exact_index_of_guards (d : Definitions) (database : libesedb_database)
    (data : List Byte)
    (hb : child_page_number_out_of_bounds d
      (byte_stream_copy_to_uint32_little_endian data) = false)
    (hr : byte_stream_copy_to_uint32_little_endian data > 0
      ∧ byte_stream_copy_to_uint32_little_endian data
        ≤ database.page_tree.io_handle.last_page_number) :
    ExactIndex d database (to_int d (byte_stream_copy_to_uint32_little_endian data) - 1) := by
  obtain ⟨h1, h2, h3⟩ := child_page_number_in_bounds d _
    (byte_stream_copy_to_uint32_little_endian_lt data) hb
  exact ⟨_, h1, hr.2, h2, h3, by rw [h3], by rw [h3]; omega⟩

theorem requests_exact_refl (d : Definitions) (database : libesedb_database) (s : State) :
    RequestsExact d database s s :=
  ⟨[], by simp, by simp⟩

theorem requests_exact_trans (d : Definitions) (database : libesedb_database)
    (s s2 s3 : State) (h1 : RequestsExact d database s s2)
    (h2 : RequestsExact d database s2 s3) : RequestsExact d database s s3 := by
  obtain ⟨a, ha, hqa⟩ := h1
  obtain ⟨b, hb, hqb⟩ := h2
  refine ⟨a ++ b, by rw [hb, ha, List.append_assoc], ?_⟩
  intro c idx hmem
  rcases List.mem_append.mp hmem with hmem | hmem
  · exact hqa c idx hmem
  · exact hqb c idx hmem

theorem requests_exact_emit (d : Definitions) (database : libesedb_database) (s : State)
    (e : Event)
    (he : ∀ cache element_index, e = Event.get_element_value cache element_index →
      ExactIndex d database element_index) :
    RequestsExact d database s (s.emit e) := by
  refine ⟨[e], rfl, ?_⟩
  intro c idx hmem
  exact he c idx (List.mem_singleton.mp hmem).symm

theorem requests_exact_value_read (d : Definitions) (database : libesedb_database)
    (s : State) (page : libesedb_page) (i : Nat) (pv : libesedb_page_value) :
    RequestsExact d database s (s.value_read page i pv) := by
  unfold State.value_read
  exact requests_exact_trans d database _ _ _
    (requests_exact_trans d database _ _ _
      (requests_exact_emit d database _ _ (fun _ _ h => by cases h))
      (requests_exact_emit d database _ _ (fun _ _ h => by cases h)))
    (requests_exact_emit d database _ _ (fun _ _ h => by cases h))

theorem requests_exact_same_trace (d : Definitions) (database : libesedb_database)
    (s s2 s3 : State) (h : RequestsExact d database s s2) (ht : s3.trace = s2.trace) :
    RequestsExact d database s s3 := by
  obtain ⟨δ, hδ, hq⟩ := h
  exact ⟨δ, by rw [ht, hδ], hq⟩

theorem read_page_value_requests_exact (d : Definitions) (database : libesedb_database)
    (descend : libesedb_page → State → Int × State)
    (hdesc : ∀ child_page s, RequestsExact d database s (descend child_page s).2)
    (page : libesedb_page) (page_flags child_page_cache page_value_index : Nat) (s : State) :
    RequestsExact d database s
      (read_page_value d database descend page page_flags child_page_cache page_value_index
        s).state := by
  apply read_page_value_cases d database descend page page_flags child_page_cache
    page_value_index s (fun st => RequestsExact d database s st.state)
  · intro _
    exact requests_exact_emit d database _ _ (fun _ _ h => by cases h)
  · intro pv _ _
    exact requests_exact_emit d database _ _ (fun _ _ h => by cases h)
  · intro pv _ _ _
    exact requests_exact_value_read d database s page page_value_index pv
  · intro pv ptv _ _ _ _
    exact requests_exact_same_trace d database _ _ _
      (requests_exact_trans d database _ _ _
        (requests_exact_trans d database _ _ _
          (requests_exact_value_read d database s page page_value_index pv)
          (requests_exact_emit d database _
            (Event.leaf_value s.leaf_value_index page.page_number page_value_index ptv)
            (fun _ _ h => by cases h)))
        (requests_exact_emit d database _ Event.value_free (fun _ _ h => by cases h)))
      (by simp [Step.state, State.emit])
  · intro pv ptv _ _ _ _ _
    exact requests_exact_value_read d database s page page_value_index pv
  · intro pv ptv _ _ _ _ _ _
    exact requests_exact_value_read d database s page page_value_index pv
  · intro pv ptv _ _ _ _ _ _ _
    exact requests_exact_trans d database _ _ _
      (requests_exact_value_read d database s page page_value_index pv)
      (requests_exact_emit d database _ _ (fun _ _ h => by cases h))
  · intro pv ptv _ _ _ _ _ hb hr _
    exact requests_exact_trans d database _ _ _
      (requests_exact_value_read d database s page page_value_index pv)
      (requests_exact_emit d database _ _ (fun _ _ h => by
        cases h
        exact exact_index_of_guards d database ptv.data hb hr))
  · intro pv ptv cp _ _ _ _ _ hb hr _ _
    exact requests_exact_trans d database _ _ _
      (requests_exact_trans d database _ _ _
        (requests_exact_value_read d database s page page_value_index pv)
        (requests_exact_emit d database _ _ (fun _ _ h => by
          cases h
          exact exact_index_of_guards d database ptv.data hb hr)))
      (requests_exact_emit d database _ _ (fun _ _ h => by cases h))
  · intro pv ptv cp _ _ _ _ _ hb hr _ _
    have hpre := requests_exact_trans d database _ _ _
      (requests_exact_trans d database _ _ _
        (requests_exact_trans d database _ _ _
          (requests_exact_value_read d database s page page_value_index pv)
          (requests_exact_emit d database _
            (Event.get_element_value child_page_cache
              (to_int d (byte_stream_copy_to_uint32_little_endian ptv.data) - 1))
            (fun _ _ h => by
              cases h
              exact exact_index_of_guards d database ptv.data hb hr)))
        (requests_exact_emit d database _ (Event.validate_page cp.page_number)
          (fun _ _ h => by cases h)))
      (hdesc cp _)
    split
    · exact hpre
    · exact requests_exact_trans d database _ _ _ hpre
        (requests_exact_emit d database _ _ (fun _ _ h => by cases h))

theorem read_page_values_requests_exact (d : Definitions) (database : libesedb_database)
    (descend : libesedb_page → State → Int × State)
    (hdesc : ∀ child_page s, RequestsExact d database s (descend child_page s).2)
    (page : libesedb_page) (page_flags child_page_cache : Nat) :
    ∀ (remaining page_value_index : Nat) (s : State),
      RequestsExact d database s
        (read_page_values d database descend page page_flags child_page_cache remaining
          page_value_index s).state := by
  intro remaining
  induction remaining with
  | zero =>
    intro i s
    exact requests_exact_refl d database s
  | succ n ih =>
    intro i s
    have h1 := read_page_value_requests_exact d database descend hdesc page page_flags
      child_page_cache i s
    cases hstep : read_page_value d database descend page page_flags child_page_cache i s with
    | next s1 =>
      rw [hstep] at h1
      simp only [read_page_values, hstep]
      exact requests_exact_trans d database _ _ _ h1 (ih _ s1)
    | on_error live s1 =>
      rw [hstep] at h1
      simp only [read_page_values, hstep]
      exact h1

theorem read_values_from_page_frame_requests_exact (d : Definitions)
    (database : libesedb_database)
    (descend : libesedb_page → State → Int × State)
    (hdesc : ∀ child_page s, RequestsExact d database s (descend child_page s).2)
    (page : libesedb_page) (s : State) :
    RequestsExact d database s (read_values_from_page_frame d database descend page s).2 := by
  by_cases hne : page.values.length = 0
  · simp only [read_values_from_page_frame, libesedb_page_get_number_of_values, hne, if_true]
    exact requests_exact_emit d database _ _ (fun _ _ h => by cases h)
  · rw [read_values_from_page_frame_eq d database descend page s hne]
    have henter : RequestsExact d database s (s.enter_loop page) :=
      requests_exact_same_trace d database _ _ _
        (requests_exact_trans d database _ _ _
          (requests_exact_trans d database _ _ _
            (requests_exact_emit d database s (Event.get_number_of_values page.page_number)
              (fun _ _ h => by cases h))
            (requests_exact_emit d database _ (Event.get_flags page.page_number)
              (fun _ _ h => by cases h)))
          (requests_exact_emit d database _ (Event.cache_init s.next_cache)
            (fun _ _ h => by cases h)))
        (by simp [State.enter_loop, State.emit])
    have hloop := requests_exact_trans d database _ _ _ henter
      (read_page_values_requests_exact d database descend hdesc page (page.flags % 2 ^ 32)
        s.next_cache (page.values.length - 1) 1 (s.enter_loop page))
    cases hst : read_page_values d database descend page (page.flags % 2 ^ 32) s.next_cache
        (page.values.length - 1) 1 (s.enter_loop page) with
    | next s2 =>
      rw [hst] at hloop
      exact requests_exact_trans d database _ _ _ hloop
        (requests_exact_emit d database _ _ (fun _ _ h => by cases h))
    | on_error live s2 =>
      rw [hst] at hloop
      cases live with
      | false =>
        exact requests_exact_trans d database _ _ _ hloop
          (requests_exact_emit d database _ _ (fun _ _ h => by cases h))
      | true =>
        exact requests_exact_trans d database _ _ _
          (requests_exact_trans d database _ _ _ hloop
            (requests_exact_emit d database _ Event.value_free (fun _ _ h => by cases h)))
          (requests_exact_emit d database _ _ (fun _ _ h => by cases h))

theorem read_values_from_page_levels_requests_exact (d : Definitions)
    (database : libesedb_database) (levels : Nat) :
    ∀ (page : libesedb_page) (recursion_depth : Int) (s : State),
      RequestsExact d database s
        (read_values_from_page_levels d database levels page recursion_depth s).2 := by
  induction levels with
  | zero =>
    intro page depth s
    exact requests_exact_refl d database s
  | succ n ih =>
    intro page depth s
    simp only [read_values_from_page_levels, read_values_from_page_body]
    split
    · exact requests_exact_refl d database s
    · exact read_values_from_page_frame_requests_exact d database _
        (fun child_page s2 => ih child_page (depth + 1) s2) page s

/-- Claim C24: every page `libesedb_database_read_values_from_page` requests,
in any frame of the call, is requested at the index `child_page_number - 1` for
a page number with 1 <= child_page_number <= `last_page_number` and
child_page_number <= `INT_MAX`, which `(int)` leaves as it is: the index is not
negative. In a pass that gets as far as the request, the page number is the
one decoded from the parsed data of the entry. -/
theorem child_page_index_exact (d : Definitions) (database : libesedb_database)
    (page : libesedb_page) (recursion_depth : Int) (s : State) :
    (∃ δ, (libesedb_database_read_values_from_page d database page recursion_depth s).2.trace
        = s.trace ++ δ
      ∧ ∀ cache element_index, Event.get_element_value cache element_index ∈ δ →
          ∃ child_page_number : Nat,
            1 ≤ child_page_number
            ∧ child_page_number ≤ database.page_tree.io_handle.last_page_number
            ∧ child_page_number ≤ INT_MAX d
            ∧ to_int d child_page_number = (child_page_number : Int)
            ∧ element_index = (child_page_number : Int) - 1
            ∧ 0 ≤ element_index)
    ∧ (∀ (child_page_cache page_value_index : Nat) (s2 : State)
        (page_value : libesedb_page_value) (page_tree_value : libesedb_page_tree_value),
        page.values[page_value_index]? = some page_value →
        page_value.flags &&& d.LIBESEDB_PAGE_TAG_FLAG_IS_DEFUNCT = 0 →
        database.page_tree.libesedb_page_tree_value_read_data page_value.data
          page_value.flags = some page_tree_value →
        (page.flags % 2 ^ 32) &&& d.LIBESEDB_PAGE_FLAG_IS_LEAF = 0 →
        ¬ page_tree_value.data_size < 4 →
        child_page_number_out_of_bounds d
          (byte_stream_copy_to_uint32_little_endian page_tree_value.data) = false →
        (byte_stream_copy_to_uint32_little_endian page_tree_value.data > 0
          ∧ byte_stream_copy_to_uint32_little_endian page_tree_value.data
            ≤ database.page_tree.io_handle.last_page_number) →
        (∃ events : List Event,
          (read_page_value d database
            (fun child_page s => libesedb_database_read_values_from_page d database
              child_page (recursion_depth + 1) s)
            page (page.flags % 2 ^ 32) child_page_cache page_value_index s2).state.trace
          = s2.trace ++
              [Event.get_value_by_index page.page_number page_value_index, Event.value_init,
               Event.read_data page_value.data page_value.flags,
               Event.get_element_value child_page_cache
                 ((byte_stream_copy_to_uint32_little_endian page_tree_value.data : Int) - 1)]
              ++ events)
        ∧ 1 ≤ byte_stream_copy_to_uint32_little_endian page_tree_value.data
        ∧ byte_stream_copy_to_uint32_little_endian page_tree_value.data
          ≤ min database.page_tree.io_handle.last_page_number (INT_MAX d)
        ∧ to_int d (byte_stream_copy_to_uint32_little_endian page_tree_value.data)
          = (byte_stream_copy_to_uint32_little_endian page_tree_value.data : Int)) := by
  constructor
  · exact read_values_from_page_levels_requests_exact d database _ page recursion_depth s
  · intro c i s2 pv ptv hv hd hp hl hs hb hr
    obtain ⟨h1, h2, h3⟩ := child_page_number_in_bounds d _
      (byte_stream_copy_to_uint32_little_endian_lt ptv.data) hb
    obtain ⟨events, hevents⟩ := read_page_value_requests_child d database page
      (page.flags % 2 ^ 32) c i s2 recursion_depth pv ptv hv hd hp hl hs hb hr
    rw [h3] at hevents
    exact ⟨⟨events, hevents⟩, h1, Nat.le_min.mpr ⟨hr.2, h2⟩, h3⟩

/-! ## The 16-bit index of the value loop -/

theorem value_loop_passes (d : Definitions) (database : libesedb_database)
    (descend : libesedb_page → State → Int × State)
    (page : libesedb_page) (page_flags child_page_cache number_of_page_values : Nat)
    (hn : number_of_page_values ≤ 65535) :
    ∀ (fuel page_value_index : Nat) (s : State),
      number_of_page_values - page_value_index < fuel →
      ∃ last_index : Nat,
        value_loop d database descend page page_flags child_page_cache number_of_page_values
            fuel page_value_index s
          = some (last_index,
              passes d database descend page page_flags child_page_cache
                (List.range' page_value_index (number_of_page_values - page_value_index)) s)
        ∧ page_value_index ≤ last_index
        ∧ last_index ≤ max page_value_index number_of_page_values
        ∧ ((passes d database descend page page_flags child_page_cache
              (List.range' page_value_index (number_of_page_values - page_value_index))
              s).completed = true →
            last_index = max page_value_index number_of_page_values) := by
  intro fuel
  induction fuel with
  | zero =>
    intro i s h
    omega
  | succ fuel ih =>
    intro i s h
    by_cases hlt : i < number_of_page_values
    · have hcount : number_of_page_values - i = (number_of_page_values - (i + 1)) + 1 := by
        omega
      have hmod : (i + 1) % 2 ^ 16 = i + 1 := Nat.mod_eq_of_lt (by omega)
      rw [hcount, List.range'_succ]
      simp only [value_loop, hlt, if_true, passes, hmod]
      cases hstep : read_page_value d database descend page page_flags child_page_cache i s
        with
      | next s1 =>
        obtain ⟨k, hk, hle, hmax, hdone⟩ := ih (i + 1) s1 (by omega)
        refine ⟨k, hk, by omega, by omega, ?_⟩
        intro hc
        have := hdone hc
        omega
      | on_error live s1 =>
        refine ⟨i, rfl, Nat.le_refl i, by omega, ?_⟩
        intro hc
        simp [Step.completed] at hc
    · have hcount : number_of_page_values - i = 0 := by omega
      rw [hcount]
      simp only [value_loop, hlt, if_false, List.range'_zero, passes]
      exact ⟨i, rfl, Nat.le_refl i, by omega, fun _ => by omega⟩

theorem read_page_values_passes (d : Definitions) (database : libesedb_database)
    (descend : libesedb_page → State → Int × State)
    (page : libesedb_page) (page_flags child_page_cache : Nat) :
    ∀ (remaining page_value_index : Nat) (s : State),
      page_value_index + remaining ≤ 65535 →
      read_page_values d database descend page page_flags child_page_cache remaining
          page_value_index s
        = passes d database descend page page_flags child_page_cache
            (List.range' page_value_index remaining) s := by
  intro remaining
  induction remaining with
  | zero =>
    intro i s _
    rfl
  | succ n ih =>
    intro i s h
    have hmod : (i + 1) % 2 ^ 16 = i + 1 := Nat.mod_eq_of_lt (by omega)
    simp only [read_page_values, List.range'_succ, passes, hmod]
    cases read_page_value d database descend page page_flags child_page_cache i s with
    | next s1 => exact ih (i + 1) s1 (by omega)
    | on_error live s1 => rfl

/-- Claim C25: for every `number_of_page_values` a `uint16_t` can hold, 65535
included, the value loop as written, started at index 1, ends, given fuel for
its tests, and is the sequence of the passes at the indexes 1, 2, ...,
`number_of_page_values - 1`, each once and in ascending order, up to the first
pass that fails. The index never passes `number_of_page_values`, so the
increment modulo 2^16 never wraps; when no pass fails the index ends at
`number_of_page_values` (at 1 when there is no pass). The countdown the frame
of the embedding runs is the same sequence of passes. -/
theorem value_loop_visits_each_index_once (d : Definitions) (database : libesedb_database)
    (descend : libesedb_page → State → Int × State)
    (page : libesedb_page) (page_flags child_page_cache number_of_page_values fuel : Nat)
    (s : State)
    (hn : number_of_page_values ≤ 65535) (hfuel : number_of_page_values ≤ fuel) :
    (∃ last_index : Nat,
      value_loop d database descend page page_flags child_page_cache number_of_page_values
          (fuel + 1) 1 s
        = some (last_index,
            passes d database descend page page_flags child_page_cache
              (List.range' 1 (number_of_page_values - 1)) s)
      ∧ 1 ≤ last_index
      ∧ last_index ≤ max 1 number_of_page_values
      ∧ last_index ≤ 65535
      ∧ ((passes d database descend page page_flags child_page_cache
            (List.range' 1 (number_of_page_values - 1)) s).completed = true →
          last_index = max 1 number_of_page_values))
    ∧ (∀ page_value_index : Nat,
        page_value_index ∈ List.range' 1 (number_of_page_values - 1)
          ↔ (1 ≤ page_value_index ∧ page_value_index < number_of_page_values))
    ∧ (List.range' 1 (number_of_page_values - 1)).Pairwise (fun a b => a < b)
    ∧ (∀ page_value_index ∈ List.range' 1 (number_of_page_values - 1),
        (page_value_index + 1) % 2 ^ 16 = page_value_index + 1)
    ∧ read_page_values d database descend page page_flags child_page_cache
          (number_of_page_values - 1) 1 s
        = passes d database descend page page_flags child_page_cache
            (List.range' 1 (number_of_page_values - 1)) s := by
  refine ⟨?_, ?_, List.pairwise_lt_range' 1 _, ?_, ?_⟩
  · obtain ⟨k, hk, h1, hmax, hdone⟩ := value_loop_passes d database descend page page_flags
      child_page_cache number_of_page_values hn (fuel + 1) 1 s (by omega)
    exact ⟨k, hk, h1, hmax, by omega, hdone⟩
  · intro i
    rw [List.mem_range'_1]
    omega
  · intro i hi
    rw [List.mem_range'_1] at hi
    exact Nat.mod_eq_of_lt (by omega)
  · exact read_page_values_passes d database descend page page_flags child_page_cache _ 1 s
      (by omega)

theorem value_loop_visits_each_index_once_witness :
    (65535 ≤ 65535 ∧ 65535 ≤ 65535)
    ∧ (∃ last_index : Nat,
      value_loop definitions (database_of 6 two_level_pages)
          (fun child_page s => libesedb_database_read_values_from_page definitions
            (database_of 6 two_level_pages) child_page 1 s)
          { page_number := 4, flags := 5,
            values := [root_tag, branch_value 5 0 0 0, branch_value 6 0 0 0] }
          5 0 65535 (65535 + 1) 1 State.initial
        = some (last_index,
            passes definitions (database_of 6 two_level_pages)
              (fun child_page s => libesedb_database_read_values_from_page definitions
                (database_of 6 two_level_pages) child_page 1 s)
              { page_number := 4, flags := 5,
                values := [root_tag, branch_value 5 0 0 0, branch_value 6 0 0 0] }
              5 0 (List.range' 1 (65535 - 1)) State.initial)
      ∧ last_index ≤ 65535)
    ∧ value_loop definitions (database_of 6 two_level_pages)
          (fun child_page s => libesedb_database_read_values_from_page definitions
            (database_of 6 two_level_pages) child_page 1 s)
          { page_number := 4, flags := 5,
            values := [root_tag, branch_value 5 0 0 0, branch_value 6 0 0 0] }
          5 0 3 (3 + 1) 1 State.initial
        = some (3,
            read_page_values definitions (database_of 6 two_level_pages)
              (fun child_page s => libesedb_database_read_values_from_page definitions
                (database_of 6 two_level_pages) child_page 1 s)
              { page_number := 4, flags := 5,
                values := [root_tag, branch_value 5 0 0 0, branch_value 6 0 0 0] }
              5 0 2 1 State.initial) :=
  have h := value_loop_visits_each_index_once definitions (database_of 6 two_level_pages)
    (fun child_page s => libesedb_database_read_values_from_page definitions
      (database_of 6 two_level_pages) child_page 1 s)
    { page_number := 4, flags := 5,
      values := [root_tag, branch_value 5 0 0 0, branch_value 6 0 0 0] }
    5 0 65535 65535 State.initial (by decide) (by decide)
  ⟨⟨by decide, by decide⟩,
    ⟨h.1.choose, h.1.choose_spec.1, h.1.choose_spec.2.2.2.1⟩, rfl⟩

/-! ## The sequence objects of pyesedb: single calls -/

theorem int_cast_of_range (d : Definitions) (x : Int) (h0 : 0 ≤ x)
    (h1 : x ≤ (INT_MAX d : Nat)) : int_cast d x = x := by
  have hle : 2 ^ (8 * d.SIZEOF_INT - 1) ≤ 2 ^ (8 * d.SIZEOF_INT) :=
    Nat.pow_le_pow_right (by decide) (Nat.sub_le _ _)
  have hpos : 0 < 2 ^ (8 * d.SIZEOF_INT - 1) := Nat.two_pow_pos _
  have hmax : INT_MAX d = 2 ^ (8 * d.SIZEOF_INT - 1) - 1 := rfl
  have hlt : x < ((2 ^ (8 * d.SIZEOF_INT) : Nat) : Int) := by omega
  unfold int_cast
  rw [Int.emod_eq_of_lt h0 hlt, to_int_of_lt d x.toNat (by omega)]
  omega

theorem pyesedb_tables_init_eq {Parent Item World : Type} :
    @pyesedb_tables_init Parent Item World = @pyesedb_columns_init Parent Item World := rfl

theorem pyesedb_tables_new_eq {Parent Item World : Type} :
    @pyesedb_tables_new Parent Item World = @pyesedb_columns_new Parent Item World := rfl

theorem pyesedb_tables_len_eq {Parent Item World : Type} :
    @pyesedb_tables_len Parent Item World = @pyesedb_columns_len Parent Item World := rfl

theorem pyesedb_tables_getitem_eq {Parent Item World : Type} :
    @pyesedb_tables_getitem Parent Item World = @pyesedb_columns_getitem Parent Item World :=
  rfl

theorem pyesedb_tables_iter_eq {Parent Item World : Type} :
    @pyesedb_tables_iter Parent Item World = @pyesedb_columns_iter Parent Item World := rfl

theorem pyesedb_tables_iternext_eq {Parent Item World : Type} :
    @pyesedb_tables_iternext Parent Item World = @pyesedb_columns_iternext Parent Item World :=
  rfl

theorem pyesedb_tables_iternext_calls_eq {Parent Item World : Type} (d : Definitions) :
    ∀ (count : Nat) (o : Option (pyesedb_columns Parent Item World))
      (python : Python Parent World),
      pyesedb_tables_iternext_calls d count o python
        = pyesedb_columns_iternext_calls d count o python := by
  intro count
  induction count with
  | zero => intro o python; rfl
  | succ n ih =>
    intro o python
    simp only [pyesedb_tables_iternext_calls, pyesedb_columns_iternext_calls,
      pyesedb_tables_iternext_eq, ih]

theorem pyesedb_columns_new_object {Parent Item World : Type} (parent : Parent)
    (getter : Option Parent → Int → World → Option Item × World) (number_of_items : Int)
    (raw : pyesedb_columns Parent Item World) :
    pyesedb_columns_new (some parent) (some getter) number_of_items (some raw)
      = PyReturn.object
          { parent_object := some parent
            get_item_by_index := some getter
            current_index := 0
            number_of_items := number_of_items } := by
  simp [pyesedb_columns_new, pyesedb_columns_init]

theorem pyesedb_columns_iternext_item {Parent Item World : Type} (d : Definitions)
    (o : pyesedb_columns Parent Item World) (python : Python Parent World)
    (getter : Option Parent → Int → World → Option Item × World) (item : Item)
    (hg : o.get_item_by_index = some getter)
    (h0 : 0 ≤ o.current_index) (h1 : o.current_index < o.number_of_items)
    (hitem : (getter o.parent_object o.current_index python.world).1 = some item) :
    pyesedb_columns_iternext d (some o) python
      = (PyReturn.object item,
          some { o with current_index := int_cast d (o.current_index + 1) },
          { world := (getter o.parent_object o.current_index python.world).2
            calls := python.calls ++ [(o.parent_object, o.current_index)] }) := by
  have hn : ¬ o.number_of_items < 0 := by omega
  have hc : ¬ o.current_index < 0 := by omega
  have hs : ¬ o.current_index ≥ o.number_of_items := by omega
  simp only [pyesedb_columns_iternext, hg, hn, hc, hs, if_false, hitem]

theorem pyesedb_columns_iternext_null {Parent Item World : Type} (d : Definitions)
    (o : pyesedb_columns Parent Item World) (python : Python Parent World)
    (getter : Option Parent → Int → World → Option Item × World)
    (hg : o.get_item_by_index = some getter)
    (h0 : 0 ≤ o.current_index) (h1 : o.current_index < o.number_of_items)
    (hitem : (getter o.parent_object o.current_index python.world).1 = none) :
    pyesedb_columns_iternext d (some o) python
      = (PyReturn.null none, some o,
          { world := (getter o.parent_object o.current_index python.world).2
            calls := python.calls ++ [(o.parent_object, o.current_index)] }) := by
  have hn : ¬ o.number_of_items < 0 := by omega
  have hc : ¬ o.current_index < 0 := by omega
  have hs : ¬ o.current_index ≥ o.number_of_items := by omega
  simp only [pyesedb_columns_iternext, hg, hn, hc, hs, if_false, hitem]

theorem pyesedb_columns_iternext_stop {Parent Item World : Type} (d : Definitions)
    (o : pyesedb_columns Parent Item World) (python : Python Parent World)
    (getter : Option Parent → Int → World → Option Item × World)
    (hg : o.get_item_by_index = some getter)
    (h0 : 0 ≤ o.current_index) (hn : 0 ≤ o.number_of_items)
    (h1 : o.number_of_items ≤ o.current_index) :
    pyesedb_columns_iternext d (some o) python
      = (PyReturn.null (some PyExc.StopIteration), some o, python) := by
  have hn2 : ¬ o.number_of_items < 0 := by omega
  have hc : ¬ o.current_index < 0 := by omega
  have hs : o.current_index ≥ o.number_of_items := by omega
  simp only [pyesedb_columns_iternext, hg, hn2, hc, hs, if_false, if_true]

theorem pyesedb_columns_iternext_invalid {Parent Item World : Type} (d : Definitions)
    (o : pyesedb_columns Parent Item World) (python : Python Parent World)
    (h : o.get_item_by_index = none ∨ o.current_index < 0 ∨ o.number_of_items < 0) :
    pyesedb_columns_iternext d (some o) python
      = (PyReturn.null (some PyExc.ValueError), some o, python) := by
  cases hg : o.get_item_by_index with
  | none => simp only [pyesedb_columns_iternext, hg]
  | some getter =>
    rcases h with h | h | h
    · rw [hg] at h
      cases h
    · simp only [pyesedb_columns_iternext, hg, h, if_true]
    · by_cases hc : o.current_index < 0
      · simp only [pyesedb_columns_iternext, hg, hc, if_true]
      · simp only [pyesedb_columns_iternext, hg, hc, h, if_true, if_false]

/-! ## The sequence objects of pyesedb: iteration -/

theorem getter_results_never_null {Parent Item World : Type}
    (getter : Option Parent → Int → World → Option Item × World)
    (hnever : ∀ a i w, (getter a i w).1 ≠ none) (parent : Option Parent) :
    ∀ (indexes : List Int) (world : World),
      ∀ item ∈ (getter_results getter parent indexes world).1, item ≠ none := by
  intro indexes
  induction indexes with
  | nil =>
    intro world item h
    simp [getter_results] at h
  | cons i rest ih =>
    intro world item h
    simp only [getter_results, List.mem_cons] at h
    rcases h with h | h
    · rw [h]
      exact hnever _ _ _
    · exact ih _ item h

theorem pyesedb_columns_iternext_calls_items {Parent Item World : Type} (d : Definitions)
    (parent : Option Parent)
    (getter : Option Parent → Int → World → Option Item × World) (n : Nat)
    (hint : (n : Int) ≤ (INT_MAX d : Nat))
    (hnever : ∀ a i w, (getter a i w).1 ≠ none) :
    ∀ (count j : Nat) (python : Python Parent World), j + count ≤ n →
      pyesedb_columns_iternext_calls d count
          (some { parent_object := parent, get_item_by_index := some getter,
                  current_index := (j : Int), number_of_items := (n : Int) }) python
        = ((getter_results getter parent ((List.range' j count).map fun i : Nat => (i : Int))
              python.world).1.map PyReturn.of_pointer,
           some { parent_object := parent, get_item_by_index := some getter,
                  current_index := ((j + count : Nat) : Int), number_of_items := (n : Int) },
           { world := (getter_results getter parent
               ((List.range' j count).map fun i : Nat => (i : Int)) python.world).2
             calls := python.calls ++ (List.range' j count).map fun i : Nat => (parent, (i : Int)) })
    := by
  intro count
  induction count with
  | zero =>
    intro j python _
    simp [pyesedb_columns_iternext_calls, getter_results]
  | succ count ih =>
    intro j python hj
    obtain ⟨item, hitem⟩ := Option.ne_none_iff_exists'.mp (hnever parent (j : Int) python.world)
    have hcast : int_cast d ((j : Int) + 1) = ((j + 1 : Nat) : Int) := by
      rw [int_cast_of_range d _ (by omega) (by omega)]
      push_cast
      rfl
    simp only [pyesedb_columns_iternext_calls]
    rw [pyesedb_columns_iternext_item d _ python getter item rfl (by simp)
      (by simp only [Nat.cast_lt]; omega) hitem]
    simp only [hcast]
    rw [ih (j + 1) _ (by omega)]
    simp only [List.range'_succ, List.map_cons, getter_results, hitem, PyReturn.of_pointer,
      List.append_assoc, List.singleton_append]
    have hsum : j + 1 + count = j + (count + 1) := by omega
    rw [hsum]

theorem pyesedb_columns_iternext_calls_stop {Parent Item World : Type} (d : Definitions)
    (o : pyesedb_columns Parent Item World)
    (getter : Option Parent → Int → World → Option Item × World)
    (hg : o.get_item_by_index = some getter)
    (h0 : 0 ≤ o.number_of_items) (h1 : o.number_of_items ≤ o.current_index) :
    ∀ (count : Nat) (python : Python Parent World),
      pyesedb_columns_iternext_calls d count (some o) python
        = (List.replicate count (PyReturn.null (some PyExc.StopIteration)), some o, python)
    := by
  intro count
  induction count with
  | zero =>
    intro python
    rfl
  | succ count ih =>
    intro python
    simp only [pyesedb_columns_iternext_calls]
    rw [pyesedb_columns_iternext_stop d o python getter hg (by omega) h0 h1]
    simp only [ih, List.replicate_succ]

/-- Claim C26: a columns object made by `pyesedb_columns_new` with n items, n not
negative, starts at index 0. With a getter that never gives `NULL`, the first
`count` calls of `pyesedb_columns_iternext`, for every `count` up to n, return
what the getter gives at the indexes 0, 1, ..., `count - 1`, called in this
order and at no other index, and leave the current index at `count`. Once the
current index is n every further call returns `NULL` with `StopIteration`
and changes neither the object nor the world nor the calls of the getter. The
same holds of `pyesedb_tables_new` and `pyesedb_tables_iternext`. -/
theorem iternext_yields_items_in_order {Parent Item World : Type} (d : Definitions)
    (parent : Parent) (getter : Option Parent → Int → World → Option Item × World)
    (n : Nat) (raw : pyesedb_columns Parent Item World) (python : Python Parent World)
    (hint : (n : Int) ≤ (INT_MAX d : Nat))
    (hnever : ∀ a i w, (getter a i w).1 ≠ none) :
    (∃ columns_object : pyesedb_columns Parent Item World,
      pyesedb_columns_new (some parent) (some getter) (n : Int) (some raw)
        = PyReturn.object columns_object
      ∧ columns_object.current_index = 0
      ∧ (∀ count : Nat, count ≤ n →
          pyesedb_columns_iternext_calls d count (some columns_object) python
            = ((getter_results getter (some parent)
                  ((List.range' 0 count).map fun i : Nat => (i : Int)) python.world).1.map
                PyReturn.of_pointer,
               some { columns_object with current_index := (count : Int) },
               { world := (getter_results getter (some parent)
                   ((List.range' 0 count).map fun i : Nat => (i : Int)) python.world).2
                 calls := python.calls
                   ++ (List.range' 0 count).map fun i : Nat => (some parent, (i : Int)) }))
      ∧ (∀ later : Nat, ∀ python2 : Python Parent World,
          pyesedb_columns_iternext_calls d later
              (some { columns_object with current_index := (n : Int) }) python2
            = (List.replicate later (PyReturn.null (some PyExc.StopIteration)),
               some { columns_object with current_index := (n : Int) }, python2)))
    ∧ (∃ tables_object : pyesedb_tables Parent Item World,
      pyesedb_tables_new (some parent) (some getter) (n : Int) (some raw)
        = PyReturn.object tables_object
      ∧ tables_object.current_index = 0
      ∧ (∀ count : Nat, count ≤ n →
          pyesedb_tables_iternext_calls d count (some tables_object) python
            = ((getter_results getter (some parent)
                  ((List.range' 0 count).map fun i : Nat => (i : Int)) python.world).1.map
                PyReturn.of_pointer,
               some { tables_object with current_index := (count : Int) },
               { world := (getter_results getter (some parent)
                   ((List.range' 0 count).map fun i : Nat => (i : Int)) python.world).2
                 calls := python.calls
                   ++ (List.range' 0 count).map fun i : Nat => (some parent, (i : Int)) }))
      ∧ (∀ later : Nat, ∀ python2 : Python Parent World,
          pyesedb_tables_iternext_calls d later
              (some { tables_object with current_index := (n : Int) }) python2
            = (List.replicate later (PyReturn.null (some PyExc.StopIteration)),
               some { tables_object with current_index := (n : Int) }, python2)))
    ∧ (∀ item ∈ (getter_results getter (some parent)
          ((List.range' 0 n).map fun i : Nat => (i : Int)) python.world).1, item ≠ none) := by
  have hcolumns : (∃ columns_object : pyesedb_columns Parent Item World,
      pyesedb_columns_new (some parent) (some getter) (n : Int) (some raw)
        = PyReturn.object columns_object
      ∧ columns_object.current_index = 0
      ∧ (∀ count : Nat, count ≤ n →
          pyesedb_columns_iternext_calls d count (some columns_object) python
            = ((getter_results getter (some parent)
                  ((List.range' 0 count).map fun i : Nat => (i : Int)) python.world).1.map
                PyReturn.of_pointer,
               some { columns_object with current_index := (count : Int) },
               { world := (getter_results getter (some parent)
                   ((List.range' 0 count).map fun i : Nat => (i : Int)) python.world).2
                 calls := python.calls
                   ++ (List.range' 0 count).map fun i : Nat => (some parent, (i : Int)) }))
      ∧ (∀ later : Nat, ∀ python2 : Python Parent World,
          pyesedb_columns_iternext_calls d later
              (some { columns_object with current_index := (n : Int) }) python2
            = (List.replicate later (PyReturn.null (some PyExc.StopIteration)),
               some { columns_object with current_index := (n : Int) }, python2))) := by
    refine ⟨_, pyesedb_columns_new_object parent getter (n : Int) raw, rfl, ?_, ?_⟩
    · intro count hcount
      have h := pyesedb_columns_iternext_calls_items d (some parent) getter n hint hnever
        count 0 python (by omega)
      simp only [Nat.zero_add, Nat.cast_zero] at h
      exact h
    · intro later python2
      exact pyesedb_columns_iternext_calls_stop d _ getter rfl (by simp) (by simp) later
        python2
  refine ⟨hcolumns, ?_, getter_results_never_null getter hnever (some parent) _ _⟩
  obtain ⟨o, h1, h2, h3, h4⟩ := hcolumns
  refine ⟨o, by rw [pyesedb_tables_new_eq]; exact h1, h2, ?_, ?_⟩
  · intro count hcount
    rw [pyesedb_tables_iternext_calls_eq]
    exact h3 count hcount
  · intro later python2
    rw [pyesedb_tables_iternext_calls_eq]
    exact h4 later python2

/-! ## The sequence objects of pyesedb: indexed access and the current index -/

theorem pyesedb_columns_getitem_unchanged {Parent Item World : Type} (d : Definitions)
    (o : pyesedb_columns Parent Item World) (item_index : Int)
    (python : Python Parent World) :
    (pyesedb_columns_getitem d (some o) item_index python).2.1 = some o := by
  simp only [pyesedb_columns_getitem]
  cases o.get_item_by_index with
  | none => rfl
  | some getter =>
    simp only []
    split
    · rfl
    · split <;> rfl

theorem pyesedb_columns_getitem_item {Parent Item World : Type} (d : Definitions)
    (o : pyesedb_columns Parent Item World) (item_index : Int)
    (python : Python Parent World)
    (getter : Option Parent → Int → World → Option Item × World)
    (hg : o.get_item_by_index = some getter)
    (hn : 0 ≤ o.number_of_items) (hint : o.number_of_items ≤ (INT_MAX d : Nat))
    (h0 : 0 ≤ item_index) (h1 : item_index < o.number_of_items) :
    pyesedb_columns_getitem d (some o) item_index python
      = (PyReturn.of_pointer (getter o.parent_object item_index python.world).1,
         some o,
         { world := (getter o.parent_object item_index python.world).2
           calls := python.calls ++ [(o.parent_object, item_index)] }) := by
  have hcast : int_cast d item_index = item_index :=
    int_cast_of_range d item_index h0 (by omega)
  have hn2 : ¬ o.number_of_items < 0 := by omega
  have hi : ¬ (item_index < 0 ∨ item_index ≥ o.number_of_items) := by omega
  simp only [pyesedb_columns_getitem, hg, hn2, hi, if_false, hcast]

theorem pyesedb_columns_getitem_invalid {Parent Item World : Type} (d : Definitions)
    (o : pyesedb_columns Parent Item World) (item_index : Int)
    (python : Python Parent World)
    (h : o.get_item_by_index = none ∨ o.number_of_items < 0 ∨ item_index < 0
      ∨ o.number_of_items ≤ item_index) :
    pyesedb_columns_getitem d (some o) item_index python
      = (PyReturn.null (some PyExc.ValueError), some o, python) := by
  cases hg : o.get_item_by_index with
  | none => simp only [pyesedb_columns_getitem, hg]
  | some getter =>
    rcases h with h | h | h
    · rw [hg] at h
      cases h
    · simp only [pyesedb_columns_getitem, hg, h, if_true]
    · by_cases hn : o.number_of_items < 0
      · simp only [pyesedb_columns_getitem, hg, hn, if_true]
      · have hi : item_index < 0 ∨ item_index ≥ o.number_of_items := by omega
        simp only [pyesedb_columns_getitem, hg, hn, hi, if_true, if_false]

theorem pyesedb_columns_iternext_after {Parent Item World : Type} (d : Definitions)
    (o : pyesedb_columns Parent Item World) (python : Python Parent World) :
    ((pyesedb_columns_iternext d (some o) python).2.1 = some o
      ∧ ∃ raised, (pyesedb_columns_iternext d (some o) python).1 = PyReturn.null raised)
    ∨ (0 ≤ o.current_index ∧ o.current_index < o.number_of_items
      ∧ (pyesedb_columns_iternext d (some o) python).2.1
        = some { o with current_index := int_cast d (o.current_index + 1) }
      ∧ ∃ item, (pyesedb_columns_iternext d (some o) python).1 = PyReturn.object item) := by
  cases hg : o.get_item_by_index with
  | none =>
    left
    rw [pyesedb_columns_iternext_invalid d o python (Or.inl hg)]
    exact ⟨rfl, _, rfl⟩
  | some getter =>
    by_cases hc : o.current_index < 0
    · left
      rw [pyesedb_columns_iternext_invalid d o python (Or.inr (Or.inl hc))]
      exact ⟨rfl, _, rfl⟩
    · by_cases hn : o.number_of_items < 0
      · left
        rw [pyesedb_columns_iternext_invalid d o python (Or.inr (Or.inr hn))]
        exact ⟨rfl, _, rfl⟩
      · by_cases hs : o.number_of_items ≤ o.current_index
        · left
          rw [pyesedb_columns_iternext_stop d o python getter hg (by omega) (by omega) hs]
          exact ⟨rfl, _, rfl⟩
        · cases hitem : (getter o.parent_object o.current_index python.world).1 with
          | none =>
            left
            rw [pyesedb_columns_iternext_null d o python getter hg (by omega) (by omega)
              hitem]
            exact ⟨rfl, _, rfl⟩
          | some item =>
            right
            rw [pyesedb_columns_iternext_item d o python getter item hg (by omega) (by omega)
              hitem]
            exact ⟨by omega, by omega, by rw [hg], item, rfl⟩

/-- Claim C27: `pyesedb_columns_getitem` and `pyesedb_tables_getitem` call the
getter, at the index asked for, and return what it gives when the getter is
set, the number of items is not negative and the index lies in
[0, `number_of_items`); otherwise they return `NULL` with `ValueError` and the
getter is not called; in every case the object is after the call what it was
before, its current index and its number of items included. -/
theorem getitem_in_bounds_only {Parent Item World : Type} (d : Definitions)
    (o : pyesedb_columns Parent Item World) (item_index : Int)
    (python : Python Parent World) :
    ((∀ (getter : Option Parent → Int → World → Option Item × World),
        o.get_item_by_index = some getter →
        0 ≤ o.number_of_items → o.number_of_items ≤ (INT_MAX d : Nat) →
        0 ≤ item_index → item_index < o.number_of_items →
        pyesedb_columns_getitem d (some o) item_index python
          = (PyReturn.of_pointer (getter o.parent_object item_index python.world).1,
             some o,
             { world := (getter o.parent_object item_index python.world).2
               calls := python.calls ++ [(o.parent_object, item_index)] }))
    ∧ ((o.get_item_by_index = none ∨ o.number_of_items < 0 ∨ item_index < 0
          ∨ o.number_of_items ≤ item_index) →
        pyesedb_columns_getitem d (some o) item_index python
          = (PyReturn.null (some PyExc.ValueError), some o, python))
    ∧ pyesedb_columns_getitem d (none : Option (pyesedb_columns Parent Item World))
          item_index python
        = (PyReturn.null (some PyExc.ValueError), none, python)
    ∧ (pyesedb_columns_getitem d (some o) item_index python).2.1 = some o)
    ∧ ((∀ (getter : Option Parent → Int → World → Option Item × World),
        o.get_item_by_index = some getter →
        0 ≤ o.number_of_items → o.number_of_items ≤ (INT_MAX d : Nat) →
        0 ≤ item_index → item_index < o.number_of_items →
        pyesedb_tables_getitem d (some o) item_index python
          = (PyReturn.of_pointer (getter o.parent_object item_index python.world).1,
             some o,
             { world := (getter o.parent_object item_index python.world).2
               calls := python.calls ++ [(o.parent_object, item_index)] }))
    ∧ ((o.get_item_by_index = none ∨ o.number_of_items < 0 ∨ item_index < 0
          ∨ o.number_of_items ≤ item_index) →
        pyesedb_tables_getitem d (some o) item_index python
          = (PyReturn.null (some PyExc.ValueError), some o, python))
    ∧ pyesedb_tables_getitem d (none : Option (pyesedb_columns Parent Item World))
          item_index python
        = (PyReturn.null (some PyExc.ValueError), none, python)
    ∧ (pyesedb_tables_getitem d (some o) item_index python).2.1 = some o) := by
  have hcolumns : (∀ (getter : Option Parent → Int → World → Option Item × World),
        o.get_item_by_index = some getter →
        0 ≤ o.number_of_items → o.number_of_items ≤ (INT_MAX d : Nat) →
        0 ≤ item_index → item_index < o.number_of_items →
        pyesedb_columns_getitem d (some o) item_index python
          = (PyReturn.of_pointer (getter o.parent_object item_index python.world).1,
             some o,
             { world := (getter o.parent_object item_index python.world).2
               calls := python.calls ++ [(o.parent_object, item_index)] }))
    ∧ ((o.get_item_by_index = none ∨ o.number_of_items < 0 ∨ item_index < 0
          ∨ o.number_of_items ≤ item_index) →
        pyesedb_columns_getitem d (some o) item_index python
          = (PyReturn.null (some PyExc.ValueError), some o, python))
    ∧ pyesedb_columns_getitem d (none : Option (pyesedb_columns Parent Item World))
          item_index python
        = (PyReturn.null (some PyExc.ValueError), none, python)
    ∧ (pyesedb_columns_getitem d (some o) item_index python).2.1 = some o :=
    ⟨fun getter hg hn hint h0 h1 =>
        pyesedb_columns_getitem_item d o item_index python getter hg hn hint h0 h1,
      pyesedb_columns_getitem_invalid d o item_index python, rfl,
      pyesedb_columns_getitem_unchanged d o item_index python⟩
  exact ⟨hcolumns, hcolumns⟩

/-- Claim C28: an object made by `pyesedb_columns_new` or `pyesedb_tables_new`
with a number of items that is not negative starts with
0 <= `current_index` <= `number_of_items`; `len`, `getitem` and `iter` leave the
object as it is; `iternext` keeps the number of items and, the number of items
being an `int`, keeps the predicate: it leaves the current index where it is or
adds one to it, and adds one only below `number_of_items`, where the sum is an
`int` still. -/
theorem current_index_in_range {Parent Item World : Type} (d : Definitions)
    (o : pyesedb_columns Parent Item World) (item_index : Int)
    (python : Python Parent World) :
    ((∀ (parent_object : Option Parent)
        (getter : Option (Option Parent → Int → World → Option Item × World))
        (number_of_items : Int) (PyObject_New : Option (pyesedb_columns Parent Item World))
        (created : pyesedb_columns Parent Item World),
        0 ≤ number_of_items →
        pyesedb_columns_new parent_object getter number_of_items PyObject_New
          = PyReturn.object created →
        index_in_range created ∧ created.current_index = 0
        ∧ created.number_of_items = number_of_items)
    ∧ (index_in_range o →
        (pyesedb_columns_len (some o)).2.2 = some o
        ∧ (pyesedb_columns_getitem d (some o) item_index python).2.1 = some o
        ∧ pyesedb_columns_iter (some o) = PyReturn.object o
        ∧ ∃ after : pyesedb_columns Parent Item World,
          (pyesedb_columns_iternext d (some o) python).2.1 = some after
          ∧ after.number_of_items = o.number_of_items
          ∧ (o.number_of_items ≤ (INT_MAX d : Nat) →
            index_in_range after
            ∧ (after.current_index = o.current_index
              ∨ (o.current_index < o.number_of_items
                ∧ after.current_index = o.current_index + 1
                ∧ o.current_index + 1 ≤ (INT_MAX d : Nat))))))
    ∧ ((∀ (parent_object : Option Parent)
        (getter : Option (Option Parent → Int → World → Option Item × World))
        (number_of_items : Int) (PyObject_New : Option (pyesedb_columns Parent Item World))
        (created : pyesedb_columns Parent Item World),
        0 ≤ number_of_items →
        pyesedb_tables_new parent_object getter number_of_items PyObject_New
          = PyReturn.object created →
        index_in_range created ∧ created.current_index = 0
        ∧ created.number_of_items = number_of_items)
    ∧ (index_in_range o →
        (pyesedb_tables_len (some o)).2.2 = some o
        ∧ (pyesedb_tables_getitem d (some o) item_index python).2.1 = some o
        ∧ pyesedb_tables_iter (some o) = PyReturn.object o
        ∧ ∃ after : pyesedb_columns Parent Item World,
          (pyesedb_tables_iternext d (some o) python).2.1 = some after
          ∧ after.number_of_items = o.number_of_items
          ∧ (o.number_of_items ≤ (INT_MAX d : Nat) →
            index_in_range after
            ∧ (after.current_index = o.current_index
              ∨ (o.current_index < o.number_of_items
                ∧ after.current_index = o.current_index + 1
                ∧ o.current_index + 1 ≤ (INT_MAX d : Nat)))))) := by
  have hcolumns : (∀ (parent_object : Option Parent)
        (getter : Option (Option Parent → Int → World → Option Item × World))
        (number_of_items : Int) (PyObject_New : Option (pyesedb_columns Parent Item World))
        (created : pyesedb_columns Parent Item World),
        0 ≤ number_of_items →
        pyesedb_columns_new parent_object getter number_of_items PyObject_New
          = PyReturn.object created →
        index_in_range created ∧ created.current_index = 0
        ∧ created.number_of_items = number_of_items)
    ∧ (index_in_range o →
        (pyesedb_columns_len (some o)).2.2 = some o
        ∧ (pyesedb_columns_getitem d (some o) item_index python).2.1 = some o
        ∧ pyesedb_columns_iter (some o) = PyReturn.object o
        ∧ ∃ after : pyesedb_columns Parent Item World,
          (pyesedb_columns_iternext d (some o) python).2.1 = some after
          ∧ after.number_of_items = o.number_of_items
          ∧ (o.number_of_items ≤ (INT_MAX d : Nat) →
            index_in_range after
            ∧ (after.current_index = o.current_index
              ∨ (o.current_index < o.number_of_items
                ∧ after.current_index = o.current_index + 1
                ∧ o.current_index + 1 ≤ (INT_MAX d : Nat))))) := by
    constructor
    · intro parent_object getter number_of_items raw created hn hnew
      cases parent_object with
      | none => simp [pyesedb_columns_new] at hnew
      | some parent =>
        cases getter with
        | none => simp [pyesedb_columns_new] at hnew
        | some g =>
          cases raw with
          | none => simp [pyesedb_columns_new] at hnew
          | some raw =>
            rw [pyesedb_columns_new_object parent g number_of_items raw] at hnew
            cases hnew
            exact ⟨⟨Int.le_refl 0, hn⟩, rfl, rfl⟩
    · intro hrange
      refine ⟨rfl, pyesedb_columns_getitem_unchanged d o item_index python, rfl, ?_⟩
      rcases pyesedb_columns_iternext_after d o python with ⟨h, _⟩ | ⟨h0, h1, h, _⟩
      · exact ⟨o, h, rfl, fun _ => ⟨hrange, Or.inl rfl⟩⟩
      · refine ⟨_, h, rfl, ?_⟩
        intro hint
        have hcast : int_cast d (o.current_index + 1) = o.current_index + 1 :=
          int_cast_of_range d _ (by omega) (by omega)
        simp only [index_in_range, hcast]
        exact ⟨⟨by omega, by omega⟩, Or.inr ⟨h1, trivial, by omega⟩⟩
  exact ⟨hcolumns, hcolumns⟩

/-- Claim C29: when the getter gives `NULL` inside `pyesedb_columns_iternext` or
`pyesedb_tables_iternext`, the call returns `NULL` and the object is what it was,
so that the next call asks the getter for the same index again. Whatever the
object, a call that returns an item leaves the current index one higher and
nothing else in the object changed, and a call that returns `NULL` leaves the
object as it was. -/
theorem getter_failure_keeps_index {Parent Item World : Type} (d : Definitions)
    (o : pyesedb_columns Parent Item World) (python : Python Parent World) :
    ((∀ (getter : Option Parent → Int → World → Option Item × World),
        o.get_item_by_index = some getter →
        0 ≤ o.current_index → o.current_index < o.number_of_items →
        (getter o.parent_object o.current_index python.world).1 = none →
        pyesedb_columns_iternext d (some o) python
          = (PyReturn.null none, some o,
             { world := (getter o.parent_object o.current_index python.world).2
               calls := python.calls ++ [(o.parent_object, o.current_index)] })
        ∧ (pyesedb_columns_iternext d
            (pyesedb_columns_iternext d (some o) python).2.1
            (pyesedb_columns_iternext d (some o) python).2.2).2.2.calls
          = python.calls ++ [(o.parent_object, o.current_index)]
              ++ [(o.parent_object, o.current_index)])
    ∧ (o.number_of_items ≤ (INT_MAX d : Nat) →
        ∃ after : pyesedb_columns Parent Item World,
          (pyesedb_columns_iternext d (some o) python).2.1 = some after
          ∧ (∀ item, (pyesedb_columns_iternext d (some o) python).1 = PyReturn.object item →
              after.current_index = o.current_index + 1
              ∧ after.number_of_items = o.number_of_items
              ∧ after.parent_object = o.parent_object
              ∧ after.get_item_by_index = o.get_item_by_index)
          ∧ (∀ raised, (pyesedb_columns_iternext d (some o) python).1 = PyReturn.null raised →
              after = o)))
    ∧ ((∀ (getter : Option Parent → Int → World → Option Item × World),
        o.get_item_by_index = some getter →
        0 ≤ o.current_index → o.current_index < o.number_of_items →
        (getter o.parent_object o.current_index python.world).1 = none →
        pyesedb_tables_iternext d (some o) python
          = (PyReturn.null none, some o,
             { world := (getter o.parent_object o.current_index python.world).2
               calls := python.calls ++ [(o.parent_object, o.current_index)] })
        ∧ (pyesedb_tables_iternext d
            (pyesedb_tables_iternext d (some o) python).2.1
            (pyesedb_tables_iternext d (some o) python).2.2).2.2.calls
          = python.calls ++ [(o.parent_object, o.current_index)]
              ++ [(o.parent_object, o.current_index)])
    ∧ (o.number_of_items ≤ (INT_MAX d : Nat) →
        ∃ after : pyesedb_columns Parent Item World,
          (pyesedb_tables_iternext d (some o) python).2.1 = some after
          ∧ (∀ item, (pyesedb_tables_iternext d (some o) python).1 = PyReturn.object item →
              after.current_index = o.current_index + 1
              ∧ after.number_of_items = o.number_of_items
              ∧ after.parent_object = o.parent_object
              ∧ after.get_item_by_index = o.get_item_by_index)
          ∧ (∀ raised, (pyesedb_tables_iternext d (some o) python).1 = PyReturn.null raised →
              after = o))) := by
  have hcolumns : (∀ (getter : Option Parent → Int → World → Option Item × World),
        o.get_item_by_index = some getter →
        0 ≤ o.current_index → o.current_index < o.number_of_items →
        (getter o.parent_object o.current_index python.world).1 = none →
        pyesedb_columns_iternext d (some o) python
          = (PyReturn.null none, some o,
             { world := (getter o.parent_object o.current_index python.world).2
               calls := python.calls ++ [(o.parent_object, o.current_index)] })
        ∧ (pyesedb_columns_iternext d
            (pyesedb_columns_iternext d (some o) python).2.1
            (pyesedb_columns_iternext d (some o) python).2.2).2.2.calls
          = python.calls ++ [(o.parent_object, o.current_index)]
              ++ [(o.parent_object, o.current_index)])
    ∧ (o.number_of_items ≤ (INT_MAX d : Nat) →
        ∃ after : pyesedb_columns Parent Item World,
          (pyesedb_columns_iternext d (some o) python).2.1 = some after
          ∧ (∀ item, (pyesedb_columns_iternext d (some o) python).1 = PyReturn.object item →
              after.current_index = o.current_index + 1
              ∧ after.number_of_items = o.number_of_items
              ∧ after.parent_object = o.parent_object
              ∧ after.get_item_by_index = o.get_item_by_index)
          ∧ (∀ raised, (pyesedb_columns_iternext d (some o) python).1 = PyReturn.null raised →
              after = o)) := by
    constructor
    · intro getter hg h0 h1 hitem
      have hcall := pyesedb_columns_iternext_null d o python getter hg h0 h1 hitem
      refine ⟨hcall, ?_⟩
      rw [hcall]
      simp only [pyesedb_columns_iternext, hg]
      have hn : ¬ o.number_of_items < 0 := by omega
      have hc : ¬ o.current_index < 0 := by omega
      have hs : ¬ o.current_index ≥ o.number_of_items := by omega
      simp only [hn, hc, hs, if_false]
      split <;> rfl
    · intro hint
      rcases pyesedb_columns_iternext_after d o python with ⟨h, raised, hr⟩ | ⟨h0, h1, h, item, hr⟩
      · refine ⟨o, h, ?_, fun _ _ => rfl⟩
        intro item hitem
        rw [hr] at hitem
        cases hitem
      · have hcast : int_cast d (o.current_index + 1) = o.current_index + 1 :=
          int_cast_of_range d _ (by omega) (by omega)
        refine ⟨_, h, fun _ _ => ⟨hcast, rfl, rfl, rfl⟩, ?_⟩
        intro raised hnull
        rw [hr] at hnull
        cases hnull
  exact ⟨hcolumns, hcolumns⟩

theorem iternext_yields_items_in_order_witness :
    ((3 : Nat) : Int) ≤ (INT_MAX definitions : Nat)
    ∧ (∀ (a : Option Unit) (i : Int) (w : Nat),
        ((fun (_ : Option Unit) (i : Int) (w : Nat) => (some (10 + i), w + 1)) a i w).1 ≠ none)
    ∧ ∃ columns_object : pyesedb_columns Unit Int Nat,
        pyesedb_columns_new (some ())
            (some fun (_ : Option Unit) (i : Int) (w : Nat) => (some (10 + i), w + 1))
            ((3 : Nat) : Int)
            (some { parent_object := none, get_item_by_index := none, current_index := 7,
                    number_of_items := -1 })
          = PyReturn.object columns_object
        ∧ pyesedb_columns_iternext_calls definitions 3 (some columns_object)
              { world := 0, calls := [] }
            = ([PyReturn.object 10, PyReturn.object 11, PyReturn.object 12],
               some { columns_object with current_index := ((3 : Nat) : Int) },
               { world := 3, calls := [(some (), 0), (some (), 1), (some (), 2)] })
        ∧ pyesedb_columns_iternext_calls definitions 2
              (some { columns_object with current_index := ((3 : Nat) : Int) })
              { world := 3, calls := [(some (), 0), (some (), 1), (some (), 2)] }
            = ([PyReturn.null (some PyExc.StopIteration),
                PyReturn.null (some PyExc.StopIteration)],
               some { columns_object with current_index := ((3 : Nat) : Int) },
               { world := 3, calls := [(some (), 0), (some (), 1), (some (), 2)] }) := by
  have h := (iternext_yields_items_in_order definitions ()
    (fun (_ : Option Unit) (i : Int) (w : Nat) => (some (10 + i), w + 1)) 3
    { parent_object := none, get_item_by_index := none, current_index := 7,
      number_of_items := -1 }
    { world := 0, calls := [] } (by decide) (fun _ _ _ => by simp)).1
  obtain ⟨o, hnew, _, hcalls, hstop⟩ := h
  refine ⟨by decide, fun _ _ _ => by simp, o, hnew, ?_, ?_⟩
  · rw [hcalls 3 (Nat.le_refl 3)]
    rfl
  · rw [hstop 2]
    rfl

end Libesedb
